import Mathlib

/-!
# ATSC scanner (`util/scan/scan.c`): shallow embedding and verified properties

The C code is embedded as pure Lean functions.  C `int` values are `Int`,
unsigned bytes and bit-fields are `Nat`, pointers into a section buffer are
offsets into a `List Nat` of bytes, and the C lists (`struct list_head`) are
Lean lists kept in list order.  Loops carry an explicit fuel argument and
report `none` / `out_of_fuel` when it runs out, so every result stated below
is a result the loop really reaches.
-/

namespace Scan

/-! ## Channel plan (`atsc_chan_to_mhz`, `atsc_mhz_to_chan`) -/

/-- `atsc_chan_to_mhz` (scan.c 2112-2128). -/
def atsc_chan_to_mhz (chan : Int) : Int :=
  if chan ≥ 2 ∧ chan ≤ 4 then 57 + (chan - 2) * 6
  else if chan ≥ 5 ∧ chan ≤ 6 then 79 + (chan - 5) * 6
  else if chan ≥ 7 ∧ chan ≤ 13 then 177 + (chan - 7) * 6
  else if chan ≥ 14 ∧ chan ≤ 51 then 473 + (chan - 14) * 6
  else -1

/-- `atsc_mhz_to_chan` (scan.c 2130-2148); C `/` truncates, which is `Int.tdiv`. -/
def atsc_mhz_to_chan (freq_mhz : Int) : Int :=
  let freq := freq_mhz
  if freq ≥ 57 ∧ freq ≤ 69 then 2 + Int.tdiv (freq - 57) 6
  else if freq ≥ 79 ∧ freq ≤ 85 then 5 + Int.tdiv (freq - 79) 6
  else if freq ≥ 177 ∧ freq ≤ 213 then 7 + Int.tdiv (freq - 177) 6
  else if freq ≥ 473 ∧ freq ≤ 695 then 14 + Int.tdiv (freq - 473) 6
  else -1

/-- The channel-plan table as the specification words it: one affine piece per
channel range, and -1 outside 2..51. -/
def channel_plan_table (n : Int) : Int :=
  if 2 ≤ n ∧ n ≤ 4 then 57 + (n - 2) * 6
  else if 5 ≤ n ∧ n ≤ 6 then 79 + (n - 5) * 6
  else if 7 ≤ n ∧ n ≤ 13 then 177 + (n - 7) * 6
  else if 14 ≤ n ∧ n ≤ 51 then 473 + (n - 14) * 6
  else -1

/-! ## BCD fields (`bcd32_to_cpu`) -/

/-- `bcd32_to_cpu` (scan.c 414-420).  The callers pass bytes of the section
buffer, so the arguments are naturals; every nibble is masked as in the C. -/
def bcd32_to_cpu (b0 b1 b2 b3 : Nat) : Nat :=
  ((b0 >>> 4) &&& 0x0f) * 10000000 + (b0 &&& 0x0f) * 1000000 +
  ((b1 >>> 4) &&& 0x0f) * 100000 + (b1 &&& 0x0f) * 10000 +
  ((b2 >>> 4) &&& 0x0f) * 1000 + (b2 &&& 0x0f) * 100 +
  ((b3 >>> 4) &&& 0x0f) * 10 + (b3 &&& 0x0f)

/-- One BCD byte: the decimal digit `hi` in the high nibble, `lo` in the low. -/
def bcd_byte (hi lo : Nat) : Nat := (hi <<< 4) ||| lo

/-- The 8-digit BCD encoding of `n`, as four bytes, most significant first
(the encoder the round-trip property of the specification speaks of; the
scanner itself only decodes). -/
def cpu_to_bcd32 (n : Nat) : Nat × Nat × Nat × Nat :=
  (bcd_byte (n / 10000000 % 10) (n / 1000000 % 10),
   bcd_byte (n / 100000 % 10) (n / 10000 % 10),
   bcd_byte (n / 1000 % 10) (n / 100 % 10),
   bcd_byte (n / 10 % 10) (n % 10))

/-- A byte both of whose nibbles are decimal digits. -/
def bcd_digits_ok (b : Nat) : Prop := b < 256 ∧ b / 16 < 10 ∧ b % 16 < 10

instance (b : Nat) : Decidable (bcd_digits_ok b) := by
  unfold bcd_digits_ok; infer_instance

/-! ## Section filters and the filter pool (scan.c 1741-1886) -/

/-- `struct section_buf` (scan.c 156-175).  The list node is the membership of
the filter's address in the pool's lists, the receive buffer is passed to the
parsers as an argument, and `next_seg` is the address of the next segment. -/
structure section_buf where
  run_once : Bool
  segmented : Bool
  fd : Int
  pid : Int
  table_id : Int
  table_id_ext : Int
  section_version_number : Int
  section_done : List Nat
  sectionfilter_done : Int
  timeout : Int
  start_time : Int
  running_time : Int
  next_seg : Option Nat
deriving DecidableEq, Repr

/-- `setup_filter` (scan.c 1749-1772): the buffer is zeroed, then filled in. -/
def setup_filter (long_timeout : Bool) (pid tid tid_ext : Int) (run_once segmented : Bool)
    (timeout : Int) : section_buf :=
  { run_once := run_once
    segmented := segmented
    fd := -1
    pid := pid
    table_id := tid
    table_id_ext := tid_ext
    section_version_number := -1
    section_done := List.replicate 32 0
    sectionfilter_done := 0
    timeout := if long_timeout then 5 * timeout else timeout
    start_time := 0
    running_time := 0
    next_seg := none }

/-- `MAX_RUNNING` (scan.c 1744). -/
def MAX_RUNNING : Nat := 27

/-- The calls of `fatal` in the filter pool, and the exhaustion of the fuel of
a modelled loop (which is no behaviour of the C code). -/
inductive scan_fatal where
  | too_many_poll_fds
  | fd_minus_one_on_running_filters
  | n_running_is_hosed
  | poll_section_bufs_is_NULL
  | out_of_fuel
deriving DecidableEq, Repr

/-- The globals of the filter pool (scan.c 1741-1746) and the filters they
point to: `bufs` maps the address of a filter to its contents, the two lists
hold addresses in list order, `poll_fds` keeps the `fd` member of each slot. -/
structure filter_pool where
  bufs : Nat → section_buf
  running_filters : List Nat
  waiting_filters : List Nat
  n_running : Int
  poll_fds : List Int
  poll_section_bufs : List (Option Nat)

/-- The pool at program start: static storage is zero-initialised. -/
def pool_empty (bufs : Nat → section_buf) : filter_pool :=
  { bufs := bufs
    running_filters := []
    waiting_filters := []
    n_running := 0
    poll_fds := List.replicate MAX_RUNNING 0
    poll_section_bufs := List.replicate MAX_RUNNING none }

/-- The `list_for_each` loop of `update_poll_fds` (scan.c 1784-1796), from
slot `i` on. -/
def fill_poll_fds (bufs : Nat → section_buf) :
    List Nat → Nat → List Int → List (Option Nat) →
      Except scan_fatal (Nat × List Int × List (Option Nat))
  | [], i, fds, sbs => .ok (i, fds, sbs)
  | s :: rest, i, fds, sbs =>
    if i ≥ MAX_RUNNING then .error .too_many_poll_fds
    else if (bufs s).fd = -1 then .error .fd_minus_one_on_running_filters
    else fill_poll_fds bufs rest (i + 1) (fds.set i (bufs s).fd) (sbs.set i (some s))

/-- `update_poll_fds` (scan.c 1774-1799). -/
def update_poll_fds (p : filter_pool) : Except scan_fatal filter_pool :=
  match fill_poll_fds p.bufs p.running_filters 0 (List.replicate MAX_RUNNING (-1))
      (List.replicate MAX_RUNNING none) with
  | .error e => .error e
  | .ok (i, fds, sbs) =>
    if (i : Int) ≠ p.n_running then .error .n_running_is_hosed
    else .ok { p with poll_fds := fds, poll_section_bufs := sbs }

/-- What the demux device and the clock answer during one `start_filter`:
the return value of `open`, of `ioctl(DMX_SET_FILTER)`, and of `time`. -/
structure demux_reply where
  open_fd : Int
  set_filter : Int
  now : Int
deriving DecidableEq, Repr

/-- `s->fd = open(...)` in `start_filter` (scan.c 1807). -/
def start_filter_open (p : filter_pool) (s : Nat) (rep : demux_reply) : filter_pool :=
  { p with bufs := Function.update p.bufs s { p.bufs s with fd := rep.open_fd } }

/-- The success path of `start_filter` up to `n_running++` (scan.c 1835-1841):
`list_del_init` unlinks the filter from the list it is on, `list_add` puts it
at the head of the running list. -/
def start_filter_link (p : filter_pool) (s : Nat) (rep : demux_reply) : filter_pool :=
  { p with
    bufs := Function.update p.bufs s
      { p.bufs s with sectionfilter_done := 0, start_time := rep.now }
    running_filters := s :: p.running_filters.erase s
    waiting_filters := p.waiting_filters.erase s
    n_running := p.n_running + 1 }

/-- `start_filter` (scan.c 1801-1851); returns the pool and the C return value. -/
def start_filter (p : filter_pool) (s : Nat) (rep : demux_reply) :
    Except scan_fatal (filter_pool × Int) :=
  if p.n_running ≥ MAX_RUNNING then .ok (p, -1)
  else if rep.open_fd < 0 then .ok (start_filter_open p s rep, -1)
  else if rep.set_filter = -1 then .ok (start_filter_open p s rep, -1)
  else
    match update_poll_fds (start_filter_link (start_filter_open p s rep) s rep) with
    | .error e => .error e
    | .ok p3 => .ok (p3, 0)

/-- `stop_filter` up to `n_running--` (scan.c 1857-1863); `now` is the value
of `time(NULL)`, and `list_del` unlinks the filter from the list it is on. -/
def stop_filter_unlink (p : filter_pool) (s : Nat) (now : Int) : filter_pool :=
  { p with
    bufs := Function.update p.bufs s
      { p.bufs s with
        fd := -1
        running_time := (p.bufs s).running_time + (now - (p.bufs s).start_time) }
    running_filters := p.running_filters.erase s
    waiting_filters := p.waiting_filters.erase s
    n_running := p.n_running - 1 }

/-- `stop_filter` (scan.c 1854-1865). -/
def stop_filter (p : filter_pool) (s : Nat) (now : Int) : Except scan_fatal filter_pool :=
  update_poll_fds (stop_filter_unlink p s now)

/-- `add_filter` (scan.c 1868-1873). -/
def add_filter (p : filter_pool) (s : Nat) (rep : demux_reply) : Except scan_fatal filter_pool :=
  match start_filter p s rep with
  | .error e => .error e
  | .ok (p1, rc) =>
    if rc ≠ 0 then .ok { p1 with waiting_filters := p1.waiting_filters ++ [s] }
    else .ok p1

/-- The `while (!list_empty(&waiting_filters))` loop of `remove_filter`
(scan.c 1880-1885); `replies k` is what the device answers at the k-th pass. -/
def start_waiting_filters : Nat → filter_pool → (Nat → demux_reply) → Except scan_fatal filter_pool
  | fuel, p, replies =>
    match p.waiting_filters with
    | [] => .ok p
    | w :: _ =>
      match fuel with
      | 0 => .error .out_of_fuel
      | fuel + 1 =>
        match start_filter p w (replies 0) with
        | .error e => .error e
        | .ok (p1, rc) =>
          if rc ≠ 0 then .ok p1
          else start_waiting_filters fuel p1 (fun k => replies (k + 1))

/-- `remove_filter` (scan.c 1876-1886).  Every pass of the loop that does not
leave it takes one filter off the waiting list, so the length of that list is
fuel enough. -/
def remove_filter (p : filter_pool) (s : Nat) (now : Int) (replies : Nat → demux_reply) :
    Except scan_fatal filter_pool :=
  match stop_filter p s now with
  | .error e => .error e
  | .ok p1 => start_waiting_filters p1.waiting_filters.length p1 replies

/-- The check of `read_filters` (scan.c 1898-1901) on the first `n_running`
slots: `fatal` when one of them is NULL. -/
def read_filters_check (p : filter_pool) : Except scan_fatal Unit :=
  if (List.range p.n_running.toNat).all (fun i => (p.poll_section_bufs.getD i none).isSome)
  then .ok () else .error .poll_section_bufs_is_NULL

/-- Number of occupied poll slots (non-NULL entries of `poll_section_bufs`). -/
def occupied_slots (p : filter_pool) : Nat :=
  (p.poll_section_bufs.filter Option.isSome).length

/-- The states the pool reaches from the empty pool.  The calls are those the
program makes: `add_filter` on a filter that is on neither list (fresh from
`setup_filter`), `start_filter` on a filter that is not running, `stop_filter`
and `remove_filter` on a running filter (`read_filters` takes it from a poll
slot); between calls the program may write to filters, but it writes the `fd`
of a running filter only inside these four functions.  The answers of the
demux device and of the clock are arbitrary. -/
inductive pool_reachable : filter_pool → Prop where
  | empty (bufs : Nat → section_buf) : pool_reachable (pool_empty bufs)
  | write (p : filter_pool) (bufs : Nat → section_buf) :
      pool_reachable p →
      (∀ s ∈ p.running_filters, (bufs s).fd = (p.bufs s).fd) →
      pool_reachable { p with bufs := bufs }
  | add (p q : filter_pool) (s : Nat) (rep : demux_reply) :
      pool_reachable p → s ∉ p.running_filters → s ∉ p.waiting_filters →
      add_filter p s rep = .ok q → pool_reachable q
  | start (p q : filter_pool) (s : Nat) (rep : demux_reply) (rc : Int) :
      pool_reachable p → s ∉ p.running_filters →
      start_filter p s rep = .ok (q, rc) → pool_reachable q
  | stop (p q : filter_pool) (s : Nat) (now : Int) :
      pool_reachable p → s ∈ p.running_filters →
      stop_filter p s now = .ok q → pool_reachable q
  | remove (p q : filter_pool) (s : Nat) (now : Int) (replies : Nat → demux_reply) :
      pool_reachable p → s ∈ p.running_filters →
      remove_filter p s now replies = .ok q → pool_reachable q

/-! ## Services and transponders (scan.c 102-153, 305-330) -/

/-- `AUDIO_CHAN_MAX` (scan.c 109). -/
def AUDIO_CHAN_MAX : Nat := 32

/-- `CA_SYSTEM_ID_MAX` (scan.c 110). -/
def CA_SYSTEM_ID_MAX : Nat := 16

/-- `RM_NOT_RUNNING` of `enum running_mode` (scan.c 102-107).  The member
`running` of a service is kept as the number stored in it. -/
def RM_NOT_RUNNING : Nat := 0x01

/-- `RM_RUNNING` of `enum running_mode`. -/
def RM_RUNNING : Nat := 0x04

/-- `struct service` (scan.c 112-134).  Strings are byte lists (`none` is the
NULL pointer), the list node is the position in the transponder's list, and
`priv` tells whether the pointer `priv` is non-NULL. -/
structure service where
  transport_stream_id : Int
  service_id : Int
  provider_name : Option (List Nat)
  service_name : Option (List Nat)
  pmt_pid : Nat
  pcr_pid : Nat
  video_pid : Nat
  audio_pid : List Nat
  audio_lang : List (List Nat)
  audio_num : Int
  ca_id : List Nat
  ca_num : Int
  teletext_pid : Nat
  subtitling_pid : Nat
  ac3_pid : Nat
  type : Nat
  scrambled : Nat
  running : Nat
  priv : Bool
  channel_num : Int
deriving DecidableEq, Repr

/-- A service as `calloc` returns it: every member zero. -/
def service_zero : service :=
  { transport_stream_id := 0
    service_id := 0
    provider_name := none
    service_name := none
    pmt_pid := 0
    pcr_pid := 0
    video_pid := 0
    audio_pid := List.replicate AUDIO_CHAN_MAX 0
    audio_lang := List.replicate AUDIO_CHAN_MAX (List.replicate 4 0)
    audio_num := 0
    ca_id := List.replicate CA_SYSTEM_ID_MAX 0
    ca_num := 0
    teletext_pid := 0
    subtitling_pid := 0
    ac3_pid := 0
    type := 0
    scrambled := 0
    running := 0
    priv := false
    channel_num := 0 }

instance : Inhabited service := ⟨service_zero⟩

/-- `struct transponder` (scan.c 136-153).  `param` is kept by member:
`frequency`, `inversion`, `modulation` for `param.u.vsb.modulation`, and
`u_dvb` for the seven words of `param.u` as the DVB delivery descriptors write
them (QPSK: symbol_rate, fec_inner; QAM: symbol_rate, fec_inner, modulation;
OFDM: bandwidth, code_rate_HP, code_rate_LP, constellation, transmission_mode,
guard_interval, hierarchy_information); no function of scan.c reads a member of
the union through another one.  `other_f` is the array it points to, `[]` for
NULL.  The list node is the membership of the transponder's address in the
scanned or the pending list. -/
structure transponder where
  services : List service
  network_id : Int
  original_network_id : Int
  transport_stream_id : Int
  type : Int
  frequency : Nat
  inversion : Nat
  modulation : Nat
  u_dvb : List Nat
  polarisation : Nat
  orbital_pos : Int
  we_flag : Nat
  scan_done : Nat
  last_tuning_failed : Nat
  other_frequency_flag : Nat
  wrong_frequency : Nat
  n_other_f : Int
  other_f : List Nat
deriving DecidableEq, Repr

/-- A transponder as `calloc` returns it: every member zero, no services. -/
def transponder_zero : transponder :=
  { services := []
    network_id := 0
    original_network_id := 0
    transport_stream_id := 0
    type := 0
    frequency := 0
    inversion := 0
    modulation := 0
    u_dvb := List.replicate 7 0
    polarisation := 0
    orbital_pos := 0
    we_flag := 0
    scan_done := 0
    last_tuning_failed := 0
    other_frequency_flag := 0
    wrong_frequency := 0
    n_other_f := 0
    other_f := [] }

/-- The loop of `find_service` over a service list; a pointer to a service is
its position in the list. -/
def find_service_in : List service → Int → Option Nat
  | [], _ => none
  | s :: rest, service_id =>
    if s.service_id = service_id then some 0
    else (find_service_in rest service_id).map (· + 1)

/-- `find_service` (scan.c 319-330). -/
def find_service (tp : transponder) (service_id : Int) : Option Nat :=
  find_service_in tp.services service_id

/-- `alloc_service` (scan.c 309-317): the new service goes to the tail of the
list; returns the transponder and the position of the new service. -/
def alloc_service (tp : transponder) (service_id : Int) : transponder × Nat :=
  ({ tp with
     services := tp.services ++
       [{ service_zero with
          service_id := service_id
          transport_stream_id := tp.transport_stream_id }] },
   tp.services.length)

/-- The idiom `s = find_service(tp, id); if (!s) s = alloc_service(tp, id);`
of the table parsers (scan.c 1144-1146, 1345-1348, 1483-1485). -/
def find_or_alloc_service (tp : transponder) (service_id : Int) : transponder × Nat :=
  match find_service tp service_id with
  | some i => (tp, i)
  | none => alloc_service tp service_id

/-- The service a pointer (a position) points to. -/
def service_at (tp : transponder) (i : Nat) : service :=
  tp.services.getD i service_zero

/-- All the writes a parser makes through a service pointer: the service at
position `i` becomes `s`. -/
def set_service (tp : transponder) (i : Nat) (s : service) : transponder :=
  { tp with services := tp.services.set i s }

/-- The service `find_service` returns for an id, if any. -/
def lookup_service (tp : transponder) (service_id : Int) : Option service :=
  (find_service tp service_id).map (service_at tp)

/-! ## Section bytes -/

/-- `buf[i]` for an `unsigned char` buffer; a read past the end of the list
gives 0. -/
def byte_at (buf : List Nat) (i : Nat) : Nat := buf.getD i 0 % 256

/-! ## PAT (scan.c 1131-1160) -/

/-- What `parse_pat` leaves behind: the current transponder, and the filters
it handed to `add_filter`, in the order of the calls. -/
structure pat_state where
  tp : transponder
  filters : List section_buf
deriving DecidableEq, Repr

/-- The program number of the PAT entry at offset `off`: `(buf[0] << 8) | buf[1]`. -/
def pat_service_id (buf : List Nat) (off : Nat) : Int :=
  (((byte_at buf off <<< 8) ||| byte_at buf (off + 1) : Nat) : Int)

/-- The PID of the PAT entry at offset `off`: `((buf[2] & 0x1f) << 8) | buf[3]`. -/
def pat_pmt_pid (buf : List Nat) (off : Nat) : Nat :=
  ((byte_at buf (off + 2) &&& 0x1f) <<< 8) ||| byte_at buf (off + 3)

/-- One pass of the loop of `parse_pat` (scan.c 1137-1154), on the entry at
offset `off`. -/
def parse_pat_entry (long_timeout : Bool) (buf : List Nat) (off : Nat) (st : pat_state) :
    pat_state :=
  let service_id := pat_service_id buf off
  if service_id = 0 then st
  else
    let (tp1, i) := find_or_alloc_service st.tp service_id
    let s := { service_at tp1 i with pmt_pid := pat_pmt_pid buf off }
    if !s.priv && s.pmt_pid != 0 then
      { tp := set_service tp1 i { s with priv := true }
        filters := st.filters ++
          [setup_filter long_timeout s.pmt_pid 0x02 s.service_id true false 5] }
    else { st with tp := set_service tp1 i s }

/-- The `while (section_length > 0)` loop of `parse_pat`. -/
def parse_pat_loop (long_timeout : Bool) (buf : List Nat) :
    Nat → Nat → Int → pat_state → Option pat_state
  | fuel, off, section_length, st =>
    if section_length > 0 then
      match fuel with
      | 0 => none
      | fuel + 1 =>
        parse_pat_loop long_timeout buf fuel (off + 4) (section_length - 4)
          (parse_pat_entry long_timeout buf off st)
    else some st

/-- `parse_pat` (scan.c 1131-1160) on the current transponder `tp`.  Every pass
lowers `section_length` by 4, so `section_length` passes are fuel enough. -/
def parse_pat (long_timeout : Bool) (buf : List Nat) (section_length : Int)
    (transport_stream_id : Int) (tp : transponder) : Option pat_state :=
  let _ := transport_stream_id
  parse_pat_loop long_timeout buf section_length.toNat 0 section_length
    { tp := tp, filters := [] }

/-! ## ATSC PSIP: the records of `atsc_psip_section.h` -/

/-- Modelled from the spec: `struct tvct_channel` of `atsc_psip_section.h`, which
is not among the sources.  It has the members the specification lists for a
channel record of the VCT (7 short-name code units, major and minor channel
number, carrier frequency, channel TSID, program_number, ETM_location,
access_controlled, hidden, service_type, source_id, length of the descriptor
loop); each is a bit-field, typed here by its range (minor is 0..1023). -/
structure tvct_channel where
  short_name0 : Fin 65536
  short_name1 : Fin 65536
  short_name2 : Fin 65536
  short_name3 : Fin 65536
  short_name4 : Fin 65536
  short_name5 : Fin 65536
  short_name6 : Fin 65536
  major_channel_number : Fin 1024
  minor_channel_number : Fin 1024
  modulation_mode : Fin 256
  carrier_frequency : Fin 4294967296
  channel_TSID : Fin 65536
  program_number : Fin 65536
  ETM_location : Fin 4
  access_controlled : Fin 2
  hidden : Fin 2
  hide_guide : Fin 2
  service_type : Fin 64
  source_id : Fin 65536
  descriptors_length : Fin 1024
deriving DecidableEq, Repr

/-- Modelled from the spec: `struct ATSC_service_location_descriptor` of
`atsc_psip_section.h` (not among the sources): the PCR PID and the number of
elementary streams of a service-location descriptor. -/
structure ATSC_service_location_descriptor where
  descriptor_tag : Fin 256
  descriptor_length : Fin 256
  PCR_PID : Fin 8192
  number_elements : Fin 256
deriving DecidableEq, Repr

/-- Modelled from the spec: `struct ATSC_service_location_element` of
`atsc_psip_section.h` (not among the sources): stream type, PID and ISO-639
code of one elementary stream of a service-location descriptor. -/
structure ATSC_service_location_element where
  stream_type : Fin 256
  elementary_PID : Fin 8192
  ISO_639_language_code : Fin 16777216
deriving DecidableEq, Repr

/-- The three record readers of `atsc_psip_section.h` that the VCT parser
calls; they are not among the sources, so the parser is embedded over any
readers.  Each gets the section and the offset its pointer argument has. -/
structure psip_readers where
  read_tvct_channel : List Nat → Nat → tvct_channel
  read_ATSC_service_location_descriptor : List Nat → Nat → ATSC_service_location_descriptor
  read_ATSC_service_location_element : List Nat → Nat → ATSC_service_location_element

/-- Modelled from the spec: `ATSC_SERVICE_LOCATION_DESCRIPTOR_ID` of
`atsc_psip_section.h`, the tag 0xA1 of the service-location descriptor. -/
def ATSC_SERVICE_LOCATION_DESCRIPTOR_ID : Nat := 0xa1

/-- Modelled from the spec: `ATSC_EXTENDED_CHANNEL_NAME_DESCRIPTOR_ID` of
`atsc_psip_section.h`, the tag 0xA0 of the extended-channel-name descriptor. -/
def ATSC_EXTENDED_CHANNEL_NAME_DESCRIPTOR_ID : Nat := 0xa0

/-! ## ATSC PSIP descriptors (scan.c 1360-1444) -/

/-- The `for` loop of `parse_atsc_service_loc_desc` (scan.c 1368-1391) over
`n` remaining elements, the element pointer at offset `b`. -/
def service_loc_elements (rd : psip_readers) (buf : List Nat) : Nat → Nat → service → service
  | 0, _, s => s
  | n + 1, b, s =>
    let e := rd.read_ATSC_service_location_element buf b
    let s1 :=
      if e.stream_type.val = 0x02 then { s with video_pid := e.elementary_PID.val }
      else if e.stream_type.val = 0x81 then
        if s.audio_num < AUDIO_CHAN_MAX then
          { s with
            audio_pid := s.audio_pid.set s.audio_num.toNat e.elementary_PID.val
            audio_lang := s.audio_lang.set s.audio_num.toNat
              [(e.ISO_639_language_code.val >>> 16) &&& 0xff,
               (e.ISO_639_language_code.val >>> 8) &&& 0xff,
               e.ISO_639_language_code.val &&& 0xff,
               (s.audio_lang.getD s.audio_num.toNat []).getD 3 0]
            audio_num := s.audio_num + 1 }
        else s
      else s
    service_loc_elements rd buf n (b + 6) s1

/-- `parse_atsc_service_loc_desc` (scan.c 1361-1392), the descriptor at offset
`off`. -/
def parse_atsc_service_loc_desc (rd : psip_readers) (s : service) (buf : List Nat)
    (off : Nat) : service :=
  let d := rd.read_ATSC_service_location_descriptor buf off
  service_loc_elements rd buf d.number_elements.val (off + 5) { s with pcr_pid := d.PCR_PID.val }

/-- The inner `for` loop of `parse_atsc_ext_chan_name_desc` (scan.c 1404-1420)
over `n` remaining segments; returns the service and the pointer `b`. -/
def ext_chan_name_segments (buf : List Nat) : Nat → Nat → service → service × Nat
  | 0, b, s => (s, b)
  | n + 1, b, s =>
    let comp_type := byte_at buf b
    let num_bytes := byte_at buf (b + 2)
    let s1 :=
      if comp_type = 0x00 then
        { s with
          service_name :=
            some ((List.range num_bytes).map (fun k => byte_at buf (b + 3 + k)) ++ [0]) }
      else s
    ext_chan_name_segments buf n (b + 3 + num_bytes) s1

/-- The outer `for` loop of `parse_atsc_ext_chan_name_desc` (scan.c 1401-1421)
over `n` remaining strings. -/
def ext_chan_name_strings (buf : List Nat) : Nat → Nat → service → service
  | 0, _, s => s
  | n + 1, b, s =>
    let num_seg := byte_at buf (b + 3)
    let r := ext_chan_name_segments buf num_seg (b + 4) s
    ext_chan_name_strings buf n r.2 r.1

/-- `parse_atsc_ext_chan_name_desc` (scan.c 1394-1422), the descriptor at
offset `off`. -/
def parse_atsc_ext_chan_name_desc (s : service) (buf : List Nat) (off : Nat) : service :=
  let b := off + 2
  let num_str := byte_at buf b
  ext_chan_name_strings buf num_str (b + 1) s

/-- The `while (len > 0)` loop of `parse_psip_descriptors` (scan.c 1428-1443). -/
def parse_psip_descriptors_loop (rd : psip_readers) (buf : List Nat) :
    Nat → Nat → Int → service → Option service
  | fuel, b, len, s =>
    if len > 0 then
      match fuel with
      | 0 => none
      | fuel + 1 =>
        let desc_len := byte_at buf (b + 1)
        let s1 :=
          if byte_at buf b = ATSC_SERVICE_LOCATION_DESCRIPTOR_ID then
            parse_atsc_service_loc_desc rd s buf b
          else if byte_at buf b = ATSC_EXTENDED_CHANNEL_NAME_DESCRIPTOR_ID then
            parse_atsc_ext_chan_name_desc s buf b
          else s
        parse_psip_descriptors_loop rd buf fuel (b + (2 + desc_len))
          (len - (2 + (desc_len : Int))) s1
    else some s

/-- `parse_psip_descriptors` (scan.c 1424-1444), the loop at offset `off`.
Every pass lowers `len` by at least 2, so `len` passes are fuel enough. -/
def parse_psip_descriptors (rd : psip_readers) (s : service) (buf : List Nat) (off : Nat)
    (len : Int) : Option service :=
  parse_psip_descriptors_loop rd buf len.toNat off len s

/-! ## ATSC VCT (scan.c 1446-1562) and the channel report (scan.c 177-197) -/

/-- `struct virtual_channels` (scan.c 177-183). -/
structure virtual_channels where
  vchan_name : List Nat
  vchan_major_num : Int
  vchan_minor_num : Int
  vchan_video_pid : Int
  vchan_audio_pid : Int
deriving DecidableEq, Repr

/-- `struct channel_info` (scan.c 185-195); `snr_dB` holds the integer that
the C converts to `float`, `vc` has 16 entries. -/
structure channel_info where
  chan_num : Int
  chan_freq : Int
  lock_status : Int
  rssi_dBm : Int
  snr_dB : Int
  ber : Int
  uncorrected_blks : Int
  num_vchans : Int
  vc : List virtual_channels
deriving DecidableEq, Repr

/-- A `struct virtual_channels` as `calloc` returns it. -/
def virtual_channels_zero : virtual_channels :=
  { vchan_name := List.replicate 20 0
    vchan_major_num := 0
    vchan_minor_num := 0
    vchan_video_pid := 0
    vchan_audio_pid := 0 }

/-- A `struct channel_info` as `calloc` returns it. -/
def channel_info_zero : channel_info :=
  { chan_num := 0
    chan_freq := 0
    lock_status := 0
    rssi_dBm := 0
    snr_dB := 0
    ber := 0
    uncorrected_blks := 0
    num_vchans := 0
    vc := List.replicate 16 virtual_channels_zero }

/-- The report as `main` allocates it (scan.c 2393): `calloc(50, ...)`. -/
def pchan_info_zero : List channel_info := List.replicate 50 channel_info_zero

/-- `FE_HAS_LOCK` of `linux/dvb/frontend.h`. -/
def FE_HAS_LOCK : Nat := 0x10

/-- What the frontend answers to the ioctls of `parse_psip_vct` at the first
channel (scan.c 1515-1532): `status` is `none` when `FE_READ_STATUS` fails;
the other members are the values of the locals `signal`, `snr`, `ber` and
`uncorrected_blocks` after their ioctls (with the -2 of a failure stored). -/
structure fe_readings where
  status : Option Nat
  signal : Int
  snr : Nat
  ber : Int
  uncorrected_blocks : Int
deriving DecidableEq, Repr

/-- The globals `parse_psip_vct` reads, and the frontend's answers. -/
structure vct_env where
  save_channel_info : Bool
  rf_chan : Int
  fe : fe_readings
deriving DecidableEq, Repr

/-- The locals of `parse_psip_vct` and what it writes: the current transponder,
the record pointer `b` (an offset into the section), `pseudo_id`, and the
report.  Two members are bookkeeping of the embedding: `out_of_bounds` is set
when a write to the report falls outside `pchan_info[50]`, `vc[16]` or
`vchan_name[20]` (or the `strcpy` into `vchan_name` reads past its source), and
`ingested` lists, in order, the records that reach `find_service`, each with
the program number it is looked up under. -/
structure vct_state where
  tp : transponder
  b : Nat
  pseudo_id : Int
  pchan_info : List channel_info
  out_of_bounds : Bool
  ingested : List (tvct_channel × Int)
deriving DecidableEq, Repr

/-- How one pass of the loop of `parse_psip_vct` ends: at the end of the body
or at `continue` (`next`), or at `return` (`ret`). -/
inductive vct_pass where
  | next (st : vct_state)
  | ret (st : vct_state)
deriving DecidableEq, Repr

/-- The write `pchan_info[idx].member = ...` through function `f`; an index
outside the 50 entries is recorded in `out_of_bounds`. -/
def report_write (st : vct_state) (idx : Int) (f : channel_info → channel_info) : vct_state :=
  { st with
    pchan_info :=
      if 0 ≤ idx ∧ idx < 50 then
        st.pchan_info.set idx.toNat (f (st.pchan_info.getD idx.toNat channel_info_zero))
      else st.pchan_info
    out_of_bounds := if 0 ≤ idx ∧ idx < 50 then st.out_of_bounds else true }

/-- The conversion of the `uint32_t` locals `ber` and `uncorrected_blocks` to
the `int` members of the report at the assignments of scan.c 1538-1539: the
value is taken modulo 2^32, and from 2^31 on it is negative. -/
def uint32_to_int (x : Int) : Int :=
  if x % 4294967296 ≥ 2147483648 then x % 4294967296 - 4294967296 else x % 4294967296

/-- The writes to `pchan_info[idx]` at the first channel (scan.c 1534-1547). -/
def report_header (env : vct_env) (num_channels_in_section : Nat) (status : Nat)
    (st : vct_state) : vct_state :=
  report_write st (env.rf_chan - 2) (fun c =>
    { c with
      chan_num := env.rf_chan
      chan_freq := atsc_chan_to_mhz env.rf_chan
      snr_dB := (env.fe.snr / 10 : Nat)
      rssi_dBm := Int.tdiv env.fe.signal 100
      ber := uint32_to_int env.fe.ber
      uncorrected_blks := uint32_to_int env.fe.uncorrected_blocks
      lock_status := if status &&& FE_HAS_LOCK ≠ 0 then 1 else 0
      num_vchans := num_channels_in_section })

/-- `strlen` of the string in a `char` array, as far as the array goes: the
number of bytes before the first NUL. -/
def name_strlen (name : List Nat) : Nat :=
  (name.takeWhile (· ≠ 0)).length

/-- The `strcpy` of the string in the array `name` into `char vchan_name[20]`
(scan.c 178, 1550) stays inside both arrays: the array `name` holds a NUL, and
the string with its NUL has at most 20 bytes. -/
def strcpy_fits (name : List Nat) : Prop :=
  name_strlen name < name.length ∧ name_strlen name < 20

instance (name : List Nat) : Decidable (strcpy_fits name) := by
  unfold strcpy_fits; infer_instance

/-- The writes to `pchan_info[idx].vc[i]` (scan.c 1550-1554).  `strcpy` copies
the bytes of `s->service_name` up to and including the first NUL over the
first bytes of `vchan_name`, an array of 20 bytes.  `out_of_bounds` records an
index `i` outside the 16 entries of `vc` (`List.set` leaves the list as it is
there), a copy of more than 20 bytes, and an array `service_name` without a
NUL: `strcpy` then reads past the end of that array, and how far it writes is
not determined by the section (the part of the copy that comes from the array
and falls into `vchan_name` is kept). -/
def report_vc (env : vct_env) (i : Nat) (ch : tvct_channel) (s : service)
    (st : vct_state) : vct_state :=
  let name := s.service_name.getD []
  let st1 := report_write st (env.rf_chan - 2) (fun c =>
    { c with
      vc := c.vc.set i
        { vchan_name :=
            (name.take (name_strlen name + 1) ++
              (c.vc.getD i virtual_channels_zero).vchan_name.drop (name_strlen name + 1)).take 20
          vchan_major_num := ch.major_channel_number.val
          vchan_minor_num := ch.minor_channel_number.val
          vchan_video_pid := s.video_pid
          vchan_audio_pid := s.audio_pid.getD 0 0 } })
  { st1 with
    out_of_bounds := if i < 16 ∧ strcpy_fits name then st1.out_of_bounds else true }

/-- The program number a record is stored under, and `pseudo_id` afterwards
(scan.c 1480-1481): `ch.program_number = --pseudo_id` writes a 16-bit field. -/
def vct_program_number (ch : tvct_channel) (pseudo_id : Int) : Int × Int :=
  if ch.program_number.val = 0 then ((pseudo_id - 1) % 65536, pseudo_id - 1)
  else ((ch.program_number.val : Int), pseudo_id)

/-- The writes of `parse_psip_vct` through the service pointer before the
descriptors (scan.c 1487-1498): the 7 short-name units, each cut to a `char`. -/
def vct_short_name (ch : tvct_channel) (s : service) : service :=
  { s with
    service_name :=
      some [ch.short_name0.val % 256, ch.short_name1.val % 256, ch.short_name2.val % 256,
            ch.short_name3.val % 256, ch.short_name4.val % 256, ch.short_name5.val % 256,
            ch.short_name6.val % 256] }

/-- The writes of `parse_psip_vct` through the service pointer after the
descriptors (scan.c 1502-1510). -/
def vct_channel_num_running (ch : tvct_channel) (s : service) : service :=
  { s with
    channel_num :=
      (((ch.major_channel_number.val <<< 10) ||| ch.minor_channel_number.val : Nat) : Int)
    running := if ch.hidden.val ≠ 0 then RM_NOT_RUNNING else RM_RUNNING }

/-- The body of the loop of `parse_psip_vct` after the `switch`
(scan.c 1480-1560), for the record `ch` read at `st.b`. -/
def parse_psip_vct_ingest (rd : psip_readers) (env : vct_env) (buf : List Nat)
    (num_channels_in_section i : Nat) (ch : tvct_channel) (st : vct_state) :
    Option vct_pass :=
  let pn := vct_program_number ch st.pseudo_id
  let (tp1, si) := find_or_alloc_service st.tp pn.1
  match parse_psip_descriptors rd (vct_short_name ch (service_at tp1 si)) buf (st.b + 32)
      ch.descriptors_length.val with
  | none => none
  | some s1 =>
    let s := vct_channel_num_running ch s1
    let st1 : vct_state :=
      { st with
        tp := set_service tp1 si s
        pseudo_id := pn.2
        ingested := st.ingested ++ [(ch, pn.1)] }
    if env.save_channel_info then
      if i = 0 then
        match env.fe.status with
        | none => some (.ret st1)
        | some status =>
          let st2 := report_vc env i ch s (report_header env num_channels_in_section status st1)
          some (.next { st2 with b := st2.b + (32 + ch.descriptors_length.val) })
      else
        let st2 := report_vc env i ch s st1
        some (.next { st2 with b := st2.b + (32 + ch.descriptors_length.val) })
    else some (.next { st1 with b := st1.b + (32 + ch.descriptors_length.val) })

/-- One pass of the loop of `parse_psip_vct` (scan.c 1464-1561): the `switch`
leaves through `break` for service types 0x01, 0x02 and 0x03, and through
`continue` (the record pointer is not advanced) for every other type. -/
def parse_psip_vct_channel (rd : psip_readers) (env : vct_env) (buf : List Nat)
    (num_channels_in_section i : Nat) (st : vct_state) : Option vct_pass :=
  let ch := rd.read_tvct_channel buf st.b
  if ch.service_type.val = 0x01 then
    parse_psip_vct_ingest rd env buf num_channels_in_section i ch st
  else if ch.service_type.val = 0x02 ∨ ch.service_type.val = 0x03 then
    parse_psip_vct_ingest rd env buf num_channels_in_section i ch st
  else some (.next st)

/-- The `for` loop of `parse_psip_vct` over `n` remaining channels, the loop
counter at `i`. -/
def parse_psip_vct_loop (rd : psip_readers) (env : vct_env) (buf : List Nat)
    (num_channels_in_section : Nat) : Nat → Nat → vct_state → Option vct_state
  | 0, _, st => some st
  | n + 1, i, st =>
    match parse_psip_vct_channel rd env buf num_channels_in_section i st with
    | none => none
    | some (.ret st1) => some st1
    | some (.next st1) => parse_psip_vct_loop rd env buf num_channels_in_section n (i + 1) st1

/-- `parse_psip_vct` (scan.c 1446-1562) on the current transponder `tp` and
the report `pchan_info`; `buf` is the section after its 8-byte header. -/
def parse_psip_vct (rd : psip_readers) (env : vct_env) (buf : List Nat)
    (section_length table_id transport_stream_id : Int) (tp : transponder)
    (pchan_info : List channel_info) : Option vct_state :=
  let _ := (section_length, table_id, transport_stream_id)
  let num_channels_in_section := byte_at buf 1
  parse_psip_vct_loop rd env buf num_channels_in_section num_channels_in_section 0
    { tp := tp
      b := 2
      pseudo_id := 0xffff
      pchan_info := pchan_info
      out_of_bounds := false
      ingested := [] }

/-! ## ATSC PSIP: the record readers, from the ATSC layout -/

/-- Modelled from the spec: `getBits` of `section.h` (not among the sources):
the `bitlen` bits from bit `startbit` of the bytes at offset `off`, most
significant bit first. -/
def getBits (buf : List Nat) (off startbit bitlen : Nat) : Nat :=
  (List.range bitlen).foldl
    (fun acc k =>
      2 * acc + (byte_at buf (off + (startbit + k) / 8) >>> (7 - (startbit + k) % 8)) % 2) 0

/-- A number cut to the width of a bit-field. -/
def to_field (n : Nat) (h : 0 < n) (x : Nat) : Fin n := ⟨x % n, Nat.mod_lt x h⟩

/-- Modelled from the spec: `read_tvct_channel` of `atsc_psip_section.h` (not
among the sources): the members of a channel record in the order the
specification lists them, at the bit positions of the ATSC virtual channel
table, in a record of 32 bytes before its descriptor loop. -/
def read_tvct_channel (buf : List Nat) (b : Nat) : tvct_channel :=
  { short_name0 := to_field _ (by decide) (getBits buf b 0 16)
    short_name1 := to_field _ (by decide) (getBits buf b 16 16)
    short_name2 := to_field _ (by decide) (getBits buf b 32 16)
    short_name3 := to_field _ (by decide) (getBits buf b 48 16)
    short_name4 := to_field _ (by decide) (getBits buf b 64 16)
    short_name5 := to_field _ (by decide) (getBits buf b 80 16)
    short_name6 := to_field _ (by decide) (getBits buf b 96 16)
    major_channel_number := to_field _ (by decide) (getBits buf b 116 10)
    minor_channel_number := to_field _ (by decide) (getBits buf b 126 10)
    modulation_mode := to_field _ (by decide) (getBits buf b 136 8)
    carrier_frequency := to_field _ (by decide) (getBits buf b 144 32)
    channel_TSID := to_field _ (by decide) (getBits buf b 176 16)
    program_number := to_field _ (by decide) (getBits buf b 192 16)
    ETM_location := to_field _ (by decide) (getBits buf b 208 2)
    access_controlled := to_field _ (by decide) (getBits buf b 210 1)
    hidden := to_field _ (by decide) (getBits buf b 211 1)
    hide_guide := to_field _ (by decide) (getBits buf b 214 1)
    service_type := to_field _ (by decide) (getBits buf b 218 6)
    source_id := to_field _ (by decide) (getBits buf b 224 16)
    descriptors_length := to_field _ (by decide) (getBits buf b 246 10) }

/-- Modelled from the spec: `read_ATSC_service_location_descriptor` of
`atsc_psip_section.h` (not among the sources): tag, length, 3 reserved bits,
the 13-bit PCR PID, the number of elements. -/
def read_ATSC_service_location_descriptor (buf : List Nat) (b : Nat) :
    ATSC_service_location_descriptor :=
  { descriptor_tag := to_field _ (by decide) (getBits buf b 0 8)
    descriptor_length := to_field _ (by decide) (getBits buf b 8 8)
    PCR_PID := to_field _ (by decide) (getBits buf b 19 13)
    number_elements := to_field _ (by decide) (getBits buf b 32 8) }

/-- Modelled from the spec: `read_ATSC_service_location_element` of
`atsc_psip_section.h` (not among the sources): stream type, 3 reserved bits,
the 13-bit elementary PID, the 24-bit ISO-639 code. -/
def read_ATSC_service_location_element (buf : List Nat) (b : Nat) :
    ATSC_service_location_element :=
  { stream_type := to_field _ (by decide) (getBits buf b 0 8)
    elementary_PID := to_field _ (by decide) (getBits buf b 11 13)
    ISO_639_language_code := to_field _ (by decide) (getBits buf b 24 24) }

/-- The readers of `atsc_psip_section.h`, as modelled above. -/
def atsc_readers : psip_readers :=
  { read_tvct_channel := read_tvct_channel
    read_ATSC_service_location_descriptor := read_ATSC_service_location_descriptor
    read_ATSC_service_location_element := read_ATSC_service_location_element }

/-! ## Filter pool: the invariant -/

/-- The poll slots that `update_poll_fds` builds for a running list. -/
def slots_of (running : List Nat) : List (Option Nat) :=
  running.map some ++ List.replicate (MAX_RUNNING - running.length) none

/-- The inductive invariant of the filter pool. -/
structure pool_inv (p : filter_pool) : Prop where
  nodup_running : p.running_filters.Nodup
  nodup_waiting : p.waiting_filters.Nodup
  disjoint : ∀ s ∈ p.running_filters, s ∉ p.waiting_filters
  count : p.n_running = p.running_filters.length
  bound : p.running_filters.length ≤ MAX_RUNNING
  fds : ∀ s ∈ p.running_filters, (p.bufs s).fd ≠ -1
  slots : p.poll_section_bufs = slots_of p.running_filters

/-! ## Service lists: find, allocate and write in one step -/

/-- The list after `find_service` / `alloc_service` and the writes through the
pointer, on the level of the service list. -/
def upsert_in (l : List service) (service_id tsid : Int) (f : service → service) :
    List service :=
  match find_service_in l service_id with
  | some i => l.set i (f (l.getD i service_zero))
  | none =>
    l ++ [f { service_zero with service_id := service_id, transport_stream_id := tsid }]

/-- The service `find_service` points to, on the level of the service list. -/
def lookup_in (l : List service) (service_id : Int) : Option service :=
  (find_service_in l service_id).map (fun i => l.getD i service_zero)

/-! ## PAT: the loop as a recursion over the entries -/

/-- The writes of `parse_pat` through the service pointer (scan.c 1147-1149):
`pmt_pid` is set, and `priv` becomes non-NULL when a filter is set up. -/
def pat_write (pmt_pid : Nat) (s : service) : service :=
  { s with pmt_pid := pmt_pid, priv := if !s.priv && pmt_pid != 0 then true else s.priv }

/-- The passes of the loop of `parse_pat` over `m` entries from offset `off`. -/
def pat_entries (long_timeout : Bool) (buf : List Nat) : Nat → Nat → pat_state → pat_state
  | 0, _, st => st
  | m + 1, off, st =>
    pat_entries long_timeout buf m (off + 4) (parse_pat_entry long_timeout buf off st)

/-! ## VCT: one pass of the loop -/

/-- The state a pass of the VCT loop ends in. -/
def vct_pass.state : vct_pass → vct_state
  | .next st => st
  | .ret st => st

/-- All the writes of one pass of `parse_psip_vct` through the service pointer
(scan.c 1487-1510): short name, descriptors, channel number, running state. -/
def vct_service_write (rd : psip_readers) (buf : List Nat) (b : Nat) (ch : tvct_channel)
    (s : service) : service :=
  vct_channel_num_running ch
    ((parse_psip_descriptors rd (vct_short_name ch s) buf (b + 32)
      ch.descriptors_length.val).getD s)

/-! ## VCT: the loop invariant -/

/-- The ingested records whose program number is 0, in order. -/
def zero_program (l : List (tvct_channel × Int)) : List (tvct_channel × Int) :=
  l.filter (fun e => decide (e.1.program_number.val = 0))

/-- The channel number `parse_psip_vct` computes for a record. -/
def vct_channel_num (ch : tvct_channel) : Int :=
  (((ch.major_channel_number.val <<< 10) ||| ch.minor_channel_number.val : Nat) : Int)

/-- The running state `parse_psip_vct` computes for a record. -/
def vct_running (ch : tvct_channel) : Nat :=
  if ch.hidden.val ≠ 0 then RM_NOT_RUNNING else RM_RUNNING

/-- The invariant of the loop of `parse_psip_vct`. -/
structure vct_inv (st : vct_state) : Prop where
  pseudo : st.pseudo_id = 0xffff - ((zero_program st.ingested).length : Int)
  keys : ∀ (k : Nat) (e : tvct_channel × Int),
    (zero_program st.ingested)[k]? = some e → e.2 = 0xfffe - (k : Int)
  own_key : ∀ e ∈ st.ingested, e.1.program_number.val ≠ 0 →
    e.2 = (e.1.program_number.val : Int)
  stored : ∀ e ∈ st.ingested, ∃ s, lookup_service st.tp e.2 = some s
  last : ∀ (l1 : List (tvct_channel × Int)) (e : tvct_channel × Int)
    (l2 : List (tvct_channel × Int)), st.ingested = l1 ++ e :: l2 →
    (∀ e1 ∈ l2, e1.2 ≠ e.2) →
    ∃ s, lookup_service st.tp e.2 = some s ∧ s.channel_num = vct_channel_num e.1 ∧
      s.running = vct_running e.1

/-! ## VCT: the state without the report -/

/-- The report is off, or the frontend status could be read: the cases in
which `parse_psip_vct` does not return early (scan.c 1512-1518). -/
def report_ok (env : vct_env) : Prop :=
  env.save_channel_info = false ∨ env.fe.status.isSome = true

/-- The part of the state of `parse_psip_vct` that is not the report. -/
def vct_core (st : vct_state) : transponder × Nat × Int × List (tvct_channel × Int) :=
  (st.tp, st.b, st.pseudo_id, st.ingested)

/-! ## Concrete pools, payloads and sections -/

/-- The filter contents used in the witness of C4: every address holds a PAT
filter as `scan_tp_atsc` sets it up. -/
def witness_bufs : Nat → section_buf :=
  fun _ => setup_filter false 0x00 0x00 (-1) true false 5

/-- The pool after `add_filter` of the filter at address 7 on the empty pool,
the demux device answering with file descriptor 3. -/
def witness_pool : filter_pool :=
  match add_filter (pool_empty witness_bufs) 7 ⟨3, 0, 100⟩ with
  | .ok q => q
  | .error _ => pool_empty witness_bufs

/-- A PAT payload of two entries that carry the same program number 1, the
first with PID 0x10, the second with PID 0x20. -/
def pat_repeated_program : List Nat := [0x00, 0x01, 0xe0, 0x10, 0x00, 0x01, 0xe0, 0x20]

/-- A VCT section body (protocol version, channel count, records) with two
channel records: the first of service_type 0x04 (data) with program_number 3,
the second of service_type 0x02 (digital TV) with program_number 4. -/
def vct_data_then_tv : List Nat :=
  [0x00, 0x02,
   0x00, 0x41, 0x00, 0x42, 0x00, 0x43, 0x00, 0x44, 0x00, 0x45, 0x00, 0x46, 0x00, 0x47, 0xf0, 0x1c,
   0x01, 0x04, 0x00, 0x00, 0x00, 0x00, 0x00, 0x01, 0x00, 0x03, 0x0d, 0xc4, 0x00, 0x01, 0xfc, 0x00,
   0x00, 0x41, 0x00, 0x42, 0x00, 0x43, 0x00, 0x44, 0x00, 0x45, 0x00, 0x46, 0x00, 0x47, 0xf0, 0x1c,
   0x02, 0x04, 0x00, 0x00, 0x00, 0x00, 0x00, 0x01, 0x00, 0x04, 0x0d, 0xc2, 0x00, 0x01, 0xfc, 0x00]

/-- A VCT section body with one channel record, of service_type 0x01 (analog),
major 7, minor 1, program_number 5. -/
def vct_analog : List Nat :=
  [0x00, 0x01,
   0x00, 0x41, 0x00, 0x42, 0x00, 0x43, 0x00, 0x44, 0x00, 0x45, 0x00, 0x46, 0x00, 0x47, 0xf0, 0x1c,
   0x01, 0x04, 0x00, 0x00, 0x00, 0x00, 0x00, 0x01, 0x00, 0x05, 0x0d, 0xc1, 0x00, 0x01, 0xfc, 0x00]

/-- A VCT section body with one channel record, of service_type 0x02, with
program_number 0. -/
def vct_program_zero : List Nat :=
  [0x00, 0x01,
   0x00, 0x41, 0x00, 0x42, 0x00, 0x43, 0x00, 0x44, 0x00, 0x45, 0x00, 0x46, 0x00, 0x47, 0xf0, 0x1c,
   0x01, 0x04, 0x00, 0x00, 0x00, 0x00, 0x00, 0x01, 0x00, 0x00, 0x0d, 0xc2, 0x00, 0x01, 0xfc, 0x00]

/-- A VCT section body with the two channel records (major 7, minor 1,
service_type 0x02, hidden 0, program_number 3) and (major 7, minor 2,
service_type 0x02, hidden 1, program_number 4), both without descriptors. -/
def vct_two_channels : List Nat :=
  [0x00, 0x02,
   0x00, 0x41, 0x00, 0x42, 0x00, 0x43, 0x00, 0x44, 0x00, 0x45, 0x00, 0x46, 0x00, 0x47, 0xf0, 0x1c,
   0x01, 0x04, 0x00, 0x00, 0x00, 0x00, 0x00, 0x01, 0x00, 0x03, 0x0d, 0xc2, 0x00, 0x01, 0xfc, 0x00,
   0x00, 0x41, 0x00, 0x42, 0x00, 0x43, 0x00, 0x44, 0x00, 0x45, 0x00, 0x46, 0x00, 0x47, 0xf0, 0x1c,
   0x02, 0x04, 0x00, 0x00, 0x00, 0x00, 0x00, 0x01, 0x00, 0x04, 0x1d, 0xc2, 0x00, 0x01, 0xfc, 0x00]

/-- The globals and frontend answers used at the concrete sections: the channel
report is on, RF channel 7 is tuned, the frontend reports lock. -/
def vct_env_locked : vct_env :=
  { save_channel_info := true
    rf_chan := 7
    fe := { status := some 0x1f, signal := 0, snr := 0, ber := 0, uncorrected_blocks := 0 } }

/-- The globals of a run without channel report. -/
def vct_env_no_report : vct_env :=
  { save_channel_info := false
    rf_chan := 7
    fe := { status := none, signal := 0, snr := 0, ber := 0, uncorrected_blocks := 0 } }

/-! ## The transponder store (scan.c 199-303, 1919-2110) -/

/-- `FE_ATSC` of `enum fe_type` in `linux/dvb/frontend.h`. -/
def FE_ATSC : Int := 3

/-- `VSB_8` of `enum fe_modulation` in `linux/dvb/frontend.h`. -/
def VSB_8 : Nat := 7

/-- The two transponder lists (scan.c 199-200), the transponders they point
to, and the globals the tuning code writes.  `tps` maps the address of a
transponder to its contents, the lists hold addresses in list order, and
`next_tp` is the address the next `calloc` of a transponder returns (addresses
are handed out in increasing order). -/
structure tp_store where
  tps : Nat → transponder
  scanned_transponders : List Nat
  new_transponders : List Nat
  current_tp : Nat
  next_tp : Nat
  fe_info_type : Int
  rf_chan : Int

/-- The store at program start: both lists empty, `fe_info.type` as
`FE_GET_INFO` reports it. -/
def store_empty (tps : Nat → transponder) (fe_info_type : Int) : tp_store :=
  { tps := tps
    scanned_transponders := []
    new_transponders := []
    current_tp := 0
    next_tp := 0
    fe_info_type := fe_info_type
    rf_chan := 0 }

/-- `alloc_transponder` (scan.c 227-236); `frequency` is a `uint32_t`.
Returns the store and the address of the new transponder. -/
def alloc_transponder (st : tp_store) (frequency : Nat) : tp_store × Nat :=
  ({ st with
     tps := Function.update st.tps st.next_tp { transponder_zero with frequency := frequency }
     new_transponders := st.new_transponders ++ [st.next_tp]
     next_tp := st.next_tp + 1 },
   st.next_tp)

/-- `is_same_transponder` (scan.c 238-250); the arguments are `uint32_t`. -/
def is_same_transponder (f1 f2 : Nat) : Int :=
  if f1 = f2 then 1
  else
    let diff := if f1 > f2 then f1 - f2 else f2 - f1
    if diff < 2000 then 1 else 0

/-- The first loop of `find_transponder` (scan.c 257-263), over the scanned
list. -/
def find_transponder_scanned (current_tp_only : Bool) (tps : Nat → transponder)
    (frequency : Nat) : List Nat → Option Nat
  | [] => none
  | tp :: rest =>
    if current_tp_only then some tp
    else if is_same_transponder (tps tp).frequency frequency ≠ 0 then some tp
    else find_transponder_scanned current_tp_only tps frequency rest

/-- The second loop of `find_transponder` (scan.c 264-268), over the pending
list. -/
def find_transponder_new (tps : Nat → transponder) (frequency : Nat) : List Nat → Option Nat
  | [] => none
  | tp :: rest =>
    if is_same_transponder (tps tp).frequency frequency ≠ 0 then some tp
    else find_transponder_new tps frequency rest

/-- `find_transponder` (scan.c 252-270); `none` is NULL. -/
def find_transponder (current_tp_only : Bool) (st : tp_store) (frequency : Nat) : Option Nat :=
  match find_transponder_scanned current_tp_only st.tps frequency st.scanned_transponders with
  | some tp => some tp
  | none => find_transponder_new st.tps frequency st.new_transponders

/-- `copy_transponder` (scan.c 272-303) on the contents of `*d` and `*s`
(two different transponders at both call sites). -/
def copy_transponder (d s : transponder) : transponder :=
  { d with
    services :=
      if d.transport_stream_id ≠ s.transport_stream_id then
        d.services.map (fun sv => { sv with transport_stream_id := s.transport_stream_id })
      else d.services
    network_id := s.network_id
    original_network_id := s.original_network_id
    transport_stream_id := s.transport_stream_id
    type := s.type
    frequency := s.frequency
    inversion := s.inversion
    modulation := s.modulation
    u_dvb := s.u_dvb
    polarisation := s.polarisation
    orbital_pos := s.orbital_pos
    we_flag := s.we_flag
    scan_done := s.scan_done
    last_tuning_failed := s.last_tuning_failed
    other_frequency_flag := s.other_frequency_flag
    n_other_f := s.n_other_f
    other_f := if s.n_other_f ≠ 0 then s.other_f.take s.n_other_f.toNat else [] }

/-- The write `*t = f(*t)` to the transponder at address `t`. -/
def write_tp (st : tp_store) (t : Nat) (f : transponder → transponder) : tp_store :=
  { st with tps := Function.update st.tps t (f (st.tps t)) }

/-- The NIT reconciliation step of `parse_nit` (scan.c 1310-1316) for the
scratch transponder `tn`. -/
def nit_reconcile (current_tp_only : Bool) (st : tp_store) (tn : transponder) : tp_store :=
  if tn.type = st.fe_info_type then
    match find_transponder current_tp_only st tn.frequency with
    | some t => write_tp st t (fun d => copy_transponder d tn)
    | none =>
      let r := alloc_transponder st tn.frequency
      write_tp r.1 r.2 (fun d => copy_transponder d tn)
  else st

/-- `mem_is_zero (&t->param, sizeof(struct dvb_frontend_parameters))`
(scan.c 1919-1930, 1942). -/
def param_is_zero (t : transponder) : Bool :=
  t.frequency == 0 && t.inversion == 0 && t.modulation == 0 && t.u_dvb.all (· == 0)

/-- What the frontend answers during one `__tune_to_transponder`: the return
value of `ioctl(FE_SET_FRONTEND)` and, for each of the up to 10 polls, the
status `FE_READ_STATUS` stores (`none` when that ioctl fails). -/
structure tune_reply where
  set_frontend : Int
  status : Nat → Option Nat

/-- The polling loop of `__tune_to_transponder` (scan.c 1964-1977) over `n`
remaining polls, the loop counter at `i`; returns `some 0` on lock, `some (-1)`
when `FE_READ_STATUS` fails, `none` when the loop ends without lock. -/
def poll_lock (rep : tune_reply) : Nat → Nat → Option Int
  | 0, _ => none
  | n + 1, i =>
    match rep.status i with
    | none => some (-1)
    | some s => if s &&& FE_HAS_LOCK ≠ 0 then some 0 else poll_lock rep n (i + 1)

/-- `__tune_to_transponder` (scan.c 1935-1984); returns the store and the C
return value. -/
def tune_to_transponder_inner (st : tp_store) (t : Nat) (rep : tune_reply) : tp_store × Int :=
  let st1 := { st with current_tp := t }
  if param_is_zero (st1.tps t) then (st1, -1)
  else if rep.set_frontend = -1 then (st1, -1)
  else
    let st2 :=
      { st1 with rf_chan := atsc_mhz_to_chan (((st1.tps t).frequency / 1000000 : Nat) : Int) }
    match poll_lock rep 10 0 with
    | some 0 => (write_tp st2 t (fun d => { d with last_tuning_failed := 0 }), 0)
    | some rc => (st2, rc)
    | none => (write_tp st2 t (fun d => { d with last_tuning_failed := 1 }), -1)

/-- What the frontend answers during one `tune_to_transponder`: the return
value of `set_delivery_system` (0, or `errno`), and the answers to the two
calls of `__tune_to_transponder`. -/
structure tune_to_reply where
  set_delivery_system : Int
  first : tune_reply
  second : tune_reply

/-- `tune_to_transponder` up to `t->scan_done = 1` (scan.c 2004-2007):
`list_del_init` unlinks the transponder from the list it is on, `list_add_tail`
puts it at the tail of the scanned list. -/
def tune_to_transponder_move (st : tp_store) (t : Nat) : tp_store :=
  write_tp
    { st with
      scanned_transponders := st.scanned_transponders.erase t ++ [t]
      new_transponders := st.new_transponders.erase t }
    t (fun d => { d with scan_done := 1 })

/-- `tune_to_transponder` (scan.c 2000-2027); returns the store and the C
return value. -/
def tune_to_transponder (st : tp_store) (t : Nat) (rep : tune_to_reply) : tp_store × Int :=
  let st1 := tune_to_transponder_move st t
  let st2 :=
    if (st1.tps t).type ≠ st1.fe_info_type ∧ rep.set_delivery_system = 0 then
      { st1 with fe_info_type := (st1.tps t).type }
    else st1
  if (st2.tps t).type ≠ st2.fe_info_type then
    (write_tp st2 t (fun d => { d with last_tuning_failed := 1 }), -1)
  else
    let r := tune_to_transponder_inner st2 t rep.first
    if r.2 = 0 then (r.1, 0)
    else tune_to_transponder_inner r.1 t rep.second

/-- The stub that remembers a failed frequency (scan.c 2052-2058): a zeroed
transponder with the old frequency and `wrong_frequency`, put at the tail of
the scanned list and then overwritten by `copy_transponder(to, t)`. -/
def add_wrong_frequency_stub (st : tp_store) (t : Nat) : tp_store :=
  write_tp
    { st with
      tps := Function.update st.tps st.next_tp
        { transponder_zero with frequency := (st.tps t).frequency, wrong_frequency := 1 }
      scanned_transponders := st.scanned_transponders ++ [st.next_tp]
      next_tp := st.next_tp + 1 }
    st.next_tp (fun d => copy_transponder d (st.tps t))

/-- The labels `retry` and `next` in the loop body of
`tune_to_next_transponder` (scan.c 2039-2063). -/
inductive tune_label where
  | retry
  | next
deriving DecidableEq, Repr

/-- The body of the loop of `tune_to_next_transponder` for the transponder
`t` (scan.c 2039-2063), started at a label; `replies k` is what the frontend
answers at the k-th call of `tune_to_transponder`.  Returns the store and
whether a call of `tune_to_transponder` returned 0. -/
def tune_retry_loop (current_tp_only : Bool) :
    Nat → tune_label → tp_store → Nat → (Nat → tune_to_reply) → Option (tp_store × Bool)
  | 0, _, _, _, _ => none
  | fuel + 1, .retry, st, t, replies =>
    let r := tune_to_transponder st t (replies 0)
    if r.2 = 0 then some (r.1, true)
    else tune_retry_loop current_tp_only fuel .next r.1 t (fun k => replies (k + 1))
  | fuel + 1, .next, st, t, replies =>
    let d := st.tps t
    if d.other_frequency_flag ≠ 0 ∧ d.other_f ≠ [] ∧ d.n_other_f ≠ 0 then
      let freq := d.other_f.getD (d.n_other_f - 1).toNat 0
      let st1 := write_tp st t (fun d => { d with n_other_f := d.n_other_f - 1 })
      if (find_transponder current_tp_only st1 freq).isSome then
        tune_retry_loop current_tp_only fuel .next st1 t replies
      else
        let st2 := add_wrong_frequency_stub st1 t
        let st3 := write_tp st2 t (fun d => { d with frequency := freq })
        tune_retry_loop current_tp_only fuel .retry st3 t replies
    else some (st, false)

/-- The fuel `tune_retry_loop` needs for a transponder: two steps for each
alternate frequency, and two more. -/
def tune_retry_fuel (d : transponder) : Nat := 2 * d.n_other_f.toNat + 2

/-- The `list_for_each_safe` loop of `tune_to_next_transponder` (scan.c
2036-2065) over the transponders of the pending list that are still to be
visited; returns the store and the C return value.  `replies t k` is what the
frontend answers at the k-th call of `tune_to_transponder` for the transponder
at address `t`. -/
def tune_to_next_loop (current_tp_only : Bool) (replies : Nat → Nat → tune_to_reply) :
    List Nat → tp_store → Option (tp_store × Int)
  | [], st => some (st, -1)
  | t :: rest, st =>
    match tune_retry_loop current_tp_only (tune_retry_fuel (st.tps t)) .retry st t
        (replies t) with
    | none => none
    | some (st1, true) => some (st1, 0)
    | some (st1, false) => tune_to_next_loop current_tp_only replies rest st1

/-- `tune_to_next_transponder` (scan.c 2030-2066). -/
def tune_to_next_transponder (current_tp_only : Bool) (replies : Nat → Nat → tune_to_reply)
    (st : tp_store) : Option (tp_store × Int) :=
  tune_to_next_loop current_tp_only replies st.new_transponders st

/-- The `for` loop of `tune_initial` (scan.c 2101-2106) over `n` channels from
channel `chan`: the frequency is computed in `int32_t` and stored as
`uint32_t`. -/
def seed_channels : Nat → Int → tp_store → tp_store
  | 0, _, st => st
  | n + 1, chan, st =>
    let freq_hz := atsc_chan_to_mhz chan * 1000000
    let r := alloc_transponder st (freq_hz % 4294967296).toNat
    seed_channels n (chan + 1)
      (write_tp r.1 r.2 (fun d => { d with type := FE_ATSC, modulation := VSB_8 }))

/-- `tune_initial` (scan.c 2097-2110). -/
def tune_initial (current_tp_only : Bool) (replies : Nat → Nat → tune_to_reply)
    (st : tp_store) : Option (tp_store × Int) :=
  tune_to_next_transponder current_tp_only replies (seed_channels 50 2 st)

/-- A store with the transponder at address 0 (frequency 501,000) on the
scanned list and the transponder at address 1 (frequency 500,000) on the
pending list. -/
def store_two_near : tp_store :=
  { tps := fun a =>
      if a = 0 then { transponder_zero with frequency := 501000 }
      else { transponder_zero with frequency := 500000 }
    scanned_transponders := [0]
    new_transponders := [1]
    current_tp := 0
    next_tp := 2
    fe_info_type := FE_ATSC
    rf_chan := 0 }

/-- The shape of a well-formed store: no transponder is linked twice (a list
node is on one list, once), and every linked transponder was allocated
before. -/
def store_wf (st : tp_store) : Prop :=
  (st.scanned_transponders ++ st.new_transponders).Nodup ∧
  ∀ a ∈ st.scanned_transponders ++ st.new_transponders, a < st.next_tp

/-- Every transponder on the scanned list has `scan_done = 1`, every
transponder on the pending list has `scan_done = 0`. -/
def scan_done_inv (st : tp_store) : Prop :=
  (∀ a ∈ st.scanned_transponders, (st.tps a).scan_done = 1) ∧
  (∀ a ∈ st.new_transponders, (st.tps a).scan_done = 0)

/-- No linked transponder has a negative count of alternate frequencies. -/
def other_f_inv (st : tp_store) : Prop :=
  ∀ a ∈ st.scanned_transponders ++ st.new_transponders, 0 ≤ (st.tps a).n_other_f

/-- The three together. -/
def store_inv (st : tp_store) : Prop :=
  store_wf st ∧ scan_done_inv st ∧ other_f_inv st

/-- No two distinct linked transponders, `wrong_frequency` stubs apart, have
frequencies that `is_same_transponder` treats as the same. -/
def freq_inv (st : tp_store) : Prop :=
  ∀ a ∈ st.scanned_transponders ++ st.new_transponders,
    ∀ b ∈ st.scanned_transponders ++ st.new_transponders,
      a ≠ b → (st.tps a).wrong_frequency = 0 → (st.tps b).wrong_frequency = 0 →
        is_same_transponder (st.tps a).frequency (st.tps b).frequency = 0

/-- Two stores that differ at most in `last_tuning_failed` of their
transponders and in the globals `current_tp`, `fe_info.type` and `rf_chan`. -/
def same_links (st st1 : tp_store) : Prop :=
  st1.scanned_transponders = st.scanned_transponders ∧
  st1.new_transponders = st.new_transponders ∧
  st1.next_tp = st.next_tp ∧
  ∀ a, ∃ ltf, st1.tps a = { st.tps a with last_tuning_failed := ltf }

/-- `FE_QPSK` of `enum fe_type`. -/
def FE_QPSK : Int := 0

/-- `FE_QAM` of `enum fe_type`. -/
def FE_QAM : Int := 1

/-- `FE_OFDM` of `enum fe_type`. -/
def FE_OFDM : Int := 2

/-- The frequency `tune_initial` stores for a channel (scan.c 2102-2103). -/
def seed_frequency (chan : Int) : Nat :=
  ((atsc_chan_to_mhz chan * 1000000) % 4294967296).toNat

/-- A scratch transponder as `parse_nit` hands it to the reconciliation for a
DVB-T entry: zeroed by `memset`, then type `FE_OFDM` and the frequency (of what
a delivery descriptor writes, only these two are read by the reconciliation
test and by `find_transponder`). -/
def nit_scratch (frequency : Nat) : transponder :=
  { transponder_zero with type := FE_OFDM, frequency := frequency }

/-- A frontend that locks at the first poll. -/
def reply_lock : tune_to_reply :=
  { set_delivery_system := 0
    first := { set_frontend := 0, status := fun _ => some 0x1f }
    second := { set_frontend := 0, status := fun _ => some 0x1f } }

/-- A frontend that never locks. -/
def reply_no_lock : tune_to_reply :=
  { set_delivery_system := 0
    first := { set_frontend := 0, status := fun _ => some 0 }
    second := { set_frontend := 0, status := fun _ => some 0 } }

/-- The store of a DVB-T frontend after a NIT announced 506 MHz. -/
def store_nit_one : tp_store :=
  nit_reconcile false (store_empty (fun _ => transponder_zero) FE_OFDM) (nit_scratch 506000000)

/-- The store `store_nit_one` after the transponder was tuned to. -/
def store_nit_one_tuned : tp_store :=
  (tune_to_transponder store_nit_one 0 reply_lock).1

/-- The store of a DVB-T frontend after two NITs announced 506,000,000 Hz and
506,003,000 Hz. -/
def store_nit_two : tp_store :=
  nit_reconcile false store_nit_one (nit_scratch 506003000)

/-! ## Descriptors (scan.c 333-579, 851-1128) -/

/-- `enum table_type` (scan.c 79-84). -/
inductive table_type where
  | PAT
  | PMT
  | SDT
  | NIT
deriving DecidableEq, Repr

/-- The globals a scan never writes after start-up (scan.c 59-77) and what lies
outside scan.c: `descriptor_text src len` is the string `descriptorcpy` stores
for a text of `len > 0` bytes at `src` (the character tables and `iconv`), and
`rd` reads the records of `atsc_psip_section.h`. -/
structure scan_config where
  long_timeout : Bool
  current_tp_only : Bool
  vdr_dump_channum : Bool
  save_channel_info : Bool
  spectral_inversion : Nat
  descriptor_text : List Nat → Nat → List Nat
  rd : psip_readers

/-- `FEC_NONE` of `enum fe_code_rate` in `linux/dvb/frontend.h`. -/
def FEC_NONE : Nat := 0

/-- `FEC_1_2` of `enum fe_code_rate`. -/
def FEC_1_2 : Nat := 1

/-- `FEC_2_3` of `enum fe_code_rate`. -/
def FEC_2_3 : Nat := 2

/-- `FEC_3_4` of `enum fe_code_rate`. -/
def FEC_3_4 : Nat := 3

/-- `FEC_5_6` of `enum fe_code_rate`. -/
def FEC_5_6 : Nat := 5

/-- `FEC_7_8` of `enum fe_code_rate`. -/
def FEC_7_8 : Nat := 7

/-- `FEC_AUTO` of `enum fe_code_rate`. -/
def FEC_AUTO : Nat := 9

/-- `QPSK` of `enum fe_modulation` in `linux/dvb/frontend.h`. -/
def QPSK : Nat := 0

/-- `QAM_16` of `enum fe_modulation`. -/
def QAM_16 : Nat := 1

/-- `QAM_32` of `enum fe_modulation`. -/
def QAM_32 : Nat := 2

/-- `QAM_64` of `enum fe_modulation`. -/
def QAM_64 : Nat := 3

/-- `QAM_128` of `enum fe_modulation`. -/
def QAM_128 : Nat := 4

/-- `QAM_256` of `enum fe_modulation`. -/
def QAM_256 : Nat := 5

/-- `QAM_AUTO` of `enum fe_modulation`. -/
def QAM_AUTO : Nat := 6

/-- `INVERSION_AUTO` of `enum fe_spectral_inversion`. -/
def INVERSION_AUTO : Nat := 2

/-- `BANDWIDTH_8_MHZ` of `enum fe_bandwidth`. -/
def BANDWIDTH_8_MHZ : Nat := 0

/-- `TRANSMISSION_MODE_2K` of `enum fe_transmit_mode`. -/
def TRANSMISSION_MODE_2K : Nat := 0

/-- `TRANSMISSION_MODE_8K` of `enum fe_transmit_mode`. -/
def TRANSMISSION_MODE_8K : Nat := 1

/-- `GUARD_INTERVAL_1_32` of `enum fe_guard_interval`. -/
def GUARD_INTERVAL_1_32 : Nat := 0

/-- `HIERARCHY_NONE` of `enum fe_hierarchy`. -/
def HIERARCHY_NONE : Nat := 0

/-- `fec_tab` (scan.c 423-426). -/
def fec_tab : List Nat :=
  [FEC_AUTO, FEC_1_2, FEC_2_3, FEC_3_4, FEC_5_6, FEC_7_8, FEC_NONE, FEC_NONE]

/-- `qam_tab` (scan.c 429-431). -/
def qam_tab : List Nat := [QAM_AUTO, QAM_16, QAM_32, QAM_64, QAM_128, QAM_256]

/-- `m_tab` of `parse_terrestrial_delivery_system_descriptor` (scan.c 500). -/
def m_tab : List Nat := [QPSK, QAM_16, QAM_64, QAM_AUTO]

/-- `ofec_tab` of `parse_terrestrial_delivery_system_descriptor` (scan.c
501-502): five initialisers, the other three entries are zero. -/
def ofec_tab : List Nat := [FEC_1_2, FEC_2_3, FEC_3_4, FEC_5_6, FEC_7_8, 0, 0, 0]

/-- The 32-bit word `(b[0] << 24) | (b[1] << 16) | (b[2] << 8) | b[3]` at
offset `off`. -/
def be32_at (buf : List Nat) (off : Nat) : Nat :=
  (byte_at buf off <<< 24) ||| (byte_at buf (off + 1) <<< 16) |||
    (byte_at buf (off + 2) <<< 8) ||| byte_at buf (off + 3)

/-- `descriptorcpy` (scan.c 851-985) as far as the pointer goes: the old
string is freed, the new one is NULL when `len` is 0 and else the text
`descriptor_text` makes of the bytes at `src`. -/
def descriptorcpy (cfg : scan_config) (buf : List Nat) (src len : Nat) : Option (List Nat) :=
  if len = 0 then none else some (cfg.descriptor_text (buf.drop src) len)

/-- `parse_ca_identifier_descriptor` (scan.c 333-348): `memcpy` of at most
`sizeof(s->ca_id)` = 32 bytes over the sixteen 16-bit entries, which keep the
low byte first (a little-endian host); the descriptor is at offset `off`. -/
def parse_ca_identifier_descriptor (buf : List Nat) (off : Nat) (s : service) : service :=
  let len0 := byte_at buf (off + 1)
  let len := if len0 > 2 * CA_SYSTEM_ID_MAX then 2 * CA_SYSTEM_ID_MAX else len0
  { s with
    ca_id := (List.range CA_SYSTEM_ID_MAX).map (fun k =>
      let old := s.ca_id.getD k 0
      let lo := if 2 * k < len then byte_at buf (off + 2 + 2 * k) else old % 256
      let hi := if 2 * k + 1 < len then byte_at buf (off + 2 + 2 * k + 1) else old / 256
      lo + 256 * hi) }

/-- `parse_iso639_language_descriptor` (scan.c 351-371): three bytes go to
`audio_lang[audio_num]`; the caller has checked `audio_num < AUDIO_CHAN_MAX`,
and a write outside the array is not modelled. -/
def parse_iso639_language_descriptor (buf : List Nat) (off : Nat) (s : service) : service :=
  let len := byte_at buf (off + 1)
  if len ≥ 4 ∧ 0 ≤ s.audio_num then
    let old := s.audio_lang.getD s.audio_num.toNat (List.replicate 4 0)
    { s with
      audio_lang := s.audio_lang.set s.audio_num.toNat
        [byte_at buf (off + 2), byte_at buf (off + 3), byte_at buf (off + 4), old.getD 3 0] }
  else s

/-- `parse_service_descriptor` (scan.c 987-1014). -/
def parse_service_descriptor (cfg : scan_config) (buf : List Nat) (off : Nat) (s : service) :
    service :=
  let len1 := byte_at buf (off + 3)
  let len2 := byte_at buf (off + 4 + len1)
  { s with
    type := byte_at buf (off + 2)
    provider_name := descriptorcpy cfg buf (off + 4) len1
    service_name := descriptorcpy cfg buf (off + 4 + len1 + 1) len2 }

/-- `parse_cable_delivery_system_descriptor` (scan.c 434-464) on a non-NULL
transponder; the descriptor is at offset `off`.  `param.frequency` and the
symbol rate are `uint32_t`. -/
def parse_cable_delivery_system_descriptor (cfg : scan_config) (buf : List Nat) (off : Nat)
    (t : transponder) : transponder :=
  let b := fun i => byte_at buf (off + i)
  { t with
    type := FE_QAM
    frequency := (bcd32_to_cpu (b 2) (b 3) (b 4) (b 5) % 4294967296 * 100) % 4294967296
    u_dvb :=
      ((t.u_dvb.set 1 (fec_tab.getD (b 12 &&& 0x07) 0)).set 0
        ((10 * bcd32_to_cpu (b 9) (b 10) (b 11) (b 12 &&& 0xf0)) % 4294967296)).set 2
        (if (b 8 &&& 0x0f) > 5 then QAM_AUTO else qam_tab.getD (b 8 &&& 0x0f) 0)
    inversion := cfg.spectral_inversion }

/-- `parse_satellite_delivery_system_descriptor` (scan.c 467-494) on a non-NULL
transponder. -/
def parse_satellite_delivery_system_descriptor (cfg : scan_config) (buf : List Nat)
    (off : Nat) (t : transponder) : transponder :=
  let b := fun i => byte_at buf (off + i)
  { t with
    type := FE_QPSK
    frequency := (10 * bcd32_to_cpu (b 2) (b 3) (b 4) (b 5)) % 4294967296
    u_dvb :=
      (t.u_dvb.set 1 (fec_tab.getD (b 12 &&& 0x07) 0)).set 0
        ((10 * bcd32_to_cpu (b 9) (b 10) (b 11) (b 12 &&& 0xf0)) % 4294967296)
    polarisation := (b 8 >>> 5) &&& 0x03
    inversion := cfg.spectral_inversion
    orbital_pos := (bcd32_to_cpu 0x00 0x00 (b 6) (b 7) : Nat)
    we_flag := b 8 >>> 7 }

/-- `parse_terrestrial_delivery_system_descriptor` (scan.c 497-552) on a
non-NULL transponder; the seven members of `param.u.ofdm` are written in the
order of `struct dvb_ofdm_parameters`. -/
def parse_terrestrial_delivery_system_descriptor (cfg : scan_config) (buf : List Nat)
    (off : Nat) (t : transponder) : transponder :=
  let b := fun i => byte_at buf (off + i)
  { t with
    type := FE_OFDM
    frequency :=
      ((((b 2 <<< 24) ||| (b 3 <<< 16)) ||| ((b 4 <<< 8) ||| b 5)) % 4294967296 * 10) %
        4294967296
    inversion := cfg.spectral_inversion
    u_dvb :=
      [BANDWIDTH_8_MHZ + ((b 6 >>> 5) &&& 0x3),
       if (b 7 &&& 0x7) > 4 then FEC_AUTO else ofec_tab.getD (b 7 &&& 0x7) 0,
       if ((b 8 >>> 5) &&& 0x7) > 4 then FEC_AUTO else ofec_tab.getD ((b 8 >>> 5) &&& 0x7) 0,
       m_tab.getD ((b 7 >>> 6) &&& 0x3) 0,
       if (b 8 &&& 0x2) ≠ 0 then TRANSMISSION_MODE_8K else TRANSMISSION_MODE_2K,
       GUARD_INTERVAL_1_32 + ((b 8 >>> 3) &&& 0x3),
       HIERARCHY_NONE + ((b 7 >>> 3) &&& 0x3)]
    other_frequency_flag := b 8 &&& 0x01 }

/-- `parse_frequency_list_descriptor` (scan.c 554-579) on a non-NULL
transponder; `(buf[1] - 1) / 4` is a division of `int`. -/
def parse_frequency_list_descriptor (buf : List Nat) (off : Nat) (t : transponder) :
    transponder :=
  if t.other_f ≠ [] then t
  else
    let n : Int := Int.tdiv ((byte_at buf (off + 1) : Int) - 1) 4
    if n < 1 ∨ (byte_at buf (off + 2) &&& 0x03) ≠ 3 then t
    else
      { t with
        other_f := (List.range n.toNat).map (fun i =>
          (be32_at buf (off + 3 + 4 * i) * 10) % 4294967296)
        n_other_f := n }

/-- The two inner loops of `parse_terrestrial_uk_channel_number` (scan.c
400-407): every service with the id, on every scanned transponder. -/
def set_channel_num (service_id channel_num : Int) : List Nat → tp_store → tp_store
  | [], st => st
  | t :: rest, st =>
    set_channel_num service_id channel_num rest
      (write_tp st t (fun d =>
        { d with
          services := d.services.map (fun s =>
            if s.service_id = service_id then { s with channel_num := channel_num } else s) }))

/-- The `for` loop of `parse_terrestrial_uk_channel_number` (scan.c 395-409)
over `n` records from offset `off`. -/
def uk_channel_records (buf : List Nat) : Nat → Nat → tp_store → tp_store
  | 0, _, st => st
  | n + 1, off, st =>
    let service_id : Nat := (byte_at buf off <<< 8) ||| (byte_at buf (off + 1) &&& 0xff)
    let channel_num : Nat :=
      ((byte_at buf (off + 2) &&& 0x03) <<< 8) ||| (byte_at buf (off + 3) &&& 0xff)
    uk_channel_records buf n (off + 4)
      (set_channel_num service_id channel_num st.scanned_transponders st)

/-- `parse_terrestrial_uk_channel_number` (scan.c 382-412). -/
def parse_terrestrial_uk_channel_number (buf : List Nat) (off : Nat) (st : tp_store) :
    tp_store :=
  uk_channel_records buf (byte_at buf (off + 1) / 4) (off + 2) st

/-- The `void *data` of `parse_descriptors`: a service (PMT and SDT), the
scratch transponder of `parse_nit`, or NULL.  The callers pass objects that are
not linked into the store while the descriptors are parsed, or that no handler
of their context reaches through the store, so the object is kept by value. -/
inductive desc_data where
  | service (s : service)
  | transponder (t : transponder)
  | null
deriving DecidableEq, Repr

/-- A handler that takes `struct service *`. -/
def desc_on_service (f : service → service) : desc_data → desc_data
  | .service s => .service (f s)
  | d => d

/-- A handler that takes `struct transponder *` and returns at once when it is
NULL. -/
def desc_on_transponder (f : transponder → transponder) : desc_data → desc_data
  | .transponder t => .transponder (f t)
  | d => d

/-- The `switch` of `parse_descriptors` (scan.c 1074-1122) for the descriptor
at offset `off`. -/
def parse_descriptor (cfg : scan_config) (t : table_type) (buf : List Nat) (off : Nat)
    (data : desc_data) (st : tp_store) : desc_data × tp_store :=
  let descriptor_tag := byte_at buf off
  if descriptor_tag = 0x0a then
    if t = .PMT then (desc_on_service (parse_iso639_language_descriptor buf off) data, st)
    else (data, st)
  else if descriptor_tag = 0x40 then (data, st)
  else if descriptor_tag = 0x43 then
    if t = .NIT then
      (desc_on_transponder (parse_satellite_delivery_system_descriptor cfg buf off) data, st)
    else (data, st)
  else if descriptor_tag = 0x44 then
    if t = .NIT then
      (desc_on_transponder (parse_cable_delivery_system_descriptor cfg buf off) data, st)
    else (data, st)
  else if descriptor_tag = 0x48 then
    if t = .SDT then (desc_on_service (parse_service_descriptor cfg buf off) data, st)
    else (data, st)
  else if descriptor_tag = 0x53 then
    if t = .SDT then (desc_on_service (parse_ca_identifier_descriptor buf off) data, st)
    else (data, st)
  else if descriptor_tag = 0x5a then
    if t = .NIT then
      (desc_on_transponder (parse_terrestrial_delivery_system_descriptor cfg buf off) data, st)
    else (data, st)
  else if descriptor_tag = 0x62 then
    if t = .NIT then (desc_on_transponder (parse_frequency_list_descriptor buf off) data, st)
    else (data, st)
  else if descriptor_tag = 0x83 then
    if t = .NIT ∧ cfg.vdr_dump_channum = true then
      (data, parse_terrestrial_uk_channel_number buf off st)
    else (data, st)
  else (data, st)

/-- The loop of `parse_descriptors` (scan.c 1063-1127) from offset `off`;
`descriptor_len` is an `unsigned char`, so `buf[1] + 2` is taken modulo 256. -/
def parse_descriptors_loop (cfg : scan_config) (t : table_type) (buf : List Nat) :
    Nat → Nat → Int → desc_data → tp_store → Option (desc_data × tp_store)
  | fuel, off, descriptors_loop_len, data, st =>
    if descriptors_loop_len > 0 then
      match fuel with
      | 0 => none
      | fuel + 1 =>
        let descriptor_len := (byte_at buf (off + 1) + 2) % 256
        if descriptor_len = 0 then some (data, st)
        else
          let r := parse_descriptor cfg t buf off data st
          parse_descriptors_loop cfg t buf fuel (off + descriptor_len)
            (descriptors_loop_len - descriptor_len) r.1 r.2
    else some (data, st)

/-- `parse_descriptors` (scan.c 1060-1128) on the descriptor loop at offset
`off`.  Every pass lowers `descriptors_loop_len` by at least 1. -/
def parse_descriptors (cfg : scan_config) (t : table_type) (buf : List Nat) (off : Nat)
    (descriptors_loop_len : Int) (data : desc_data) (st : tp_store) :
    Option (desc_data × tp_store) :=
  parse_descriptors_loop cfg t buf descriptors_loop_len.toNat off descriptors_loop_len data st

/-- The loop of `find_descriptor` (scan.c 1037-1056) from offset `off`:
`some (some (p, n))` is the return value 1 with `*desc` at offset `p` and
`*desc_len = n`, `some none` is the return value 0. -/
def find_descriptor_loop (tag : Nat) (buf : List Nat) :
    Nat → Nat → Int → Option (Option (Nat × Nat))
  | fuel, off, descriptors_loop_len =>
    if descriptors_loop_len > 0 then
      match fuel with
      | 0 => none
      | fuel + 1 =>
        let descriptor_tag := byte_at buf off
        let descriptor_len := (byte_at buf (off + 1) + 2) % 256
        if descriptor_len = 0 then some none
        else if tag = descriptor_tag then some (some (off, descriptor_len))
        else
          find_descriptor_loop tag buf fuel (off + descriptor_len)
            (descriptors_loop_len - descriptor_len)
    else some none

/-- `find_descriptor` (scan.c 1033-1058). -/
def find_descriptor (tag : Nat) (buf : List Nat) (off : Nat) (descriptors_loop_len : Int) :
    Option (Option (Nat × Nat)) :=
  find_descriptor_loop tag buf descriptors_loop_len.toNat off descriptors_loop_len

/-! ## PMT, SDT and NIT (scan.c 1163-1358) -/

/-- The service behind the `data` pointer after `parse_descriptors`. -/
def desc_service_or (d : desc_data) (s : service) : service :=
  match d with
  | .service s1 => s1
  | _ => s

/-- The transponder behind the `data` pointer after `parse_descriptors`. -/
def desc_transponder_or (d : desc_data) (t : transponder) : transponder :=
  match d with
  | .transponder t1 => t1
  | _ => t

/-- The `switch` of `parse_pmt` (scan.c 1187-1241) for the stream entry at
offset `off`, on the service `s` the PMT is for.  A write to
`audio_pid[audio_num]` outside the array (`audio_num < 0`) is not modelled. -/
def parse_pmt_stream (cfg : scan_config) (buf : List Nat) (off : Nat) (s : service)
    (st : tp_store) : Option (service × tp_store) :=
  let ES_info_len : Nat := ((byte_at buf (off + 3) &&& 0x0f) <<< 8) ||| byte_at buf (off + 4)
  let elementary_pid : Nat :=
    ((byte_at buf (off + 1) &&& 0x1f) <<< 8) ||| byte_at buf (off + 2)
  let stream_type := byte_at buf off
  if stream_type = 0x01 ∨ stream_type = 0x02 ∨ stream_type = 0x1b then
    some (if s.video_pid = 0 then { s with video_pid := elementary_pid } else s, st)
  else if stream_type = 0x03 ∨ stream_type = 0x81 ∨ stream_type = 0x0f ∨ stream_type = 0x11 ∨
      stream_type = 0x04 then
    if s.audio_num < AUDIO_CHAN_MAX then
      let s1 :=
        if 0 ≤ s.audio_num then
          { s with audio_pid := s.audio_pid.set s.audio_num.toNat elementary_pid }
        else s
      match parse_descriptors cfg .PMT buf (off + 5) ES_info_len (.service s1) st with
      | none => none
      | some (d, st1) =>
        some ({ desc_service_or d s1 with audio_num := (desc_service_or d s1).audio_num + 1 }, st1)
    else some (s, st)
  else if stream_type = 0x06 then
    match find_descriptor 0x56 buf (off + 5) ES_info_len with
    | none => none
    | some (some _) => some ({ s with teletext_pid := elementary_pid }, st)
    | some none =>
      match find_descriptor 0x59 buf (off + 5) ES_info_len with
      | none => none
      | some (some _) => some ({ s with subtitling_pid := elementary_pid }, st)
      | some none =>
        match find_descriptor 0x6a buf (off + 5) ES_info_len with
        | none => none
        | some (some _) => some ({ s with ac3_pid := elementary_pid }, st)
        | some none => some (s, st)
  else some (s, st)

/-- The `while (section_length >= 5)` loop of `parse_pmt` (scan.c 1183-1245)
from offset `off`. -/
def parse_pmt_loop (cfg : scan_config) (buf : List Nat) :
    Nat → Nat → Int → service → tp_store → Option (service × tp_store)
  | fuel, off, section_length, s, st =>
    if section_length ≥ 5 then
      match fuel with
      | 0 => none
      | fuel + 1 =>
        let ES_info_len : Nat :=
          ((byte_at buf (off + 3) &&& 0x0f) <<< 8) ||| byte_at buf (off + 4)
        match parse_pmt_stream cfg buf off s st with
        | none => none
        | some (s1, st1) =>
          parse_pmt_loop cfg buf fuel (off + (ES_info_len + 5))
            (section_length - (ES_info_len + 5)) s1 st1
    else some (s, st)

/-- `parse_pmt` (scan.c 1163-1265); `buf` is the section after its 8-byte
header.  Every pass of the loop lowers `section_length` by at least 5.  The
writes through `s` are made to the service at its position when the loop is
done (nothing in the loop reads the service through the store). -/
def parse_pmt (cfg : scan_config) (buf : List Nat) (section_length service_id : Int)
    (st : tp_store) : Option tp_store :=
  match find_service (st.tps st.current_tp) service_id with
  | none => some st
  | some i =>
    let s0 :=
      { service_at (st.tps st.current_tp) i with
        pcr_pid := ((byte_at buf 0 &&& 0x1f) <<< 8) ||| byte_at buf 1 }
    let program_info_len : Nat := ((byte_at buf 2 &&& 0x0f) <<< 8) ||| byte_at buf 3
    let len := section_length - (program_info_len + 4)
    match parse_pmt_loop cfg buf len.toNat (program_info_len + 4) len s0 st with
    | none => none
    | some (s1, st1) =>
      let s2 := if s1.audio_num > AUDIO_CHAN_MAX then { s1 with audio_num := AUDIO_CHAN_MAX }
        else s1
      some (write_tp st1 st1.current_tp (fun tp => set_service tp i s2))

/-- One pass of the loop of `parse_sdt` after the length check (scan.c
1344-1353), for the entry at offset `off`. -/
def parse_sdt_entry (cfg : scan_config) (buf : List Nat) (off : Nat) (st : tp_store) :
    Option tp_store :=
  let service_id : Nat := (byte_at buf off <<< 8) ||| byte_at buf (off + 1)
  let descriptors_loop_len : Nat :=
    ((byte_at buf (off + 3) &&& 0x0f) <<< 8) ||| byte_at buf (off + 4)
  let r := find_or_alloc_service (st.tps st.current_tp) service_id
  let st1 := write_tp st st.current_tp (fun _ => r.1)
  let s :=
    { service_at r.1 r.2 with
      running := (byte_at buf (off + 3) >>> 5) &&& 0x7
      scrambled := (byte_at buf (off + 3) >>> 4) &&& 1 }
  match parse_descriptors cfg .SDT buf (off + 5) descriptors_loop_len (.service s) st1 with
  | none => none
  | some (d, st2) =>
    some (write_tp st2 st2.current_tp (fun tp => set_service tp r.2 (desc_service_or d s)))

/-- The `while (section_length >= 5)` loop of `parse_sdt` (scan.c 1332-1357)
from offset `off`. -/
def parse_sdt_loop (cfg : scan_config) (buf : List Nat) :
    Nat → Nat → Int → tp_store → Option tp_store
  | fuel, off, section_length, st =>
    if section_length ≥ 5 then
      match fuel with
      | 0 => none
      | fuel + 1 =>
        let descriptors_loop_len : Nat :=
          ((byte_at buf (off + 3) &&& 0x0f) <<< 8) ||| byte_at buf (off + 4)
        if section_length < descriptors_loop_len then some st
        else
          match parse_sdt_entry cfg buf off st with
          | none => none
          | some st1 =>
            parse_sdt_loop cfg buf fuel (off + (descriptors_loop_len + 5))
              (section_length - (descriptors_loop_len + 5)) st1
    else some st

/-- `parse_sdt` (scan.c 1324-1358); `buf` is the section after its 8-byte
header.  Every pass of the loop lowers `section_length` by at least 5. -/
def parse_sdt (cfg : scan_config) (buf : List Nat) (section_length transport_stream_id : Int)
    (st : tp_store) : Option tp_store :=
  let _ := transport_stream_id
  parse_sdt_loop cfg buf section_length.toNat 3 section_length st

/-- The scratch transponder `tn` of `parse_nit` before the descriptors are
parsed (scan.c 1302-1306), for the entry at offset `off`. -/
def nit_tn (buf : List Nat) (off : Nat) (network_id : Int) : transponder :=
  { transponder_zero with
    type := -1
    network_id := network_id
    original_network_id := (((byte_at buf (off + 2) <<< 8) ||| byte_at buf (off + 3) : Nat) : Int)
    transport_stream_id := (((byte_at buf off <<< 8) ||| byte_at buf (off + 1) : Nat) : Int) }

/-- The `while (section_length > 6)` loop of `parse_nit` (scan.c 1285-1320)
from offset `off`. -/
def parse_nit_loop (cfg : scan_config) (buf : List Nat) (network_id : Int) :
    Nat → Nat → Int → tp_store → Option tp_store
  | fuel, off, section_length, st =>
    if section_length > 6 then
      match fuel with
      | 0 => none
      | fuel + 1 =>
        let descriptors_loop_len : Nat :=
          ((byte_at buf (off + 4) &&& 0x0f) <<< 8) ||| byte_at buf (off + 5)
        if section_length < descriptors_loop_len + 4 then some st
        else
          let tn := nit_tn buf off network_id
          match parse_descriptors cfg .NIT buf (off + 6) descriptors_loop_len
              (.transponder tn) st with
          | none => none
          | some (d, st1) =>
            parse_nit_loop cfg buf network_id fuel (off + (descriptors_loop_len + 6))
              (section_length - (descriptors_loop_len + 6))
              (nit_reconcile cfg.current_tp_only st1 (desc_transponder_or d tn))
    else some st

/-- `parse_nit` (scan.c 1268-1321); `buf` is the section after its 8-byte
header.  Every pass of the loop lowers `section_length` by at least 6. -/
def parse_nit (cfg : scan_config) (buf : List Nat) (section_length network_id : Int)
    (st : tp_store) : Option tp_store :=
  let descriptors_loop_len : Nat := ((byte_at buf 0 &&& 0x0f) <<< 8) ||| byte_at buf 1
  if section_length < descriptors_loop_len + 4 then some st
  else
    match parse_descriptors cfg .NIT buf 2 descriptors_loop_len .null st with
    | none => none
    | some (_, st1) =>
      parse_nit_loop cfg buf network_id (section_length - (descriptors_loop_len + 4)).toNat
        (descriptors_loop_len + 4) (section_length - (descriptors_loop_len + 4)) st1

/-! ## Section reassembly (scan.c 1564-1738) -/

/-- `get_bit` (scan.c 1564-1567) on the bytes of a bit field. -/
def get_bit (bitfield : List Nat) (bit : Nat) : Nat :=
  (bitfield.getD (bit / 8) 0 >>> (bit % 8)) &&& 1

/-- `set_bit` (scan.c 1569-1572); the bytes are `uint8_t`. -/
def set_bit (bitfield : List Nat) (bit : Nat) : List Nat :=
  bitfield.set (bit / 8) ((bitfield.getD (bit / 8) 0 ||| (1 <<< (bit % 8))) % 256)

/-- Everything `parse_section` reads and writes: the transponder store, the
channel report, the filters (`pool.bufs`), the address the next `calloc` of a
filter returns (addresses are handed out in increasing order), and the filters
the decoders handed to `add_filter`, in the order of the calls (`add_filter`
touches the new filter and the lists of the pool only; its calls are recorded
here and not carried out).  `out_of_bounds` is the bookkeeping member of
`vct_state`, kept over the sections. -/
structure scan_world where
  store : tp_store
  pchan_info : List channel_info
  out_of_bounds : Bool
  pool : filter_pool
  next_buf : Nat
  submitted : List section_buf

/-- A filter as `calloc` returns it: every member zero. -/
def section_buf_zero : section_buf :=
  { run_once := false
    segmented := false
    fd := 0
    pid := 0
    table_id := 0
    table_id_ext := 0
    section_version_number := 0
    section_done := List.replicate 32 0
    sectionfilter_done := 0
    timeout := 0
    start_time := 0
    running_time := 0
    next_seg := none }

/-- The write `*s = sb` to the filter at address `s`. -/
def set_buf (w : scan_world) (s : Nat) (sb : section_buf) : scan_world :=
  { w with pool := { w.pool with bufs := Function.update w.pool.bufs s sb } }

/-- The loop `while (s->next_seg) { s = s->next_seg; if (s->table_id_ext ==
table_id_ext) break; }` of `parse_section` (scan.c 1605-1609). -/
def seg_walk (bufs : Nat → section_buf) (table_id_ext : Int) : Nat → Nat → Option Nat
  | 0, _ => none
  | fuel + 1, s =>
    match (bufs s).next_seg with
    | none => some s
    | some n =>
      if (bufs n).table_id_ext = table_id_ext then some n
      else seg_walk bufs table_id_ext fuel n

/-- The search for the filter of a segment in `parse_section` (scan.c
1603-1621): returns the world and the filter `s` points to afterwards.  The
chain of a filter has no more members than filters were allocated, so
`next_buf` steps are fuel enough. -/
def seg_route (w : scan_world) (s : Nat) (table_id table_id_ext section_version_number : Int) :
    Option (scan_world × Nat) :=
  if (w.pool.bufs s).segmented = true ∧ (w.pool.bufs s).table_id_ext ≠ -1 ∧
      (w.pool.bufs s).table_id_ext ≠ table_id_ext then
    match seg_walk w.pool.bufs table_id_ext w.next_buf s with
    | none => none
    | some s1 =>
      if (w.pool.bufs s1).table_id_ext ≠ table_id_ext then
        let w1 := set_buf w s1 { w.pool.bufs s1 with next_seg := some w.next_buf }
        let w2 := set_buf w1 w.next_buf
          { section_buf_zero with
            segmented := (w.pool.bufs s1).segmented
            run_once := (w.pool.bufs s1).run_once
            timeout := (w.pool.bufs s1).timeout
            table_id := table_id
            table_id_ext := table_id_ext
            section_version_number := section_version_number }
        some ({ w2 with next_buf := w.next_buf + 1 }, w.next_buf)
      else some (w, s1)
  else some (w, s)

/-- The reset of a filter whose version or `table_id_ext` changed (scan.c
1623-1637). -/
def section_reset (sb : section_buf) (table_id_ext section_version_number : Int) :
    section_buf :=
  if sb.section_version_number ≠ section_version_number ∨ sb.table_id_ext ≠ table_id_ext then
    { sb with
      table_id_ext := table_id_ext
      section_version_number := section_version_number
      sectionfilter_done := 0
      section_done := List.replicate 32 0 }
  else sb

/-- The `switch (table_id)` of `parse_section` (scan.c 1656-1687); `buf` is the
section after its 8-byte header, `fe` what the frontend answers to the ioctls of
`parse_psip_vct`. -/
def section_decode (cfg : scan_config) (fe : fe_readings) (w : scan_world) (table_id : Nat)
    (buf : List Nat) (section_length table_id_ext : Int) : Option scan_world :=
  if table_id = 0x00 then
    (parse_pat cfg.long_timeout buf section_length table_id_ext
        (w.store.tps w.store.current_tp)).map (fun ps =>
      { w with
        store := write_tp w.store w.store.current_tp (fun _ => ps.tp)
        submitted := w.submitted ++ ps.filters })
  else if table_id = 0x02 then
    (parse_pmt cfg buf section_length table_id_ext w.store).map (fun st => { w with store := st })
  else if table_id = 0x41 ∨ table_id = 0x40 then
    (parse_nit cfg buf section_length table_id_ext w.store).map (fun st => { w with store := st })
  else if table_id = 0x42 ∨ table_id = 0x46 then
    (parse_sdt cfg buf section_length table_id_ext w.store).map (fun st => { w with store := st })
  else if table_id = 0xc8 ∨ table_id = 0xc9 then
    (parse_psip_vct cfg.rd
        { save_channel_info := cfg.save_channel_info, rf_chan := w.store.rf_chan, fe := fe }
        buf section_length table_id table_id_ext (w.store.tps w.store.current_tp)
        w.pchan_info).map (fun vs =>
      { w with
        store := write_tp w.store w.store.current_tp (fun _ => vs.tp)
        pchan_info := vs.pchan_info
        out_of_bounds := w.out_of_bounds || vs.out_of_bounds })
  else some w

/-- The loop `for (i = 0; i <= last_section_number; i++) if (get_bit
(s->section_done, i) == 0) break;` of `parse_section` (scan.c 1689-1691), from
`i`; returns the `i` it ends with. -/
def sections_scan (section_done : List Nat) (last_section_number : Nat) : Nat → Nat → Nat
  | 0, i => i
  | fuel + 1, i =>
    if i ≤ last_section_number then
      if get_bit section_done i = 0 then i
      else sections_scan section_done last_section_number fuel (i + 1)
    else i

/-- The body of `if (!get_bit(s->section_done, section_number))` in
`parse_section` (scan.c 1647-1694) for the filter at address `t`. -/
def section_new (cfg : scan_config) (fe : fe_readings) (w : scan_world) (t : Nat)
    (table_id : Nat) (buf : List Nat) (section_length table_id_ext : Int)
    (section_number last_section_number : Nat) : Option scan_world :=
  let w1 := set_buf w t
    { w.pool.bufs t with section_done := set_bit (w.pool.bufs t).section_done section_number }
  match section_decode cfg fe w1 table_id buf section_length table_id_ext with
  | none => none
  | some w2 =>
    if sections_scan (w2.pool.bufs t).section_done last_section_number
        (last_section_number + 1) 0 > last_section_number then
      some (set_buf w2 t { w2.pool.bufs t with sectionfilter_done := 1 })
    else some w2

/-- `parse_section` (scan.c 1580-1706) on the filter at address `s`, whose
receive buffer holds `buf`; returns the world and the C return value. -/
def parse_section (cfg : scan_config) (fe : fe_readings) (w : scan_world) (s : Nat)
    (buf : List Nat) : Option (scan_world × Int) :=
  let table_id := byte_at buf 0
  if (w.pool.bufs s).table_id ≠ table_id then some (w, -1)
  else
    let section_length : Int :=
      ((((byte_at buf 1 &&& 0x0f) <<< 8) ||| byte_at buf 2 : Nat) : Int)
    let table_id_ext : Int := ((((byte_at buf 3) <<< 8) ||| byte_at buf 4 : Nat) : Int)
    let section_version_number : Int := (((byte_at buf 5 >>> 1) &&& 0x1f : Nat) : Int)
    let section_number := byte_at buf 6
    let last_section_number := byte_at buf 7
    match seg_route w s table_id table_id_ext section_version_number with
    | none => none
    | some (w1, t) =>
      let w2 := set_buf w1 t
        (section_reset (w1.pool.bufs t) table_id_ext section_version_number)
      if section_length - (5 + 4) < 0 then some (w2, 0)
      else
        match
          (if get_bit (w2.pool.bufs t).section_done section_number = 0 then
            section_new cfg fe w2 t table_id (buf.drop 8) (section_length - (5 + 4))
              table_id_ext section_number last_section_number
          else some w2) with
        | none => none
        | some w3 =>
          if (w3.pool.bufs t).segmented = true then some (w3, 0)
          else if (w3.pool.bufs t).sectionfilter_done ≠ 0 then some (w3, 1)
          else some (w3, 0)

/-- `read_sections` (scan.c 1709-1738) on the filter at address `s`: `count`
is what `read` returns (after the retry on `EOVERFLOW`), `buf` what the
receive buffer holds afterwards. -/
def read_sections (cfg : scan_config) (fe : fe_readings) (w : scan_world) (s : Nat)
    (count : Int) (buf : List Nat) : Option (scan_world × Int) :=
  if (w.pool.bufs s).sectionfilter_done ≠ 0 ∧ (w.pool.bufs s).segmented = false then
    some (w, 1)
  else if count < 0 then some (w, -1)
  else if count < 4 then some (w, -1)
  else
    let section_length : Int :=
      ((((byte_at buf 1 &&& 0x0f) <<< 8) ||| byte_at buf 2 : Nat) : Int)
    if count ≠ section_length + 3 then some (w, -1)
    else
      match parse_section cfg fe w s buf with
      | none => none
      | some (w1, rc) => some (w1, if rc = 1 then 1 else 0)

/-- The `table_id` of a section, as `parse_section` reads it (scan.c 1591). -/
def sec_table_id (buf : List Nat) : Nat := byte_at buf 0

/-- The `section_length` of a section (scan.c 1596). -/
def sec_length (buf : List Nat) : Int :=
  ((((byte_at buf 1 &&& 0x0f) <<< 8) ||| byte_at buf 2 : Nat) : Int)

/-- The `table_id_ext` of a section (scan.c 1598). -/
def sec_table_id_ext (buf : List Nat) : Int :=
  ((((byte_at buf 3) <<< 8) ||| byte_at buf 4 : Nat) : Int)

/-- The `section_version_number` of a section (scan.c 1599). -/
def sec_version (buf : List Nat) : Int := (((byte_at buf 5 >>> 1) &&& 0x1f : Nat) : Int)

/-- The `section_number` of a section (scan.c 1600). -/
def sec_number (buf : List Nat) : Nat := byte_at buf 6

/-- The `last_section_number` of a section (scan.c 1601). -/
def sec_last (buf : List Nat) : Nat := byte_at buf 7

/-- A filter after `parse_section` recorded a section it had not seen: the bit
of `section_number` is set, and `sectionfilter_done` is set when the scan of the
bits 0..`last_section_number` finds none missing. -/
def section_mark (sb : section_buf) (section_number last_section_number : Nat) : section_buf :=
  { sb with
    section_done := set_bit sb.section_done section_number
    sectionfilter_done :=
      if sections_scan (set_bit sb.section_done section_number) last_section_number
          (last_section_number + 1) 0 > last_section_number then 1
      else sb.sectionfilter_done }

/-- The filter that handled a section of at least 9 bytes, afterwards: reset
when version or `table_id_ext` changed, marked when the section is new. -/
def section_handled (sb : section_buf) (buf : List Nat) : section_buf :=
  let sb1 := section_reset sb (sec_table_id_ext buf) (sec_version buf)
  if get_bit sb1.section_done (sec_number buf) = 0 then
    section_mark sb1 (sec_number buf) (sec_last buf)
  else sb1

/-- The return value at the end of `parse_section` (scan.c 1696-1705) for the
filter that handled the section. -/
def section_rc (sb : section_buf) : Int :=
  if sb.segmented = true then 0 else if sb.sectionfilter_done ≠ 0 then 1 else 0

/-- The sections of a list handed to `parse_section` one after the other, all
for the filter at address `s` (each with what the frontend answers while it is
parsed); returns the world and the return values, in order. -/
def deliver_sections (cfg : scan_config) :
    scan_world → Nat → List (fe_readings × List Nat) → Option (scan_world × List Int)
  | w, _, [] => some (w, [])
  | w, s, x :: rest =>
    match parse_section cfg x.1 w s x.2 with
    | none => none
    | some (w1, rc) =>
      match deliver_sections cfg w1 s rest with
      | none => none
      | some (w2, rcs) => some (w2, rc :: rcs)

/-- The filters after `s` on its `next_seg` chain are those of `l`, in order,
and the chain ends there. -/
def seg_chain (bufs : Nat → section_buf) : Nat → List Nat → Prop
  | s, [] => (bufs s).next_seg = none
  | s, n :: rest => (bufs s).next_seg = some n ∧ seg_chain bufs n rest

/-- A segmented filter `s` with its siblings `l`: the chain is as `seg_chain`
says, its members are different filters, allocated before, and every one of
them is segmented (a sibling takes `segmented` from the filter it is linked
to). -/
def chain_ok (w : scan_world) (s : Nat) (l : List Nat) : Prop :=
  seg_chain w.pool.bufs s l ∧ (s :: l).Nodup ∧ (∀ a ∈ s :: l, a < w.next_buf) ∧
  ∀ a ∈ s :: l, (w.pool.bufs a).segmented = true

/-- The `table_id_ext` has a filter in the chain of `s`: the head takes every
`table_id_ext` (it has -1), or the head or one of the siblings has it. -/
def ext_known (w : scan_world) (s : Nat) (l : List Nat) (table_id_ext : Int) : Prop :=
  (w.pool.bufs s).table_id_ext = -1 ∨ ∃ a ∈ s :: l, (w.pool.bufs a).table_id_ext = table_id_ext

/-! ## Concrete worlds and sections -/

/-- The settings of a scan started without options, with the ATSC record
readers; text is stored as its bytes. -/
def scan_config_default : scan_config :=
  { long_timeout := false
    current_tp_only := false
    vdr_dump_channum := false
    save_channel_info := true
    spectral_inversion := INVERSION_AUTO
    descriptor_text := fun src len => src.take len
    rd := atsc_readers }

/-- A world at the start of the scan of a transponder: the current
transponder (address 0) has no services, the filter at address 0 is the PAT
filter as `scan_tp_atsc` sets it up. -/
def world_pat_filter : scan_world :=
  { store := store_empty (fun _ => transponder_zero) FE_ATSC
    pchan_info := pchan_info_zero
    out_of_bounds := false
    pool := pool_empty witness_bufs
    next_buf := 1
    submitted := [] }

/-- A PAT section with one entry: version, section_number and
last_section_number as given, table_id_ext (transport_stream_id) 1, program
`prog` on PID `0x100 * prog` (for `prog < 32`), and four CRC bytes. -/
def pat_section (version section_number last_section_number prog : Nat) : List Nat :=
  [0x00, 0xb0, 0x0d, 0x00, 0x01, 0xc1 + 2 * version, section_number, last_section_number,
   0x00, prog, 0xe0 + prog, 0x00, 0xde, 0xad, 0xbe, 0xef]

/-- The world `world_pat_filter` when the PAT filter has stored version 3 and
the sections 0 and 1 of it. -/
def world_pat_v3 : scan_world :=
  set_buf world_pat_filter 0
    { witness_bufs 0 with
      table_id_ext := 1
      section_version_number := 3
      section_done := 3 :: List.replicate 31 0 }

/-- What the frontend answers while the concrete sections are parsed. -/
def fe_locked : fe_readings :=
  { status := some 0x1f, signal := 0, snr := 0, ber := 0, uncorrected_blocks := 0 }

/-- A world whose filter at address 0 is a segmented filter for table 0x41 on
PID 0x10 with `table_id_ext` 1, fresh from `setup_filter`; no sibling has been
allocated. -/
def world_segmented : scan_world :=
  { store := store_empty (fun _ => transponder_zero) FE_ATSC
    pchan_info := pchan_info_zero
    out_of_bounds := false
    pool := pool_empty (fun _ => setup_filter false 0x10 0x41 1 true true 15)
    next_buf := 1
    submitted := [] }

/-- A section of table 0x41 with the given `table_id_ext` (below 256), version
0, section 0 of 0, empty descriptor loops and four CRC bytes. -/
def nit_other_section (table_id_ext : Nat) : List Nat :=
  [0x41, 0xf0, 0x0d, 0x00, table_id_ext, 0xc1, 0x00, 0x00,
   0xf0, 0x00, 0xf0, 0x00, 0xde, 0xad, 0xbe, 0xef]

/-- A section of table 0x00 that is shorter than its header says a section is:
`section_length` 5, version 4, `table_id_ext` 1, section 0 of 0, no payload and
no CRC. -/
def pat_section_short : List Nat := [0x00, 0xb0, 0x05, 0x00, 0x01, 0xc9, 0x00, 0x00]

/-- A descriptor loop of 8 bytes: a record with tag 0x05 and length byte 0,
then an ISO-639 language descriptor (tag 0x0a, length 4) for "eng". -/
def desc_empty_then_eng : List Nat := [0x05, 0x00, 0x0a, 0x04, 0x65, 0x6e, 0x67, 0x00]

/-- A descriptor loop of 262 bytes: a record with tag 0x05 and length byte 254
(256 bytes in all), then an ISO-639 language descriptor for "eng". -/
def desc_254_then_eng : List Nat :=
  [0x05, 0xfe] ++ List.replicate 254 0 ++ [0x0a, 0x04, 0x65, 0x6e, 0x67, 0x00]

/-- A descriptor loop of 257 bytes that is one record with tag 0x05 and length
byte 255; its payload is the bytes 0x00, 0x0a, 0x04, "xyz", 0x00, 0x05, 0xf6
and 246 zero bytes. -/
def desc_255_payload : List Nat :=
  [0x05, 0xff, 0x00, 0x0a, 0x04, 0x78, 0x79, 0x7a, 0x00, 0x05, 0xf6] ++ List.replicate 246 0

/-! ## Invariants of the service list -/

/-- Every service of the transponder carries the transponder's
`transport_stream_id`. -/
def tsid_inv (tp : transponder) : Prop :=
  ∀ s ∈ tp.services, s.transport_stream_id = tp.transport_stream_id

/-- The services of the transponder have pairwise distinct `service_id`. -/
def services_unique (tp : transponder) : Prop :=
  (tp.services.map (fun s => s.service_id)).Nodup

/-- The PAT sections of one transponder, decoded one after the other as
`parse_section` hands them to `parse_pat` (scan.c 1640-1643): each entry of
`secs` is the buffer, `section_length` and `transport_stream_id` of one call,
the transponder goes from call to call, and the filters the calls hand to
`add_filter` are collected in the order of the calls. -/
def parse_pat_sections (long_timeout : Bool) :
    List (List Nat × Int × Int) → pat_state → Option pat_state
  | [], ps => some ps
  | x :: rest, ps =>
    match parse_pat long_timeout x.1 x.2.1 x.2.2 ps.tp with
    | none => none
    | some ps1 =>
      parse_pat_sections long_timeout rest
        { tp := ps1.tp, filters := ps.filters ++ ps1.filters }

/-- The PMT filters of a transponder and its services: the services have
distinct ids; the filters have distinct `table_id_ext`, each is a filter as
`setup_filter` makes it for table 0x02 with `run_once`, on a PID other than 0,
and belongs to a service; a service has a filter exactly when its `priv` is
set, and `priv` is set when `pmt_pid` is not 0. -/
def pat_filters_inv (long_timeout : Bool) (ps : pat_state) : Prop :=
  services_unique ps.tp ∧
  (ps.filters.map (fun f => f.table_id_ext)).Nodup ∧
  (∀ f ∈ ps.filters,
    f.pid ≠ 0 ∧ f = setup_filter long_timeout f.pid 0x02 f.table_id_ext true false 5) ∧
  (∀ f ∈ ps.filters, ∃ s ∈ ps.tp.services, s.service_id = f.table_id_ext) ∧
  (∀ s ∈ ps.tp.services, s.priv = true → ∃ f ∈ ps.filters, f.table_id_ext = s.service_id) ∧
  (∀ s ∈ ps.tp.services, (∃ f ∈ ps.filters, f.table_id_ext = s.service_id) → s.priv = true) ∧
  (∀ s ∈ ps.tp.services, s.pmt_pid ≠ 0 → s.priv = true)

/-- The payload of a PAT section with one entry: program 1 on PID `pid`
(13 bits). -/
def pat_payload_one (pid : Nat) : List Nat := [0x00, 0x01, 0xe0 + pid / 256 % 32, pid % 256]

/-- The members of a service that no descriptor handler writes. -/
def service_core (s : service) :
    Int × Int × Nat × Nat × Nat × List Nat × Int × Nat × Nat × Nat × Nat × Nat × Bool × Int :=
  (s.transport_stream_id, s.service_id, s.pmt_pid, s.pcr_pid, s.video_pid, s.audio_pid,
    s.audio_num, s.teletext_pid, s.subtitling_pid, s.ac3_pid, s.scrambled, s.running, s.priv,
    s.channel_num)

/-! ## SDT: the loop as a recursion over the entries -/

/-- The `service_id` of the SDT entry at offset `off`: `(buf[0] << 8) | buf[1]`. -/
def sdt_service_id (buf : List Nat) (off : Nat) : Int :=
  (((byte_at buf off <<< 8) ||| byte_at buf (off + 1) : Nat) : Int)

/-- The `descriptors_loop_len` of the SDT entry at offset `off`. -/
def sdt_descriptors_loop_len (buf : List Nat) (off : Nat) : Nat :=
  ((byte_at buf (off + 3) &&& 0x0f) <<< 8) ||| byte_at buf (off + 4)

/-- The running_status field of the SDT entry at offset `off`:
`(buf[3] >> 5) & 0x7`. -/
def sdt_running (buf : List Nat) (off : Nat) : Nat := (byte_at buf (off + 3) >>> 5) &&& 0x7

/-- The free_CA_mode bit of the SDT entry at offset `off`: `(buf[3] >> 4) & 1`. -/
def sdt_scrambled (buf : List Nat) (off : Nat) : Nat := (byte_at buf (off + 3) >>> 4) &&& 1

/-- The offsets of the entries that the loop of `parse_sdt` (scan.c 1332-1357)
processes, from offset `off` with `section_length` left: the loop ends when
fewer than 5 bytes are left or the entry's descriptor loop is longer than what
is left. -/
def sdt_entry_offsets (buf : List Nat) : Nat → Nat → Int → List Nat
  | 0, _, _ => []
  | fuel + 1, off, section_length =>
    if section_length ≥ 5 ∧ ¬ section_length < sdt_descriptors_loop_len buf off then
      off :: sdt_entry_offsets buf fuel (off + (sdt_descriptors_loop_len buf off + 5))
        (section_length - (sdt_descriptors_loop_len buf off + 5))
    else []

/-- The passes of the loop of `parse_sdt` over the entries at the offsets
`offs`. -/
def sdt_entries (cfg : scan_config) (buf : List Nat) : List Nat → tp_store → Option tp_store
  | [], st => some st
  | off :: rest, st =>
    match parse_sdt_entry cfg buf off st with
    | none => none
    | some st1 => sdt_entries cfg buf rest st1

/-- All the writes of one pass of `parse_sdt` through the service pointer
(scan.c 1350-1353): running state, scrambled flag, descriptors. -/
def sdt_write (cfg : scan_config) (buf : List Nat) (off : Nat) (st : tp_store) (s0 : service) :
    service :=
  let s := { s0 with running := sdt_running buf off, scrambled := sdt_scrambled buf off }
  match parse_descriptors cfg .SDT buf (off + 5) (sdt_descriptors_loop_len buf off)
      (.service s) st with
  | some (d, _) => desc_service_or d s
  | none => s

/-- The stores that the four service decoders reach from a store whose current
transponder has no services, applied in any order to any inputs.  `parse_pat`
and `parse_psip_vct` work on the current transponder, whose new contents
`parse_section` finds in the store afterwards (as in `section_decode`);
`parse_pmt` and `parse_sdt` work on the store. -/
inductive services_reachable (cfg : scan_config) : tp_store → Prop
  | init (st : tp_store) :
      (st.tps st.current_tp).services = [] → services_reachable cfg st
  | pat (st : tp_store) (ps : pat_state) (buf : List Nat) (section_length tsid : Int) :
      services_reachable cfg st →
      parse_pat cfg.long_timeout buf section_length tsid (st.tps st.current_tp) = some ps →
      services_reachable cfg (write_tp st st.current_tp (fun _ => ps.tp))
  | pmt (st st1 : tp_store) (buf : List Nat) (section_length service_id : Int) :
      services_reachable cfg st →
      parse_pmt cfg buf section_length service_id st = some st1 →
      services_reachable cfg st1
  | sdt (st st1 : tp_store) (buf : List Nat) (section_length tsid : Int) :
      services_reachable cfg st →
      parse_sdt cfg buf section_length tsid st = some st1 →
      services_reachable cfg st1
  | vct (st : tp_store) (vs : vct_state) (env : vct_env) (buf : List Nat)
      (section_length table_id tsid : Int) (pchan_info : List channel_info) :
      services_reachable cfg st →
      parse_psip_vct cfg.rd env buf section_length table_id tsid (st.tps st.current_tp)
        pchan_info = some vs →
      services_reachable cfg (write_tp st st.current_tp (fun _ => vs.tp))

/-- A PMT section for program 1: version 0, section 0 of 0, PCR PID 0x200, no
program descriptors, a video stream (stream_type 0x02, PID 0x200, no
descriptors), an audio stream (stream_type 0x03, PID 0x201) with an ISO-639
language descriptor for "eng", and four CRC bytes. -/
def pmt_section_eng : List Nat :=
  [0x02, 0xb0, 0x1d, 0x00, 0x01, 0xc1, 0x00, 0x00,
   0xe2, 0x00, 0xf0, 0x00,
   0x02, 0xe2, 0x00, 0xf0, 0x00,
   0x03, 0xe2, 0x01, 0xf0, 0x06, 0x0a, 0x04, 0x65, 0x6e, 0x67, 0x00,
   0xde, 0xad, 0xbe, 0xef]

/-- A PAT section read by the filter at address `s`, then a PMT section read by
the filter that `parse_pat` handed to `add_filter` last.  That filter sits in
memory of its own (`malloc`, scan.c 1149), here the next free address, as
`setup_filter` left it: what `start_filter` writes to it (`fd`, `start_time`)
is not read by `parse_section`.  Returns the two return values of
`parse_section`, the PMT filter and the world. -/
def pat_then_pmt (cfg : scan_config) (fe : fe_readings) (w : scan_world) (s : Nat)
    (pat pmt : List Nat) : Option (Int × section_buf × Int × scan_world) :=
  match parse_section cfg fe w s pat with
  | none => none
  | some (w1, rc1) =>
    match w1.submitted.getLast? with
    | none => none
    | some f =>
      match parse_section cfg fe (set_buf w1 w1.next_buf f) w1.next_buf pmt with
      | none => none
      | some (w2, rc2) => some (rc1, f, rc2, w2)

/-- The world `world_pat_filter` when the PAT filter has stored version 3 and
`table_id_ext` 1, has received section 0 of a one-section table and is
complete (`sectionfilter_done` 1). -/
def world_pat_complete : scan_world :=
  set_buf world_pat_filter 0
    { witness_bufs 0 with
      table_id_ext := 1
      section_version_number := 3
      section_done := 1 :: List.replicate 31 0
      sectionfilter_done := 1 }

/-- A section of table 0x00 with `section_length` 5 (shorter than a section
header and CRC), version 3, `table_id_ext` 1, section 0 of 0. -/
def pat_section_short_v3 : List Nat := [0x00, 0xb0, 0x05, 0x00, 0x01, 0xc7, 0x00, 0x00]

/-- The table context in which the `switch` of `parse_descriptors` (scan.c
1072-1123) calls a handler for the tag; `none` for a tag the `switch` has no
case for. -/
def descriptor_context (tag : Nat) : Option table_type :=
  if tag = 0x0a then some .PMT
  else if tag = 0x40 ∨ tag = 0x43 ∨ tag = 0x44 then some .NIT
  else if tag = 0x48 ∨ tag = 0x53 then some .SDT
  else if tag = 0x5a ∨ tag = 0x62 ∨ tag = 0x83 then some .NIT
  else none

/-! ## Seeding the filters of a transponder (scan.c 2150-2174) -/

/-- The filters `scan_tp_atsc` sets up and hands to `add_filter` (scan.c
2154-2168), in the order of the calls.  `no_ATSC_PSIP` and `ATSC_type` are the
globals the options `-P` and `-A` set (scan.c 61-62); `ATSC_type` comes from
`strtoul`. -/
def scan_tp_atsc_filters (long_timeout no_ATSC_PSIP : Bool) (ATSC_type : Nat) :
    List section_buf :=
  if no_ATSC_PSIP then [setup_filter long_timeout 0x00 0x00 (-1) true false 5]
  else
    (if ATSC_type &&& 0x1 ≠ 0 then [setup_filter long_timeout 0x1ffb 0xc8 (-1) true false 5]
     else []) ++
    (if ATSC_type &&& 0x2 ≠ 0 then [setup_filter long_timeout 0x1ffb 0xc9 (-1) true false 5]
     else []) ++
    [setup_filter long_timeout 0x00 0x00 (-1) true false 5]

/-! ## PMT: the loop as a recursion over the stream entries -/

/-- The `stream_type` of the PMT stream entry at offset `off`: `buf[0]`. -/
def pmt_stream_type (buf : List Nat) (off : Nat) : Nat := byte_at buf off

/-- The `elementary_pid` of the PMT stream entry at offset `off`:
`((buf[1] & 0x1f) << 8) | buf[2]`. -/
def pmt_elementary_pid (buf : List Nat) (off : Nat) : Nat :=
  ((byte_at buf (off + 1) &&& 0x1f) <<< 8) ||| byte_at buf (off + 2)

/-- The `ES_info_len` of the PMT stream entry at offset `off`:
`((buf[3] & 0x0f) << 8) | buf[4]`. -/
def pmt_ES_info_len (buf : List Nat) (off : Nat) : Nat :=
  ((byte_at buf (off + 3) &&& 0x0f) <<< 8) ||| byte_at buf (off + 4)

/-- The entry is for the video `case`s of the `switch` of `parse_pmt`
(scan.c 1188-1190). -/
def pmt_is_video (buf : List Nat) (off : Nat) : Prop :=
  byte_at buf off = 0x01 ∨ byte_at buf off = 0x02 ∨ byte_at buf off = 0x1b

instance (buf : List Nat) (off : Nat) : Decidable (pmt_is_video buf off) := by
  unfold pmt_is_video; infer_instance

/-- The entry is for the audio `case`s of the `switch` of `parse_pmt`
(scan.c 1195-1199). -/
def pmt_is_audio (buf : List Nat) (off : Nat) : Prop :=
  byte_at buf off = 0x03 ∨ byte_at buf off = 0x81 ∨ byte_at buf off = 0x0f ∨
    byte_at buf off = 0x11 ∨ byte_at buf off = 0x04

instance (buf : List Nat) (off : Nat) : Decidable (pmt_is_audio buf off) := by
  unfold pmt_is_audio; infer_instance

/-- The offsets of the stream entries that the loop of `parse_pmt` (scan.c
1183-1245) processes, from offset `off` with `section_length` left. -/
def pmt_entry_offsets (buf : List Nat) : Nat → Nat → Int → List Nat
  | 0, _, _ => []
  | fuel + 1, off, section_length =>
    if section_length ≥ 5 then
      off :: pmt_entry_offsets buf fuel (off + (pmt_ES_info_len buf off + 5))
        (section_length - (pmt_ES_info_len buf off + 5))
    else []

/-- All the writes of one pass of the loop of `parse_pmt` through the service
pointer, for the entry at offset `off`. -/
def pmt_write (cfg : scan_config) (buf : List Nat) (st : tp_store) (off : Nat) (s : service) :
    service :=
  match parse_pmt_stream cfg buf off s st with
  | some (s1, _) => s1
  | none => s

/-- What the loop of `parse_descriptors` in PMT context leaves in the entry
`audio_lang[audio_num]` that holds `cur` before: every record the loop
dispatches with tag 0x0a and a length byte of at least 4 stores its first
three payload bytes.  The loop is walked as `parse_descriptors` walks it. -/
def iso639_walk (buf : List Nat) : Nat → Nat → Int → List Nat → List Nat
  | fuel, off, descriptors_loop_len, cur =>
    if descriptors_loop_len > 0 then
      match fuel with
      | 0 => cur
      | fuel + 1 =>
        let descriptor_len := (byte_at buf (off + 1) + 2) % 256
        if descriptor_len = 0 then cur
        else
          iso639_walk buf fuel (off + descriptor_len) (descriptors_loop_len - descriptor_len)
            (if byte_at buf off = 0x0a ∧ byte_at buf (off + 1) ≥ 4 then
              [byte_at buf (off + 2), byte_at buf (off + 3), byte_at buf (off + 4),
               cur.getD 3 0]
             else cur)
    else cur

/-- The offset of the last record with tag 0x0a and a length byte of at least 4
that the loop of `parse_descriptors` dispatches, `acc` when there is none. -/
def iso639_last (buf : List Nat) : Nat → Nat → Int → Option Nat → Option Nat
  | fuel, off, descriptors_loop_len, acc =>
    if descriptors_loop_len > 0 then
      match fuel with
      | 0 => acc
      | fuel + 1 =>
        let descriptor_len := (byte_at buf (off + 1) + 2) % 256
        if descriptor_len = 0 then acc
        else
          iso639_last buf fuel (off + descriptor_len) (descriptors_loop_len - descriptor_len)
            (if byte_at buf off = 0x0a ∧ byte_at buf (off + 1) ≥ 4 then some off else acc)
    else acc

/-- The 13-bit PID of the first video entry with a PID other than 0 among the
entries at `offs`, and 0 when there is none. -/
def pmt_first_video (buf : List Nat) (offs : List Nat) : Nat :=
  match offs.find? (fun o => decide (pmt_is_video buf o ∧ pmt_elementary_pid buf o ≠ 0)) with
  | some o => pmt_elementary_pid buf o
  | none => 0

/-- The `program_info_len` of a PMT section: `((buf[2] & 0x0f) << 8) | buf[3]`
(scan.c 1175). -/
def pmt_program_info_len (buf : List Nat) : Nat :=
  ((byte_at buf 2 &&& 0x0f) <<< 8) ||| byte_at buf 3

/-- The offsets of the stream entries that `parse_pmt` processes in a section
with `section_length` bytes after the header. -/
def pmt_offsets (buf : List Nat) (section_length : Int) : List Nat :=
  pmt_entry_offsets buf (section_length - (pmt_program_info_len buf + 4)).toNat
    (pmt_program_info_len buf + 4) (section_length - (pmt_program_info_len buf + 4))

/-- The offsets of the audio entries among the stream entries that `parse_pmt`
processes. -/
def pmt_audio_offsets (buf : List Nat) (section_length : Int) : List Nat :=
  (pmt_offsets buf section_length).filter (fun o => decide (pmt_is_audio buf o))

/-- The language that the pass of `parse_pmt` for the audio entry at offset `o`
leaves in the entry of `audio_lang` that holds `cur` before: the first three
bytes of the last ISO-639 record with a length byte of at least 4 that the loop
of `parse_descriptors` dispatches; the fourth byte is not written. -/
def pmt_entry_lang (buf : List Nat) (o : Nat) (cur : List Nat) : List Nat :=
  match iso639_last buf (pmt_ES_info_len buf o) (o + 5) (pmt_ES_info_len buf o) none with
  | some p => [byte_at buf (p + 2), byte_at buf (p + 3), byte_at buf (p + 4), cur.getD 3 0]
  | none => cur

/-- The records of a descriptor loop as their length bytes chain them: the
record at `off` with length byte L is followed by the record 2 + L bytes
further on, while bytes of the loop are left.  This is the reading of "the
descriptors of a loop" that the loop of `parse_descriptors` is compared
with. -/
def descriptor_offsets_spec (buf : List Nat) : Nat → Nat → Int → List Nat
  | 0, _, _ => []
  | fuel + 1, off, descriptors_loop_len =>
    if descriptors_loop_len > 0 then
      off :: descriptor_offsets_spec buf fuel (off + (2 + byte_at buf (off + 1)))
        (descriptors_loop_len - (2 + byte_at buf (off + 1) : Nat))
    else []

/-- The offset of the last ISO-639 record (tag 0x0a) with a length byte of at
least 4 among the records of a descriptor loop, read as
`descriptor_offsets_spec` reads them. -/
def iso639_last_spec (buf : List Nat) (fuel off : Nat) (descriptors_loop_len : Int) :
    Option Nat :=
  ((descriptor_offsets_spec buf fuel off descriptors_loop_len).filter
    (fun o => decide (byte_at buf o = 0x0a ∧ byte_at buf (o + 1) ≥ 4))).getLast?

/-- A transponder store whose current transponder has the single service 1, as
`parse_pat` leaves it after a PAT that declares program 1. -/
def store_service_one : tp_store :=
  write_tp world_pat_filter.store world_pat_filter.store.current_tp
    (fun tp => (alloc_service tp 1).1)

/-- The bytes of `pmt_section_eng` after the 8-byte section header. -/
def pmt_payload_eng : List Nat := pmt_section_eng.drop 8

/-- A PMT payload with PCR PID 0x200 and one audio stream (stream_type 0x03,
PID 0x201) whose descriptor loop of 262 bytes is `desc_254_then_eng`: a record
with tag 0x05 and length byte 254, then the ISO-639 language descriptor
"eng". -/
def pmt_payload_254 : List Nat :=
  [0xe2, 0x00, 0xf0, 0x00, 0x03, 0xe2, 0x01, 0xf1, 0x06] ++ desc_254_then_eng

/-! ## The filters of a scan (scan.c 1148-1154, 2150-2174) -/

/-- The table ids of the filters that `scan_tp_atsc` and `parse_pat` set up:
PAT, PMT, terrestrial VCT and cable VCT. -/
def scan_table_ids : List Int := [0x00, 0x02, 0xc8, 0xc9]

/-- A filter for one of the tables of a scan that is not segmented. -/
def scan_filter_ok (f : section_buf) : Prop :=
  f.table_id ∈ scan_table_ids ∧ f.segmented = false

/-- The members of the store that change when a transponder is allocated or
moves from list to list, and the current transponder. -/
def store_lists (st : tp_store) : List Nat × List Nat × Nat × Nat :=
  (st.scanned_transponders, st.new_transponders, st.next_tp, st.current_tp)

/-- A filter handed to `add_filter` gets memory of its own (a local of
`scan_tp_atsc`, or `malloc` in `parse_pat`), here the next free address;
`start_filter` writes its `fd` and `start_time`. -/
def place_filter (w : scan_world) (f : section_buf) (fd start_time : Int) : scan_world :=
  { set_buf w w.next_buf { f with fd := fd, start_time := start_time } with
    next_buf := w.next_buf + 1 }

/-- The worlds of a scan: at the start no filter is allocated; `scan_tp_atsc`
sets up its filters (for any setting of `no_ATSC_PSIP` and `ATSC_type`); a
filter that `parse_pat` handed to `add_filter` is set up; a section (any bytes)
is parsed for an allocated filter; the tuning code writes the store and the
filter pool writes the `fd`, `start_time` and `running_time` of a filter (any
values). -/
inductive scan_reachable (cfg : scan_config) : scan_world → Prop
  | start (w : scan_world) : w.next_buf = 0 → w.submitted = [] → scan_reachable cfg w
  | seed (w : scan_world) (f : section_buf) (fd start_time : Int) (no_ATSC_PSIP : Bool)
      (ATSC_type : Nat) :
      scan_reachable cfg w →
      f ∈ scan_tp_atsc_filters cfg.long_timeout no_ATSC_PSIP ATSC_type →
      scan_reachable cfg (place_filter w f fd start_time)
  | submit (w : scan_world) (f : section_buf) (fd start_time : Int) :
      scan_reachable cfg w → f ∈ w.submitted →
      scan_reachable cfg (place_filter w f fd start_time)
  | parse (w w1 : scan_world) (fe : fe_readings) (a : Nat) (buf : List Nat) (rc : Int) :
      scan_reachable cfg w → a < w.next_buf →
      parse_section cfg fe w a buf = some (w1, rc) → scan_reachable cfg w1
  | tune (w : scan_world) (st : tp_store) :
      scan_reachable cfg w → scan_reachable cfg { w with store := st }
  | touch (w : scan_world) (a : Nat) (fd start_time running_time : Int) :
      scan_reachable cfg w →
      scan_reachable cfg (set_buf w a
        { w.pool.bufs a with
          fd := fd, start_time := start_time, running_time := running_time })

/-- A world of a scan in which the PAT filter and the terrestrial VCT filter
are set up. -/
def world_scan_seeded : scan_world :=
  place_filter
    (place_filter { world_pat_filter with next_buf := 0 }
      (setup_filter false 0x1ffb 0xc8 (-1) true false 5) 3 100)
    (setup_filter false 0x00 0x00 (-1) true false 5) 4 100

/-- A NIT section (table 0x40) of the actual network with an empty descriptor
loop and an empty transport-stream loop. -/
def nit_section_empty : List Nat :=
  [0x40, 0xf0, 0x0d, 0x00, 0x01, 0xc1, 0x00, 0x00, 0xf0, 0x00, 0xf0, 0x00, 0xde, 0xad, 0xbe, 0xef]

/-! ## `read_filters` (scan.c 1889-1916) -/

/-- What the clock and the demux device answer during one pass of the loop of
`read_filters`: `time(NULL)` in the test of the deadline, `time(NULL)` in
`stop_filter`, and the answers to the `start_filter` calls of
`remove_filter`. -/
structure pass_clock where
  now : Int
  stop_now : Int
  replies : Nat → demux_reply

/-- The member `revents` of the poll slots after `update_poll_fds` ran with `n`
running filters: it is cleared in the slots it fills (scan.c 1793) and left as
it is in the others. -/
def reset_revents (n : Nat) (revents : List Bool) : List Bool :=
  (List.range MAX_RUNNING).map (fun k => if k < n then false else revents.getD k false)

/-- One pass of the `for` loop of `read_filters` (scan.c 1897-1914) for slot
`i`.  `revents` tells for each slot whether its `revents` is non-zero.
`read_sections` is taken as it acts on the pool and the poll slots (the
decoders it reaches may call `add_filter`); it returns the C return value. -/
def read_filters_pass
    (read_sections : filter_pool → List Bool → Nat →
      Except scan_fatal (filter_pool × List Bool × Int))
    (p : filter_pool) (revents : List Bool) (i : Nat) (ck : pass_clock) :
    Except scan_fatal (filter_pool × List Bool) :=
  match p.poll_section_bufs.getD i none with
  | none => .error .poll_section_bufs_is_NULL
  | some s =>
    match (if revents.getD i false = true then read_sections p revents s
        else .ok (p, revents, 0)) with
    | .error e => .error e
    | .ok (p1, revents1, rc) =>
      let done : Bool := revents.getD i false && decide (rc = 1)
      if done = true ∨ ck.now > (p1.bufs s).start_time + (p1.bufs s).timeout then
        if (p1.bufs s).run_once = true then
          match remove_filter p1 s ck.stop_now ck.replies with
          | .error e => .error e
          | .ok p2 => .ok (p2, reset_revents p2.n_running.toNat revents1)
        else .ok (p1, revents1)
      else .ok (p1, revents1)

/-- The `for (i = 0; i < n_running; i++)` loop of `read_filters` from `i`;
`n_running` is read anew before each pass. -/
def read_filters_loop
    (read_sections : filter_pool → List Bool → Nat →
      Except scan_fatal (filter_pool × List Bool × Int))
    (cks : Nat → pass_clock) :
    Nat → filter_pool → List Bool → Nat → Except scan_fatal filter_pool
  | fuel, p, revents, i =>
    if (i : Int) < p.n_running then
      match fuel with
      | 0 => .error .out_of_fuel
      | fuel + 1 =>
        match read_filters_pass read_sections p revents i (cks i) with
        | .error e => .error e
        | .ok (p1, revents1) => read_filters_loop read_sections cks fuel p1 revents1 (i + 1)
    else .ok p

/-- `read_filters` (scan.c 1889-1916); `revents` is what `poll` reports for
the slots, `cks i` what the clock and the device answer in the pass for slot
`i`.  The loop counter only rises and `n_running` stays at or below
`MAX_RUNNING`, so `MAX_RUNNING` passes are fuel enough. -/
def read_filters
    (read_sections : filter_pool → List Bool → Nat →
      Except scan_fatal (filter_pool × List Bool × Int))
    (p : filter_pool) (revents : List Bool) (cks : Nat → pass_clock) :
    Except scan_fatal filter_pool :=
  read_filters_loop read_sections cks MAX_RUNNING p revents 0

/-- The running list of a result of the pool functions, `none` after
`fatal`. -/
def running_of (r : Except scan_fatal filter_pool) : Option (List Nat) :=
  match r with
  | .ok q => some q.running_filters
  | .error _ => none

/-- The pool after `add_filter` of the filters at the addresses 7 and 8 on the
empty pool, both started at time 100 (file descriptors 3 and 4); both are PAT
filters with a timeout of 5 seconds, and the filter at 8 is at the head of the
running list. -/
def pool_two_filters : filter_pool :=
  match add_filter witness_pool 8 ⟨4, 0, 100⟩ with
  | .ok q => q
  | .error _ => witness_pool

/-- A `read_sections` that reads nothing; it is not called when `poll` reports
no slot as readable. -/
def read_sections_idle (p : filter_pool) (revents : List Bool) (_s : Nat) :
    Except scan_fatal (filter_pool × List Bool × Int) :=
  .ok (p, revents, 0)

/-- The clock at `now` in every reading, the device answering with file
descriptor 9. -/
def clock_at (now : Int) : pass_clock :=
  { now := now, stop_now := now, replies := fun _ => ⟨9, 0, now⟩ }

/-! ## The channel report: the calls of `strcpy` (scan.c 1550) -/

/-- The array `s->service_name` at the `strcpy` of the pass of `parse_psip_vct`
that ingests the record `ch` in state `st`: the name the pass has written
through the service pointer (the 7 bytes of the short name, which carry no
terminator of their own, or the name of an extended-channel-name
descriptor). -/
def vct_report_name (rd : psip_readers) (buf : List Nat) (ch : tvct_channel)
    (st : vct_state) : List Nat :=
  let r := find_or_alloc_service st.tp (vct_program_number ch st.pseudo_id).1
  (vct_service_write rd buf st.b ch (service_at r.1 r.2)).service_name.getD []

/-- The calls of `strcpy` into the report that the loop of `parse_psip_vct`
makes over `n` remaining channels from counter `i`, in order: the loop counter
(the index of `vc`) and the source array of each call.  A pass makes the call
when it ingests its record and the report is on, and does not return at the
`FE_READ_STATUS` of the first channel. -/
def vct_report_calls (rd : psip_readers) (env : vct_env) (buf : List Nat)
    (num_channels_in_section : Nat) : Nat → Nat → vct_state → List (Nat × List Nat)
  | 0, _, _ => []
  | n + 1, i, st =>
    match parse_psip_vct_channel rd env buf num_channels_in_section i st with
    | some (.next st1) =>
      (if ((rd.read_tvct_channel buf st.b).service_type.val = 0x01 ∨
            (rd.read_tvct_channel buf st.b).service_type.val = 0x02 ∨
            (rd.read_tvct_channel buf st.b).service_type.val = 0x03) ∧
          env.save_channel_info = true then
        [(i, vct_report_name rd buf (rd.read_tvct_channel buf st.b) st)]
       else []) ++
        vct_report_calls rd env buf num_channels_in_section n (i + 1) st1
    | _ => []

/-- The calls of `strcpy` into the report that `parse_psip_vct` makes on a
section. -/
def vct_reports (rd : psip_readers) (env : vct_env) (buf : List Nat) (tp : transponder)
    (pchan_info : List channel_info) : List (Nat × List Nat) :=
  vct_report_calls rd env buf (byte_at buf 1) (byte_at buf 1) 0
    { tp := tp
      b := 2
      pseudo_id := 0xffff
      pchan_info := pchan_info
      out_of_bounds := false
      ingested := [] }

/-- A channel record of a VCT section body: short name "ABC" (padded with
NUL), service_type 0x02, major 7, minor `k`, program_number `k`, no
descriptors. -/
def vct_record (k : Nat) : List Nat :=
  [0x00, 0x41, 0x00, 0x42, 0x00, 0x43, 0x00, 0x00, 0x00, 0x00, 0x00, 0x00, 0x00, 0x00, 0xf0, 0x1c,
   k, 0x04, 0x00, 0x00, 0x00, 0x00, 0x00, 0x01, 0x00, k, 0x0d, 0xc2, 0x00, 0x01, 0xfc, 0x00]

/-- A VCT section body with `n` channel records of service_type 0x02, with the
program numbers 1 to `n`. -/
def vct_channels (n : Nat) : List Nat :=
  [0x00, n] ++ ((List.range n).map (fun k => vct_record (k + 1))).flatten

/-- A VCT section body with one channel record (short name "ABC",
service_type 0x02, major 7, minor 1, program_number 1) whose descriptor loop of
50 bytes is one extended-channel-name descriptor (tag 0xa0) with one string of
one uncompressed segment of 40 bytes, the letter A forty times. -/
def vct_long_name : List Nat :=
  [0x00, 0x01,
   0x00, 0x41, 0x00, 0x42, 0x00, 0x43, 0x00, 0x00, 0x00, 0x00, 0x00, 0x00, 0x00, 0x00, 0xf0, 0x1c,
   0x01, 0x04, 0x00, 0x00, 0x00, 0x00, 0x00, 0x01, 0x00, 0x01, 0x0d, 0xc2, 0x00, 0x01, 0xfc, 0x32,
   0xa0, 0x30, 0x01, 0x65, 0x6e, 0x67, 0x01, 0x00, 0x00, 0x28] ++ List.replicate 40 0x41

/-- The globals and frontend answers of a run with channel report on RF channel
2, the frontend reporting lock. -/
def vct_env_chan2 : vct_env :=
  { save_channel_info := true
    rf_chan := 2
    fe := { status := some 0x1f, signal := 0, snr := 0, ber := 0, uncorrected_blocks := 0 } }

/-- A VCT section body with two channel records that carry the same
program_number 3: (major 7, minor 1) and (major 7, minor 2), both of
service_type 0x02 and without descriptors. -/
def vct_same_program : List Nat :=
  [0x00, 0x02,
   0x00, 0x41, 0x00, 0x42, 0x00, 0x43, 0x00, 0x44, 0x00, 0x45, 0x00, 0x46, 0x00, 0x47, 0xf0, 0x1c,
   0x01, 0x04, 0x00, 0x00, 0x00, 0x00, 0x00, 0x01, 0x00, 0x03, 0x0d, 0xc2, 0x00, 0x01, 0xfc, 0x00,
   0x00, 0x41, 0x00, 0x42, 0x00, 0x43, 0x00, 0x44, 0x00, 0x45, 0x00, 0x46, 0x00, 0x47, 0xf0, 0x1c,
   0x02, 0x04, 0x00, 0x00, 0x00, 0x00, 0x00, 0x01, 0x00, 0x03, 0x0d, 0xc2, 0x00, 0x01, 0xfc, 0x00]

/-- The globals and frontend answers of a run in which `FE_READ_STATUS` fails:
the channel report is on (as scan.c 64 initialises it), RF channel 7 is
tuned. -/
def vct_env_status_fails : vct_env :=
  { save_channel_info := true
    rf_chan := 7
    fe := { status := none, signal := 0, snr := 0, ber := 0, uncorrected_blocks := 0 } }

/-! ## Lemmas: nibbles and decimal digits -/

theorem land_0x0f (b : Nat) : b &&& 0x0f = b % 16 := by
  have h := Nat.and_pow_two_sub_one_eq_mod b 4
  simpa using h

theorem shr_4 (b : Nat) : b >>> 4 = b / 16 := by
  simp [Nat.shiftRight_eq_div_pow]

theorem bcd_byte_eq (hi lo : Nat) (hlo : lo < 16) : bcd_byte hi lo = 16 * hi + lo := by
  unfold bcd_byte
  have h := Nat.mul_add_lt_is_or (i := 4) (b := lo) (by simpa using hlo) hi
  rw [Nat.shiftLeft_eq]
  simp only [Nat.reducePow] at h ⊢
  rw [Nat.mul_comm hi 16, ← h]

theorem bcd32_to_cpu_digits (b0 b1 b2 b3 : Nat) :
    bcd32_to_cpu b0 b1 b2 b3 =
      (b0 / 16 % 16) * 10000000 + (b0 % 16) * 1000000 +
      (b1 / 16 % 16) * 100000 + (b1 % 16) * 10000 +
      (b2 / 16 % 16) * 1000 + (b2 % 16) * 100 +
      (b3 / 16 % 16) * 10 + (b3 % 16) := by
  simp only [bcd32_to_cpu, land_0x0f, shr_4]

theorem decimal_digits_of_sum (d7 d6 d5 d4 d3 d2 d1 d0 : Nat) (h7 : d7 < 10) (h6 : d6 < 10)
    (h5 : d5 < 10) (h4 : d4 < 10) (h3 : d3 < 10) (h2 : d2 < 10) (h1 : d1 < 10)
    (h0 : d0 < 10) (N : Nat)
    (hN : N = d7 * 10000000 + d6 * 1000000 + d5 * 100000 + d4 * 10000 + d3 * 1000 +
      d2 * 100 + d1 * 10 + d0) :
    N / 10000000 % 10 = d7 ∧ N / 1000000 % 10 = d6 ∧ N / 100000 % 10 = d5 ∧
    N / 10000 % 10 = d4 ∧ N / 1000 % 10 = d3 ∧ N / 100 % 10 = d2 ∧
    N / 10 % 10 = d1 ∧ N % 10 = d0 := by
  subst hN
  refine ⟨?_, ?_, ?_, ?_, ?_, ?_, ?_, ?_⟩ <;> omega

theorem sum_of_decimal_digits (n : Nat) (hn : n < 100000000) :
    n = (n / 10000000 % 10) * 10000000 + (n / 1000000 % 10) * 1000000 +
      (n / 100000 % 10) * 100000 + (n / 10000 % 10) * 10000 + (n / 1000 % 10) * 1000 +
      (n / 100 % 10) * 100 + (n / 10 % 10) * 10 + n % 10 := by
  omega

theorem bcd32_to_cpu_bcd_bytes (d7 d6 d5 d4 d3 d2 d1 d0 : Nat) (h7 : d7 < 10) (h6 : d6 < 10)
    (h5 : d5 < 10) (h4 : d4 < 10) (h3 : d3 < 10) (h2 : d2 < 10) (h1 : d1 < 10)
    (h0 : d0 < 10) :
    bcd32_to_cpu (bcd_byte d7 d6) (bcd_byte d5 d4) (bcd_byte d3 d2) (bcd_byte d1 d0) =
      d7 * 10000000 + d6 * 1000000 + d5 * 100000 + d4 * 10000 + d3 * 1000 +
      d2 * 100 + d1 * 10 + d0 := by
  rw [bcd32_to_cpu_digits, bcd_byte_eq _ _ (by omega), bcd_byte_eq _ _ (by omega),
    bcd_byte_eq _ _ (by omega), bcd_byte_eq _ _ (by omega)]
  have e7 : (16 * d7 + d6) / 16 % 16 = d7 := by omega
  have e6 : (16 * d7 + d6) % 16 = d6 := by omega
  have e5 : (16 * d5 + d4) / 16 % 16 = d5 := by omega
  have e4 : (16 * d5 + d4) % 16 = d4 := by omega
  have e3 : (16 * d3 + d2) / 16 % 16 = d3 := by omega
  have e2 : (16 * d3 + d2) % 16 = d2 := by omega
  have e1 : (16 * d1 + d0) / 16 % 16 = d1 := by omega
  have e0 : (16 * d1 + d0) % 16 = d0 := by omega
  rw [e7, e6, e5, e4, e3, e2, e1, e0]

theorem bcd_byte_of_nibbles (b : Nat) : bcd_byte (b / 16) (b % 16) = b := by
  rw [bcd_byte_eq _ _ (Nat.mod_lt _ (by decide))]
  omega

/-! ## Lemmas: the filter pool keeps its invariant -/

theorem set_append_replicate {α : Type} (A : List α) (k : Nat) (x d : α) :
    (A ++ List.replicate (k + 1) d).set A.length x = (A ++ [x]) ++ List.replicate k d := by
  induction A with
  | nil => simp [List.replicate_succ]
  | cons a A ih => simpa using ih

theorem slots_of_set (pre : List Nat) (s : Nat) (h : pre.length < MAX_RUNNING) :
    (slots_of pre).set pre.length (some s) = slots_of (pre ++ [s]) := by
  unfold slots_of
  have e : MAX_RUNNING - pre.length = (MAX_RUNNING - (pre ++ [s]).length) + 1 := by
    simp only [List.length_append, List.length_singleton]; omega
  rw [e]
  have := set_append_replicate (pre.map some) (MAX_RUNNING - (pre ++ [s]).length) (some s) none
  simp only [List.length_map] at this
  rw [this]
  simp

theorem fill_poll_fds_ok (bufs : Nat → section_buf) (rest : List Nat) :
    ∀ (pre : List Nat) (fds : List Int), pre.length + rest.length ≤ MAX_RUNNING →
      (∀ s ∈ rest, (bufs s).fd ≠ -1) →
      ∃ fds1, fill_poll_fds bufs rest pre.length fds (slots_of pre) =
        .ok (pre.length + rest.length, fds1, slots_of (pre ++ rest)) := by
  induction rest with
  | nil => intro pre fds _ _; exact ⟨fds, by simp [fill_poll_fds]⟩
  | cons s r ih =>
    intro pre fds hlen hfd
    have hlt : pre.length < MAX_RUNNING := by
      simp only [List.length_cons] at hlen; omega
    have hs : (bufs s).fd ≠ -1 := hfd s (List.mem_cons_self _ _)
    obtain ⟨fds1, h1⟩ := ih (pre ++ [s]) (fds.set pre.length (bufs s).fd)
      (by simp only [List.length_append, List.length_cons, List.length_nil] at hlen ⊢
          omega)
      (fun t ht => hfd t (List.mem_cons_of_mem _ ht))
    refine ⟨fds1, ?_⟩
    unfold fill_poll_fds
    rw [if_neg (by omega), if_neg hs, slots_of_set pre s hlt]
    simp only [List.length_append, List.length_cons, List.length_nil] at h1
    rw [h1]
    simp only [List.append_assoc, List.singleton_append, List.length_cons]
    congr 2
    omega

theorem update_poll_fds_ok (p : filter_pool) (hb : p.running_filters.length ≤ MAX_RUNNING)
    (hf : ∀ s ∈ p.running_filters, (p.bufs s).fd ≠ -1)
    (hc : p.n_running = p.running_filters.length) :
    ∃ fds, update_poll_fds p =
      .ok { p with poll_fds := fds, poll_section_bufs := slots_of p.running_filters } := by
  obtain ⟨fds, h⟩ := fill_poll_fds_ok p.bufs p.running_filters [] (List.replicate MAX_RUNNING (-1))
    (by simpa using hb) hf
  refine ⟨fds, ?_⟩
  have e : slots_of [] = List.replicate MAX_RUNNING none := by simp [slots_of]
  rw [e] at h
  simp only [List.length_nil, Nat.zero_add, List.nil_append] at h
  unfold update_poll_fds
  rw [h]
  simp only [hc, ne_eq, not_true_eq_false, if_false]

theorem pool_inv_update_poll_fds (p : filter_pool) (hn : p.running_filters.Nodup)
    (hw : p.waiting_filters.Nodup) (hd : ∀ s ∈ p.running_filters, s ∉ p.waiting_filters)
    (hb : p.running_filters.length ≤ MAX_RUNNING)
    (hf : ∀ s ∈ p.running_filters, (p.bufs s).fd ≠ -1)
    (hc : p.n_running = p.running_filters.length) :
    ∃ q, update_poll_fds p = .ok q ∧ pool_inv q ∧
      q.running_filters = p.running_filters ∧ q.waiting_filters = p.waiting_filters ∧
      q.bufs = p.bufs := by
  obtain ⟨fds, h⟩ := update_poll_fds_ok p hb hf hc
  exact ⟨_, h, ⟨hn, hw, hd, hc, hb, hf, rfl⟩, rfl, rfl, rfl⟩

theorem start_filter_inv (p : filter_pool) (s : Nat) (rep : demux_reply) (h : pool_inv p)
    (hs : s ∉ p.running_filters) :
    ∃ q rc, start_filter p s rep = .ok (q, rc) ∧ pool_inv q ∧
      ((rc ≠ 0 ∧ q.running_filters = p.running_filters ∧
          q.waiting_filters = p.waiting_filters) ∨
       (rc = 0 ∧ q.running_filters = s :: p.running_filters ∧
          q.waiting_filters = p.waiting_filters.erase s)) := by
  have hopen : pool_inv (start_filter_open p s rep) := by
    refine ⟨h.nodup_running, h.nodup_waiting, h.disjoint, h.count, h.bound, ?_, h.slots⟩
    intro t ht
    have hts : t ≠ s := fun e => hs (e ▸ ht)
    simp only [start_filter_open, Function.update_noteq hts]
    exact h.fds t ht
  unfold start_filter
  by_cases h1 : p.n_running ≥ MAX_RUNNING
  · rw [if_pos h1]
    exact ⟨p, -1, rfl, h, Or.inl ⟨by decide, rfl, rfl⟩⟩
  rw [if_neg h1]
  by_cases h2 : rep.open_fd < 0
  · rw [if_pos h2]
    exact ⟨_, -1, rfl, hopen, Or.inl ⟨by decide, rfl, rfl⟩⟩
  rw [if_neg h2]
  by_cases h3 : rep.set_filter = -1
  · rw [if_pos h3]
    exact ⟨_, -1, rfl, hopen, Or.inl ⟨by decide, rfl, rfl⟩⟩
  rw [if_neg h3]
  have herase : p.running_filters.erase s = p.running_filters := List.erase_of_not_mem hs
  have hcount := h.count
  obtain ⟨q, hq, hinv, hr, hw, _⟩ :=
    pool_inv_update_poll_fds (start_filter_link (start_filter_open p s rep) s rep)
      (by
        simp only [start_filter_link, start_filter_open, herase]
        exact List.nodup_cons.mpr ⟨hs, h.nodup_running⟩)
      (by
        simp only [start_filter_link, start_filter_open]
        exact h.nodup_waiting.erase s)
      (by
        simp only [start_filter_link, start_filter_open, herase]
        intro t ht hmem
        rcases List.mem_cons.mp ht with e | ht
        · subst e
          exact (List.Nodup.mem_erase_iff h.nodup_waiting).mp hmem |>.1 rfl
        · exact h.disjoint t ht (List.mem_of_mem_erase hmem))
      (by
        simp only [start_filter_link, start_filter_open, herase, List.length_cons]
        have : p.n_running < MAX_RUNNING := by omega
        omega)
      (by
        simp only [start_filter_link, start_filter_open, herase]
        intro t ht
        rcases List.mem_cons.mp ht with e | ht
        · subst e
          simp only [Function.update_same]
          omega
        · have hts : t ≠ s := fun e => hs (e ▸ ht)
          simp only [Function.update_noteq hts]
          exact h.fds t ht)
      (by
        simp only [start_filter_link, start_filter_open, herase, List.length_cons]
        omega)
  rw [hq]
  refine ⟨q, 0, rfl, hinv, Or.inr ⟨rfl, ?_, ?_⟩⟩
  · rw [hr]; simp only [start_filter_link, start_filter_open, herase]
  · rw [hw]; simp only [start_filter_link, start_filter_open]

theorem stop_filter_inv (p : filter_pool) (s : Nat) (now : Int) (h : pool_inv p)
    (hs : s ∈ p.running_filters) :
    ∃ q, stop_filter p s now = .ok q ∧ pool_inv q ∧
      q.running_filters = p.running_filters.erase s ∧
      q.waiting_filters = p.waiting_filters := by
  have hw : p.waiting_filters.erase s = p.waiting_filters :=
    List.erase_of_not_mem (h.disjoint s hs)
  have hlen : (p.running_filters.erase s).length + 1 = p.running_filters.length := by
    rw [List.length_erase_of_mem hs]
    have : 0 < p.running_filters.length := List.length_pos_of_mem hs
    omega
  have hcount := h.count
  have hbound := h.bound
  obtain ⟨q, hq, hinv, hr, hw2, _⟩ :=
    pool_inv_update_poll_fds (stop_filter_unlink p s now)
      (by simp only [stop_filter_unlink]; exact h.nodup_running.erase s)
      (by simp only [stop_filter_unlink]; exact h.nodup_waiting.erase s)
      (by
        simp only [stop_filter_unlink, hw]
        intro t ht
        exact h.disjoint t (List.mem_of_mem_erase ht))
      (by simp only [stop_filter_unlink]; omega)
      (by
        simp only [stop_filter_unlink]
        intro t ht
        have hts : t ≠ s := ((List.Nodup.mem_erase_iff h.nodup_running).mp ht).1
        simp only [Function.update_noteq hts]
        exact h.fds t (List.mem_of_mem_erase ht))
      (by simp only [stop_filter_unlink]; omega)
  refine ⟨q, hq, hinv, ?_, ?_⟩
  · rw [hr]; simp only [stop_filter_unlink]
  · rw [hw2]; simp only [stop_filter_unlink, hw]

theorem add_filter_inv (p : filter_pool) (s : Nat) (rep : demux_reply) (h : pool_inv p)
    (hs : s ∉ p.running_filters) (hw : s ∉ p.waiting_filters) :
    ∃ q, add_filter p s rep = .ok q ∧ pool_inv q := by
  obtain ⟨q, rc, hq, hinv, hcase⟩ := start_filter_inv p s rep h hs
  unfold add_filter
  rw [hq]
  rcases hcase with ⟨hrc, hr, hwq⟩ | ⟨hrc, _, _⟩
  · simp only [hrc, ne_eq, not_false_eq_true, if_true]
    refine ⟨_, rfl, ⟨hinv.nodup_running, ?_, ?_, hinv.count, hinv.bound, hinv.fds, hinv.slots⟩⟩
    · simp only [hwq]
      exact List.Nodup.append h.nodup_waiting (List.nodup_singleton s)
        (by
          intro t ht hts
          rw [List.mem_singleton] at hts
          exact hw (hts ▸ ht))
    · intro t ht
      simp only [hwq, List.mem_append, List.mem_singleton, not_or]
      rw [hr] at ht
      exact ⟨h.disjoint t ht, fun e => hs (e ▸ ht)⟩
  · simp only [hrc, ne_eq, not_true_eq_false, if_false]
    exact ⟨q, rfl, hinv⟩

theorem start_waiting_filters_inv (fuel : Nat) :
    ∀ (p : filter_pool) (replies : Nat → demux_reply), pool_inv p →
      p.waiting_filters.length ≤ fuel →
      ∃ q, start_waiting_filters fuel p replies = .ok q ∧ pool_inv q := by
  induction fuel with
  | zero =>
    intro p replies h hlen
    have : p.waiting_filters = [] := List.length_eq_zero.mp (by omega)
    unfold start_waiting_filters
    rw [this]
    exact ⟨p, rfl, h⟩
  | succ fuel ih =>
    intro p replies h hlen
    unfold start_waiting_filters
    cases hwl : p.waiting_filters with
    | nil => exact ⟨p, rfl, h⟩
    | cons w ws =>
      simp only []
      have hwmem : w ∈ p.waiting_filters := by rw [hwl]; exact List.mem_cons_self _ _
      have hwr : w ∉ p.running_filters := fun hr => h.disjoint w hr hwmem
      obtain ⟨q, rc, hq, hinv, hcase⟩ := start_filter_inv p w (replies 0) h hwr
      rw [hq]
      rcases hcase with ⟨hrc, _, _⟩ | ⟨hrc, _, hwq⟩
      · simp only [hrc, ne_eq, not_false_eq_true, if_true]
        exact ⟨q, rfl, hinv⟩
      · simp only [hrc, ne_eq, not_true_eq_false, if_false]
        apply ih q _ hinv
        rw [hwq, hwl, List.erase_cons_head]
        rw [hwl] at hlen
        simp only [List.length_cons] at hlen
        omega

theorem remove_filter_inv (p : filter_pool) (s : Nat) (now : Int) (replies : Nat → demux_reply)
    (h : pool_inv p) (hs : s ∈ p.running_filters) :
    ∃ q, remove_filter p s now replies = .ok q ∧ pool_inv q := by
  obtain ⟨q, hq, hinv, _, _⟩ := stop_filter_inv p s now h hs
  unfold remove_filter
  rw [hq]
  exact start_waiting_filters_inv _ q replies hinv (Nat.le_refl _)

theorem pool_reachable_inv (p : filter_pool) (h : pool_reachable p) : pool_inv p := by
  induction h with
  | empty bufs =>
    exact ⟨List.nodup_nil, List.nodup_nil, fun _ hs => absurd hs (List.not_mem_nil _), rfl,
      Nat.zero_le _, fun _ hs => absurd hs (List.not_mem_nil _), rfl⟩
  | write p bufs _ hfd ih =>
    exact ⟨ih.nodup_running, ih.nodup_waiting, ih.disjoint, ih.count, ih.bound,
      fun s hs => by simpa only [hfd s hs] using ih.fds s hs, ih.slots⟩
  | add p q s rep _ hs hw hq ih =>
    obtain ⟨q1, hq1, hinv⟩ := add_filter_inv p s rep ih hs hw
    rw [hq1] at hq
    cases hq
    exact hinv
  | start p q s rep rc _ hs hq ih =>
    obtain ⟨q1, rc1, hq1, hinv, _⟩ := start_filter_inv p s rep ih hs
    rw [hq1] at hq
    cases hq
    exact hinv
  | stop p q s now _ hs hq ih =>
    obtain ⟨q1, hq1, hinv, _, _⟩ := stop_filter_inv p s now ih hs
    rw [hq1] at hq
    cases hq
    exact hinv
  | remove p q s now replies _ hs hq ih =>
    obtain ⟨q1, hq1, hinv⟩ := remove_filter_inv p s now replies ih hs
    rw [hq1] at hq
    cases hq
    exact hinv

theorem occupied_slots_of (l : List Nat) (k : Nat) :
    ((l.map some ++ List.replicate k (none : Option Nat)).filter Option.isSome).length =
      l.length := by
  induction l with
  | nil =>
    induction k with
    | zero => rfl
    | succ k ih => simp [List.replicate_succ]
  | cons a l ih => simpa using ih

theorem slot_isSome (l : List Nat) (r : List (Option Nat)) :
    ∀ i, i < l.length → ((l.map some ++ r).getD i none).isSome = true := by
  induction l with
  | nil => intro i hi; exact absurd hi (Nat.not_lt_zero _)
  | cons a l ih =>
    intro i hi
    cases i with
    | zero => rfl
    | succ i =>
      have := ih i (by simpa using hi)
      simpa using this

theorem slot_mem_running (l : List Nat) (k : Nat) (s : Nat) :
    ∀ i, (l.map some ++ List.replicate k (none : Option Nat)).getD i none = some s → s ∈ l := by
  induction l with
  | nil =>
    intro i h
    simp only [List.map_nil, List.nil_append, List.getD_eq_getElem?_getD] at h
    by_cases hi : i < k
    · rw [List.getElem?_replicate_of_lt hi] at h
      exact Option.noConfusion h
    · rw [List.getElem?_eq_none (by simpa using hi)] at h
      exact Option.noConfusion h
  | cons a l ih =>
    intro i h
    cases i with
    | zero =>
      simp only [List.map_cons, List.cons_append, List.getD_cons_zero, Option.some.injEq] at h
      exact h ▸ List.mem_cons_self _ _
    | succ i =>
      simp only [List.map_cons, List.cons_append, List.getD_cons_succ] at h
      exact List.mem_cons_of_mem _ (ih i h)

theorem read_filters_check_ok (p : filter_pool) (h : pool_inv p) :
    read_filters_check p = .ok () := by
  unfold read_filters_check
  rw [if_pos]
  rw [List.all_eq_true]
  intro i hi
  rw [List.mem_range] at hi
  rw [h.slots]
  apply slot_isSome
  have := h.count
  omega

/-! ## Lemmas: service lists -/

theorem lookup_in_nil (sid : Int) : lookup_in [] sid = none := rfl

theorem lookup_in_cons (a : service) (l : List service) (sid : Int) :
    lookup_in (a :: l) sid = if a.service_id = sid then some a else lookup_in l sid := by
  unfold lookup_in
  simp only [find_service_in]
  by_cases h : a.service_id = sid
  · simp [h]
  · simp only [h, if_false]
    cases find_service_in l sid with
    | none => rfl
    | some i => rfl

theorem upsert_in_cons (a : service) (l : List service) (sid tsid : Int)
    (f : service → service) :
    upsert_in (a :: l) sid tsid f =
      if a.service_id = sid then f a :: l else a :: upsert_in l sid tsid f := by
  unfold upsert_in
  simp only [find_service_in]
  by_cases h : a.service_id = sid
  · simp [h]
  · simp only [h, if_false]
    cases find_service_in l sid with
    | none => rfl
    | some i => rfl

theorem lookup_in_upsert_in (l : List service) (sid tsid : Int) (f : service → service)
    (hf : ∀ s, s.service_id = sid → (f s).service_id = sid) (sid1 : Int) :
    lookup_in (upsert_in l sid tsid f) sid1 =
      if sid1 = sid then
        some (f ((lookup_in l sid).getD
          { service_zero with service_id := sid, transport_stream_id := tsid }))
      else lookup_in l sid1 := by
  induction l with
  | nil =>
    have hid := hf { service_zero with service_id := sid, transport_stream_id := tsid } rfl
    simp only [upsert_in, find_service_in, List.nil_append, lookup_in_cons, lookup_in_nil, hid,
      Option.getD_none]
    by_cases h : sid1 = sid
    · simp [h]
    · have h2 : ¬ sid = sid1 := fun e => h e.symm
      simp [h, h2]
  | cons a l ih =>
    rw [upsert_in_cons]
    by_cases ha : a.service_id = sid
    · simp only [ha, if_true, lookup_in_cons, hf a ha, Option.getD_some]
      by_cases h : sid1 = sid
      · simp [h]
      · have h2 : ¬ sid = sid1 := fun e => h e.symm
        simp [h, h2]
    · simp only [ha, if_false, lookup_in_cons, ih]
      by_cases h : sid1 = sid
      · subst h
        simp [ha]
      · simp [h]

theorem find_or_alloc_set_eq (tp : transponder) (sid : Int) (f : service → service) :
    set_service (find_or_alloc_service tp sid).1 (find_or_alloc_service tp sid).2
        (f (service_at (find_or_alloc_service tp sid).1 (find_or_alloc_service tp sid).2)) =
      { tp with services := upsert_in tp.services sid tp.transport_stream_id f } := by
  unfold find_or_alloc_service find_service upsert_in
  cases h : find_service_in tp.services sid with
  | some i => rfl
  | none =>
    simp only [alloc_service, set_service, service_at]
    congr 1
    rw [List.getD_eq_getElem?_getD, List.getElem?_append_right (Nat.le_refl _)]
    simp only [Nat.sub_self, List.getElem?_cons_zero, Option.getD_some]
    have := set_append_replicate tp.services 0
      (f { service_zero with service_id := sid, transport_stream_id := tp.transport_stream_id })
      { service_zero with service_id := sid, transport_stream_id := tp.transport_stream_id }
    simp

theorem lookup_service_eq (tp : transponder) (sid : Int) :
    lookup_service tp sid = lookup_in tp.services sid := rfl

theorem lookup_in_mem (l : List service) (sid : Int) (s : service)
    (h : lookup_in l sid = some s) : s ∈ l ∧ s.service_id = sid := by
  induction l with
  | nil => simp [lookup_in_nil] at h
  | cons a l ih =>
    rw [lookup_in_cons] at h
    by_cases ha : a.service_id = sid
    · simp only [ha, if_true, Option.some.injEq] at h
      subst h
      exact ⟨List.mem_cons_self _ _, ha⟩
    · simp only [ha, if_false] at h
      exact ⟨List.mem_cons_of_mem _ (ih h).1, (ih h).2⟩

/-! ## Lemmas: the loop of `parse_pat` -/

theorem parse_pat_loop_eq (long_timeout : Bool) (buf : List Nat) (m : Nat) :
    ∀ (fuel off : Nat) (st : pat_state), m ≤ fuel →
      parse_pat_loop long_timeout buf fuel off (4 * (m : Int)) st =
        some (pat_entries long_timeout buf m off st) := by
  induction m with
  | zero =>
    intro fuel off st _
    unfold parse_pat_loop
    simp [pat_entries]
  | succ m ih =>
    intro fuel off st hfuel
    obtain ⟨f, rfl⟩ : ∃ f, fuel = f + 1 := ⟨fuel - 1, by omega⟩
    unfold parse_pat_loop
    have hpos : 4 * ((m + 1 : Nat) : Int) > 0 := by omega
    rw [if_pos hpos]
    have e : 4 * ((m + 1 : Nat) : Int) - 4 = 4 * (m : Int) := by omega
    simp only [e]
    rw [ih f (off + 4) _ (by omega)]
    rfl

theorem parse_pat_entry_tp (long_timeout : Bool) (buf : List Nat) (off : Nat) (st : pat_state) :
    (parse_pat_entry long_timeout buf off st).tp =
      if pat_service_id buf off = 0 then st.tp
      else { st.tp with
             services := upsert_in st.tp.services (pat_service_id buf off)
               st.tp.transport_stream_id (pat_write (pat_pmt_pid buf off)) } := by
  unfold parse_pat_entry
  by_cases h0 : pat_service_id buf off = 0
  · simp only [h0, if_true]
  · simp only [h0, if_false]
    rw [← find_or_alloc_set_eq]
    generalize find_or_alloc_service st.tp (pat_service_id buf off) = r
    obtain ⟨tp1, i⟩ := r
    simp only [pat_write]
    split <;> rename_i hc <;> simp [hc]

theorem pat_write_service_id (pid : Nat) (s : service) :
    (pat_write pid s).service_id = s.service_id := rfl

theorem parse_pat_entry_lookup (long_timeout : Bool) (buf : List Nat) (off : Nat)
    (st : pat_state) (sid1 : Int) :
    lookup_service (parse_pat_entry long_timeout buf off st).tp sid1 =
      if pat_service_id buf off ≠ 0 ∧ sid1 = pat_service_id buf off then
        some (pat_write (pat_pmt_pid buf off)
          ((lookup_service st.tp sid1).getD
            { service_zero with
              service_id := sid1, transport_stream_id := st.tp.transport_stream_id }))
      else lookup_service st.tp sid1 := by
  rw [parse_pat_entry_tp]
  by_cases h0 : pat_service_id buf off = 0
  · simp [h0]
  · simp only [h0, if_false, lookup_service_eq, ne_eq, not_false_eq_true, true_and]
    rw [lookup_in_upsert_in _ _ _ _ (fun s hs => by rw [pat_write_service_id]; exact hs)]
    by_cases h1 : sid1 = pat_service_id buf off
    · subst h1; simp
    · simp [h1]

theorem pat_entries_frame (long_timeout : Bool) (buf : List Nat) (sid1 : Int) (m : Nat) :
    ∀ (off : Nat) (st : pat_state),
      (∀ j, j < m → pat_service_id buf (off + 4 * j) ≠ sid1) →
      lookup_service (pat_entries long_timeout buf m off st).tp sid1 =
        lookup_service st.tp sid1 := by
  induction m with
  | zero => intro off st _; rfl
  | succ m ih =>
    intro off st h
    unfold pat_entries
    rw [ih (off + 4) _ (fun j hj => by
      have := h (j + 1) (by omega)
      rwa [show off + 4 * (j + 1) = off + 4 + 4 * j by omega] at this)]
    rw [parse_pat_entry_lookup]
    have h0 := h 0 (by omega)
    simp only [Nat.mul_zero, Nat.add_zero] at h0
    have : ¬ (pat_service_id buf off ≠ 0 ∧ sid1 = pat_service_id buf off) :=
      fun hc => h0 hc.2.symm
    rw [if_neg this]

theorem pat_entries_isSome (long_timeout : Bool) (buf : List Nat) (sid1 : Int) (m : Nat) :
    ∀ (off : Nat) (st : pat_state), (lookup_service st.tp sid1).isSome = true →
      (lookup_service (pat_entries long_timeout buf m off st).tp sid1).isSome = true := by
  induction m with
  | zero => intro off st h; exact h
  | succ m ih =>
    intro off st h
    unfold pat_entries
    apply ih
    rw [parse_pat_entry_lookup]
    split
    · rfl
    · exact h

theorem pat_entries_spec (long_timeout : Bool) (buf : List Nat) (m : Nat) :
    ∀ (off : Nat) (st : pat_state) (k : Nat), k < m →
      pat_service_id buf (off + 4 * k) ≠ 0 →
      (lookup_service (pat_entries long_timeout buf m off st).tp
          (pat_service_id buf (off + 4 * k))).isSome = true ∧
      ((∀ j, k < j → j < m →
          pat_service_id buf (off + 4 * j) ≠ pat_service_id buf (off + 4 * k)) →
        ∃ s, lookup_service (pat_entries long_timeout buf m off st).tp
            (pat_service_id buf (off + 4 * k)) = some s ∧
          s.pmt_pid = pat_pmt_pid buf (off + 4 * k)) := by
  induction m with
  | zero => intro off st k hk; exact absurd hk (Nat.not_lt_zero _)
  | succ m ih =>
    intro off st k hk hne
    cases k with
    | zero =>
      simp only [Nat.mul_zero, Nat.add_zero] at hne ⊢
      have hstep := parse_pat_entry_lookup long_timeout buf off st (pat_service_id buf off)
      rw [if_pos ⟨hne, rfl⟩] at hstep
      unfold pat_entries
      constructor
      · apply pat_entries_isSome
        rw [hstep]
        rfl
      · intro hlast
        rw [pat_entries_frame long_timeout buf _ m (off + 4) _ (fun j hj => by
          have := hlast (j + 1) (by omega) (by omega)
          rwa [show off + 4 * (j + 1) = off + 4 + 4 * j by omega] at this)]
        rw [hstep]
        exact ⟨_, rfl, rfl⟩
    | succ k =>
      have e : off + 4 * (k + 1) = off + 4 + 4 * k := by omega
      rw [e] at hne ⊢
      unfold pat_entries
      obtain ⟨h1, h2⟩ := ih (off + 4) (parse_pat_entry long_timeout buf off st) k
        (by omega) hne
      refine ⟨h1, fun hlast => h2 (fun j hkj hjm => ?_)⟩
      have := hlast (j + 1) (by omega) (by omega)
      rwa [show off + 4 * (j + 1) = off + 4 + 4 * j by omega] at this

/-! ## ATSC PSIP descriptors: they return, and keep the service id -/

theorem service_loc_elements_service_id (rd : psip_readers) (buf : List Nat) (n : Nat) :
    ∀ (b : Nat) (s : service),
      (service_loc_elements rd buf n b s).service_id = s.service_id := by
  induction n with
  | zero => intro b s; rfl
  | succ n ih =>
    intro b s
    unfold service_loc_elements
    simp only []
    rw [ih]
    split
    · rfl
    · split
      · split <;> rfl
      · rfl

theorem parse_atsc_service_loc_desc_service_id (rd : psip_readers) (s : service)
    (buf : List Nat) (off : Nat) :
    (parse_atsc_service_loc_desc rd s buf off).service_id = s.service_id := by
  unfold parse_atsc_service_loc_desc
  simp only []
  rw [service_loc_elements_service_id]

theorem ext_chan_name_segments_service_id (buf : List Nat) (n : Nat) :
    ∀ (b : Nat) (s : service),
      (ext_chan_name_segments buf n b s).1.service_id = s.service_id := by
  induction n with
  | zero => intro b s; rfl
  | succ n ih =>
    intro b s
    unfold ext_chan_name_segments
    simp only []
    rw [ih]
    split <;> rfl

theorem ext_chan_name_strings_service_id (buf : List Nat) (n : Nat) :
    ∀ (b : Nat) (s : service),
      (ext_chan_name_strings buf n b s).service_id = s.service_id := by
  induction n with
  | zero => intro b s; rfl
  | succ n ih =>
    intro b s
    unfold ext_chan_name_strings
    simp only []
    rw [ih, ext_chan_name_segments_service_id]

theorem parse_atsc_ext_chan_name_desc_service_id (s : service) (buf : List Nat) (off : Nat) :
    (parse_atsc_ext_chan_name_desc s buf off).service_id = s.service_id := by
  unfold parse_atsc_ext_chan_name_desc
  simp only []
  rw [ext_chan_name_strings_service_id]

theorem parse_psip_descriptors_loop_total (rd : psip_readers) (buf : List Nat) (fuel : Nat) :
    ∀ (b : Nat) (len : Int) (s : service), len ≤ (fuel : Int) →
      ∃ s1, parse_psip_descriptors_loop rd buf fuel b len s = some s1 ∧
        s1.service_id = s.service_id := by
  induction fuel with
  | zero =>
    intro b len s hlen
    unfold parse_psip_descriptors_loop
    rw [if_neg (by omega)]
    exact ⟨s, rfl, rfl⟩
  | succ fuel ih =>
    intro b len s hlen
    unfold parse_psip_descriptors_loop
    by_cases hpos : len > 0
    · rw [if_pos hpos]
      simp only []
      obtain ⟨s1, h1, hid⟩ := ih (b + (2 + byte_at buf (b + 1)))
        (len - (2 + (byte_at buf (b + 1) : Int)))
        (if byte_at buf b = ATSC_SERVICE_LOCATION_DESCRIPTOR_ID then
            parse_atsc_service_loc_desc rd s buf b
          else if byte_at buf b = ATSC_EXTENDED_CHANNEL_NAME_DESCRIPTOR_ID then
            parse_atsc_ext_chan_name_desc s buf b
          else s)
        (by push_cast at hlen; omega)
      refine ⟨s1, h1, ?_⟩
      rw [hid]
      split
      · exact parse_atsc_service_loc_desc_service_id rd s buf b
      · split
        · exact parse_atsc_ext_chan_name_desc_service_id s buf b
        · rfl
    · rw [if_neg hpos]
      exact ⟨s, rfl, rfl⟩

theorem parse_psip_descriptors_total (rd : psip_readers) (s : service) (buf : List Nat)
    (off : Nat) (len : Int) :
    ∃ s1, parse_psip_descriptors rd s buf off len = some s1 ∧
      s1.service_id = s.service_id := by
  unfold parse_psip_descriptors
  exact parse_psip_descriptors_loop_total rd buf len.toNat off len s (Int.self_le_toNat len)

/-! ## Lemmas: one pass of the VCT loop -/

theorem vct_service_write_service_id (rd : psip_readers) (buf : List Nat) (b : Nat)
    (ch : tvct_channel) (s : service) :
    (vct_service_write rd buf b ch s).service_id = s.service_id := by
  obtain ⟨s1, h1, hid⟩ := parse_psip_descriptors_total rd (vct_short_name ch s) buf (b + 32)
    ch.descriptors_length.val
  unfold vct_service_write
  rw [h1]
  exact hid

theorem vct_service_write_channel_num (rd : psip_readers) (buf : List Nat) (b : Nat)
    (ch : tvct_channel) (s : service) :
    (vct_service_write rd buf b ch s).channel_num =
      (((ch.major_channel_number.val <<< 10) ||| ch.minor_channel_number.val : Nat) : Int) ∧
    (vct_service_write rd buf b ch s).running =
      (if ch.hidden.val ≠ 0 then RM_NOT_RUNNING else RM_RUNNING) :=
  ⟨rfl, rfl⟩

theorem report_write_frame (st : vct_state) (idx : Int) (f : channel_info → channel_info) :
    (report_write st idx f).tp = st.tp ∧ (report_write st idx f).pseudo_id = st.pseudo_id ∧
    (report_write st idx f).ingested = st.ingested ∧ (report_write st idx f).b = st.b :=
  ⟨rfl, rfl, rfl, rfl⟩

theorem report_header_frame (env : vct_env) (n status : Nat) (st : vct_state) :
    (report_header env n status st).tp = st.tp ∧
    (report_header env n status st).pseudo_id = st.pseudo_id ∧
    (report_header env n status st).ingested = st.ingested ∧
    (report_header env n status st).b = st.b :=
  ⟨rfl, rfl, rfl, rfl⟩

theorem report_vc_frame (env : vct_env) (i : Nat) (ch : tvct_channel) (s : service)
    (st : vct_state) :
    (report_vc env i ch s st).tp = st.tp ∧ (report_vc env i ch s st).pseudo_id = st.pseudo_id ∧
    (report_vc env i ch s st).ingested = st.ingested ∧ (report_vc env i ch s st).b = st.b :=
  ⟨rfl, rfl, rfl, rfl⟩

theorem parse_psip_vct_ingest_spec (rd : psip_readers) (env : vct_env) (buf : List Nat)
    (nc i : Nat) (ch : tvct_channel) (st : vct_state) :
    ∃ pass, parse_psip_vct_ingest rd env buf nc i ch st = some pass ∧
      pass.state.tp =
        { st.tp with
          services := upsert_in st.tp.services (vct_program_number ch st.pseudo_id).1
            st.tp.transport_stream_id (vct_service_write rd buf st.b ch) } ∧
      pass.state.pseudo_id = (vct_program_number ch st.pseudo_id).2 ∧
      pass.state.ingested = st.ingested ++ [(ch, (vct_program_number ch st.pseudo_id).1)] := by
  have htp := find_or_alloc_set_eq st.tp (vct_program_number ch st.pseudo_id).1
    (vct_service_write rd buf st.b ch)
  unfold parse_psip_vct_ingest
  simp only []
  generalize find_or_alloc_service st.tp (vct_program_number ch st.pseudo_id).1 = r at htp ⊢
  obtain ⟨tp1, si⟩ := r
  simp only [] at htp ⊢
  obtain ⟨s1, h1, _⟩ := parse_psip_descriptors_total rd (vct_short_name ch (service_at tp1 si))
    buf (st.b + 32) ch.descriptors_length.val
  have hw : vct_service_write rd buf st.b ch (service_at tp1 si) =
      vct_channel_num_running ch s1 := by
    unfold vct_service_write
    rw [h1]
    rfl
  rw [hw] at htp
  rw [h1]
  simp only []
  by_cases hs : env.save_channel_info = true
  · rw [if_pos hs]
    by_cases hi : i = 0
    · rw [if_pos hi]
      cases hst : env.fe.status with
      | none => exact ⟨_, rfl, htp, rfl, rfl⟩
      | some status =>
        simp only []
        refine ⟨_, rfl, ?_, ?_, ?_⟩
        · simp only [vct_pass.state, (report_vc_frame _ _ _ _ _).1,
            (report_header_frame _ _ _ _).1, htp]
        · simp only [vct_pass.state, (report_vc_frame _ _ _ _ _).2.1,
            (report_header_frame _ _ _ _).2.1]
        · simp only [vct_pass.state, (report_vc_frame _ _ _ _ _).2.2.1,
            (report_header_frame _ _ _ _).2.2.1]
    · rw [if_neg hi]
      refine ⟨_, rfl, ?_, ?_, ?_⟩
      · simp only [vct_pass.state, (report_vc_frame _ _ _ _ _).1, htp]
      · simp only [vct_pass.state, (report_vc_frame _ _ _ _ _).2.1]
      · simp only [vct_pass.state, (report_vc_frame _ _ _ _ _).2.2.1]
  · rw [if_neg hs]
    exact ⟨_, rfl, htp, rfl, rfl⟩

/-! ## Lemmas: the invariant of the VCT loop -/

theorem zero_program_length_le (l : List (tvct_channel × Int)) :
    (zero_program l).length ≤ l.length := List.length_filter_le _ _

theorem zero_program_append (l : List (tvct_channel × Int)) (e : tvct_channel × Int) :
    zero_program (l ++ [e]) =
      if e.1.program_number.val = 0 then zero_program l ++ [e] else zero_program l := by
  unfold zero_program
  by_cases h : e.1.program_number.val = 0
  · simp [List.filter_append, List.filter_cons, h]
  · simp [List.filter_append, List.filter_cons, h]

theorem vct_inv_ingest (rd : psip_readers) (buf : List Nat) (ch : tvct_channel)
    (st st1 : vct_state) (i : Nat) (h : vct_inv st) (hlen : st.ingested.length ≤ i)
    (hi : i < 256)
    (htp : st1.tp =
      { st.tp with
        services := upsert_in st.tp.services (vct_program_number ch st.pseudo_id).1
          st.tp.transport_stream_id (vct_service_write rd buf st.b ch) })
    (hps : st1.pseudo_id = (vct_program_number ch st.pseudo_id).2)
    (hin : st1.ingested = st.ingested ++ [(ch, (vct_program_number ch st.pseudo_id).1)]) :
    vct_inv st1 := by
  have hz := zero_program_length_le st.ingested
  have hpseudo := h.pseudo
  have hlook : ∀ sid1, lookup_service st1.tp sid1 =
      if sid1 = (vct_program_number ch st.pseudo_id).1 then
        some (vct_service_write rd buf st.b ch
          ((lookup_in st.tp.services (vct_program_number ch st.pseudo_id).1).getD
            { service_zero with
              service_id := (vct_program_number ch st.pseudo_id).1
              transport_stream_id := st.tp.transport_stream_id }))
      else lookup_service st.tp sid1 := by
    intro sid1
    rw [lookup_service_eq, htp]
    simp only []
    rw [lookup_in_upsert_in _ _ _ _
      (fun s hs => by rw [vct_service_write_service_id]; exact hs)]
    rfl
  have hkey0 : ch.program_number.val = 0 →
      (vct_program_number ch st.pseudo_id).1 = 0xfffe - ((zero_program st.ingested).length : Int) ∧
      (vct_program_number ch st.pseudo_id).2 = st.pseudo_id - 1 := by
    intro h0
    unfold vct_program_number
    rw [if_pos h0]
    simp only [and_true]
    omega
  have hkey1 : ch.program_number.val ≠ 0 →
      (vct_program_number ch st.pseudo_id).1 = (ch.program_number.val : Int) ∧
      (vct_program_number ch st.pseudo_id).2 = st.pseudo_id := by
    intro h0
    unfold vct_program_number
    rw [if_neg h0]
    exact ⟨rfl, rfl⟩
  refine ⟨?_, ?_, ?_, ?_, ?_⟩
  · rw [hps, hin, zero_program_append]
    by_cases h0 : ch.program_number.val = 0
    · rw [if_pos h0, (hkey0 h0).2, List.length_append, List.length_singleton]
      push_cast
      omega
    · rw [if_neg h0, (hkey1 h0).2]
      exact hpseudo
  · intro k e hk
    rw [hin, zero_program_append] at hk
    by_cases h0 : ch.program_number.val = 0
    · rw [if_pos h0] at hk
      by_cases hklt : k < (zero_program st.ingested).length
      · rw [List.getElem?_append_left hklt] at hk
        exact h.keys k e hk
      · rw [List.getElem?_append_right (by omega)] at hk
        have hk0 : k - (zero_program st.ingested).length = 0 := by
          by_contra hne
          rw [List.getElem?_eq_none (by simp only [List.length_singleton]; omega)] at hk
          exact Option.noConfusion hk
        rw [hk0] at hk
        simp only [List.getElem?_cons_zero, Option.some.injEq] at hk
        subst hk
        simp only []
        rw [(hkey0 h0).1]
        omega
    · rw [if_neg h0] at hk
      exact h.keys k e hk
  · intro e he hne
    rw [hin, List.mem_append, List.mem_singleton] at he
    rcases he with he | he
    · exact h.own_key e he hne
    · subst he
      exact (hkey1 hne).1
  · intro e he
    rw [hlook]
    split
    · exact ⟨_, rfl⟩
    · rw [hin, List.mem_append, List.mem_singleton] at he
      rcases he with he | he
      · exact h.stored e he
      · subst he
        rename_i hne
        exact absurd rfl hne
  · intro l1 e l2 hdec hl2
    rw [hin] at hdec
    rcases List.eq_nil_or_concat l2 with rfl | ⟨l3, x, rfl⟩
    · have hdec2 : st.ingested ++ [(ch, (vct_program_number ch st.pseudo_id).1)] =
          l1 ++ [e] := hdec
      have he := (List.append_inj' hdec2 rfl).2
      simp only [List.cons.injEq, and_true] at he
      subst he
      have hl := hlook (vct_program_number ch st.pseudo_id).1
      rw [if_pos rfl] at hl
      exact ⟨_, hl, (vct_service_write_channel_num rd buf st.b ch _).1,
        (vct_service_write_channel_num rd buf st.b ch _).2⟩
    · rw [List.concat_eq_append] at hdec hl2
      have hdec2 : st.ingested ++ [(ch, (vct_program_number ch st.pseudo_id).1)] =
          (l1 ++ e :: l3) ++ [x] := by
        rw [hdec]; simp
      have hsplit := List.append_inj' hdec2 rfl
      have hx := hsplit.2
      simp only [List.cons.injEq, and_true] at hx
      have hne : e.2 ≠ (vct_program_number ch st.pseudo_id).1 := by
        intro heq
        have := hl2 x (List.mem_append_right _ (List.mem_singleton_self x))
        rw [← hx] at this
        exact this heq.symm
      obtain ⟨s, hs, hc, hr⟩ := h.last l1 e l3 hsplit.1
        (fun e1 he1 => hl2 e1 (List.mem_append_left _ he1))
      refine ⟨s, ?_, hc, hr⟩
      rw [hlook, if_neg hne]
      exact hs

theorem parse_psip_vct_channel_inv (rd : psip_readers) (env : vct_env) (buf : List Nat)
    (nc i : Nat) (st : vct_state) (h : vct_inv st) (hlen : st.ingested.length ≤ i)
    (hi : i < 256) :
    ∃ pass, parse_psip_vct_channel rd env buf nc i st = some pass ∧ vct_inv pass.state ∧
      pass.state.ingested.length ≤ i + 1 := by
  have hing : ∃ pass, parse_psip_vct_ingest rd env buf nc i (rd.read_tvct_channel buf st.b) st =
      some pass ∧ vct_inv pass.state ∧ pass.state.ingested.length ≤ i + 1 := by
    obtain ⟨pass, hp, htp, hps, hin⟩ :=
      parse_psip_vct_ingest_spec rd env buf nc i (rd.read_tvct_channel buf st.b) st
    refine ⟨pass, hp, vct_inv_ingest rd buf _ st pass.state i h hlen hi htp hps hin, ?_⟩
    rw [hin, List.length_append, List.length_singleton]
    omega
  unfold parse_psip_vct_channel
  simp only []
  split
  · exact hing
  · split
    · exact hing
    · exact ⟨.next st, rfl, h, by simp only [vct_pass.state]; omega⟩

theorem parse_psip_vct_loop_inv (rd : psip_readers) (env : vct_env) (buf : List Nat)
    (nc n : Nat) :
    ∀ (i : Nat) (st : vct_state), vct_inv st → st.ingested.length ≤ i → i + n ≤ 256 →
      ∃ st1, parse_psip_vct_loop rd env buf nc n i st = some st1 ∧ vct_inv st1 := by
  induction n with
  | zero => intro i st h _ _; exact ⟨st, rfl, h⟩
  | succ n ih =>
    intro i st h hlen hi
    obtain ⟨pass, hp, hinv, hl⟩ :=
      parse_psip_vct_channel_inv rd env buf nc i st h hlen (by omega)
    unfold parse_psip_vct_loop
    rw [hp]
    cases pass with
    | ret st1 => exact ⟨st1, rfl, hinv⟩
    | next st1 => exact ih (i + 1) st1 hinv hl (by omega)

theorem byte_at_lt (buf : List Nat) (i : Nat) : byte_at buf i < 256 :=
  Nat.mod_lt _ (by decide)

theorem parse_psip_vct_inv (rd : psip_readers) (env : vct_env) (buf : List Nat)
    (section_length table_id tsid : Int) (tp : transponder) (pchan_info : List channel_info) :
    ∃ st, parse_psip_vct rd env buf section_length table_id tsid tp pchan_info = some st ∧
      vct_inv st := by
  unfold parse_psip_vct
  simp only []
  apply parse_psip_vct_loop_inv
  · exact
      { pseudo := rfl
        keys := fun k e hk => by simp [zero_program] at hk
        own_key := fun e he => absurd he (List.not_mem_nil _)
        stored := fun e he => absurd he (List.not_mem_nil _)
        last := fun l1 e l2 hdec => by simp at hdec }
  · exact Nat.le_refl _
  · have := byte_at_lt buf 1
    omega

theorem channel_num_bits (M m : Nat) (hm : m < 1024) :
    ((M <<< 10) ||| m) >>> 10 = M ∧ ((M <<< 10) ||| m) &&& 0x3ff = m := by
  have h := Nat.mul_add_lt_is_or (i := 10) (b := m) (by simpa using hm) M
  have hmask := Nat.and_pow_two_sub_one_eq_mod ((M <<< 10) ||| m) 10
  rw [Nat.shiftLeft_eq]
  rw [Nat.shiftLeft_eq] at hmask
  simp only [Nat.reducePow, Nat.add_one_sub_one] at h hmask ⊢
  rw [Nat.mul_comm M 1024, ← h] at hmask ⊢
  constructor
  · rw [Nat.shiftRight_eq_div_pow]
    simp only [Nat.reducePow]
    omega
  · have e : (0x3ff : Nat) = 1023 := rfl
    rw [hmask]
    omega

theorem parse_psip_vct_ingest_lookup (rd : psip_readers) (env : vct_env) (buf : List Nat)
    (nc i : Nat) (ch : tvct_channel) (st : vct_state) :
    ∃ pass, parse_psip_vct_ingest rd env buf nc i ch st = some pass ∧
      ∃ s, lookup_service pass.state.tp (vct_program_number ch st.pseudo_id).1 = some s ∧
        s.channel_num = vct_channel_num ch ∧ s.running = vct_running ch := by
  obtain ⟨pass, hp, htp, _, _⟩ := parse_psip_vct_ingest_spec rd env buf nc i ch st
  refine ⟨pass, hp, ?_⟩
  have hl := lookup_in_upsert_in st.tp.services (vct_program_number ch st.pseudo_id).1
    st.tp.transport_stream_id (vct_service_write rd buf st.b ch)
    (fun s hs => by rw [vct_service_write_service_id]; exact hs)
    (vct_program_number ch st.pseudo_id).1
  rw [if_pos rfl] at hl
  have hserv : pass.state.tp.services =
      upsert_in st.tp.services (vct_program_number ch st.pseudo_id).1
        st.tp.transport_stream_id (vct_service_write rd buf st.b ch) := by
    rw [htp]
  rw [← hserv] at hl
  exact ⟨_, hl, (vct_service_write_channel_num rd buf st.b ch _).1,
    (vct_service_write_channel_num rd buf st.b ch _).2⟩

/-! ## Lemmas: the channel report does not steer the VCT parser -/

theorem parse_psip_vct_ingest_next (rd : psip_readers) (env : vct_env) (buf : List Nat)
    (nc i : Nat) (ch : tvct_channel) (st : vct_state) (hok : report_ok env) :
    ∃ st1, parse_psip_vct_ingest rd env buf nc i ch st = some (.next st1) ∧
      st1.b = st.b + (32 + ch.descriptors_length.val) := by
  unfold parse_psip_vct_ingest
  simp only []
  generalize find_or_alloc_service st.tp (vct_program_number ch st.pseudo_id).1 = r
  obtain ⟨tp1, si⟩ := r
  simp only []
  obtain ⟨s1, h1, _⟩ := parse_psip_descriptors_total rd (vct_short_name ch (service_at tp1 si))
    buf (st.b + 32) ch.descriptors_length.val
  rw [h1]
  simp only []
  by_cases hs : env.save_channel_info = true
  · rw [if_pos hs]
    by_cases hi : i = 0
    · rw [if_pos hi]
      cases hst : env.fe.status with
      | none =>
        rcases hok with hok | hok
        · rw [hs] at hok; exact Bool.noConfusion hok
        · rw [hst] at hok; exact Bool.noConfusion hok
      | some status => exact ⟨_, rfl, rfl⟩
    · rw [if_neg hi]
      exact ⟨_, rfl, rfl⟩
  · rw [if_neg hs]
    exact ⟨_, rfl, rfl⟩

theorem parse_psip_vct_channel_core (rd : psip_readers) (env env1 : vct_env) (buf : List Nat)
    (nc nc1 i : Nat) (st st1 : vct_state) (hok : report_ok env) (hok1 : report_ok env1)
    (hcore : vct_core st = vct_core st1) :
    ∃ q q1, parse_psip_vct_channel rd env buf nc i st = some (.next q) ∧
      parse_psip_vct_channel rd env1 buf nc1 i st1 = some (.next q1) ∧
      vct_core q = vct_core q1 := by
  simp only [vct_core, Prod.mk.injEq] at hcore
  obtain ⟨htp, hb, hps, hin⟩ := hcore
  have hing : ∃ q q1,
      parse_psip_vct_ingest rd env buf nc i (rd.read_tvct_channel buf st.b) st =
        some (.next q) ∧
      parse_psip_vct_ingest rd env1 buf nc1 i (rd.read_tvct_channel buf st.b) st1 =
        some (.next q1) ∧
      vct_core q = vct_core q1 := by
    obtain ⟨q, hq, hqb⟩ :=
      parse_psip_vct_ingest_next rd env buf nc i (rd.read_tvct_channel buf st.b) st hok
    obtain ⟨q1, hq1, hqb1⟩ :=
      parse_psip_vct_ingest_next rd env1 buf nc1 i (rd.read_tvct_channel buf st.b) st1 hok1
    obtain ⟨pass, hp, h1, h2, h3⟩ :=
      parse_psip_vct_ingest_spec rd env buf nc i (rd.read_tvct_channel buf st.b) st
    obtain ⟨pass1, hp1, k1, k2, k3⟩ :=
      parse_psip_vct_ingest_spec rd env1 buf nc1 i (rd.read_tvct_channel buf st.b) st1
    rw [hq] at hp
    rw [hq1] at hp1
    cases hp
    cases hp1
    refine ⟨q, q1, hq, hq1, ?_⟩
    simp only [vct_pass.state] at h1 h2 h3 k1 k2 k3
    simp only [vct_core, Prod.mk.injEq]
    refine ⟨?_, ?_, ?_, ?_⟩
    · rw [h1, k1, htp, hb, hps]
    · rw [hqb, hqb1, hb]
    · rw [h2, k2, hps]
    · rw [h3, k3, hin, hps]
  unfold parse_psip_vct_channel
  simp only []
  rw [← hb]
  split
  · exact hing
  · split
    · exact hing
    · exact ⟨st, st1, rfl, rfl, by simp only [vct_core, htp, hb, hps, hin]⟩

theorem parse_psip_vct_loop_core (rd : psip_readers) (env env1 : vct_env) (buf : List Nat)
    (nc nc1 : Nat) (hok : report_ok env) (hok1 : report_ok env1) (n : Nat) :
    ∀ (i : Nat) (st st1 : vct_state), vct_core st = vct_core st1 →
      (parse_psip_vct_loop rd env buf nc n i st).map vct_core =
        (parse_psip_vct_loop rd env1 buf nc1 n i st1).map vct_core := by
  induction n with
  | zero =>
    intro i st st1 hcore
    simp only [parse_psip_vct_loop, Option.map_some', hcore]
  | succ n ih =>
    intro i st st1 hcore
    obtain ⟨q, q1, hq, hq1, hqq⟩ :=
      parse_psip_vct_channel_core rd env env1 buf nc nc1 i st st1 hok hok1 hcore
    unfold parse_psip_vct_loop
    rw [hq, hq1]
    exact ih (i + 1) q q1 hqq

theorem parse_psip_vct_core (rd : psip_readers) (env env1 : vct_env) (buf : List Nat)
    (section_length table_id tsid : Int) (tp : transponder)
    (pchan_info pchan_info1 : List channel_info) (hok : report_ok env)
    (hok1 : report_ok env1) :
    (parse_psip_vct rd env buf section_length table_id tsid tp pchan_info).map vct_core =
      (parse_psip_vct rd env1 buf section_length table_id tsid tp pchan_info1).map
        vct_core := by
  unfold parse_psip_vct
  simp only []
  exact parse_psip_vct_loop_core rd env env1 buf _ _ hok hok1 _ 0 _ _ rfl

/-! ## VCT: what the `switch` does with a record -/

/-- A record of a service type other than 0x01, 0x02, 0x03 stops the loop of
`parse_psip_vct` for any record reader: `continue` leaves the record pointer
where it is, so every later pass reads the same record, and the section is
left with the state it had when the record was met. -/
theorem parse_psip_vct_loop_skip (rd : psip_readers) (env : vct_env) (buf : List Nat)
    (nc : Nat) (st : vct_state)
    (h1 : (rd.read_tvct_channel buf st.b).service_type.val ≠ 0x01)
    (h2 : (rd.read_tvct_channel buf st.b).service_type.val ≠ 0x02)
    (h3 : (rd.read_tvct_channel buf st.b).service_type.val ≠ 0x03) (n : Nat) :
    ∀ i, parse_psip_vct_loop rd env buf nc n i st = some st := by
  induction n with
  | zero => intro i; rfl
  | succ n ih =>
    intro i
    have hc : parse_psip_vct_channel rd env buf nc i st = some (.next st) := by
      unfold parse_psip_vct_channel
      simp only []
      rw [if_neg h1, if_neg (by rintro (h | h); exact h2 h; exact h3 h)]
    unfold parse_psip_vct_loop
    rw [hc]
    exact ih (i + 1)

/-- A record of service type 0x01 (analog) takes the same path through the loop
body of `parse_psip_vct` as the types 0x02 and 0x03, for any record reader. -/
theorem parse_psip_vct_channel_analog (rd : psip_readers) (env : vct_env) (buf : List Nat)
    (nc i : Nat) (st : vct_state)
    (h1 : (rd.read_tvct_channel buf st.b).service_type.val = 0x01) :
    parse_psip_vct_channel rd env buf nc i st =
      parse_psip_vct_ingest rd env buf nc i (rd.read_tvct_channel buf st.b) st := by
  unfold parse_psip_vct_channel
  simp only []
  rw [if_pos h1]

/-! ## Lemmas: `is_same_transponder` and `find_transponder` -/

/-- The distance of two frequencies. -/
theorem is_same_transponder_iff (f1 f2 : Nat) :
    (is_same_transponder f1 f2 = 1 ↔ f1 - f2 < 2000 ∧ f2 - f1 < 2000) ∧
    (is_same_transponder f1 f2 = 0 ↔ 2000 ≤ f1 - f2 ∨ 2000 ≤ f2 - f1) ∧
    (is_same_transponder f1 f2 ≠ 0 ↔ f1 - f2 < 2000 ∧ f2 - f1 < 2000) := by
  have h10 : (1 : Int) ≠ 0 := by decide
  have h01 : (0 : Int) ≠ 1 := by decide
  unfold is_same_transponder
  by_cases h : f1 = f2
  · subst h
    rw [if_pos rfl]
    exact ⟨⟨fun _ => by omega, fun _ => rfl⟩, ⟨fun hh => absurd hh h10, fun hh => by omega⟩,
      ⟨fun _ => by omega, fun _ => h10⟩⟩
  · rw [if_neg h]
    by_cases hgt : f1 > f2
    · simp only [hgt, if_true]
      by_cases hd : f1 - f2 < 2000
      · rw [if_pos hd]
        exact ⟨⟨fun _ => by omega, fun _ => rfl⟩, ⟨fun hh => absurd hh h10, fun hh => by omega⟩,
          ⟨fun _ => by omega, fun _ => h10⟩⟩
      · rw [if_neg hd]
        exact ⟨⟨fun hh => absurd hh h01, fun hh => by omega⟩, ⟨fun _ => by omega, fun _ => rfl⟩,
          ⟨fun hh => absurd rfl hh, fun hh => by omega⟩⟩
    · simp only [hgt, if_false]
      by_cases hd : f2 - f1 < 2000
      · rw [if_pos hd]
        exact ⟨⟨fun _ => by omega, fun _ => rfl⟩, ⟨fun hh => absurd hh h10, fun hh => by omega⟩,
          ⟨fun _ => by omega, fun _ => h10⟩⟩
      · rw [if_neg hd]
        exact ⟨⟨fun hh => absurd hh h01, fun hh => by omega⟩, ⟨fun _ => by omega, fun _ => rfl⟩,
          ⟨fun hh => absurd rfl hh, fun hh => by omega⟩⟩

theorem find_transponder_new_eq (tps : Nat → transponder) (f : Nat) (l : List Nat) :
    find_transponder_new tps f l =
      l.find? (fun a => decide (is_same_transponder (tps a).frequency f ≠ 0)) := by
  induction l with
  | nil => rfl
  | cons a l ih =>
    unfold find_transponder_new
    by_cases h : is_same_transponder (tps a).frequency f ≠ 0
    · rw [if_pos h]
      simp [List.find?_cons, h]
    · rw [if_neg h, ih]
      simp only [ne_eq, Decidable.not_not] at h
      simp [List.find?_cons, h]

theorem find_transponder_scanned_eq (tps : Nat → transponder) (f : Nat) (l : List Nat) :
    find_transponder_scanned false tps f l =
      l.find? (fun a => decide (is_same_transponder (tps a).frequency f ≠ 0)) := by
  induction l with
  | nil => rfl
  | cons a l ih =>
    unfold find_transponder_scanned
    simp only [Bool.false_eq_true, if_false]
    by_cases h : is_same_transponder (tps a).frequency f ≠ 0
    · rw [if_pos h]
      simp [List.find?_cons, h]
    · rw [if_neg h, ih]
      simp only [ne_eq, Decidable.not_not] at h
      simp [List.find?_cons, h]

theorem find_transponder_eq (st : tp_store) (f : Nat) :
    find_transponder false st f =
      (st.scanned_transponders ++ st.new_transponders).find?
        (fun a => decide (is_same_transponder (st.tps a).frequency f ≠ 0)) := by
  unfold find_transponder
  rw [find_transponder_scanned_eq, find_transponder_new_eq, List.find?_append]
  cases List.find? (fun a => decide (is_same_transponder (st.tps a).frequency f ≠ 0))
    st.scanned_transponders <;> rfl

/-! ## Lemmas: the transponder store -/

theorem same_links_refl (st : tp_store) : same_links st st :=
  ⟨rfl, rfl, rfl, fun a => ⟨(st.tps a).last_tuning_failed, rfl⟩⟩

theorem same_links_trans {st st1 st2 : tp_store} (h1 : same_links st st1)
    (h2 : same_links st1 st2) : same_links st st2 := by
  obtain ⟨a1, b1, c1, d1⟩ := h1
  obtain ⟨a2, b2, c2, d2⟩ := h2
  refine ⟨a2.trans a1, b2.trans b1, c2.trans c1, fun a => ?_⟩
  obtain ⟨l1, e1⟩ := d1 a
  obtain ⟨l2, e2⟩ := d2 a
  exact ⟨l2, by rw [e2, e1]⟩

theorem same_links_write_ltf (st : tp_store) (t ltf : Nat) :
    same_links st (write_tp st t (fun d => { d with last_tuning_failed := ltf })) := by
  refine ⟨rfl, rfl, rfl, fun a => ?_⟩
  unfold write_tp
  by_cases h : a = t
  · subst h
    exact ⟨ltf, by simp⟩
  · exact ⟨(st.tps a).last_tuning_failed, by simp [Function.update_noteq h]⟩

theorem same_links_inner (st : tp_store) (t : Nat) (rep : tune_reply) :
    same_links st (tune_to_transponder_inner st t rep).1 := by
  unfold tune_to_transponder_inner
  simp only []
  split_ifs
  · exact same_links_refl st
  · exact same_links_refl st
  · split
    · exact same_links_write_ltf _ t 0
    · exact same_links_refl st
    · exact same_links_write_ltf _ t 1

theorem same_links_tune_tail (st2 : tp_store) (t : Nat) (rep : tune_to_reply) :
    same_links st2
      (if (st2.tps t).type ≠ st2.fe_info_type then
        (write_tp st2 t (fun d => { d with last_tuning_failed := 1 }), (-1 : Int))
      else
        if (tune_to_transponder_inner st2 t rep.first).2 = 0 then
          ((tune_to_transponder_inner st2 t rep.first).1, 0)
        else tune_to_transponder_inner (tune_to_transponder_inner st2 t rep.first).1 t
          rep.second).1 := by
  split_ifs
  · exact same_links_write_ltf _ t 1
  · exact same_links_inner _ t _
  · exact same_links_trans (same_links_inner _ t _) (same_links_inner _ t _)

theorem same_links_tune (st : tp_store) (t : Nat) (rep : tune_to_reply) :
    same_links (tune_to_transponder_move st t) (tune_to_transponder st t rep).1 := by
  have hfe : ∀ (s : tp_store) (x : Int), same_links s { s with fe_info_type := x } :=
    fun s x => ⟨rfl, rfl, rfl, fun a => ⟨(s.tps a).last_tuning_failed, rfl⟩⟩
  have h2 : same_links (tune_to_transponder_move st t)
      (if ((tune_to_transponder_move st t).tps t).type ≠
          (tune_to_transponder_move st t).fe_info_type ∧ rep.set_delivery_system = 0 then
        { tune_to_transponder_move st t with
          fe_info_type := ((tune_to_transponder_move st t).tps t).type }
       else tune_to_transponder_move st t) := by
    split_ifs
    · exact hfe _ _
    · exact same_links_refl _
  exact same_links_trans h2 (same_links_tune_tail _ t rep)

theorem same_links_field {st st1 : tp_store} (h : same_links st st1) (a : Nat) :
    (st1.tps a).scan_done = (st.tps a).scan_done ∧
    (st1.tps a).n_other_f = (st.tps a).n_other_f ∧
    (st1.tps a).other_f = (st.tps a).other_f ∧
    (st1.tps a).other_frequency_flag = (st.tps a).other_frequency_flag ∧
    (st1.tps a).frequency = (st.tps a).frequency ∧
    (st1.tps a).wrong_frequency = (st.tps a).wrong_frequency := by
  obtain ⟨l, e⟩ := h.2.2.2 a
  rw [e]
  exact ⟨rfl, rfl, rfl, rfl, rfl, rfl⟩

theorem store_inv_same_links {st st1 : tp_store} (h : same_links st st1) (hi : store_inv st) :
    store_inv st1 := by
  obtain ⟨⟨hn, hb⟩, ⟨hs, hp⟩, ho⟩ := hi
  have hf := same_links_field h
  obtain ⟨e1, e2, e3, _⟩ := h
  refine ⟨⟨?_, ?_⟩, ⟨?_, ?_⟩, ?_⟩
  · rw [e1, e2]; exact hn
  · rw [e1, e2, e3]; exact hb
  · intro a ha
    rw [e1] at ha
    rw [(hf a).1]; exact hs a ha
  · intro a ha
    rw [e2] at ha
    rw [(hf a).1]; exact hp a ha
  · intro a ha
    rw [e1, e2] at ha
    rw [(hf a).2.1]; exact ho a ha

theorem freq_inv_same_links {st st1 : tp_store} (h : same_links st st1) (hi : freq_inv st) :
    freq_inv st1 := by
  have hf := same_links_field h
  obtain ⟨e1, e2, _, _⟩ := h
  intro a ha b hb hab wa wb
  rw [e1, e2] at ha hb
  rw [(hf a).2.2.2.2.2] at wa
  rw [(hf b).2.2.2.2.2] at wb
  rw [(hf a).2.2.2.2.1, (hf b).2.2.2.2.1]
  exact hi a ha b hb hab wa wb

theorem write_tp_tps (st : tp_store) (t : Nat) (g : transponder → transponder) (a : Nat) :
    (write_tp st t g).tps a = if a = t then g (st.tps t) else st.tps a := by
  unfold write_tp
  by_cases h : a = t
  · subst h
    simp
  · simp [Function.update_noteq h, h]

theorem store_inv_push_new (st : tp_store) (d : transponder) (hd : d.scan_done = 0)
    (hn : 0 ≤ d.n_other_f) (hi : store_inv st) :
    store_inv
      { st with
        tps := Function.update st.tps st.next_tp d
        new_transponders := st.new_transponders ++ [st.next_tp]
        next_tp := st.next_tp + 1 } := by
  obtain ⟨⟨hnd, hb⟩, ⟨hs, hp⟩, ho⟩ := hi
  have hfresh : st.next_tp ∉ st.scanned_transponders ++ st.new_transponders :=
    fun h => absurd (hb _ h) (Nat.lt_irrefl _)
  have hne : ∀ a ∈ st.scanned_transponders ++ st.new_transponders, a ≠ st.next_tp :=
    fun a ha e => hfresh (e ▸ ha)
  refine ⟨⟨?_, ?_⟩, ⟨?_, ?_⟩, ?_⟩
  · show (st.scanned_transponders ++ (st.new_transponders ++ [st.next_tp])).Nodup
    rw [← List.append_assoc, List.nodup_append]
    refine ⟨hnd, List.nodup_singleton _, ?_⟩
    intro a ha hb2
    rw [List.mem_singleton] at hb2
    exact hne a ha hb2
  · intro a ha
    show a < st.next_tp + 1
    have ha2 : a ∈ st.scanned_transponders ++ (st.new_transponders ++ [st.next_tp]) := ha
    rw [← List.append_assoc, List.mem_append, List.mem_singleton] at ha2
    rcases ha2 with h | h
    · exact Nat.lt_succ_of_lt (hb a h)
    · omega
  · intro a ha
    have ha2 : a ∈ st.scanned_transponders := ha
    show (Function.update st.tps st.next_tp d a).scan_done = 1
    rw [Function.update_noteq (hne a (List.mem_append_left _ ha2))]
    exact hs a ha2
  · intro a ha
    have ha2 : a ∈ st.new_transponders ++ [st.next_tp] := ha
    show (Function.update st.tps st.next_tp d a).scan_done = 0
    rw [List.mem_append, List.mem_singleton] at ha2
    rcases ha2 with h | h
    · rw [Function.update_noteq (hne a (List.mem_append_right _ h))]
      exact hp a h
    · rw [h, Function.update_same]; exact hd
  · intro a ha
    have ha2 : a ∈ st.scanned_transponders ++ (st.new_transponders ++ [st.next_tp]) := ha
    show 0 ≤ (Function.update st.tps st.next_tp d a).n_other_f
    rw [← List.append_assoc, List.mem_append, List.mem_singleton] at ha2
    rcases ha2 with h | h
    · rw [Function.update_noteq (hne a h)]
      exact ho a h
    · rw [h, Function.update_same]; exact hn

theorem store_inv_push_scanned (st : tp_store) (d : transponder) (hd : d.scan_done = 1)
    (hn : 0 ≤ d.n_other_f) (hi : store_inv st) :
    store_inv
      { st with
        tps := Function.update st.tps st.next_tp d
        scanned_transponders := st.scanned_transponders ++ [st.next_tp]
        next_tp := st.next_tp + 1 } := by
  obtain ⟨⟨hnd, hb⟩, ⟨hs, hp⟩, ho⟩ := hi
  have hfresh : st.next_tp ∉ st.scanned_transponders ++ st.new_transponders :=
    fun h => absurd (hb _ h) (Nat.lt_irrefl _)
  have hne : ∀ a ∈ st.scanned_transponders ++ st.new_transponders, a ≠ st.next_tp :=
    fun a ha e => hfresh (e ▸ ha)
  have hmem : ∀ a, a ∈ (st.scanned_transponders ++ [st.next_tp]) ++ st.new_transponders ↔
      a ∈ st.scanned_transponders ++ st.new_transponders ∨ a = st.next_tp := by
    intro a
    simp only [List.mem_append, List.mem_singleton]
    tauto
  refine ⟨⟨?_, ?_⟩, ⟨?_, ?_⟩, ?_⟩
  · show ((st.scanned_transponders ++ [st.next_tp]) ++ st.new_transponders).Nodup
    rw [List.nodup_append] at hnd ⊢
    obtain ⟨h1, h2, h3⟩ := hnd
    refine ⟨?_, h2, ?_⟩
    · rw [List.nodup_append]
      refine ⟨h1, List.nodup_singleton _, ?_⟩
      intro a ha hb2
      rw [List.mem_singleton] at hb2
      exact hne a (List.mem_append_left _ ha) hb2
    · intro a ha hb2
      rw [List.mem_append, List.mem_singleton] at ha
      rcases ha with h | h
      · exact h3 h hb2
      · exact hne a (List.mem_append_right _ hb2) h
  · intro a ha
    show a < st.next_tp + 1
    rcases (hmem a).mp ha with h | h
    · exact Nat.lt_succ_of_lt (hb a h)
    · omega
  · intro a ha
    have ha2 : a ∈ st.scanned_transponders ++ [st.next_tp] := ha
    show (Function.update st.tps st.next_tp d a).scan_done = 1
    rw [List.mem_append, List.mem_singleton] at ha2
    rcases ha2 with h | h
    · rw [Function.update_noteq (hne a (List.mem_append_left _ h))]
      exact hs a h
    · rw [h, Function.update_same]; exact hd
  · intro a ha
    have ha2 : a ∈ st.new_transponders := ha
    show (Function.update st.tps st.next_tp d a).scan_done = 0
    rw [Function.update_noteq (hne a (List.mem_append_right _ ha2))]
    exact hp a ha2
  · intro a ha
    show 0 ≤ (Function.update st.tps st.next_tp d a).n_other_f
    rcases (hmem a).mp ha with h | h
    · rw [Function.update_noteq (hne a h)]
      exact ho a h
    · rw [h, Function.update_same]; exact hn

theorem store_inv_write (st : tp_store) (t : Nat) (g : transponder → transponder)
    (hd : (g (st.tps t)).scan_done = (st.tps t).scan_done)
    (hn : 0 ≤ (st.tps t).n_other_f → 0 ≤ (g (st.tps t)).n_other_f) (hi : store_inv st) :
    store_inv (write_tp st t g) := by
  obtain ⟨⟨hnd, hb⟩, ⟨hs, hp⟩, ho⟩ := hi
  have key : ∀ a, ((write_tp st t g).tps a).scan_done = (st.tps a).scan_done ∧
      (0 ≤ (st.tps a).n_other_f → 0 ≤ ((write_tp st t g).tps a).n_other_f) := by
    intro a
    rw [write_tp_tps]
    by_cases h : a = t
    · subst h
      rw [if_pos rfl]
      exact ⟨hd, hn⟩
    · rw [if_neg h]
      exact ⟨rfl, fun x => x⟩
  refine ⟨⟨hnd, hb⟩, ⟨?_, ?_⟩, ?_⟩
  · intro a ha
    rw [(key a).1]; exact hs a ha
  · intro a ha
    rw [(key a).1]; exact hp a ha
  · intro a ha
    exact (key a).2 (ho a ha)

theorem store_inv_move (st : tp_store) (t : Nat)
    (ht : t ∈ st.scanned_transponders ++ st.new_transponders) (hi : store_inv st) :
    store_inv (tune_to_transponder_move st t) := by
  obtain ⟨⟨hnd, hb⟩, ⟨hs, hp⟩, ho⟩ := hi
  rw [List.nodup_append] at hnd
  obtain ⟨h1, h2, h3⟩ := hnd
  have hmem : ∀ a, a ∈ (st.scanned_transponders.erase t ++ [t]) ++ st.new_transponders.erase t →
      a ∈ st.scanned_transponders ++ st.new_transponders := by
    intro a ha
    simp only [List.mem_append, List.mem_singleton] at ha
    rcases ha with (h | h) | h
    · exact List.mem_append_left _ (List.mem_of_mem_erase h)
    · rw [h]; exact ht
    · exact List.mem_append_right _ (List.mem_of_mem_erase h)
  have htps : ∀ a, (tune_to_transponder_move st t).tps a =
      if a = t then { st.tps t with scan_done := 1 } else st.tps a := by
    intro a
    unfold tune_to_transponder_move write_tp
    by_cases h : a = t
    · subst h; simp
    · simp [Function.update_noteq h, h]
  refine ⟨⟨?_, ?_⟩, ⟨?_, ?_⟩, ?_⟩
  · show ((st.scanned_transponders.erase t ++ [t]) ++ st.new_transponders.erase t).Nodup
    rw [List.nodup_append]
    refine ⟨?_, h2.erase t, ?_⟩
    · rw [List.nodup_append]
      refine ⟨h1.erase t, List.nodup_singleton _, ?_⟩
      intro a ha hb2
      rw [List.mem_singleton] at hb2
      rw [hb2] at ha
      exact (List.Nodup.mem_erase_iff h1).mp ha |>.1 rfl
    · intro a ha hb2
      rw [List.mem_append, List.mem_singleton] at ha
      rcases ha with h | h
      · exact h3 (List.mem_of_mem_erase h) (List.mem_of_mem_erase hb2)
      · rw [h] at hb2
        exact (List.Nodup.mem_erase_iff h2).mp hb2 |>.1 rfl
  · intro a ha
    exact hb a (hmem a ha)
  · intro a ha
    have ha2 : a ∈ st.scanned_transponders.erase t ++ [t] := ha
    rw [htps a]
    by_cases h : a = t
    · rw [if_pos h]
    · rw [if_neg h]
      rw [List.mem_append, List.mem_singleton] at ha2
      rcases ha2 with h5 | h5
      · exact hs a (List.mem_of_mem_erase h5)
      · exact absurd h5 h
  · intro a ha
    have ha2 : a ∈ st.new_transponders.erase t := ha
    have hne : a ≠ t := ((List.Nodup.mem_erase_iff h2).mp ha2).1
    rw [htps a, if_neg hne]
    exact hp a (List.mem_of_mem_erase ha2)
  · intro a ha
    rw [htps a]
    by_cases h : a = t
    · rw [if_pos h]
      exact ho t ht
    · rw [if_neg h]
      exact ho a (hmem a ha)

theorem store_inv_alloc (st : tp_store) (f : Nat) (hi : store_inv st) :
    store_inv (alloc_transponder st f).1 :=
  store_inv_push_new st _ rfl (le_refl _) hi

theorem store_inv_tune (st : tp_store) (t : Nat) (rep : tune_to_reply)
    (ht : t ∈ st.scanned_transponders ++ st.new_transponders) (hi : store_inv st) :
    store_inv (tune_to_transponder st t rep).1 :=
  store_inv_same_links (same_links_tune st t rep) (store_inv_move st t ht hi)

theorem add_wrong_frequency_stub_eq (st : tp_store) (t : Nat) :
    add_wrong_frequency_stub st t =
      { st with
        tps := Function.update st.tps st.next_tp
          (copy_transponder
            { transponder_zero with frequency := (st.tps t).frequency, wrong_frequency := 1 }
            (st.tps t))
        scanned_transponders := st.scanned_transponders ++ [st.next_tp]
        next_tp := st.next_tp + 1 } := by
  unfold add_wrong_frequency_stub write_tp
  simp only [Function.update_same, Function.update_idem]

theorem add_wrong_frequency_stub_tps (st : tp_store) (t a : Nat) (h : a ≠ st.next_tp) :
    (add_wrong_frequency_stub st t).tps a = st.tps a := by
  rw [add_wrong_frequency_stub_eq]
  exact Function.update_noteq h _ _

theorem not_mem_new_of_scanned {st : tp_store} (hi : store_inv st) {t : Nat}
    (ht : t ∈ st.scanned_transponders) : t ∉ st.new_transponders := by
  have h := hi.1.1
  rw [List.nodup_append] at h
  exact fun hn => h.2.2 ht hn

theorem tune_new_eq (st : tp_store) (t : Nat) (rep : tune_to_reply) :
    (tune_to_transponder st t rep).1.new_transponders = st.new_transponders.erase t ∧
    (tune_to_transponder st t rep).1.scanned_transponders =
      st.scanned_transponders.erase t ++ [t] ∧
    (tune_to_transponder st t rep).1.next_tp = st.next_tp ∧
    ((tune_to_transponder st t rep).1.tps t).n_other_f = (st.tps t).n_other_f := by
  have h := same_links_tune st t rep
  refine ⟨h.2.1, h.1, h.2.2.1, ?_⟩
  rw [(same_links_field h t).2.1]
  unfold tune_to_transponder_move
  rw [write_tp_tps, if_pos rfl]

theorem tune_retry_loop_inv (c : Bool) :
    ∀ (fuel : Nat) (lbl : tune_label) (st : tp_store) (t : Nat) (replies : Nat → tune_to_reply),
      store_inv st →
      (lbl = tune_label.retry → t ∈ st.scanned_transponders ++ st.new_transponders) →
      (lbl = tune_label.next → t ∈ st.scanned_transponders) →
      2 * (st.tps t).n_other_f.toNat + (if lbl = tune_label.retry then 2 else 1) ≤ fuel →
      ∃ st1 b, tune_retry_loop c fuel lbl st t replies = some (st1, b) ∧ store_inv st1 ∧
        st1.new_transponders = st.new_transponders.erase t := by
  intro fuel
  induction fuel with
  | zero =>
    intro lbl st t replies _ _ _ hf
    cases lbl <;> simp at hf
  | succ fuel ih =>
    intro lbl st t replies hi hr hn hf
    cases lbl with
    | retry =>
      have ht := hr rfl
      simp only [if_true] at hf
      unfold tune_retry_loop
      simp only []
      have hi1 := store_inv_tune st t (replies 0) ht hi
      obtain ⟨e1, e2, _, e4⟩ := tune_new_eq st t (replies 0)
      by_cases h0 : (tune_to_transponder st t (replies 0)).2 = 0
      · rw [if_pos h0]
        exact ⟨_, _, rfl, hi1, e1⟩
      · rw [if_neg h0]
        have hts : t ∈ (tune_to_transponder st t (replies 0)).1.scanned_transponders := by
          rw [e2]; simp
        obtain ⟨st1, b, hr1, hi2, hn2⟩ := ih tune_label.next _ t (fun k => replies (k + 1)) hi1
          (fun h => by cases h) (fun _ => hts) (by rw [e4]; simp; omega)
        refine ⟨st1, b, hr1, hi2, ?_⟩
        rw [hn2, List.erase_of_not_mem (not_mem_new_of_scanned hi1 hts), e1]
    | next =>
      have ht := hn rfl
      have htn : t ∉ st.new_transponders := not_mem_new_of_scanned hi ht
      have hlt : t < st.next_tp := hi.1.2 t (List.mem_append_left _ ht)
      have hge : 0 ≤ (st.tps t).n_other_f := hi.2.2 t (List.mem_append_left _ ht)
      simp only [reduceCtorEq, if_false] at hf
      unfold tune_retry_loop
      simp only []
      by_cases hc : (st.tps t).other_frequency_flag ≠ 0 ∧ (st.tps t).other_f ≠ [] ∧
          (st.tps t).n_other_f ≠ 0
      · rw [if_pos hc]
        have hi1 : store_inv (write_tp st t (fun d => { d with n_other_f := d.n_other_f - 1 })) :=
          store_inv_write st t _ rfl (fun _ => by show 0 ≤ (st.tps t).n_other_f - 1; omega) hi
        have hn1 : ((write_tp st t (fun d => { d with n_other_f := d.n_other_f - 1 })).tps
            t).n_other_f = (st.tps t).n_other_f - 1 := by
          rw [write_tp_tps, if_pos rfl]
        by_cases hfound : (find_transponder c
            (write_tp st t (fun d => { d with n_other_f := d.n_other_f - 1 }))
            ((st.tps t).other_f.getD ((st.tps t).n_other_f - 1).toNat 0)).isSome = true
        · rw [if_pos hfound]
          obtain ⟨st1, b, hr1, hi2, hn2⟩ := ih tune_label.next _ t replies hi1
            (fun h => by cases h) (fun _ => ht) (by rw [hn1]; simp; omega)
          refine ⟨st1, b, hr1, hi2, ?_⟩
          rw [hn2]
          rfl
        · rw [if_neg hfound]
          have hi2 : store_inv (add_wrong_frequency_stub
              (write_tp st t (fun d => { d with n_other_f := d.n_other_f - 1 })) t) := by
            rw [add_wrong_frequency_stub_eq]
            refine store_inv_push_scanned _ _ ?_ ?_ hi1
            · show ((write_tp st t _).tps t).scan_done = 1
              rw [write_tp_tps, if_pos rfl]
              exact hi.2.1.1 t ht
            · show 0 ≤ ((write_tp st t _).tps t).n_other_f
              rw [hn1]; omega
          have hi3 := store_inv_write _ t
            (fun d => { d with frequency :=
              (st.tps t).other_f.getD ((st.tps t).n_other_f - 1).toNat 0 }) rfl (fun x => x) hi2
          have hn3 : ((write_tp (add_wrong_frequency_stub
              (write_tp st t (fun d => { d with n_other_f := d.n_other_f - 1 })) t) t
              (fun d => { d with frequency :=
                (st.tps t).other_f.getD ((st.tps t).n_other_f - 1).toNat 0 })).tps t).n_other_f =
              (st.tps t).n_other_f - 1 := by
            rw [write_tp_tps, if_pos rfl]
            show ((add_wrong_frequency_stub _ t).tps t).n_other_f = _
            rw [add_wrong_frequency_stub_tps
              (write_tp st t (fun d => { d with n_other_f := d.n_other_f - 1 })) t t
              (Nat.ne_of_lt hlt), hn1]
          obtain ⟨st1, b, hr1, hi4, hn4⟩ := ih tune_label.retry _ t replies hi3
            (fun _ => by
              rw [add_wrong_frequency_stub_eq]
              show t ∈ (st.scanned_transponders ++ [st.next_tp]) ++ st.new_transponders
              simp [ht])
            (fun h => by cases h) (by rw [hn3]; simp; omega)
          refine ⟨st1, b, hr1, hi4, ?_⟩
          rw [hn4, add_wrong_frequency_stub_eq]
          rfl
      · rw [if_neg hc]
        exact ⟨st, false, rfl, hi, (List.erase_of_not_mem htn).symm⟩

theorem tune_to_next_loop_inv (c : Bool) (replies : Nat → Nat → tune_to_reply) :
    ∀ (l : List Nat) (st : tp_store), store_inv st → l.Nodup →
      (∀ a ∈ l, a ∈ st.new_transponders) →
      ∃ st1 rc, tune_to_next_loop c replies l st = some (st1, rc) ∧ store_inv st1 := by
  intro l
  induction l with
  | nil =>
    intro st hi _ _
    exact ⟨st, -1, rfl, hi⟩
  | cons t rest ih =>
    intro st hi hnd hsub
    have ht : t ∈ st.new_transponders := hsub t (List.mem_cons_self _ _)
    obtain ⟨st1, b, hr, hi1, hn1⟩ := tune_retry_loop_inv c (tune_retry_fuel (st.tps t))
      tune_label.retry st t (replies t) hi (fun _ => List.mem_append_right _ ht)
      (fun h => by cases h) (by unfold tune_retry_fuel; simp)
    unfold tune_to_next_loop
    rw [hr]
    cases b with
    | true => exact ⟨st1, 0, rfl, hi1⟩
    | false =>
      simp only []
      refine ih st1 hi1 (List.nodup_cons.mp hnd).2 ?_
      intro a ha
      rw [hn1]
      have hne : a ≠ t := fun e => (List.nodup_cons.mp hnd).1 (e ▸ ha)
      exact (List.mem_erase_of_ne hne).mpr (hsub a (List.mem_cons_of_mem _ ha))

theorem tune_to_next_transponder_inv (c : Bool) (replies : Nat → Nat → tune_to_reply)
    (st : tp_store) (hi : store_inv st) :
    ∃ st1 rc, tune_to_next_transponder c replies st = some (st1, rc) ∧ store_inv st1 := by
  have hnd := hi.1.1
  rw [List.nodup_append] at hnd
  exact tune_to_next_loop_inv c replies st.new_transponders st hi hnd.2.1 (fun a ha => ha)

theorem find_transponder_mem (c : Bool) (st : tp_store) (f t : Nat)
    (h : find_transponder c st f = some t) :
    t ∈ st.scanned_transponders ++ st.new_transponders := by
  have hs : ∀ l, find_transponder_scanned c st.tps f l = some t → t ∈ l := by
    intro l
    induction l with
    | nil => intro h; cases h
    | cons a l ih =>
      unfold find_transponder_scanned
      intro h
      split_ifs at h
      · cases h; exact List.mem_cons_self _ _
      · cases h; exact List.mem_cons_self _ _
      · exact List.mem_cons_of_mem _ (ih h)
  have hn : ∀ l, find_transponder_new st.tps f l = some t → t ∈ l := by
    intro l
    induction l with
    | nil => intro h; cases h
    | cons a l ih =>
      unfold find_transponder_new
      intro h
      split_ifs at h
      · cases h; exact List.mem_cons_self _ _
      · exact List.mem_cons_of_mem _ (ih h)
  unfold find_transponder at h
  cases hsc : find_transponder_scanned c st.tps f st.scanned_transponders with
  | some x =>
    rw [hsc] at h
    cases h
    exact List.mem_append_left _ (hs _ hsc)
  | none =>
    rw [hsc] at h
    exact List.mem_append_right _ (hn _ h)

theorem find_transponder_none (c : Bool) (st : tp_store) (f : Nat)
    (h : find_transponder c st f = none) :
    ∀ a ∈ st.scanned_transponders ++ st.new_transponders,
      is_same_transponder (st.tps a).frequency f = 0 := by
  have hs : ∀ l, find_transponder_scanned c st.tps f l = none →
      ∀ a ∈ l, is_same_transponder (st.tps a).frequency f = 0 := by
    intro l
    induction l with
    | nil => intro _ a ha; cases ha
    | cons x l ih =>
      unfold find_transponder_scanned
      intro h a ha
      split_ifs at h with h1 h2
      rcases List.mem_cons.mp ha with e | e
      · rw [e]; exact not_not.mp h2
      · exact ih h a e
  have hn : ∀ l, find_transponder_new st.tps f l = none →
      ∀ a ∈ l, is_same_transponder (st.tps a).frequency f = 0 := by
    intro l
    induction l with
    | nil => intro _ a ha; cases ha
    | cons x l ih =>
      unfold find_transponder_new
      intro h a ha
      split_ifs at h with h2
      rcases List.mem_cons.mp ha with e | e
      · rw [e]; exact not_not.mp h2
      · exact ih h a e
  unfold find_transponder at h
  cases hsc : find_transponder_scanned c st.tps f st.scanned_transponders with
  | some x => rw [hsc] at h; cases h
  | none =>
    rw [hsc] at h
    intro a ha
    rcases List.mem_append.mp ha with e | e
    · exact hs _ hsc a e
    · exact hn _ h a e

theorem is_same_transponder_comm (f1 f2 : Nat) :
    is_same_transponder f1 f2 = 0 ↔ is_same_transponder f2 f1 = 0 := by
  rw [(is_same_transponder_iff f1 f2).2.1, (is_same_transponder_iff f2 f1).2.1]
  exact or_comm

theorem store_inv_empty (tps : Nat → transponder) (fe : Int) : store_inv (store_empty tps fe) :=
  ⟨⟨List.nodup_nil, fun _ h => absurd h (List.not_mem_nil _)⟩,
   ⟨fun _ h => absurd h (List.not_mem_nil _), fun _ h => absurd h (List.not_mem_nil _)⟩,
   fun _ h => absurd h (List.not_mem_nil _)⟩

theorem store_inv_seed : ∀ (n : Nat) (chan : Int) (st : tp_store), store_inv st →
    store_inv (seed_channels n chan st) := by
  intro n
  induction n with
  | zero => intro chan st hi; exact hi
  | succ n ih =>
    intro chan st hi
    unfold seed_channels
    exact ih _ _ (store_inv_write _ _ _ rfl (fun x => x) (store_inv_alloc st _ hi))

theorem store_inv_nit_alloc (c : Bool) (st : tp_store) (tn : transponder)
    (hsd : tn.scan_done = 0) (hno : 0 ≤ tn.n_other_f) (hi : store_inv st)
    (hf : find_transponder c st tn.frequency = none) : store_inv (nit_reconcile c st tn) := by
  unfold nit_reconcile
  split_ifs
  · rw [hf]
    refine store_inv_write _ _ _ ?_ (fun _ => hno) (store_inv_alloc st _ hi)
    show tn.scan_done = ((alloc_transponder st tn.frequency).1.tps st.next_tp).scan_done
    unfold alloc_transponder
    simp only [Function.update_same]
    exact hsd
  · exact hi

theorem store_inv_nit_pending (c : Bool) (st : tp_store) (tn : transponder) (t : Nat)
    (hsd : tn.scan_done = 0) (hno : 0 ≤ tn.n_other_f) (hi : store_inv st)
    (hf : find_transponder c st tn.frequency = some t) (ht : t ∈ st.new_transponders) :
    store_inv (nit_reconcile c st tn) := by
  unfold nit_reconcile
  split_ifs
  · rw [hf]
    refine store_inv_write _ _ _ ?_ (fun _ => hno) hi
    show tn.scan_done = (st.tps t).scan_done
    rw [hsd, hi.2.1.2 t ht]
  · exact hi

theorem nit_scanned_found (c : Bool) (st : tp_store) (tn : transponder) (t : Nat)
    (hsd : tn.scan_done = 0) (hno : 0 ≤ tn.n_other_f) (hi : store_inv st)
    (hty : tn.type = st.fe_info_type)
    (hf : find_transponder c st tn.frequency = some t) (ht : t ∈ st.scanned_transponders) :
    store_wf (nit_reconcile c st tn) ∧ other_f_inv (nit_reconcile c st tn) ∧
    (nit_reconcile c st tn).scanned_transponders = st.scanned_transponders ∧
    (nit_reconcile c st tn).new_transponders = st.new_transponders ∧
    (∀ a ∈ st.new_transponders, ((nit_reconcile c st tn).tps a).scan_done = 0) ∧
    (∀ a ∈ st.scanned_transponders, a ≠ t → ((nit_reconcile c st tn).tps a).scan_done = 1) ∧
    ((nit_reconcile c st tn).tps t).scan_done = 0 := by
  have htn := not_mem_new_of_scanned hi ht
  unfold nit_reconcile
  rw [if_pos hty, hf]
  simp only []
  refine ⟨hi.1, ?_, rfl, rfl, ?_, ?_, ?_⟩
  · intro a ha
    rw [write_tp_tps]
    split_ifs
    · exact hno
    · exact hi.2.2 a ha
  · intro a ha
    have hne : a ≠ t := fun e => htn (e ▸ ha)
    rw [write_tp_tps, if_neg hne]
    exact hi.2.1.2 a ha
  · intro a ha hne
    rw [write_tp_tps, if_neg hne]
    exact hi.2.1.1 a ha
  · rw [write_tp_tps, if_pos rfl]
    exact hsd

theorem seed_frequency_eq (i : Int) (hi : 2 ≤ i) (hj : i ≤ 51) :
    (seed_frequency i : Int) = atsc_chan_to_mhz i * 1000000 := by
  have hb : 57 ≤ atsc_chan_to_mhz i ∧ atsc_chan_to_mhz i ≤ 695 := by
    unfold atsc_chan_to_mhz
    split_ifs <;> omega
  unfold seed_frequency
  rw [Int.emod_eq_of_lt (by omega) (by omega)]
  exact Int.toNat_of_nonneg (by omega)

theorem seed_frequency_apart (i j : Int) (hi : 2 ≤ i) (hij : i < j) (hj : j ≤ 51) :
    seed_frequency i + 2000 ≤ seed_frequency j := by
  have e1 := seed_frequency_eq i hi (by omega)
  have e2 := seed_frequency_eq j (by omega) hj
  have hm : atsc_chan_to_mhz i + 6 ≤ atsc_chan_to_mhz j := by
    unfold atsc_chan_to_mhz
    split_ifs <;> omega
  omega

theorem seed_channels_succ (n : Nat) (chan : Int) (st : tp_store) :
    ∃ st1, seed_channels (n + 1) chan st = seed_channels n (chan + 1) st1 ∧
      st1.scanned_transponders = st.scanned_transponders ∧
      st1.new_transponders = st.new_transponders ++ [st.next_tp] ∧
      st1.next_tp = st.next_tp + 1 ∧
      (∀ a, a ≠ st.next_tp → st1.tps a = st.tps a) ∧
      (st1.tps st.next_tp).frequency = seed_frequency chan ∧
      (st1.tps st.next_tp).wrong_frequency = 0 := by
  refine ⟨_, rfl, rfl, rfl, rfl, ?_, ?_, ?_⟩
  · intro a ha
    rw [write_tp_tps]
    unfold alloc_transponder
    simp [ha, Function.update_noteq ha]
  · rw [write_tp_tps]
    unfold alloc_transponder seed_frequency
    simp
  · rw [write_tp_tps]
    unfold alloc_transponder
    simp [transponder_zero]

theorem seed_channels_spec : ∀ (n : Nat) (chan : Int) (st : tp_store),
    (seed_channels n chan st).scanned_transponders = st.scanned_transponders ∧
    (seed_channels n chan st).new_transponders =
      st.new_transponders ++ List.range' st.next_tp n ∧
    (∀ a, a < st.next_tp → (seed_channels n chan st).tps a = st.tps a) ∧
    (∀ i, i < n →
      ((seed_channels n chan st).tps (st.next_tp + i)).frequency = seed_frequency (chan + i) ∧
      ((seed_channels n chan st).tps (st.next_tp + i)).wrong_frequency = 0) := by
  intro n
  induction n with
  | zero =>
    intro chan st
    exact ⟨rfl, by simp [seed_channels], fun _ _ => rfl, fun i h => absurd h (Nat.not_lt_zero i)⟩
  | succ n ih =>
    intro chan st
    obtain ⟨st1, e0, e1, e2, e3, e4, e5, e6⟩ := seed_channels_succ n chan st
    obtain ⟨h1, h2, h3, h4⟩ := ih (chan + 1) st1
    rw [e0]
    rw [e3] at h2 h3 h4
    refine ⟨h1.trans e1, ?_, ?_, ?_⟩
    · rw [h2, e2, List.append_assoc]
      rfl
    · intro a ha
      rw [h3 a (Nat.lt_succ_of_lt ha), e4 a (Nat.ne_of_lt ha)]
    · intro i hi
      cases i with
      | zero =>
        rw [Nat.add_zero, h3 _ (Nat.lt_succ_self _), e5, e6]
        simp
      | succ k =>
        have := h4 k (Nat.lt_of_succ_lt_succ hi)
        have e7 : st.next_tp + (k + 1) = st.next_tp + 1 + k := by omega
        have e8 : chan + ((k + 1 : Nat) : Int) = chan + 1 + (k : Int) := by push_cast; ring
        rw [e7, e8]
        exact this

theorem freq_inv_seed (tps : Nat → transponder) (fe : Int) :
    freq_inv (seed_channels 50 2 (store_empty tps fe)) := by
  obtain ⟨h1, h2, _, h4⟩ := seed_channels_spec 50 2 (store_empty tps fe)
  have hz : (store_empty tps fe).next_tp = 0 := rfl
  have hmem : ∀ a, a ∈ (seed_channels 50 2 (store_empty tps fe)).scanned_transponders ++
      (seed_channels 50 2 (store_empty tps fe)).new_transponders → a < 50 := by
    intro a ha
    rw [h1, h2, hz] at ha
    simp [store_empty, List.mem_range'] at ha
    omega
  intro a ha b hb hab _ _
  have ha5 := hmem a ha
  have hb5 := hmem b hb
  have fa := (h4 a ha5).1
  have fb := (h4 b hb5).1
  rw [hz, Nat.zero_add] at fa fb
  rw [fa, fb, (is_same_transponder_iff _ _).2.1]
  rcases Nat.lt_or_gt_of_ne hab with h | h
  · have := seed_frequency_apart (2 + (a : Int)) (2 + (b : Int)) (by omega) (by omega) (by omega)
    omega
  · have := seed_frequency_apart (2 + (b : Int)) (2 + (a : Int)) (by omega) (by omega) (by omega)
    omega

theorem freq_inv_write (st : tp_store) (t : Nat) (g : transponder → transponder)
    (hp : ∀ b ∈ st.scanned_transponders ++ st.new_transponders, b ≠ t →
      (st.tps b).wrong_frequency = 0 →
      is_same_transponder (st.tps b).frequency (g (st.tps t)).frequency = 0)
    (hi : freq_inv st) : freq_inv (write_tp st t g) := by
  intro a ha b hb hab wa wb
  have ha2 : a ∈ st.scanned_transponders ++ st.new_transponders := ha
  have hb2 : b ∈ st.scanned_transponders ++ st.new_transponders := hb
  rw [write_tp_tps] at wa wb ⊢
  rw [write_tp_tps]
  by_cases h1 : a = t
  · have h2 : b ≠ t := fun e => hab (h1.trans e.symm)
    rw [if_neg h2] at wb ⊢
    rw [if_pos h1]
    exact (is_same_transponder_comm _ _).mp (hp b hb2 h2 wb)
  · rw [if_neg h1] at wa ⊢
    by_cases h2 : b = t
    · rw [if_pos h2]
      exact hp a ha2 h1 wa
    · rw [if_neg h2] at wb ⊢
      exact hi a ha2 b hb2 hab wa wb

theorem freq_inv_push_new (st : tp_store) (d : transponder) (hwf : store_wf st)
    (hp : ∀ b ∈ st.scanned_transponders ++ st.new_transponders,
      is_same_transponder (st.tps b).frequency d.frequency = 0)
    (hi : freq_inv st) :
    freq_inv
      { st with
        tps := Function.update st.tps st.next_tp d
        new_transponders := st.new_transponders ++ [st.next_tp]
        next_tp := st.next_tp + 1 } := by
  have hmem : ∀ a, a ∈ st.scanned_transponders ++ (st.new_transponders ++ [st.next_tp]) →
      (a ∈ st.scanned_transponders ++ st.new_transponders ∧ a ≠ st.next_tp) ∨
        a = st.next_tp := by
    intro a ha
    rw [← List.append_assoc, List.mem_append, List.mem_singleton] at ha
    rcases ha with h | h
    · exact Or.inl ⟨h, Nat.ne_of_lt (hwf.2 a h)⟩
    · exact Or.inr h
  intro a ha b hb hab wa wb
  show is_same_transponder (Function.update st.tps st.next_tp d a).frequency
    (Function.update st.tps st.next_tp d b).frequency = 0
  have wa2 : (Function.update st.tps st.next_tp d a).wrong_frequency = 0 := wa
  have wb2 : (Function.update st.tps st.next_tp d b).wrong_frequency = 0 := wb
  rcases hmem a ha with ⟨ha1, ha2⟩ | ha1
  · rw [Function.update_noteq ha2] at wa2 ⊢
    rcases hmem b hb with ⟨hb1, hb2⟩ | hb1
    · rw [Function.update_noteq hb2] at wb2 ⊢
      exact hi a ha1 b hb1 hab wa2 wb2
    · rw [hb1, Function.update_same]
      exact hp a ha1
  · rcases hmem b hb with ⟨hb1, hb2⟩ | hb1
    · rw [ha1, Function.update_same, Function.update_noteq hb2]
      exact (is_same_transponder_comm _ _).mp (hp b hb1)
    · exact absurd (ha1.trans hb1.symm) hab

theorem freq_inv_nit (c : Bool) (st : tp_store) (tn : transponder) (hwf : store_wf st)
    (hi : freq_inv st)
    (hp : ∀ b ∈ st.scanned_transponders ++ st.new_transponders,
      find_transponder c st tn.frequency ≠ some b → (st.tps b).wrong_frequency = 0 →
      is_same_transponder (st.tps b).frequency tn.frequency = 0) :
    freq_inv (nit_reconcile c st tn) := by
  unfold nit_reconcile
  split_ifs
  · cases hf : find_transponder c st tn.frequency with
    | some t =>
      simp only []
      refine freq_inv_write st t _ ?_ hi
      intro b hb hbt wb
      refine hp b hb ?_ wb
      rw [hf]
      exact fun e => hbt (Option.some.inj e).symm
    | none =>
      simp only []
      refine freq_inv_write _ _ _ ?_ ?_
      · intro b hb hbt wb
        have hb2 : b ∈ st.scanned_transponders ++ (st.new_transponders ++ [st.next_tp]) := hb
        rw [← List.append_assoc, List.mem_append, List.mem_singleton] at hb2
        rcases hb2 with h | h
        · have hne : b ≠ st.next_tp := Nat.ne_of_lt (hwf.2 b h)
          show is_same_transponder
            (Function.update st.tps st.next_tp _ b).frequency tn.frequency = 0
          rw [Function.update_noteq hne]
          exact find_transponder_none c st tn.frequency hf b h
        · exact absurd h hbt
      · exact freq_inv_push_new st _ hwf (find_transponder_none c st tn.frequency hf) hi
  · exact hi

/-! ## Lemmas: the decoders return -/

theorem parse_descriptors_loop_total (cfg : scan_config) (t : table_type) (buf : List Nat) :
    ∀ (fuel off : Nat) (len : Int) (data : desc_data) (st : tp_store), len.toNat ≤ fuel →
      ∃ r, parse_descriptors_loop cfg t buf fuel off len data st = some r := by
  intro fuel
  induction fuel with
  | zero =>
    intro off len data st h
    unfold parse_descriptors_loop
    have : ¬ len > 0 := by omega
    rw [if_neg this]
    exact ⟨_, rfl⟩
  | succ fuel ih =>
    intro off len data st h
    unfold parse_descriptors_loop
    by_cases hl : len > 0
    · rw [if_pos hl]
      simp only []
      by_cases hd : (byte_at buf (off + 1) + 2) % 256 = 0
      · rw [if_pos hd]
        exact ⟨_, rfl⟩
      · rw [if_neg hd]
        exact ih _ _ _ _ (by omega)
    · rw [if_neg hl]
      exact ⟨_, rfl⟩

theorem parse_descriptors_total (cfg : scan_config) (t : table_type) (buf : List Nat)
    (off : Nat) (len : Int) (data : desc_data) (st : tp_store) :
    ∃ r, parse_descriptors cfg t buf off len data st = some r :=
  parse_descriptors_loop_total cfg t buf _ off len data st (Nat.le_refl _)

theorem find_descriptor_loop_total (tag : Nat) (buf : List Nat) :
    ∀ (fuel off : Nat) (len : Int), len.toNat ≤ fuel →
      ∃ r, find_descriptor_loop tag buf fuel off len = some r := by
  intro fuel
  induction fuel with
  | zero =>
    intro off len h
    unfold find_descriptor_loop
    have : ¬ len > 0 := by omega
    rw [if_neg this]
    exact ⟨_, rfl⟩
  | succ fuel ih =>
    intro off len h
    unfold find_descriptor_loop
    by_cases hl : len > 0
    · rw [if_pos hl]
      simp only []
      by_cases hd : (byte_at buf (off + 1) + 2) % 256 = 0
      · rw [if_pos hd]
        exact ⟨_, rfl⟩
      · rw [if_neg hd]
        by_cases ht : tag = byte_at buf off
        · rw [if_pos ht]
          exact ⟨_, rfl⟩
        · rw [if_neg ht]
          exact ih _ _ (by omega)
    · rw [if_neg hl]
      exact ⟨_, rfl⟩

theorem find_descriptor_total (tag : Nat) (buf : List Nat) (off : Nat) (len : Int) :
    ∃ r, find_descriptor tag buf off len = some r :=
  find_descriptor_loop_total tag buf _ off len (Nat.le_refl _)

theorem parse_descriptors_ne_none (cfg : scan_config) (t : table_type) (buf : List Nat)
    (off : Nat) (len : Int) (data : desc_data) (st : tp_store) :
    parse_descriptors cfg t buf off len data st ≠ none := by
  obtain ⟨r, hr⟩ := parse_descriptors_total cfg t buf off len data st
  rw [hr]
  exact Option.some_ne_none r

theorem find_descriptor_ne_none (tag : Nat) (buf : List Nat) (off : Nat) (len : Int) :
    find_descriptor tag buf off len ≠ none := by
  obtain ⟨r, hr⟩ := find_descriptor_total tag buf off len
  rw [hr]
  exact Option.some_ne_none r

theorem parse_pmt_stream_ne_none (cfg : scan_config) (buf : List Nat) (off : Nat) (s : service)
    (st : tp_store) : parse_pmt_stream cfg buf off s st ≠ none := by
  unfold parse_pmt_stream
  simp only []
  split_ifs <;>
    repeat' first
      | exact Option.some_ne_none _
      | (split <;> try (rename_i heq; first
          | exact absurd heq (parse_descriptors_ne_none _ _ _ _ _ _ _)
          | exact absurd heq (find_descriptor_ne_none _ _ _ _)))

theorem parse_pmt_loop_ne_none (cfg : scan_config) (buf : List Nat) :
    ∀ (fuel off : Nat) (len : Int) (s : service) (st : tp_store), len.toNat ≤ fuel →
      parse_pmt_loop cfg buf fuel off len s st ≠ none := by
  intro fuel
  induction fuel with
  | zero =>
    intro off len s st h
    unfold parse_pmt_loop
    have : ¬ len ≥ 5 := by omega
    rw [if_neg this]
    exact Option.some_ne_none _
  | succ fuel ih =>
    intro off len s st h
    unfold parse_pmt_loop
    by_cases hl : len ≥ 5
    · rw [if_pos hl]
      simp only []
      split
      · rename_i heq
        exact absurd heq (parse_pmt_stream_ne_none _ _ _ _ _)
      · exact ih _ _ _ _ (by omega)
    · rw [if_neg hl]
      exact Option.some_ne_none _

theorem parse_pmt_ne_none (cfg : scan_config) (buf : List Nat) (section_length service_id : Int)
    (st : tp_store) : parse_pmt cfg buf section_length service_id st ≠ none := by
  unfold parse_pmt
  split
  · exact Option.some_ne_none _
  · simp only []
    split
    · rename_i heq
      exact absurd heq (parse_pmt_loop_ne_none _ _ _ _ _ _ _ (Nat.le_refl _))
    · exact Option.some_ne_none _

theorem parse_sdt_entry_ne_none (cfg : scan_config) (buf : List Nat) (off : Nat)
    (st : tp_store) : parse_sdt_entry cfg buf off st ≠ none := by
  unfold parse_sdt_entry
  simp only []
  split
  · rename_i heq
    exact absurd heq (parse_descriptors_ne_none _ _ _ _ _ _ _)
  · exact Option.some_ne_none _

theorem parse_sdt_loop_ne_none (cfg : scan_config) (buf : List Nat) :
    ∀ (fuel off : Nat) (len : Int) (st : tp_store), len.toNat ≤ fuel →
      parse_sdt_loop cfg buf fuel off len st ≠ none := by
  intro fuel
  induction fuel with
  | zero =>
    intro off len st h
    unfold parse_sdt_loop
    have : ¬ len ≥ 5 := by omega
    rw [if_neg this]
    exact Option.some_ne_none _
  | succ fuel ih =>
    intro off len st h
    unfold parse_sdt_loop
    by_cases hl : len ≥ 5
    · rw [if_pos hl]
      simp only []
      split_ifs
      · exact Option.some_ne_none _
      · split
        · rename_i heq
          exact absurd heq (parse_sdt_entry_ne_none _ _ _ _)
        · exact ih _ _ _ (by omega)
    · rw [if_neg hl]
      exact Option.some_ne_none _

theorem parse_sdt_ne_none (cfg : scan_config) (buf : List Nat) (section_length tsid : Int)
    (st : tp_store) : parse_sdt cfg buf section_length tsid st ≠ none := by
  unfold parse_sdt
  exact parse_sdt_loop_ne_none _ _ _ _ _ _ (Nat.le_refl _)

theorem parse_nit_loop_ne_none (cfg : scan_config) (buf : List Nat) (network_id : Int) :
    ∀ (fuel off : Nat) (len : Int) (st : tp_store), len.toNat ≤ fuel →
      parse_nit_loop cfg buf network_id fuel off len st ≠ none := by
  intro fuel
  induction fuel with
  | zero =>
    intro off len st h
    unfold parse_nit_loop
    have : ¬ len > 6 := by omega
    rw [if_neg this]
    exact Option.some_ne_none _
  | succ fuel ih =>
    intro off len st h
    unfold parse_nit_loop
    by_cases hl : len > 6
    · rw [if_pos hl]
      simp only []
      split_ifs
      · exact Option.some_ne_none _
      · split
        · rename_i heq
          exact absurd heq (parse_descriptors_ne_none _ _ _ _ _ _ _)
        · exact ih _ _ _ (by omega)
    · rw [if_neg hl]
      exact Option.some_ne_none _

theorem parse_nit_ne_none (cfg : scan_config) (buf : List Nat) (section_length network_id : Int)
    (st : tp_store) : parse_nit cfg buf section_length network_id st ≠ none := by
  unfold parse_nit
  simp only []
  split_ifs
  · exact Option.some_ne_none _
  · split
    · rename_i heq
      exact absurd heq (parse_descriptors_ne_none _ _ _ _ _ _ _)
    · exact parse_nit_loop_ne_none _ _ _ _ _ _ _ (Nat.le_refl _)

theorem parse_pat_loop_ne_none (long_timeout : Bool) (buf : List Nat) :
    ∀ (fuel off : Nat) (len : Int) (st : pat_state), len.toNat ≤ fuel →
      parse_pat_loop long_timeout buf fuel off len st ≠ none := by
  intro fuel
  induction fuel with
  | zero =>
    intro off len st h
    unfold parse_pat_loop
    have : ¬ len > 0 := by omega
    rw [if_neg this]
    exact Option.some_ne_none _
  | succ fuel ih =>
    intro off len st h
    unfold parse_pat_loop
    by_cases hl : len > 0
    · rw [if_pos hl]
      exact ih _ _ _ (by omega)
    · rw [if_neg hl]
      exact Option.some_ne_none _

theorem parse_pat_ne_none (long_timeout : Bool) (buf : List Nat) (section_length tsid : Int)
    (tp : transponder) : parse_pat long_timeout buf section_length tsid tp ≠ none := by
  unfold parse_pat
  exact parse_pat_loop_ne_none _ _ _ _ _ _ (Nat.le_refl _)

theorem parse_psip_vct_ne_none (rd : psip_readers) (env : vct_env) (buf : List Nat)
    (section_length table_id tsid : Int) (tp : transponder) (pchan_info : List channel_info) :
    parse_psip_vct rd env buf section_length table_id tsid tp pchan_info ≠ none := by
  obtain ⟨r, hr, _⟩ := parse_psip_vct_inv rd env buf section_length table_id tsid tp pchan_info
  rw [hr]
  exact Option.some_ne_none r

theorem section_decode_spec (cfg : scan_config) (fe : fe_readings) (w : scan_world)
    (table_id : Nat) (buf : List Nat) (section_length table_id_ext : Int) :
    ∃ w1, section_decode cfg fe w table_id buf section_length table_id_ext = some w1 ∧
      w1.pool = w.pool ∧ w1.next_buf = w.next_buf := by
  unfold section_decode
  split_ifs
  · cases h : parse_pat cfg.long_timeout buf section_length table_id_ext
      (w.store.tps w.store.current_tp) with
    | none => exact absurd h (parse_pat_ne_none _ _ _ _ _)
    | some r => exact ⟨_, rfl, rfl, rfl⟩
  · cases h : parse_pmt cfg buf section_length table_id_ext w.store with
    | none => exact absurd h (parse_pmt_ne_none _ _ _ _ _)
    | some r => exact ⟨_, rfl, rfl, rfl⟩
  · cases h : parse_nit cfg buf section_length table_id_ext w.store with
    | none => exact absurd h (parse_nit_ne_none _ _ _ _ _)
    | some r => exact ⟨_, rfl, rfl, rfl⟩
  · cases h : parse_sdt cfg buf section_length table_id_ext w.store with
    | none => exact absurd h (parse_sdt_ne_none _ _ _ _ _)
    | some r => exact ⟨_, rfl, rfl, rfl⟩
  · cases h : parse_psip_vct cfg.rd
        { save_channel_info := cfg.save_channel_info, rf_chan := w.store.rf_chan, fe := fe }
        buf section_length table_id table_id_ext (w.store.tps w.store.current_tp)
        w.pchan_info with
    | none => exact absurd h (parse_psip_vct_ne_none _ _ _ _ _ _ _ _)
    | some r => exact ⟨_, rfl, rfl, rfl⟩
  · exact ⟨_, rfl, rfl, rfl⟩

/-! ## Lemmas: `parse_section` -/

theorem set_buf_bufs (w : scan_world) (s : Nat) (sb : section_buf) :
    (set_buf w s sb).pool.bufs = Function.update w.pool.bufs s sb := rfl

theorem parse_section_wrong_table (cfg : scan_config) (fe : fe_readings) (w : scan_world)
    (s : Nat) (buf : List Nat) (h : (w.pool.bufs s).table_id ≠ sec_table_id buf) :
    parse_section cfg fe w s buf = some (w, -1) := by
  unfold sec_table_id at h
  unfold parse_section
  simp only []
  rw [if_pos h]

theorem parse_section_short (cfg : scan_config) (fe : fe_readings) (w w1 : scan_world)
    (s t : Nat) (buf : List Nat) (h1 : (w.pool.bufs s).table_id = sec_table_id buf)
    (h2 : seg_route w s (sec_table_id buf) (sec_table_id_ext buf) (sec_version buf) =
      some (w1, t))
    (h3 : sec_length buf < 9) :
    parse_section cfg fe w s buf =
      some (set_buf w1 t
        (section_reset (w1.pool.bufs t) (sec_table_id_ext buf) (sec_version buf)), 0) := by
  unfold sec_table_id sec_table_id_ext sec_version sec_length at *
  unfold parse_section
  simp only []
  rw [if_neg (by rw [h1]; exact fun h => h rfl), h2]
  simp only []
  rw [if_pos (by omega)]

theorem parse_section_spec (cfg : scan_config) (fe : fe_readings) (w w1 : scan_world)
    (s t : Nat) (buf : List Nat) (h1 : (w.pool.bufs s).table_id = sec_table_id buf)
    (h2 : seg_route w s (sec_table_id buf) (sec_table_id_ext buf) (sec_version buf) =
      some (w1, t))
    (h3 : 9 ≤ sec_length buf) :
    ∃ w3 wd, parse_section cfg fe w s buf =
        some (w3, section_rc (section_handled (w1.pool.bufs t) buf)) ∧
      w3.pool.bufs =
        Function.update w1.pool.bufs t (section_handled (w1.pool.bufs t) buf) ∧
      w3.next_buf = w1.next_buf ∧
      w3.pool.running_filters = w1.pool.running_filters ∧
      w3.pool.waiting_filters = w1.pool.waiting_filters ∧
      (if get_bit (section_reset (w1.pool.bufs t) (sec_table_id_ext buf)
          (sec_version buf)).section_done (sec_number buf) = 0 then
        ∃ wm, wm.store = w1.store ∧ wm.pchan_info = w1.pchan_info ∧
          wm.out_of_bounds = w1.out_of_bounds ∧ wm.submitted = w1.submitted ∧
          section_decode cfg fe wm (sec_table_id buf) (buf.drop 8) (sec_length buf - 9)
            (sec_table_id_ext buf) = some wd
       else wd = w1) ∧
      w3.store = wd.store ∧ w3.pchan_info = wd.pchan_info ∧
      w3.out_of_bounds = wd.out_of_bounds ∧ w3.submitted = wd.submitted := by
  unfold section_handled
  unfold sec_table_id sec_table_id_ext sec_version sec_length sec_number sec_last at *
  unfold parse_section
  simp only []
  rw [if_neg (by rw [h1]; exact fun h => h rfl), h2]
  simp only []
  rw [if_neg (by omega)]
  have e9 : ∀ x : Int, x - (5 + 4) = x - 9 := fun x => by norm_num
  rw [e9]
  generalize ((((byte_at buf 3) <<< 8) ||| byte_at buf 4 : Nat) : Int) = ext
  generalize (((byte_at buf 5 >>> 1) &&& 0x1f : Nat) : Int) = ver
  generalize ((((byte_at buf 1 &&& 0x0f) <<< 8) ||| byte_at buf 2 : Nat) : Int) - 9 = len
  generalize byte_at buf 6 = n
  generalize byte_at buf 7 = last
  generalize byte_at buf 0 = tid
  simp only [set_buf_bufs, Function.update_same]
  generalize section_reset (w1.pool.bufs t) ext ver = sb
  by_cases hb : get_bit sb.section_done n = 0
  · simp only [if_pos hb]
    unfold section_new
    simp only [set_buf_bufs, Function.update_same]
    obtain ⟨wd, hd, hp, hn⟩ := section_decode_spec cfg fe
      (set_buf (set_buf w1 t sb) t { sb with section_done := set_bit sb.section_done n })
      tid (buf.drop 8) len ext
    rw [hd]
    simp only [hp, set_buf_bufs, Function.update_same, Function.update_idem]
    unfold section_mark section_rc
    by_cases hs : sections_scan (set_bit sb.section_done n) last (last + 1) 0 > last
    · simp only [hs, if_true, set_buf_bufs, Function.update_same, hp, Function.update_idem]
      split_ifs <;>
        exact ⟨_, wd, rfl, by simp [set_buf, hp, Function.update_idem], hn,
          by simp [set_buf, hp], by simp [set_buf, hp], ⟨set_buf (set_buf w1 t sb) t { sb with section_done := set_bit sb.section_done n },
            rfl, rfl, rfl, rfl, hd⟩,
          rfl, rfl, rfl, rfl⟩
    · simp only [hs, if_false, set_buf_bufs, Function.update_same, hp, Function.update_idem]
      split_ifs <;>
        exact ⟨_, wd, rfl, by simp [set_buf, hp, Function.update_idem], hn,
          by simp [set_buf, hp], by simp [set_buf, hp], ⟨set_buf (set_buf w1 t sb) t { sb with section_done := set_bit sb.section_done n },
            rfl, rfl, rfl, rfl, hd⟩,
          rfl, rfl, rfl, rfl⟩
  · simp only [if_neg hb]
    simp only [set_buf_bufs, Function.update_same]
    unfold section_rc
    split_ifs <;> exact ⟨_, w1, rfl, rfl, rfl, rfl, rfl, rfl, rfl, rfl, rfl, rfl⟩

/-! ## Lemmas: the section bitmap -/

theorem get_bit_eq (sd : List Nat) (i : Nat) :
    get_bit sd i = if (sd.getD (i / 8) 0).testBit (i % 8) then 1 else 0 := by
  unfold get_bit
  generalize sd.getD (i / 8) 0 = b
  rw [Nat.and_one_is_mod, Nat.shiftRight_eq_div_pow, Nat.testBit_to_div_mod]
  by_cases h : b / 2 ^ (i % 8) % 2 = 1
  · rw [h]
    simp
  · have h0 : b / 2 ^ (i % 8) % 2 = 0 := by omega
    rw [h0]
    simp

theorem get_bit_le_one (sd : List Nat) (i : Nat) : get_bit sd i = 0 ∨ get_bit sd i = 1 := by
  rw [get_bit_eq]
  split_ifs
  · exact Or.inr rfl
  · exact Or.inl rfl

theorem get_bit_zero (i : Nat) : get_bit (List.replicate 32 0) i = 0 := by
  rw [get_bit_eq]
  have : (List.replicate 32 0).getD (i / 8) 0 = 0 := by
    rw [List.getD_eq_getElem?_getD]
    by_cases h : i / 8 < 32
    · rw [List.getElem?_eq_getElem (by rw [List.length_replicate]; exact h),
        List.getElem_replicate]
      rfl
    · rw [List.getElem?_eq_none (by rw [List.length_replicate]; omega)]
      rfl
  rw [this]
  simp

theorem get_bit_set_bit (sd : List Nat) (n i : Nat) (hl : sd.length = 32) (hn : n < 256) :
    get_bit (set_bit sd n) i = if i = n then 1 else get_bit sd i := by
  rw [get_bit_eq, get_bit_eq]
  unfold set_bit
  have hn8 : n / 8 < sd.length := by omega
  by_cases hb : i / 8 = n / 8
  · rw [hb, List.getD_eq_getElem?_getD, List.getElem?_set_self hn8]
    simp only [Option.getD_some]
    generalize sd.getD (n / 8) 0 = b
    have tb : ∀ x j : Nat, (x % 256).testBit j = (decide (j < 8) && x.testBit j) :=
      fun x j => Nat.testBit_mod_two_pow x 8 j
    simp only [tb, Nat.testBit_or, Nat.one_shiftLeft, Nat.testBit_two_pow]
    have hi8 : i % 8 < 8 := Nat.mod_lt _ (by norm_num)
    by_cases hin : i = n
    · subst hin
      simp [hi8]
    · have hne : n % 8 ≠ i % 8 := by omega
      simp [hi8, hne, hin]
  · rw [List.getD_eq_getElem?_getD, List.getElem?_set_ne (fun e => hb e.symm),
      ← List.getD_eq_getElem?_getD]
    have hin : i ≠ n := fun e => hb (by rw [e])
    rw [if_neg hin]

theorem set_bit_length (sd : List Nat) (n : Nat) : (set_bit sd n).length = sd.length := by
  unfold set_bit
  simp

theorem sections_scan_spec (sd : List Nat) (last : Nat) :
    ∀ (fuel i : Nat), i + fuel = last + 1 →
      (sections_scan sd last fuel i > last ↔ ∀ j, i ≤ j → j ≤ last → get_bit sd j ≠ 0) := by
  intro fuel
  induction fuel with
  | zero =>
    intro i hi
    unfold sections_scan
    constructor
    · intro _ j h1 h2
      omega
    · intro _
      omega
  | succ fuel ih =>
    intro i hi
    unfold sections_scan
    have hle : i ≤ last := by omega
    rw [if_pos hle]
    by_cases hg : get_bit sd i = 0
    · rw [if_pos hg]
      constructor
      · intro h
        omega
      · intro h
        exact absurd hg (h i (Nat.le_refl _) hle)
    · rw [if_neg hg, ih (i + 1) (by omega)]
      constructor
      · intro h j h1 h2
        by_cases e : j = i
        · rw [e]; exact hg
        · exact h j (by omega) h2
      · intro h j h1 h2
        exact h j (by omega) h2

theorem sections_scan_all (sd : List Nat) (last : Nat) :
    sections_scan sd last (last + 1) 0 > last ↔ ∀ j, j ≤ last → get_bit sd j ≠ 0 := by
  rw [sections_scan_spec sd last (last + 1) 0 (by omega)]
  constructor
  · intro h j hj
    exact h j (Nat.zero_le _) hj
  · intro h j _ hj
    exact h j hj

/-! ## Lemmas: one section, one filter -/

theorem seg_route_plain (w : scan_world) (s : Nat) (tid e v : Int)
    (h : ¬ ((w.pool.bufs s).segmented = true ∧ (w.pool.bufs s).table_id_ext ≠ -1 ∧
      (w.pool.bufs s).table_id_ext ≠ e)) :
    seg_route w s tid e v = some (w, s) := by
  unfold seg_route
  rw [if_neg h]

theorem section_reset_fields (sb : section_buf) (e v : Int) :
    (section_reset sb e v).section_version_number = v ∧
    (section_reset sb e v).table_id_ext = e ∧
    (section_reset sb e v).segmented = sb.segmented ∧
    (section_reset sb e v).next_seg = sb.next_seg ∧
    (section_reset sb e v).table_id = sb.table_id ∧
    (section_reset sb e v).run_once = sb.run_once := by
  unfold section_reset
  by_cases h : sb.section_version_number ≠ v ∨ sb.table_id_ext ≠ e
  · rw [if_pos h]
    exact ⟨rfl, rfl, rfl, rfl, rfl, rfl⟩
  · rw [if_neg h]
    have h1 : sb.section_version_number = v := by
      by_contra hc
      exact h (Or.inl hc)
    have h2 : sb.table_id_ext = e := by
      by_contra hc
      exact h (Or.inr hc)
    exact ⟨h1, h2, rfl, rfl, rfl, rfl⟩

theorem section_handled_fields (sb : section_buf) (buf : List Nat) :
    (section_handled sb buf).section_version_number = sec_version buf ∧
    (section_handled sb buf).table_id_ext = sec_table_id_ext buf ∧
    (section_handled sb buf).segmented = sb.segmented ∧
    (section_handled sb buf).next_seg = sb.next_seg ∧
    (section_handled sb buf).table_id = sb.table_id ∧
    (section_handled sb buf).run_once = sb.run_once := by
  have h := section_reset_fields sb (sec_table_id_ext buf) (sec_version buf)
  unfold section_handled
  simp only []
  split_ifs
  · unfold section_mark
    exact h
  · exact h

theorem section_handled_spec (sb : section_buf) (buf : List Nat) (D : List Nat)
    (hstate :
      ((sb.section_version_number ≠ sec_version buf ∨
          sb.table_id_ext ≠ sec_table_id_ext buf) ∧ D = []) ∨
      (sb.section_version_number = sec_version buf ∧
        sb.table_id_ext = sec_table_id_ext buf ∧ sb.section_done.length = 32 ∧
        (∀ i, i < 256 → (get_bit sb.section_done i ≠ 0 ↔ i ∈ D)) ∧
        sb.sectionfilter_done = 0))
    (hn : sec_number buf ∉ D) :
    (section_handled sb buf).section_done.length = 32 ∧
    (∀ i, i < 256 →
      (get_bit (section_handled sb buf).section_done i ≠ 0 ↔ i ∈ sec_number buf :: D)) ∧
    ((∀ j, j ≤ sec_last buf → j ∈ sec_number buf :: D) →
      (section_handled sb buf).sectionfilter_done = 1) ∧
    (¬ (∀ j, j ≤ sec_last buf → j ∈ sec_number buf :: D) →
      (section_handled sb buf).sectionfilter_done = 0) := by
  have hn256 : sec_number buf < 256 := byte_at_lt buf 6
  have hl256 : sec_last buf < 256 := byte_at_lt buf 7
  -- the filter after the reset
  have key : ∃ sb1, section_reset sb (sec_table_id_ext buf) (sec_version buf) = sb1 ∧
      sb1.section_done.length = 32 ∧
      (∀ i, i < 256 → (get_bit sb1.section_done i ≠ 0 ↔ i ∈ D)) ∧
      sb1.sectionfilter_done = 0 := by
    rcases hstate with ⟨hch, hD⟩ | ⟨h1, h2, h3, h4, h5⟩
    · refine ⟨_, rfl, ?_, ?_, ?_⟩
      · unfold section_reset
        rw [if_pos hch]
        simp
      · intro i _
        unfold section_reset
        rw [if_pos hch, hD]
        simp only [get_bit_zero, ne_eq, not_true_eq_false, List.not_mem_nil]
      · unfold section_reset
        rw [if_pos hch]
    · refine ⟨_, rfl, ?_, ?_, ?_⟩
      · unfold section_reset
        rw [if_neg (by rw [h1, h2]; simp)]
        exact h3
      · unfold section_reset
        rw [if_neg (by rw [h1, h2]; simp)]
        exact h4
      · unfold section_reset
        rw [if_neg (by rw [h1, h2]; simp)]
        exact h5
  obtain ⟨sb1, e1, k1, k2, k3⟩ := key
  unfold section_handled
  simp only []
  rw [e1]
  have hnew : get_bit sb1.section_done (sec_number buf) = 0 := by
    by_contra hc
    exact hn ((k2 _ hn256).mp hc)
  rw [if_pos hnew]
  unfold section_mark
  simp only []
  have hbits : ∀ i, i < 256 →
      (get_bit (set_bit sb1.section_done (sec_number buf)) i ≠ 0 ↔ i ∈ sec_number buf :: D) := by
    intro i hi
    rw [get_bit_set_bit _ _ _ k1 hn256, List.mem_cons]
    by_cases e : i = sec_number buf
    · rw [if_pos e]
      simp [e]
    · rw [if_neg e, k2 i hi]
      simp [e]
  have hall : sections_scan (set_bit sb1.section_done (sec_number buf)) (sec_last buf)
      (sec_last buf + 1) 0 > sec_last buf ↔ ∀ j, j ≤ sec_last buf → j ∈ sec_number buf :: D := by
    rw [sections_scan_all]
    constructor
    · intro h j hj
      exact (hbits j (by omega)).mp (h j hj)
    · intro h j hj
      exact (hbits j (by omega)).mpr (h j hj)
  refine ⟨by rw [set_bit_length]; exact k1, hbits, ?_, ?_⟩
  · intro h
    rw [if_pos (hall.mpr h)]
  · intro h
    rw [if_neg (fun hc => h (hall.mp hc))]
    exact k3

theorem parse_pat_loop_entries (long_timeout : Bool) (buf : List Nat) :
    ∀ (fuel off : Nat) (len : Int) (st : pat_state), len.toNat ≤ fuel →
      parse_pat_loop long_timeout buf fuel off len st =
        some (pat_entries long_timeout buf ((len.toNat + 3) / 4) off st) := by
  intro fuel
  induction fuel with
  | zero =>
    intro off len st h
    unfold parse_pat_loop
    have hn : ¬ len > 0 := by omega
    rw [if_neg hn]
    have : (len.toNat + 3) / 4 = 0 := by omega
    rw [this]
    rfl
  | succ fuel ih =>
    intro off len st h
    unfold parse_pat_loop
    by_cases hl : len > 0
    · rw [if_pos hl]
      simp only []
      rw [ih _ _ _ (by omega)]
      have : (len.toNat + 3) / 4 = ((len - 4).toNat + 3) / 4 + 1 := by omega
      rw [this]
      rfl
    · rw [if_neg hl]
      have : (len.toNat + 3) / 4 = 0 := by omega
      rw [this]
      rfl

theorem parse_pat_entries (long_timeout : Bool) (buf : List Nat) (len tsid : Int)
    (tp : transponder) :
    parse_pat long_timeout buf len tsid tp =
      some (pat_entries long_timeout buf ((len.toNat + 3) / 4) 0 { tp := tp, filters := [] }) := by
  unfold parse_pat
  exact parse_pat_loop_entries long_timeout buf _ 0 len _ (Nat.le_refl _)

theorem section_decode_pat (cfg : scan_config) (fe : fe_readings) (w : scan_world)
    (buf : List Nat) (len ext : Int) :
    section_decode cfg fe w 0 buf len ext =
      some { w with
        store := write_tp w.store w.store.current_tp (fun _ =>
          (pat_entries cfg.long_timeout buf ((len.toNat + 3) / 4) 0
            { tp := w.store.tps w.store.current_tp, filters := [] }).tp)
        submitted := w.submitted ++
          (pat_entries cfg.long_timeout buf ((len.toNat + 3) / 4) 0
            { tp := w.store.tps w.store.current_tp, filters := [] }).filters } := by
  unfold section_decode
  rw [if_pos rfl, parse_pat_entries]
  rfl

/-! ## Lemmas: segmented filters and their chain -/

theorem seg_chain_congr (bufs bufs1 : Nat → section_buf) :
    ∀ (l : List Nat) (s : Nat),
      (∀ a ∈ s :: l, (bufs1 a).next_seg = (bufs a).next_seg) →
      seg_chain bufs s l → seg_chain bufs1 s l := by
  intro l
  induction l with
  | nil =>
    intro s h hc
    unfold seg_chain at hc ⊢
    rw [h s (List.mem_cons_self _ _)]
    exact hc
  | cons n rest ih =>
    intro s h hc
    unfold seg_chain at hc ⊢
    refine ⟨by rw [h s (List.mem_cons_self _ _)]; exact hc.1, ?_⟩
    exact ih n (fun a ha => h a (List.mem_cons_of_mem _ ha)) hc.2

theorem getLastD_cons_eq (a s : Nat) (l : List Nat) : (a :: l).getLastD s = l.getLastD a := by
  cases l <;> rfl

theorem getLastD_mem_cons : ∀ (l : List Nat) (s : Nat), l.getLastD s ∈ s :: l := by
  intro l
  induction l with
  | nil => intro s; exact List.mem_cons_self _ _
  | cons a r ih =>
    intro s
    rw [getLastD_cons_eq]
    exact List.mem_cons_of_mem _ (ih a)

theorem seg_walk_chain (bufs : Nat → section_buf) (e : Int) :
    ∀ (l : List Nat) (s fuel : Nat), seg_chain bufs s l → l.length < fuel →
      seg_walk bufs e fuel s =
        some (match l.find? (fun a => decide ((bufs a).table_id_ext = e)) with
          | some a => a
          | none => l.getLastD s) := by
  intro l
  induction l with
  | nil =>
    intro s fuel hc hf
    obtain ⟨f, rfl⟩ : ∃ f, fuel = f + 1 := ⟨fuel - 1, by simp at hf; omega⟩
    unfold seg_chain at hc
    unfold seg_walk
    rw [hc]
    rfl
  | cons n rest ih =>
    intro s fuel hc hf
    obtain ⟨f, rfl⟩ : ∃ f, fuel = f + 1 := ⟨fuel - 1, by simp at hf; omega⟩
    unfold seg_chain at hc
    unfold seg_walk
    rw [hc.1]
    simp only []
    by_cases hn : (bufs n).table_id_ext = e
    · rw [if_pos hn, List.find?_cons_of_pos _ (by simp [hn])]
    · rw [if_neg hn, List.find?_cons_of_neg _ (by simp [hn]),
        ih n f hc.2 (by simp at hf; omega), getLastD_cons_eq]

theorem nodup_length_le (l : List Nat) (N : Nat) (hn : l.Nodup) (hb : ∀ a ∈ l, a < N) :
    l.length ≤ N := by
  have h := (List.subperm_of_subset hn (fun a ha => List.mem_range.mpr (hb a ha))).length_le
  rw [List.length_range] at h
  exact h

theorem seg_chain_extend (bufs : Nat → section_buf) (n : Nat) (sib : section_buf)
    (hsib : sib.next_seg = none) :
    ∀ (l : List Nat) (s : Nat), seg_chain bufs s l → (s :: l).Nodup → n ∉ s :: l →
      seg_chain
        (Function.update
          (Function.update bufs (l.getLastD s) { bufs (l.getLastD s) with next_seg := some n })
          n sib) s (l ++ [n]) := by
  intro l
  induction l with
  | nil =>
    intro s _ _ hn
    have hsn : s ≠ n := fun e => hn (by rw [e]; exact List.mem_cons_self _ _)
    show seg_chain _ s [n]
    unfold seg_chain
    refine ⟨?_, ?_⟩
    · rw [Function.update_noteq hsn]
      simp [List.getLastD]
    · unfold seg_chain
      rw [Function.update_same]
      exact hsib
  | cons a rest ih =>
    intro s hc hnd hn
    unfold seg_chain at hc
    have hsn : s ≠ n := fun e => hn (by rw [e]; exact List.mem_cons_self _ _)
    have hnd2 := List.nodup_cons.mp hnd
    have hlast : (a :: rest).getLastD s = rest.getLastD a := getLastD_cons_eq a s rest
    have hsl : s ≠ rest.getLastD a := by
      intro e
      apply hnd2.1
      rw [e]
      exact getLastD_mem_cons rest a
    show seg_chain _ s (a :: (rest ++ [n]))
    unfold seg_chain
    rw [hlast]
    refine ⟨?_, ?_⟩
    · rw [Function.update_noteq hsn, Function.update_noteq hsl]
      exact hc.1
    · exact ih a hc.2 hnd2.2 (fun h => hn (List.mem_cons_of_mem _ h))

theorem chain_ok_update (w1 w3 : scan_world) (s t : Nat) (l1 : List Nat) (F : section_buf)
    (h : chain_ok w1 s l1) (hn : F.next_seg = (w1.pool.bufs t).next_seg)
    (hs : F.segmented = (w1.pool.bufs t).segmented)
    (hb : w3.pool.bufs = Function.update w1.pool.bufs t F) (hnb : w3.next_buf = w1.next_buf) :
    chain_ok w3 s l1 := by
  obtain ⟨h1, h2, h3, h4⟩ := h
  have hnext : ∀ a, (w3.pool.bufs a).next_seg = (w1.pool.bufs a).next_seg := by
    intro a
    rw [hb]
    by_cases e : a = t
    · rw [e, Function.update_same, hn]
    · rw [Function.update_noteq e]
  have hseg : ∀ a, (w3.pool.bufs a).segmented = (w1.pool.bufs a).segmented := by
    intro a
    rw [hb]
    by_cases e : a = t
    · rw [e, Function.update_same, hs]
    · rw [Function.update_noteq e]
  refine ⟨seg_chain_congr _ _ l1 s (fun a _ => hnext a) h1, h2, ?_, ?_⟩
  · intro a ha
    rw [hnb]
    exact h3 a ha
  · intro a ha
    rw [hseg a]
    exact h4 a ha

theorem seg_route_chain (w : scan_world) (s : Nat) (l : List Nat) (tid e v : Int)
    (h : chain_ok w s l) :
    ∃ w1 t l1, seg_route w s tid e v = some (w1, t) ∧ chain_ok w1 s l1 ∧ t ∈ s :: l1 ∧
      (w1.pool.bufs s).table_id = (w.pool.bufs s).table_id ∧
      (ext_known w s l e → w1 = w ∧ l1 = l) ∧
      (¬ ext_known w s l e → l1 = l ++ [w.next_buf]) ∧
      ((w1.pool.bufs t).table_id_ext = e ∨ (t = s ∧ (w1.pool.bufs s).table_id_ext = -1)) := by
  obtain ⟨h1, h2, h3, h4⟩ := h
  unfold seg_route
  by_cases hc : (w.pool.bufs s).segmented = true ∧ (w.pool.bufs s).table_id_ext ≠ -1 ∧
      (w.pool.bufs s).table_id_ext ≠ e
  · rw [if_pos hc]
    have hfuel : l.length < w.next_buf := by
      have := nodup_length_le (s :: l) w.next_buf h2 h3
      simp only [List.length_cons] at this
      omega
    rw [seg_walk_chain w.pool.bufs e l s w.next_buf h1 hfuel]
    cases hfind : l.find? (fun a => decide ((w.pool.bufs a).table_id_ext = e)) with
    | some a =>
      have ha : (w.pool.bufs a).table_id_ext = e := by
        have := List.find?_some hfind
        simpa using this
      have hal : a ∈ l := List.mem_of_find?_eq_some hfind
      simp only []
      rw [if_neg (by rw [ha]; simp)]
      refine ⟨w, a, l, rfl, ⟨h1, h2, h3, h4⟩, List.mem_cons_of_mem _ hal, rfl,
        fun _ => ⟨rfl, rfl⟩, ?_, Or.inl ha⟩
      intro hk
      exact absurd (Or.inr ⟨a, List.mem_cons_of_mem _ hal, ha⟩) hk
    | none =>
      have hnone : ∀ a ∈ l, (w.pool.bufs a).table_id_ext ≠ e := by
        intro a ha
        have := List.find?_eq_none.mp hfind a ha
        simpa using this
      have hrmem := getLastD_mem_cons l s
      have hr : (w.pool.bufs (l.getLastD s)).table_id_ext ≠ e := by
        rcases List.mem_cons.mp hrmem with e1 | e1
        · rw [e1]; exact hc.2.2
        · exact hnone _ e1
      simp only []
      rw [if_pos hr]
      have hfresh : w.next_buf ∉ s :: l := fun hm => absurd (h3 _ hm) (Nat.lt_irrefl _)
      have hne : ∀ a ∈ s :: l, a ≠ w.next_buf := fun a ha e1 => hfresh (e1 ▸ ha)
      have hnot : ¬ ext_known w s l e := by
        rintro (hk | ⟨a, ha, hk⟩)
        · exact hc.2.1 hk
        · rcases List.mem_cons.mp ha with e1 | e1
          · rw [e1] at hk; exact hc.2.2 hk
          · exact hnone a e1 hk
      refine ⟨_, w.next_buf, l ++ [w.next_buf], rfl, ⟨?_, ?_, ?_, ?_⟩, ?_, ?_,
        fun hk => absurd hk hnot, fun _ => rfl, Or.inl ?_⟩
      · exact seg_chain_extend w.pool.bufs w.next_buf _ rfl l s h1 h2 hfresh
      · rw [← List.cons_append, List.nodup_append]
        refine ⟨h2, List.nodup_singleton _, ?_⟩
        intro a ha hb
        rw [List.mem_singleton] at hb
        exact hne a ha hb
      · intro a ha
        show a < w.next_buf + 1
        rw [← List.cons_append, List.mem_append, List.mem_singleton] at ha
        rcases ha with h5 | h5
        · exact Nat.lt_succ_of_lt (h3 a h5)
        · omega
      · intro a ha
        rw [← List.cons_append, List.mem_append, List.mem_singleton] at ha
        show (Function.update (Function.update w.pool.bufs (l.getLastD s) _) w.next_buf _
          a).segmented = true
        rcases ha with h5 | h5
        · rw [Function.update_noteq (hne a h5)]
          by_cases e1 : a = l.getLastD s
          · rw [e1, Function.update_same]
            exact h4 _ hrmem
          · rw [Function.update_noteq e1]
            exact h4 a h5
        · rw [h5, Function.update_same]
          exact h4 _ hrmem
      · rw [← List.cons_append]
        exact List.mem_append_right _ (List.mem_singleton_self _)
      · show (Function.update (Function.update w.pool.bufs (l.getLastD s) _) w.next_buf _
          s).table_id = _
        rw [Function.update_noteq (hne s (List.mem_cons_self _ _))]
        by_cases e1 : s = l.getLastD s
        · rw [← e1, Function.update_same]
        · rw [Function.update_noteq e1]
      · show (Function.update (Function.update w.pool.bufs (l.getLastD s) _) w.next_buf _
          w.next_buf).table_id_ext = e
        rw [Function.update_same]
  · rw [if_neg hc]
    have hseg : (w.pool.bufs s).segmented = true := h4 s (List.mem_cons_self _ _)
    have hcase : (w.pool.bufs s).table_id_ext = -1 ∨ (w.pool.bufs s).table_id_ext = e := by
      by_contra hn
      rw [not_or] at hn
      exact hc ⟨hseg, hn.1, hn.2⟩
    refine ⟨w, s, l, rfl, ⟨h1, h2, h3, h4⟩, List.mem_cons_self _ _, rfl,
      fun _ => ⟨rfl, rfl⟩, ?_, ?_⟩
    · intro hk
      rcases hcase with h5 | h5
      · exact absurd (Or.inl h5) hk
      · exact absurd (Or.inr ⟨s, List.mem_cons_self _ _, h5⟩) hk
    · rcases hcase with h5 | h5
      · exact Or.inr ⟨rfl, h5⟩
      · exact Or.inl h5

theorem seg_chain_length_absurd (bufs : Nat → section_buf) :
    ∀ (l : List Nat) (s : Nat) (m : List Nat), seg_chain bufs s l → seg_chain bufs s (l ++ m) →
      m ≠ [] → False := by
  intro l
  induction l with
  | nil =>
    intro s m h1 h2 hm
    cases m with
    | nil => exact hm rfl
    | cons a r =>
      unfold seg_chain at h1
      rw [List.nil_append] at h2
      unfold seg_chain at h2
      rw [h1] at h2
      cases h2.1
  | cons a r ih =>
    intro s m h1 h2 hm
    unfold seg_chain at h1
    rw [List.cons_append] at h2
    unfold seg_chain at h2
    exact ih a m h1.2 h2.2 hm

theorem parse_section_chain (cfg : scan_config) (fe : fe_readings) (w : scan_world) (s : Nat)
    (l : List Nat) (buf : List Nat) (h : chain_ok w s l) :
    ∃ w3 rc l1, parse_section cfg fe w s buf = some (w3, rc) ∧ (rc = 0 ∨ rc = -1) ∧
      chain_ok w3 s l1 ∧
      (w3.pool.bufs s).table_id = (w.pool.bufs s).table_id ∧
      (ext_known w s l (sec_table_id_ext buf) → l1 = l) ∧
      (l1 = l ∨ (l1 = l ++ [w.next_buf] ∧ ¬ ext_known w s l (sec_table_id_ext buf))) ∧
      ((w.pool.bufs s).table_id = sec_table_id buf →
        ext_known w3 s l1 (sec_table_id_ext buf)) ∧
      ((w.pool.bufs s).table_id = sec_table_id buf →
        ¬ ext_known w s l (sec_table_id_ext buf) → l1 = l ++ [w.next_buf]) := by
  by_cases htid : (w.pool.bufs s).table_id = sec_table_id buf
  · obtain ⟨w1, t, l1, hroute, hok1, ht, htab, hk1, hk2, hext⟩ :=
      seg_route_chain w s l (sec_table_id buf) (sec_table_id_ext buf) (sec_version buf) h
    have hgrow : l1 = l ∨ (l1 = l ++ [w.next_buf] ∧ ¬ ext_known w s l (sec_table_id_ext buf)) := by
      by_cases hk : ext_known w s l (sec_table_id_ext buf)
      · exact Or.inl (hk1 hk).2
      · exact Or.inr ⟨hk2 hk, hk⟩
    have hsegt : (w1.pool.bufs t).segmented = true := hok1.2.2.2 t ht
    -- what is common to the two lengths
    have fin : ∀ (w3 : scan_world) (F : section_buf),
        w3.pool.bufs = Function.update w1.pool.bufs t F → w3.next_buf = w1.next_buf →
        F.next_seg = (w1.pool.bufs t).next_seg → F.segmented = (w1.pool.bufs t).segmented →
        F.table_id = (w1.pool.bufs t).table_id → F.table_id_ext = sec_table_id_ext buf →
        chain_ok w3 s l1 ∧ (w3.pool.bufs s).table_id = (w.pool.bufs s).table_id ∧
          ext_known w3 s l1 (sec_table_id_ext buf) := by
      intro w3 F hb hnb hn hs htb hte
      refine ⟨chain_ok_update w1 w3 s t l1 F hok1 hn hs hb hnb, ?_, ?_⟩
      · rw [hb]
        by_cases e1 : s = t
        · rw [e1, Function.update_same, htb, ← e1, htab]
        · rw [Function.update_noteq e1, htab]
      · refine Or.inr ⟨t, ht, ?_⟩
        rw [hb, Function.update_same, hte]
    by_cases hlen : 9 ≤ sec_length buf
    · obtain ⟨w3, wd, hr, hb, hnb, _⟩ := parse_section_spec cfg fe w w1 s t buf htid hroute hlen
      have hfld := section_handled_fields (w1.pool.bufs t) buf
      obtain ⟨c1, c2, c3⟩ := fin w3 _ hb hnb hfld.2.2.2.1 hfld.2.2.1 hfld.2.2.2.2.1 hfld.2.1
      have hrc : section_rc (section_handled (w1.pool.bufs t) buf) = 0 := by
        unfold section_rc
        rw [hfld.2.2.1, hsegt]
        simp
      rw [hrc] at hr
      exact ⟨w3, 0, l1, hr, Or.inl rfl, c1, c2, fun hk => (hk1 hk).2, hgrow, fun _ => c3,
        fun _ hk => hk2 hk⟩
    · have hr := parse_section_short cfg fe w w1 s t buf htid hroute (by omega)
      have hfld := section_reset_fields (w1.pool.bufs t) (sec_table_id_ext buf) (sec_version buf)
      obtain ⟨c1, c2, c3⟩ := fin _ _ (set_buf_bufs w1 t _) rfl hfld.2.2.2.1 hfld.2.2.1
        hfld.2.2.2.2.1 hfld.2.1
      exact ⟨_, 0, l1, hr, Or.inl rfl, c1, c2, fun hk => (hk1 hk).2, hgrow, fun _ => c3,
        fun _ hk => hk2 hk⟩
  · exact ⟨w, -1, l, parse_section_wrong_table cfg fe w s buf htid, Or.inr rfl, h, rfl,
      fun _ => rfl, Or.inl rfl, fun hc => absurd hc htid, fun hc => absurd hc htid⟩

theorem deliver_sections_chain (cfg : scan_config) (s : Nat) :
    ∀ (secs : List (fe_readings × List Nat)) (w : scan_world) (l : List Nat), chain_ok w s l →
      ∃ w1 rcs l1, deliver_sections cfg w s secs = some (w1, rcs) ∧
        (∀ rc ∈ rcs, rc = 0 ∨ rc = -1) ∧ chain_ok w1 s l1 := by
  intro secs
  induction secs with
  | nil => intro w l h; exact ⟨w, [], l, rfl, fun _ hm => absurd hm (List.not_mem_nil _), h⟩
  | cons x rest ih =>
    intro w l h
    obtain ⟨w3, rc, l1, hr, hrc, hok, _⟩ := parse_section_chain cfg x.1 w s l x.2 h
    obtain ⟨w1, rcs, l2, hd, hrcs, hok2⟩ := ih w3 l1 hok
    unfold deliver_sections
    rw [hr]
    simp only []
    rw [hd]
    refine ⟨w1, rc :: rcs, l2, rfl, ?_, hok2⟩
    intro r hm
    rcases List.mem_cons.mp hm with e | e
    · rw [e]; exact hrc
    · exact hrcs r e

theorem deliver_sections_same_ext (cfg : scan_config) (s : Nat) (e : Int) :
    ∀ (secs : List (fe_readings × List Nat)) (w : scan_world) (l : List Nat), chain_ok w s l →
      (∀ x ∈ secs, sec_table_id_ext x.2 = e) →
      ∃ w1 rcs l1, deliver_sections cfg w s secs = some (w1, rcs) ∧ chain_ok w1 s l1 ∧
        (ext_known w s l e → l1 = l) ∧ (l1 = l ∨ l1 = l ++ [w.next_buf]) := by
  intro secs
  induction secs with
  | nil =>
    intro w l h _
    exact ⟨w, [], l, rfl, h, fun _ => rfl, Or.inl rfl⟩
  | cons x rest ih =>
    intro w l h hext
    have hx := hext x (List.mem_cons_self _ _)
    obtain ⟨w3, rc, l1, hr, _, hok, htab, hk1, hgrow, hk3, _⟩ :=
      parse_section_chain cfg x.1 w s l x.2 h
    rw [hx] at hk1 hgrow hk3
    obtain ⟨w1, rcs, l2, hd, hok2, hk4, hgrow2⟩ := ih w3 l1 hok
      (fun y hy => hext y (List.mem_cons_of_mem _ hy))
    unfold deliver_sections
    rw [hr]
    simp only []
    rw [hd]
    by_cases htid : (w.pool.bufs s).table_id = sec_table_id x.2
    · -- the section was taken: its table_id_ext has a filter from now on
      have hl2 : l2 = l1 := hk4 (hk3 htid)
      refine ⟨w1, rc :: rcs, l2, rfl, hok2, ?_, ?_⟩
      · intro hk
        rw [hl2, hk1 hk]
      · rw [hl2]
        rcases hgrow with h1 | ⟨h1, _⟩
        · exact Or.inl h1
        · exact Or.inr h1
    · -- the section was refused: nothing has changed
      have hw : w3 = w ∧ l1 = l := by
        have := parse_section_wrong_table cfg x.1 w s x.2 htid
        rw [this] at hr
        have hinj := Option.some.inj hr
        have hw3 : w3 = w := (Prod.mk.inj hinj).1.symm
        refine ⟨hw3, ?_⟩
        rcases hgrow with h1 | ⟨h1, _⟩
        · exact h1
        · -- the chain of `w` cannot be two lists
          have c1 := hok.1
          rw [hw3] at c1
          have c2 := h.1
          exfalso
          rw [h1] at c1
          exact seg_chain_length_absurd w.pool.bufs l s [w.next_buf] c2 c1 (by simp)
      rw [hw.1, hw.2] at hk4 hgrow2
      exact ⟨w1, rc :: rcs, l2, rfl, hok2, hk4, hgrow2⟩

/-! ## Lemmas: sections that are refused or dropped -/

theorem seg_route_frame (w w1 : scan_world) (s t : Nat) (tid e v : Int)
    (h : seg_route w s tid e v = some (w1, t)) :
    w1.store = w.store ∧ w1.pchan_info = w.pchan_info ∧ w1.out_of_bounds = w.out_of_bounds ∧
    w1.submitted = w.submitted ∧ w1.pool.running_filters = w.pool.running_filters ∧
    w1.pool.waiting_filters = w.pool.waiting_filters := by
  unfold seg_route at h
  split_ifs at h
  · split at h
    · cases h
    · split_ifs at h
      · cases h
        exact ⟨rfl, rfl, rfl, rfl, rfl, rfl⟩
      · cases h
        exact ⟨rfl, rfl, rfl, rfl, rfl, rfl⟩
  · cases h
    exact ⟨rfl, rfl, rfl, rfl, rfl, rfl⟩

theorem section_reset_same (sb : section_buf) (e v : Int)
    (h1 : sb.section_version_number = v) (h2 : sb.table_id_ext = e) :
    section_reset sb e v = sb := by
  unfold section_reset
  rw [if_neg (by rw [h1, h2]; simp)]

theorem section_reset_changed (sb : section_buf) (e v : Int)
    (h : sb.section_version_number ≠ v ∨ sb.table_id_ext ≠ e) :
    section_reset sb e v =
      { sb with
        table_id_ext := e
        section_version_number := v
        sectionfilter_done := 0
        section_done := List.replicate 32 0 } := by
  unfold section_reset
  rw [if_pos h]

/-! ## Lemmas: one pass of the descriptor loops -/

theorem parse_descriptors_loop_fuel (cfg : scan_config) (t : table_type) (buf : List Nat) :
    ∀ (f1 f2 off : Nat) (len : Int) (data : desc_data) (st : tp_store),
      len.toNat ≤ f1 → len.toNat ≤ f2 →
      parse_descriptors_loop cfg t buf f1 off len data st =
        parse_descriptors_loop cfg t buf f2 off len data st := by
  intro f1
  induction f1 with
  | zero =>
    intro f2 off len data st h1 _
    have hl : ¬ len > 0 := by omega
    unfold parse_descriptors_loop
    rw [if_neg hl, if_neg hl]
  | succ f1 ih =>
    intro f2 off len data st h1 h2
    by_cases hl : len > 0
    · cases f2 with
      | zero => omega
      | succ f2 =>
        unfold parse_descriptors_loop
        rw [if_pos hl, if_pos hl]
        simp only []
        by_cases hd : (byte_at buf (off + 1) + 2) % 256 = 0
        · rw [if_pos hd, if_pos hd]
        · rw [if_neg hd, if_neg hd]
          exact ih _ _ _ _ _ (by omega) (by omega)
    · unfold parse_descriptors_loop
      rw [if_neg hl, if_neg hl]

theorem parse_descriptors_done (cfg : scan_config) (t : table_type) (buf : List Nat)
    (off : Nat) (len : Int) (data : desc_data) (st : tp_store) (hlen : ¬ 0 < len) :
    parse_descriptors cfg t buf off len data st = some (data, st) := by
  unfold parse_descriptors parse_descriptors_loop
  rw [if_neg (by omega)]

theorem parse_descriptors_stop (cfg : scan_config) (t : table_type) (buf : List Nat)
    (off : Nat) (len : Int) (data : desc_data) (st : tp_store) (hlen : 0 < len)
    (hd : (byte_at buf (off + 1) + 2) % 256 = 0) :
    parse_descriptors cfg t buf off len data st = some (data, st) := by
  unfold parse_descriptors
  obtain ⟨n, hn⟩ : ∃ n, len.toNat = n + 1 := ⟨len.toNat - 1, by omega⟩
  rw [hn]
  unfold parse_descriptors_loop
  rw [if_pos hlen]
  simp only []
  rw [if_pos hd]

theorem parse_descriptors_step (cfg : scan_config) (t : table_type) (buf : List Nat)
    (off : Nat) (len : Int) (data : desc_data) (st : tp_store) (hlen : 0 < len)
    (hd : (byte_at buf (off + 1) + 2) % 256 ≠ 0) :
    parse_descriptors cfg t buf off len data st =
      parse_descriptors cfg t buf (off + (byte_at buf (off + 1) + 2) % 256)
        (len - ((byte_at buf (off + 1) + 2) % 256 : Nat))
        (parse_descriptor cfg t buf off data st).1 (parse_descriptor cfg t buf off data st).2 := by
  unfold parse_descriptors
  obtain ⟨n, hn⟩ : ∃ n, len.toNat = n + 1 := ⟨len.toNat - 1, by omega⟩
  rw [hn]
  conv_lhs => unfold parse_descriptors_loop
  rw [if_pos hlen]
  simp only []
  rw [if_neg hd]
  exact parse_descriptors_loop_fuel cfg t buf _ _ _ _ _ _ (by omega) (by omega)

theorem find_descriptor_loop_fuel (tag : Nat) (buf : List Nat) :
    ∀ (f1 f2 off : Nat) (len : Int), len.toNat ≤ f1 → len.toNat ≤ f2 →
      find_descriptor_loop tag buf f1 off len = find_descriptor_loop tag buf f2 off len := by
  intro f1
  induction f1 with
  | zero =>
    intro f2 off len h1 _
    have hl : ¬ len > 0 := by omega
    unfold find_descriptor_loop
    rw [if_neg hl, if_neg hl]
  | succ f1 ih =>
    intro f2 off len h1 h2
    by_cases hl : len > 0
    · cases f2 with
      | zero => omega
      | succ f2 =>
        unfold find_descriptor_loop
        rw [if_pos hl, if_pos hl]
        simp only []
        by_cases hd : (byte_at buf (off + 1) + 2) % 256 = 0
        · rw [if_pos hd, if_pos hd]
        · rw [if_neg hd, if_neg hd]
          by_cases ht : tag = byte_at buf off
          · rw [if_pos ht, if_pos ht]
          · rw [if_neg ht, if_neg ht]
            exact ih _ _ _ (by omega) (by omega)
    · unfold find_descriptor_loop
      rw [if_neg hl, if_neg hl]

theorem find_descriptor_stop (tag : Nat) (buf : List Nat) (off : Nat) (len : Int)
    (hlen : 0 < len) (hd : (byte_at buf (off + 1) + 2) % 256 = 0) :
    find_descriptor tag buf off len = some none := by
  unfold find_descriptor
  obtain ⟨n, hn⟩ : ∃ n, len.toNat = n + 1 := ⟨len.toNat - 1, by omega⟩
  rw [hn]
  unfold find_descriptor_loop
  rw [if_pos hlen]
  simp only []
  rw [if_pos hd]

theorem find_descriptor_step (tag : Nat) (buf : List Nat) (off : Nat) (len : Int)
    (hlen : 0 < len) (hd : (byte_at buf (off + 1) + 2) % 256 ≠ 0) :
    find_descriptor tag buf off len =
      if tag = byte_at buf off then some (some (off, (byte_at buf (off + 1) + 2) % 256))
      else find_descriptor tag buf (off + (byte_at buf (off + 1) + 2) % 256)
        (len - ((byte_at buf (off + 1) + 2) % 256 : Nat)) := by
  unfold find_descriptor
  obtain ⟨n, hn⟩ : ∃ n, len.toNat = n + 1 := ⟨len.toNat - 1, by omega⟩
  rw [hn]
  conv_lhs => unfold find_descriptor_loop
  rw [if_pos hlen]
  simp only []
  rw [if_neg hd]
  by_cases ht : tag = byte_at buf off
  · rw [if_pos ht, if_pos ht]
  · rw [if_neg ht, if_neg ht]
    exact find_descriptor_loop_fuel tag buf _ _ _ _ (by omega) (by omega)

/-! ## Lemmas: the service ids of a list -/

theorem upsert_in_nil (sid tsid : Int) (f : service → service) :
    upsert_in [] sid tsid f =
      [f { service_zero with service_id := sid, transport_stream_id := tsid }] := rfl

theorem upsert_in_ids (l : List service) (sid tsid : Int) (f : service → service)
    (hf : ∀ s, (f s).service_id = s.service_id) :
    (upsert_in l sid tsid f).map (fun s => s.service_id) =
      if sid ∈ l.map (fun s => s.service_id) then l.map (fun s => s.service_id)
      else l.map (fun s => s.service_id) ++ [sid] := by
  induction l with
  | nil => simp [upsert_in_nil, hf]
  | cons a l ih =>
    rw [upsert_in_cons]
    by_cases h : a.service_id = sid
    · rw [if_pos h]
      simp [hf, h]
    · rw [if_neg h]
      have h1 : ¬ sid = a.service_id := fun e => h e.symm
      simp only [List.map_cons, ih, List.mem_cons, h1, false_or]
      by_cases hm : sid ∈ l.map (fun s => s.service_id)
      · rw [if_pos hm, if_pos hm]
      · rw [if_neg hm, if_neg hm]
        rfl

theorem upsert_in_unique (l : List service) (sid tsid : Int) (f : service → service)
    (hf : ∀ s, (f s).service_id = s.service_id)
    (h : (l.map (fun s => s.service_id)).Nodup) :
    ((upsert_in l sid tsid f).map (fun s => s.service_id)).Nodup := by
  rw [upsert_in_ids l sid tsid f hf]
  by_cases hm : sid ∈ l.map (fun s => s.service_id)
  · rw [if_pos hm]
    exact h
  · rw [if_neg hm]
    rw [List.nodup_append]
    refine ⟨h, List.nodup_singleton _, ?_⟩
    intro a ha hb
    rw [List.mem_singleton] at hb
    exact hm (hb ▸ ha)

theorem lookup_in_none_iff (l : List service) (sid : Int) :
    lookup_in l sid = none ↔ ∀ s ∈ l, s.service_id ≠ sid := by
  induction l with
  | nil => simp [lookup_in_nil]
  | cons a l ih =>
    rw [lookup_in_cons]
    by_cases h : a.service_id = sid
    · rw [if_pos h]
      simp [h]
    · rw [if_neg h, ih]
      simp [h]

theorem lookup_in_iff (l : List service) (sid : Int) (s : service)
    (h : (l.map (fun s => s.service_id)).Nodup) :
    lookup_in l sid = some s ↔ s ∈ l ∧ s.service_id = sid := by
  constructor
  · exact lookup_in_mem l sid s
  · induction l with
    | nil =>
      intro hs
      cases hs.1
    | cons a l ih =>
      intro hs
      rw [List.map_cons, List.nodup_cons] at h
      rw [lookup_in_cons]
      by_cases ha : a.service_id = sid
      · rw [if_pos ha]
        rcases List.mem_cons.mp hs.1 with e | hm
        · rw [e]
        · exfalso
          apply h.1
          rw [ha, ← hs.2]
          exact List.mem_map.mpr ⟨s, hm, rfl⟩
      · rw [if_neg ha]
        rcases List.mem_cons.mp hs.1 with e | hm
        · exact absurd (e ▸ hs.2) ha
        · exact ih h.2 ⟨hm, hs.2⟩

theorem find_service_in_iff (l : List service) (sid : Int)
    (h : (l.map (fun s => s.service_id)).Nodup) :
    ∀ i, find_service_in l sid = some i ↔ ∃ s, l[i]? = some s ∧ s.service_id = sid := by
  induction l with
  | nil =>
    intro i
    simp [find_service_in]
  | cons a l ih =>
    intro i
    rw [List.map_cons, List.nodup_cons] at h
    unfold find_service_in
    by_cases ha : a.service_id = sid
    · rw [if_pos ha]
      cases i with
      | zero => simp [ha]
      | succ j =>
        simp only [List.getElem?_cons_succ]
        constructor
        · intro e
          cases e
        · rintro ⟨s, hs, hid⟩
          exfalso
          apply h.1
          rw [ha, ← hid]
          exact List.mem_map.mpr ⟨s, List.getElem?_mem hs, rfl⟩
    · rw [if_neg ha]
      cases i with
      | zero =>
        simp only [List.getElem?_cons_zero]
        constructor
        · intro e
          cases hf : find_service_in l sid with
          | none => rw [hf] at e; cases e
          | some j => rw [hf] at e; simp at e
        · rintro ⟨s, hs, hid⟩
          cases hs
          exact absurd hid ha
      | succ j =>
        simp only [List.getElem?_cons_succ]
        rw [← ih h.2 j]
        cases hf : find_service_in l sid with
        | none => simp
        | some k => simp

theorem find_service_in_none_iff (l : List service) (sid : Int) :
    find_service_in l sid = none ↔ ∀ s ∈ l, s.service_id ≠ sid := by
  rw [← lookup_in_none_iff]
  unfold lookup_in
  cases find_service_in l sid <;> simp

theorem mem_upsert_in (l : List service) (sid tsid : Int) (f : service → service)
    (h : (l.map (fun s => s.service_id)).Nodup) (s1 : service) :
    s1 ∈ upsert_in l sid tsid f ↔
      (s1 ∈ l ∧ s1.service_id ≠ sid) ∨
      s1 = f ((lookup_in l sid).getD
        { service_zero with service_id := sid, transport_stream_id := tsid }) := by
  induction l with
  | nil => simp [upsert_in_nil, lookup_in_nil]
  | cons a l ih =>
    rw [List.map_cons, List.nodup_cons] at h
    rw [upsert_in_cons, lookup_in_cons]
    by_cases ha : a.service_id = sid
    · rw [if_pos ha, if_pos ha]
      simp only [List.mem_cons, Option.getD_some]
      constructor
      · rintro (e | hm)
        · exact Or.inr e
        · left
          refine ⟨Or.inr hm, ?_⟩
          intro e
          apply h.1
          rw [ha, ← e]
          exact List.mem_map.mpr ⟨s1, hm, rfl⟩
      · rintro (⟨e | hm, hne⟩ | e)
        · exact absurd (e ▸ ha) hne
        · exact Or.inr hm
        · exact Or.inl e
    · rw [if_neg ha, if_neg ha]
      simp only [List.mem_cons]
      rw [ih h.2]
      constructor
      · rintro (e | ⟨hm, hne⟩ | e)
        · exact Or.inl ⟨Or.inl e, e ▸ ha⟩
        · exact Or.inl ⟨Or.inr hm, hne⟩
        · exact Or.inr e
      · rintro (⟨e | hm, hne⟩ | e)
        · exact Or.inl e
        · exact Or.inr (Or.inl ⟨hm, hne⟩)
        · exact Or.inr (Or.inr e)

theorem find_or_alloc_service_at (tp : transponder) (sid : Int) :
    service_at (find_or_alloc_service tp sid).1 (find_or_alloc_service tp sid).2 =
      (lookup_in tp.services sid).getD
        { service_zero with service_id := sid, transport_stream_id := tp.transport_stream_id } := by
  unfold find_or_alloc_service find_service lookup_in
  cases h : find_service_in tp.services sid with
  | some i => rfl
  | none =>
    simp only [alloc_service, service_at, Option.map_none', Option.getD_none]
    rw [List.getD_eq_getElem?_getD, List.getElem?_append_right (Nat.le_refl _)]
    simp

theorem lookup_in_getD_service_id (l : List service) (sid tsid : Int) :
    ((lookup_in l sid).getD
      { service_zero with service_id := sid, transport_stream_id := tsid }).service_id = sid := by
  cases h : lookup_in l sid with
  | none => rfl
  | some s => exact (lookup_in_mem l sid s h).2

/-! ## Lemmas: the PMT filters of `parse_pat` -/

theorem parse_pat_entry_filters (long_timeout : Bool) (buf : List Nat) (off : Nat)
    (st : pat_state) :
    (parse_pat_entry long_timeout buf off st).filters =
      if pat_service_id buf off = 0 then st.filters
      else if (!((lookup_in st.tp.services (pat_service_id buf off)).getD
            { service_zero with
              service_id := pat_service_id buf off
              transport_stream_id := st.tp.transport_stream_id }).priv &&
          pat_pmt_pid buf off != 0) = true then
        st.filters ++ [setup_filter long_timeout (pat_pmt_pid buf off) 0x02
          (pat_service_id buf off) true false 5]
      else st.filters := by
  unfold parse_pat_entry
  by_cases h0 : pat_service_id buf off = 0
  · simp only [h0, if_true]
  · simp only [h0, if_false]
    have hat := find_or_alloc_service_at st.tp (pat_service_id buf off)
    have hid := lookup_in_getD_service_id st.tp.services (pat_service_id buf off)
      st.tp.transport_stream_id
    rw [← hat] at hid ⊢
    revert hid
    generalize find_or_alloc_service st.tp (pat_service_id buf off) = r
    obtain ⟨tp1, i⟩ := r
    intro hid
    simp only [] at hid ⊢
    split <;> rename_i hc
    · simp only [hid]
    · rfl

theorem parse_pat_entry_append (long_timeout : Bool) (buf : List Nat) (off : Nat)
    (tp : transponder) (F G : List section_buf) :
    parse_pat_entry long_timeout buf off { tp := tp, filters := F ++ G } =
      { tp := (parse_pat_entry long_timeout buf off { tp := tp, filters := G }).tp
        filters := F ++ (parse_pat_entry long_timeout buf off { tp := tp, filters := G }).filters } := by
  have e : ∀ a b : pat_state, a.tp = b.tp → a.filters = b.filters → a = b := by
    intro a b h1 h2
    cases a
    cases b
    simp only [] at h1 h2
    rw [h1, h2]
  apply e
  · rw [parse_pat_entry_tp, parse_pat_entry_tp]
  · simp only [parse_pat_entry_filters]
    split_ifs <;> simp

theorem pat_entries_append (long_timeout : Bool) (buf : List Nat) (m : Nat) :
    ∀ (off : Nat) (tp : transponder) (F G : List section_buf),
      pat_entries long_timeout buf m off { tp := tp, filters := F ++ G } =
        { tp := (pat_entries long_timeout buf m off { tp := tp, filters := G }).tp
          filters := F ++ (pat_entries long_timeout buf m off { tp := tp, filters := G }).filters } := by
  induction m with
  | zero =>
    intro off tp F G
    rfl
  | succ m ih =>
    intro off tp F G
    unfold pat_entries
    rw [parse_pat_entry_append, ih]

theorem pat_filters_inv_entry (long_timeout : Bool) (buf : List Nat) (off : Nat)
    (st : pat_state) (h : pat_filters_inv long_timeout st) :
    pat_filters_inv long_timeout (parse_pat_entry long_timeout buf off st) := by
  obtain ⟨hu, hn, hform, hsvc, hpf, hfp, hpid⟩ := h
  unfold pat_filters_inv services_unique
  rw [parse_pat_entry_tp, parse_pat_entry_filters]
  by_cases h0 : pat_service_id buf off = 0
  · simp only [if_pos h0]
    exact ⟨hu, hn, hform, hsvc, hpf, hfp, hpid⟩
  · simp only [if_neg h0]
    unfold services_unique at hu
    generalize pat_service_id buf off = sid
    generalize pat_pmt_pid buf off = pid
    have hid0 := lookup_in_getD_service_id st.tp.services sid st.tp.transport_stream_id
    have hmem := mem_upsert_in st.tp.services sid st.tp.transport_stream_id (pat_write pid) hu
    have hlk : ∀ s, lookup_in st.tp.services sid = some s →
        (lookup_in st.tp.services sid).getD
          { service_zero with
            service_id := sid, transport_stream_id := st.tp.transport_stream_id } = s := by
      intro s hs
      rw [hs]
      rfl
    have hs0f : (∃ f ∈ st.filters, f.table_id_ext = sid) →
        ((lookup_in st.tp.services sid).getD
          { service_zero with
            service_id := sid, transport_stream_id := st.tp.transport_stream_id }).priv = true := by
      rintro ⟨f, hf, e⟩
      obtain ⟨s, hs, hse⟩ := hsvc f hf
      have hl : lookup_in st.tp.services sid = some s :=
        (lookup_in_iff _ _ _ hu).mpr ⟨hs, hse.trans e⟩
      rw [hlk s hl]
      exact hfp s hs ⟨f, hf, hse.symm⟩
    have hs0p : ((lookup_in st.tp.services sid).getD
          { service_zero with
            service_id := sid, transport_stream_id := st.tp.transport_stream_id }).priv = true →
        ∃ f ∈ st.filters, f.table_id_ext = sid := by
      intro hp1
      cases hl : lookup_in st.tp.services sid with
      | none =>
        rw [hl] at hp1
        have hp2 : false = true := hp1
        cases hp2
      | some s =>
        have hm := lookup_in_mem _ _ _ hl
        rw [hl] at hp1
        obtain ⟨f, hf, hfe⟩ := hpf s hm.1 hp1
        exact ⟨f, hf, hfe.trans hm.2⟩
    have hs0pid : ((lookup_in st.tp.services sid).getD
          { service_zero with
            service_id := sid, transport_stream_id := st.tp.transport_stream_id }).pmt_pid ≠ 0 →
        ((lookup_in st.tp.services sid).getD
          { service_zero with
            service_id := sid, transport_stream_id := st.tp.transport_stream_id }).priv = true := by
      intro hp1
      cases hl : lookup_in st.tp.services sid with
      | none =>
        rw [hl] at hp1
        exact absurd rfl hp1
      | some s =>
        have hm := lookup_in_mem _ _ _ hl
        rw [hl] at hp1
        exact hpid s hm.1 hp1
    revert hid0 hmem hs0f hs0p hs0pid
    generalize (lookup_in st.tp.services sid).getD
          { service_zero with
            service_id := sid, transport_stream_id := st.tp.transport_stream_id } = s0
    intro hid0 hmem hs0f hs0p hs0pid
    have hwid : (pat_write pid s0).service_id = sid := hid0
    have hin : pat_write pid s0 ∈ upsert_in st.tp.services sid st.tp.transport_stream_id
        (pat_write pid) := (hmem _).mpr (Or.inr rfl)
    have hkeep : ∀ s ∈ st.tp.services, ∃ s1 ∈ upsert_in st.tp.services sid
        st.tp.transport_stream_id (pat_write pid), s1.service_id = s.service_id := by
      intro s hs
      by_cases e : s.service_id = sid
      · exact ⟨_, hin, hwid.trans e.symm⟩
      · exact ⟨s, (hmem s).mpr (Or.inl ⟨hs, e⟩), rfl⟩
    have huniq := upsert_in_unique st.tp.services sid st.tp.transport_stream_id (pat_write pid)
      (pat_write_service_id pid) hu
    by_cases hc : (!s0.priv && pid != 0) = true
    · rw [if_pos hc]
      have hpriv0 : s0.priv = false := by
        cases hpv : s0.priv
        · rfl
        · rw [hpv] at hc
          simp at hc
      have hpidne : pid ≠ 0 := by
        intro e
        rw [e] at hc
        simp at hc
      have hw : (pat_write pid s0).priv = true := by
        unfold pat_write
        simp only []
        rw [if_pos hc]
      have hnone : ∀ f ∈ st.filters, f.table_id_ext ≠ sid := by
        intro f hf e
        have := hs0f ⟨f, hf, e⟩
        rw [hpriv0] at this
        cases this
      refine ⟨huniq, ?_, ?_, ?_, ?_, ?_, ?_⟩
      · rw [List.map_append, List.nodup_append]
        refine ⟨hn, List.nodup_singleton _, ?_⟩
        intro a ha hb
        simp only [List.map_cons, List.map_nil, List.mem_singleton] at hb
        obtain ⟨f, hf, e⟩ := List.mem_map.mp ha
        apply hnone f hf
        rw [e, hb]
        rfl
      · intro f hf
        rcases List.mem_append.mp hf with hf | hf
        · exact hform f hf
        · rw [List.mem_singleton] at hf
          rw [hf]
          refine ⟨?_, rfl⟩
          show ((pid : Nat) : Int) ≠ 0
          exact_mod_cast hpidne
      · intro f hf
        rcases List.mem_append.mp hf with hf | hf
        · obtain ⟨s, hs, e⟩ := hsvc f hf
          obtain ⟨s1, hs1, e1⟩ := hkeep s hs
          exact ⟨s1, hs1, e1.trans e⟩
        · rw [List.mem_singleton] at hf
          rw [hf]
          exact ⟨_, hin, hwid⟩
      · intro s hs hp
        rcases (hmem s).mp hs with ⟨hs1, _⟩ | e
        · obtain ⟨f, hf, e⟩ := hpf s hs1 hp
          exact ⟨f, List.mem_append_left _ hf, e⟩
        · refine ⟨_, List.mem_append_right _ (List.mem_singleton.mpr rfl), ?_⟩
          rw [e, hwid]
          rfl
      · rintro s hs ⟨f, hf, e⟩
        rcases (hmem s).mp hs with ⟨hs1, hne⟩ | e1
        · rcases List.mem_append.mp hf with hf | hf
          · exact hfp s hs1 ⟨f, hf, e⟩
          · rw [List.mem_singleton] at hf
            rw [hf] at e
            exact absurd e.symm hne
        · rw [e1]
          exact hw
      · intro s hs hp
        rcases (hmem s).mp hs with ⟨hs1, _⟩ | e1
        · exact hpid s hs1 hp
        · rw [e1]
          exact hw
    · rw [if_neg hc]
      have hw : (pat_write pid s0).priv = s0.priv := by
        unfold pat_write
        simp only []
        rw [if_neg hc]
      refine ⟨huniq, hn, hform, ?_, ?_, ?_, ?_⟩
      · intro f hf
        obtain ⟨s, hs, e⟩ := hsvc f hf
        obtain ⟨s1, hs1, e1⟩ := hkeep s hs
        exact ⟨s1, hs1, e1.trans e⟩
      · intro s hs hp
        rcases (hmem s).mp hs with ⟨hs1, _⟩ | e1
        · exact hpf s hs1 hp
        · rw [e1, hw] at hp
          rw [e1, hwid]
          exact hs0p hp
      · rintro s hs ⟨f, hf, e⟩
        rcases (hmem s).mp hs with ⟨hs1, _⟩ | e1
        · exact hfp s hs1 ⟨f, hf, e⟩
        · rw [e1, hw]
          rw [e1, hwid] at e
          exact hs0f ⟨f, hf, e⟩
      · intro s hs hp
        rcases (hmem s).mp hs with ⟨hs1, _⟩ | e1
        · exact hpid s hs1 hp
        · rw [e1, hw]
          rw [e1] at hp
          have hp2 : pid ≠ 0 := hp
          cases hpv : s0.priv
          · exfalso
            apply hc
            rw [hpv]
            simp [hp2]
          · rfl

theorem pat_filters_inv_entries (long_timeout : Bool) (buf : List Nat) (m : Nat) :
    ∀ (off : Nat) (st : pat_state), pat_filters_inv long_timeout st →
      pat_filters_inv long_timeout (pat_entries long_timeout buf m off st) := by
  induction m with
  | zero =>
    intro off st h
    exact h
  | succ m ih =>
    intro off st h
    unfold pat_entries
    exact ih _ _ (pat_filters_inv_entry long_timeout buf off st h)

theorem parse_pat_sections_inv (long_timeout : Bool) (secs : List (List Nat × Int × Int)) :
    ∀ ps, pat_filters_inv long_timeout ps →
      ∃ ps1, parse_pat_sections long_timeout secs ps = some ps1 ∧
        pat_filters_inv long_timeout ps1 := by
  induction secs with
  | nil =>
    intro ps h
    exact ⟨ps, rfl, h⟩
  | cons x rest ih =>
    intro ps h
    unfold parse_pat_sections
    rw [parse_pat_entries]
    simp only []
    apply ih
    have hp := pat_entries_append long_timeout x.1 ((x.2.1.toNat + 3) / 4) 0 ps.tp ps.filters []
    rw [List.append_nil] at hp
    rw [← hp]
    exact pat_filters_inv_entries long_timeout x.1 _ 0 _ h

/-! ## Lemmas: descriptor loops on a service -/

theorem service_core_fields (s s1 : service) (h : service_core s1 = service_core s) :
    s1.transport_stream_id = s.transport_stream_id ∧ s1.service_id = s.service_id ∧
    s1.pmt_pid = s.pmt_pid ∧ s1.pcr_pid = s.pcr_pid ∧ s1.video_pid = s.video_pid ∧
    s1.audio_pid = s.audio_pid ∧ s1.audio_num = s.audio_num ∧
    s1.teletext_pid = s.teletext_pid ∧ s1.subtitling_pid = s.subtitling_pid ∧
    s1.ac3_pid = s.ac3_pid ∧ s1.scrambled = s.scrambled ∧ s1.running = s.running ∧
    s1.priv = s.priv ∧ s1.channel_num = s.channel_num := by
  unfold service_core at h
  simp only [Prod.mk.injEq] at h
  exact h

theorem parse_iso639_language_descriptor_core (buf : List Nat) (off : Nat) (s : service) :
    service_core (parse_iso639_language_descriptor buf off s) = service_core s := by
  unfold parse_iso639_language_descriptor
  simp only []
  split_ifs <;> rfl

theorem parse_service_descriptor_core (cfg : scan_config) (buf : List Nat) (off : Nat)
    (s : service) : service_core (parse_service_descriptor cfg buf off s) = service_core s := by
  unfold parse_service_descriptor service_core
  rfl

theorem parse_ca_identifier_descriptor_core (buf : List Nat) (off : Nat) (s : service) :
    service_core (parse_ca_identifier_descriptor buf off s) = service_core s := by
  unfold parse_ca_identifier_descriptor service_core
  rfl

theorem desc_on_transponder_service (f : transponder → transponder) (s : service) :
    desc_on_transponder f (.service s) = .service s := rfl

theorem parse_descriptor_service (cfg : scan_config) (t : table_type) (buf : List Nat)
    (off : Nat) (s : service) (st : tp_store) :
    ∃ s1, (parse_descriptor cfg t buf off (.service s) st).1 = .service s1 ∧
      service_core s1 = service_core s ∧
      (t ≠ .NIT → (parse_descriptor cfg t buf off (.service s) st).2 = st) := by
  unfold parse_descriptor
  simp only [desc_on_transponder_service, ite_self]
  by_cases h1 : byte_at buf off = 0x0a
  · rw [if_pos h1]
    by_cases ht : t = .PMT
    · rw [if_pos ht]
      exact ⟨_, rfl, parse_iso639_language_descriptor_core buf off s, fun _ => rfl⟩
    · rw [if_neg ht]
      exact ⟨s, rfl, rfl, fun _ => rfl⟩
  rw [if_neg h1]
  by_cases h2 : byte_at buf off = 0x40
  · rw [if_pos h2]
    exact ⟨s, rfl, rfl, fun _ => rfl⟩
  rw [if_neg h2]
  by_cases h3 : byte_at buf off = 0x43
  · rw [if_pos h3]
    exact ⟨s, rfl, rfl, fun _ => rfl⟩
  rw [if_neg h3]
  by_cases h4 : byte_at buf off = 0x44
  · rw [if_pos h4]
    exact ⟨s, rfl, rfl, fun _ => rfl⟩
  rw [if_neg h4]
  by_cases h5 : byte_at buf off = 0x48
  · rw [if_pos h5]
    by_cases ht : t = .SDT
    · rw [if_pos ht]
      exact ⟨_, rfl, parse_service_descriptor_core cfg buf off s, fun _ => rfl⟩
    · rw [if_neg ht]
      exact ⟨s, rfl, rfl, fun _ => rfl⟩
  rw [if_neg h5]
  by_cases h6 : byte_at buf off = 0x53
  · rw [if_pos h6]
    by_cases ht : t = .SDT
    · rw [if_pos ht]
      exact ⟨_, rfl, parse_ca_identifier_descriptor_core buf off s, fun _ => rfl⟩
    · rw [if_neg ht]
      exact ⟨s, rfl, rfl, fun _ => rfl⟩
  rw [if_neg h6]
  by_cases h7 : byte_at buf off = 0x5a
  · rw [if_pos h7]
    exact ⟨s, rfl, rfl, fun _ => rfl⟩
  rw [if_neg h7]
  by_cases h8 : byte_at buf off = 0x62
  · rw [if_pos h8]
    exact ⟨s, rfl, rfl, fun _ => rfl⟩
  rw [if_neg h8]
  by_cases h9 : byte_at buf off = 0x83
  · rw [if_pos h9]
    by_cases ht : t = .NIT ∧ cfg.vdr_dump_channum = true
    · rw [if_pos ht]
      exact ⟨s, rfl, rfl, fun hn => absurd ht.1 hn⟩
    · rw [if_neg ht]
      exact ⟨s, rfl, rfl, fun _ => rfl⟩
  rw [if_neg h9]
  exact ⟨s, rfl, rfl, fun _ => rfl⟩

theorem parse_descriptors_loop_service (cfg : scan_config) (t : table_type) (buf : List Nat) :
    ∀ (fuel off : Nat) (len : Int) (s : service) (st : tp_store) (r : desc_data × tp_store),
      parse_descriptors_loop cfg t buf fuel off len (.service s) st = some r →
      ∃ s1, r.1 = .service s1 ∧ service_core s1 = service_core s ∧ (t ≠ .NIT → r.2 = st) := by
  intro fuel
  induction fuel with
  | zero =>
    intro off len s st r h
    unfold parse_descriptors_loop at h
    split_ifs at h
    cases h
    exact ⟨s, rfl, rfl, fun _ => rfl⟩
  | succ fuel ih =>
    intro off len s st r h
    unfold parse_descriptors_loop at h
    by_cases hl : len > 0
    · rw [if_pos hl] at h
      simp only [] at h
      by_cases hd : (byte_at buf (off + 1) + 2) % 256 = 0
      · rw [if_pos hd] at h
        cases h
        exact ⟨s, rfl, rfl, fun _ => rfl⟩
      · rw [if_neg hd] at h
        obtain ⟨s1, e1, c1, k1⟩ := parse_descriptor_service cfg t buf off s st
        rw [e1] at h
        obtain ⟨s2, e2, c2, k2⟩ := ih _ _ _ _ _ h
        exact ⟨s2, e2, c2.trans c1, fun hn => (k2 hn).trans (k1 hn)⟩
    · rw [if_neg hl] at h
      cases h
      exact ⟨s, rfl, rfl, fun _ => rfl⟩

theorem parse_descriptors_service (cfg : scan_config) (t : table_type) (buf : List Nat)
    (off : Nat) (len : Int) (s : service) (st : tp_store) (ht : t ≠ .NIT) :
    ∃ s1, parse_descriptors cfg t buf off len (.service s) st = some (.service s1, st) ∧
      service_core s1 = service_core s := by
  obtain ⟨r, hr⟩ := parse_descriptors_total cfg t buf off len (.service s) st
  obtain ⟨s1, e1, c1, k1⟩ := parse_descriptors_loop_service cfg t buf _ _ _ _ _ _ hr
  refine ⟨s1, ?_, c1⟩
  rw [hr]
  obtain ⟨d, st1⟩ := r
  simp only [] at e1 k1
  rw [e1, k1 ht]

theorem write_tp_write_tp (st : tp_store) (t : Nat) (f g : transponder → transponder) :
    write_tp (write_tp st t f) t g = write_tp st t (fun x => g (f x)) := by
  unfold write_tp
  simp

theorem write_tp_current_tp (st : tp_store) (t : Nat) (f : transponder → transponder) :
    (write_tp st t f).current_tp = st.current_tp := rfl

/-! ## Lemmas: the entries of an SDT section -/

theorem write_tp_congr (st : tp_store) (t : Nat) (f g : transponder → transponder)
    (h : f (st.tps t) = g (st.tps t)) : write_tp st t f = write_tp st t g := by
  unfold write_tp
  rw [h]

theorem sdt_write_core (cfg : scan_config) (buf : List Nat) (off : Nat) (st : tp_store)
    (s0 : service) :
    service_core (sdt_write cfg buf off st s0) =
      service_core
        { s0 with running := sdt_running buf off, scrambled := sdt_scrambled buf off } := by
  unfold sdt_write
  simp only []
  obtain ⟨s1, h1, c1⟩ := parse_descriptors_service cfg .SDT buf (off + 5)
    (sdt_descriptors_loop_len buf off)
    { s0 with running := sdt_running buf off, scrambled := sdt_scrambled buf off } st
    (by decide)
  rw [h1]
  exact c1

theorem sdt_write_service_id (cfg : scan_config) (buf : List Nat) (off : Nat) (st : tp_store)
    (s0 : service) : (sdt_write cfg buf off st s0).service_id = s0.service_id :=
  (service_core_fields _ _ (sdt_write_core cfg buf off st s0)).2.1

theorem parse_sdt_entry_spec (cfg : scan_config) (buf : List Nat) (off : Nat) (st : tp_store) :
    ∃ st1, parse_sdt_entry cfg buf off st =
      some (write_tp st st.current_tp (fun tp =>
        { tp with
          services := upsert_in tp.services (sdt_service_id buf off) tp.transport_stream_id
            (sdt_write cfg buf off st1) })) := by
  refine ⟨write_tp st st.current_tp (fun _ =>
    (find_or_alloc_service (st.tps st.current_tp) (sdt_service_id buf off)).1), ?_⟩
  unfold parse_sdt_entry
  simp only []
  obtain ⟨s1, h1, _⟩ := parse_descriptors_service cfg .SDT buf (off + 5)
    (sdt_descriptors_loop_len buf off)
    { service_at (find_or_alloc_service (st.tps st.current_tp) (sdt_service_id buf off)).1
        (find_or_alloc_service (st.tps st.current_tp) (sdt_service_id buf off)).2 with
      running := sdt_running buf off, scrambled := sdt_scrambled buf off }
    (write_tp st st.current_tp (fun _ =>
      (find_or_alloc_service (st.tps st.current_tp) (sdt_service_id buf off)).1))
    (by decide)
  have hw : sdt_write cfg buf off (write_tp st st.current_tp (fun _ =>
      (find_or_alloc_service (st.tps st.current_tp) (sdt_service_id buf off)).1))
      (service_at (find_or_alloc_service (st.tps st.current_tp) (sdt_service_id buf off)).1
        (find_or_alloc_service (st.tps st.current_tp) (sdt_service_id buf off)).2) = s1 := by
    unfold sdt_write
    simp only []
    rw [h1]
    rfl
  have h2 := h1
  unfold sdt_service_id sdt_descriptors_loop_len sdt_running sdt_scrambled at h2
  rw [h2]
  simp only [desc_service_or]
  rw [write_tp_current_tp, write_tp_write_tp]
  congr 1
  apply write_tp_congr
  rw [← find_or_alloc_set_eq, hw]
  rfl

theorem parse_sdt_entry_current (cfg : scan_config) (buf : List Nat) (off : Nat)
    (st st1 : tp_store) (h : parse_sdt_entry cfg buf off st = some st1) :
    st1.current_tp = st.current_tp ∧ st1.scanned_transponders = st.scanned_transponders ∧
    st1.new_transponders = st.new_transponders ∧ st1.next_tp = st.next_tp ∧
    st1.fe_info_type = st.fe_info_type ∧ (∀ a, a ≠ st.current_tp → st1.tps a = st.tps a) := by
  obtain ⟨st0, h0⟩ := parse_sdt_entry_spec cfg buf off st
  rw [h0] at h
  cases h
  refine ⟨rfl, rfl, rfl, rfl, rfl, ?_⟩
  intro a ha
  rw [write_tp_tps, if_neg ha]

theorem parse_sdt_entry_services (cfg : scan_config) (buf : List Nat) (off : Nat)
    (st st1 : tp_store) (h : parse_sdt_entry cfg buf off st = some st1) :
    ∃ st0, (st1.tps st1.current_tp).services =
      upsert_in (st.tps st.current_tp).services (sdt_service_id buf off)
        (st.tps st.current_tp).transport_stream_id (sdt_write cfg buf off st0) := by
  obtain ⟨st0, h0⟩ := parse_sdt_entry_spec cfg buf off st
  rw [h0] at h
  cases h
  refine ⟨st0, ?_⟩
  rw [write_tp_current_tp, write_tp_tps, if_pos rfl]

theorem parse_sdt_loop_entries (cfg : scan_config) (buf : List Nat) :
    ∀ (fuel off : Nat) (len : Int) (st : tp_store), len.toNat ≤ fuel →
      parse_sdt_loop cfg buf fuel off len st =
        sdt_entries cfg buf (sdt_entry_offsets buf fuel off len) st := by
  intro fuel
  induction fuel with
  | zero =>
    intro off len st h
    unfold parse_sdt_loop sdt_entry_offsets
    have : ¬ len ≥ 5 := by omega
    rw [if_neg this]
    rfl
  | succ fuel ih =>
    intro off len st h
    unfold parse_sdt_loop sdt_entry_offsets
    by_cases hl : len ≥ 5
    · rw [if_pos hl]
      simp only []
      by_cases hd : len < (sdt_descriptors_loop_len buf off : Int)
      · have hd1 := hd
        unfold sdt_descriptors_loop_len at hd1
        rw [if_pos hd1, if_neg (by tauto)]
        rfl
      · have hd1 := hd
        unfold sdt_descriptors_loop_len at hd1
        rw [if_neg hd1, if_pos ⟨hl, hd⟩]
        unfold sdt_entries
        cases hs : parse_sdt_entry cfg buf off st with
        | none => rfl
        | some st1 =>
          simp only []
          have := ih (off + (sdt_descriptors_loop_len buf off + 5))
            (len - ((sdt_descriptors_loop_len buf off : Int) + 5)) st1 (by omega)
          unfold sdt_descriptors_loop_len at this
          exact this
    · rw [if_neg hl, if_neg (by tauto)]
      rfl

theorem parse_sdt_entries (cfg : scan_config) (buf : List Nat) (len tsid : Int)
    (st : tp_store) :
    parse_sdt cfg buf len tsid st =
      sdt_entries cfg buf (sdt_entry_offsets buf len.toNat 3 len) st := by
  unfold parse_sdt
  exact parse_sdt_loop_entries cfg buf _ 3 len st (Nat.le_refl _)

theorem sdt_entries_current (cfg : scan_config) (buf : List Nat) (offs : List Nat) :
    ∀ st st1, sdt_entries cfg buf offs st = some st1 → st1.current_tp = st.current_tp := by
  induction offs with
  | nil =>
    intro st st1 h
    cases h
    rfl
  | cons a rest ih =>
    intro st st1 h
    unfold sdt_entries at h
    cases hs : parse_sdt_entry cfg buf a st with
    | none => exact absurd hs (parse_sdt_entry_ne_none cfg buf a st)
    | some st2 =>
      rw [hs] at h
      rw [ih st2 st1 h]
      exact (parse_sdt_entry_current cfg buf a st st2 hs).1

theorem sdt_entries_unique (cfg : scan_config) (buf : List Nat) (offs : List Nat) :
    ∀ st st1, sdt_entries cfg buf offs st = some st1 →
      services_unique (st.tps st.current_tp) → services_unique (st1.tps st1.current_tp) := by
  induction offs with
  | nil =>
    intro st st1 h hu
    cases h
    exact hu
  | cons a rest ih =>
    intro st st1 h hu
    unfold sdt_entries at h
    cases hs : parse_sdt_entry cfg buf a st with
    | none => exact absurd hs (parse_sdt_entry_ne_none cfg buf a st)
    | some st2 =>
      rw [hs] at h
      apply ih st2 st1 h
      obtain ⟨st0, e⟩ := parse_sdt_entry_services cfg buf a st st2 hs
      unfold services_unique
      rw [e]
      exact upsert_in_unique _ _ _ _ (sdt_write_service_id cfg buf a st0) hu

theorem parse_pat_entry_unique (long_timeout : Bool) (buf : List Nat) (off : Nat)
    (st : pat_state) (h : services_unique st.tp) :
    services_unique (parse_pat_entry long_timeout buf off st).tp := by
  rw [parse_pat_entry_tp]
  split_ifs
  · exact h
  · exact upsert_in_unique _ _ _ _ (pat_write_service_id _) h

theorem pat_entries_unique (long_timeout : Bool) (buf : List Nat) (m : Nat) :
    ∀ (off : Nat) (st : pat_state), services_unique st.tp →
      services_unique (pat_entries long_timeout buf m off st).tp := by
  induction m with
  | zero =>
    intro off st h
    exact h
  | succ m ih =>
    intro off st h
    unfold pat_entries
    exact ih _ _ (parse_pat_entry_unique long_timeout buf off st h)

theorem ids_set (l : List service) :
    ∀ (i : Nat) (s : service), s.service_id = (l.getD i service_zero).service_id →
      (l.set i s).map (fun s => s.service_id) = l.map (fun s => s.service_id) := by
  induction l with
  | nil =>
    intro i s _
    rfl
  | cons a l ih =>
    intro i s h
    cases i with
    | zero =>
      simp only [List.set_cons_zero, List.map_cons]
      rw [h]
      rfl
    | succ j =>
      simp only [List.set_cons_succ, List.map_cons]
      rw [ih j s h]

theorem parse_pmt_stream_frame (cfg : scan_config) (buf : List Nat) (off : Nat) (s : service)
    (st : tp_store) (r : service × tp_store) (h : parse_pmt_stream cfg buf off s st = some r) :
    r.1.service_id = s.service_id ∧ r.2 = st := by
  unfold parse_pmt_stream at h
  simp only [] at h
  by_cases hv : byte_at buf off = 0x01 ∨ byte_at buf off = 0x02 ∨ byte_at buf off = 0x1b
  · rw [if_pos hv] at h
    cases h
    refine ⟨?_, rfl⟩
    simp only []
    split_ifs <;> rfl
  rw [if_neg hv] at h
  by_cases ha : byte_at buf off = 0x03 ∨ byte_at buf off = 0x81 ∨ byte_at buf off = 0x0f ∨
      byte_at buf off = 0x11 ∨ byte_at buf off = 0x04
  · rw [if_pos ha] at h
    by_cases hn : s.audio_num < AUDIO_CHAN_MAX
    · rw [if_pos hn] at h
      have key : ∀ s1 : service,
          (match parse_descriptors cfg .PMT buf (off + 5)
              (((byte_at buf (off + 3) &&& 0x0f) <<< 8 ||| byte_at buf (off + 4) : Nat) : Int)
              (.service s1) st with
            | none => none
            | some (d, st1) =>
              some ({ desc_service_or d s1 with
                audio_num := (desc_service_or d s1).audio_num + 1 }, st1)) = some r →
          s1.service_id = s.service_id →
          r.1.service_id = s.service_id ∧ r.2 = st := by
        intro s1 hm hid
        obtain ⟨s2, h2, c2⟩ := parse_descriptors_service cfg .PMT buf (off + 5)
          (((byte_at buf (off + 3) &&& 0x0f) <<< 8 ||| byte_at buf (off + 4) : Nat) : Int)
          s1 st (by decide)
        rw [h2] at hm
        cases hm
        exact ⟨(service_core_fields _ _ c2).2.1.trans hid, rfl⟩
      by_cases hz : 0 ≤ s.audio_num
      · rw [if_pos hz] at h
        exact key _ h rfl
      · rw [if_neg hz] at h
        exact key _ h rfl
    · rw [if_neg hn] at h
      cases h
      exact ⟨rfl, rfl⟩
  rw [if_neg ha] at h
  by_cases h6 : byte_at buf off = 0x06
  · rw [if_pos h6] at h
    repeat' split at h
    all_goals first
      | cases h; exact ⟨rfl, rfl⟩
      | cases h
  rw [if_neg h6] at h
  cases h
  exact ⟨rfl, rfl⟩

theorem parse_pmt_loop_frame (cfg : scan_config) (buf : List Nat) :
    ∀ (fuel off : Nat) (len : Int) (s : service) (st : tp_store) (r : service × tp_store),
      parse_pmt_loop cfg buf fuel off len s st = some r →
      r.1.service_id = s.service_id ∧ r.2 = st := by
  intro fuel
  induction fuel with
  | zero =>
    intro off len s st r h
    unfold parse_pmt_loop at h
    split_ifs at h
    cases h
    exact ⟨rfl, rfl⟩
  | succ fuel ih =>
    intro off len s st r h
    unfold parse_pmt_loop at h
    by_cases hl : len ≥ 5
    · rw [if_pos hl] at h
      simp only [] at h
      cases hs : parse_pmt_stream cfg buf off s st with
      | none => exact absurd hs (parse_pmt_stream_ne_none _ _ _ _ _)
      | some r1 =>
        rw [hs] at h
        obtain ⟨s1, st1⟩ := r1
        obtain ⟨e1, e2⟩ := parse_pmt_stream_frame cfg buf off s st _ hs
        obtain ⟨e3, e4⟩ := ih _ _ _ _ _ h
        exact ⟨e3.trans e1, e4.trans e2⟩
    · rw [if_neg hl] at h
      cases h
      exact ⟨rfl, rfl⟩

theorem parse_pmt_frame (cfg : scan_config) (buf : List Nat) (len sid : Int)
    (st st1 : tp_store) (h : parse_pmt cfg buf len sid st = some st1) :
    st1.current_tp = st.current_tp ∧
    (st1.tps st1.current_tp).services.map (fun s => s.service_id) =
      (st.tps st.current_tp).services.map (fun s => s.service_id) := by
  unfold parse_pmt at h
  cases hf : find_service (st.tps st.current_tp) sid with
  | none =>
    rw [hf] at h
    cases h
    exact ⟨rfl, rfl⟩
  | some i =>
    rw [hf] at h
    simp only [] at h
    split at h
    · cases h
    · rename_i s1 st2 hloop
      obtain ⟨e1, e2⟩ := parse_pmt_loop_frame cfg buf _ _ _ _ _ _ hloop
      simp only [] at e1 e2
      cases h
      subst e2
      refine ⟨rfl, ?_⟩
      rw [write_tp_current_tp, write_tp_tps, if_pos rfl]
      unfold set_service
      simp only []
      apply ids_set
      have : (if s1.audio_num > AUDIO_CHAN_MAX then { s1 with audio_num := AUDIO_CHAN_MAX }
          else s1).service_id = s1.service_id := by
        split_ifs <;> rfl
      rw [this, e1]
      rfl

theorem parse_psip_vct_channel_unique (rd : psip_readers) (env : vct_env) (buf : List Nat)
    (nc i : Nat) (st : vct_state) (pass : vct_pass) (hu : services_unique st.tp)
    (h : parse_psip_vct_channel rd env buf nc i st = some pass) :
    services_unique pass.state.tp := by
  have hing : ∀ ch, parse_psip_vct_ingest rd env buf nc i ch st = some pass →
      services_unique pass.state.tp := by
    intro ch hp
    obtain ⟨pass1, hp1, htp, _, _⟩ := parse_psip_vct_ingest_spec rd env buf nc i ch st
    rw [hp] at hp1
    cases hp1
    unfold services_unique
    rw [htp]
    exact upsert_in_unique _ _ _ _ (vct_service_write_service_id rd buf st.b ch) hu
  unfold parse_psip_vct_channel at h
  simp only [] at h
  split at h
  · exact hing _ h
  · split at h
    · exact hing _ h
    · cases h
      exact hu

theorem parse_psip_vct_loop_unique (rd : psip_readers) (env : vct_env) (buf : List Nat)
    (nc n : Nat) :
    ∀ (i : Nat) (st st1 : vct_state), services_unique st.tp →
      parse_psip_vct_loop rd env buf nc n i st = some st1 → services_unique st1.tp := by
  induction n with
  | zero =>
    intro i st st1 hu h
    cases h
    exact hu
  | succ n ih =>
    intro i st st1 hu h
    unfold parse_psip_vct_loop at h
    cases hp : parse_psip_vct_channel rd env buf nc i st with
    | none =>
      rw [hp] at h
      cases h
    | some pass =>
      rw [hp] at h
      have hu1 := parse_psip_vct_channel_unique rd env buf nc i st pass hu hp
      cases pass with
      | ret st2 =>
        cases h
        exact hu1
      | next st2 => exact ih (i + 1) st2 st1 hu1 h

theorem parse_psip_vct_unique (rd : psip_readers) (env : vct_env) (buf : List Nat)
    (section_length table_id tsid : Int) (tp : transponder) (pchan_info : List channel_info)
    (vs : vct_state) (hu : services_unique tp)
    (h : parse_psip_vct rd env buf section_length table_id tsid tp pchan_info = some vs) :
    services_unique vs.tp := by
  unfold parse_psip_vct at h
  exact parse_psip_vct_loop_unique rd env buf _ _ 0 _ vs hu h

/-! ## Lemmas: what a descriptor loop leaves alone -/

theorem parse_descriptors_loop_keeps (cfg : scan_config) (t : table_type) (buf : List Nat)
    (P : desc_data × tp_store → Prop)
    (hstep : ∀ off data st, P (data, st) → P (parse_descriptor cfg t buf off data st)) :
    ∀ (fuel off : Nat) (len : Int) (data : desc_data) (st : tp_store)
      (r : desc_data × tp_store), P (data, st) →
      parse_descriptors_loop cfg t buf fuel off len data st = some r → P r := by
  intro fuel
  induction fuel with
  | zero =>
    intro off len data st r hp h
    unfold parse_descriptors_loop at h
    split_ifs at h
    cases h
    exact hp
  | succ fuel ih =>
    intro off len data st r hp h
    unfold parse_descriptors_loop at h
    by_cases hl : len > 0
    · rw [if_pos hl] at h
      simp only [] at h
      by_cases hd : (byte_at buf (off + 1) + 2) % 256 = 0
      · rw [if_pos hd] at h
        cases h
        exact hp
      · rw [if_neg hd] at h
        exact ih _ _ _ _ _ (hstep off data st hp) h
    · rw [if_neg hl] at h
      cases h
      exact hp

theorem parse_descriptor_out_of_context (cfg : scan_config) (t : table_type) (buf : List Nat)
    (off : Nat) (data : desc_data) (st : tp_store)
    (h : descriptor_context (byte_at buf off) ≠ some t) :
    parse_descriptor cfg t buf off data st = (data, st) := by
  unfold descriptor_context at h
  unfold parse_descriptor
  simp only []
  by_cases h1 : byte_at buf off = 0x0a
  · rw [if_pos h1] at h
    rw [if_pos h1, if_neg (fun e => h (by rw [e]))]
  rw [if_neg h1] at h
  rw [if_neg h1]
  by_cases h2 : byte_at buf off = 0x40
  · rw [if_pos h2]
  rw [if_neg h2]
  by_cases h3 : byte_at buf off = 0x43
  · rw [if_pos (Or.inr (Or.inl h3))] at h
    rw [if_pos h3, if_neg (fun e => h (by rw [e]))]
  rw [if_neg h3]
  by_cases h4 : byte_at buf off = 0x44
  · rw [if_pos (Or.inr (Or.inr h4))] at h
    rw [if_pos h4, if_neg (fun e => h (by rw [e]))]
  rw [if_neg h4]
  rw [if_neg (by tauto)] at h
  by_cases h5 : byte_at buf off = 0x48
  · rw [if_pos (Or.inl h5)] at h
    rw [if_pos h5, if_neg (fun e => h (by rw [e]))]
  rw [if_neg h5]
  by_cases h6 : byte_at buf off = 0x53
  · rw [if_pos (Or.inr h6)] at h
    rw [if_pos h6, if_neg (fun e => h (by rw [e]))]
  rw [if_neg h6]
  rw [if_neg (by tauto)] at h
  by_cases h7 : byte_at buf off = 0x5a
  · rw [if_pos (Or.inl h7)] at h
    rw [if_pos h7, if_neg (fun e => h (by rw [e]))]
  rw [if_neg h7]
  by_cases h8 : byte_at buf off = 0x62
  · rw [if_pos (Or.inr (Or.inl h8))] at h
    rw [if_pos h8, if_neg (fun e => h (by rw [e]))]
  rw [if_neg h8]
  by_cases h9 : byte_at buf off = 0x83
  · rw [if_pos (Or.inr (Or.inr h9))] at h
    rw [if_pos h9, if_neg (fun e => h (by rw [e.1]))]
  rw [if_neg h9]

theorem parse_descriptor_service_frame (cfg : scan_config) (t : table_type) (buf : List Nat)
    (off : Nat) (s : service) (st : tp_store) :
    ∃ s1, (parse_descriptor cfg t buf off (.service s) st).1 = .service s1 ∧
      (t ≠ .PMT → s1.audio_lang = s.audio_lang) ∧
      (t ≠ .SDT → s1.type = s.type ∧ s1.provider_name = s.provider_name ∧
        s1.service_name = s.service_name ∧ s1.ca_id = s.ca_id) := by
  by_cases hc : descriptor_context (byte_at buf off) = some t
  · unfold descriptor_context at hc
    unfold parse_descriptor
    simp only [desc_on_transponder_service, ite_self]
    by_cases h1 : byte_at buf off = 0x0a
    · rw [if_pos h1] at hc
      cases hc
      rw [if_pos h1, if_pos rfl]
      refine ⟨_, rfl, fun h => absurd rfl h, fun _ => ?_⟩
      unfold parse_iso639_language_descriptor
      simp only []
      split_ifs <;> exact ⟨rfl, rfl, rfl, rfl⟩
    rw [if_neg h1] at hc
    rw [if_neg h1]
    by_cases h2 : byte_at buf off = 0x40 ∨ byte_at buf off = 0x43 ∨ byte_at buf off = 0x44
    · have e : byte_at buf off ≠ 0x48 ∧ byte_at buf off ≠ 0x53 := by omega
      rcases h2 with h2 | h2 | h2 <;>
        (simp only [h2]
         exact ⟨s, by split_ifs <;> rfl, fun _ => rfl, fun _ => ⟨rfl, rfl, rfl, rfl⟩⟩)
    rw [if_neg h2] at hc
    have h2a : byte_at buf off ≠ 0x40 := fun e => h2 (Or.inl e)
    have h2b : byte_at buf off ≠ 0x43 := fun e => h2 (Or.inr (Or.inl e))
    have h2c : byte_at buf off ≠ 0x44 := fun e => h2 (Or.inr (Or.inr e))
    rw [if_neg h2a, if_neg h2b, if_neg h2c]
    by_cases h5 : byte_at buf off = 0x48
    · rw [if_pos (Or.inl h5)] at hc
      cases hc
      rw [if_pos h5, if_pos rfl]
      exact ⟨_, rfl, fun _ => rfl, fun h => absurd rfl h⟩
    rw [if_neg h5]
    by_cases h6 : byte_at buf off = 0x53
    · rw [if_pos (Or.inr h6)] at hc
      cases hc
      rw [if_pos h6, if_pos rfl]
      exact ⟨_, rfl, fun _ => rfl, fun h => absurd rfl h⟩
    rw [if_neg h6]
    split_ifs <;> exact ⟨s, rfl, fun _ => rfl, fun _ => ⟨rfl, rfl, rfl, rfl⟩⟩
  · rw [parse_descriptor_out_of_context cfg t buf off _ st hc]
    exact ⟨s, rfl, fun _ => rfl, fun _ => ⟨rfl, rfl, rfl, rfl⟩⟩

theorem parse_descriptor_transponder_frame (cfg : scan_config) (t : table_type)
    (buf : List Nat) (off : Nat) (tp : transponder) (st : tp_store) (ht : t ≠ .NIT) :
    parse_descriptor cfg t buf off (.transponder tp) st = (.transponder tp, st) := by
  unfold parse_descriptor
  have e1 : ∀ f : service → service,
      desc_on_service f (.transponder tp) = .transponder tp := fun _ => rfl
  have e2 : ¬ (t = .NIT ∧ cfg.vdr_dump_channum = true) := fun h => ht h.1
  simp only [e1, if_neg ht, if_neg e2, ite_self]

/-! ## Lemmas: the ATSC-type mask and the seeded channels -/

theorem and_one_ne_zero_iff (n : Nat) : n &&& 0x1 ≠ 0 ↔ n.testBit 0 = true := by
  rw [Nat.and_one_is_mod, Nat.testBit_zero]
  simp

theorem and_two_ne_zero_iff (n : Nat) : n &&& 0x2 ≠ 0 ↔ n.testBit 1 = true := by
  have e2 : (2 : Nat) = 2 ^ 1 := rfl
  constructor
  · intro h
    by_contra hb
    apply h
    apply Nat.eq_of_testBit_eq
    intro i
    rw [Nat.testBit_and, e2, Nat.testBit_two_pow, Nat.zero_testBit]
    by_cases hi : 1 = i
    · subst hi
      simp at hb
      simp [hb]
    · simp [hi]
  · intro h e
    have := congrArg (fun x => x.testBit 1) e
    simp only [Nat.testBit_and, Nat.zero_testBit, h, Bool.true_and] at this
    rw [e2, Nat.testBit_two_pow_self] at this
    cases this

theorem seed_channels_succ_fields (n : Nat) (chan : Int) (st : tp_store) :
    ∃ st1, seed_channels (n + 1) chan st = seed_channels n (chan + 1) st1 ∧
      st1.next_tp = st.next_tp + 1 ∧
      (st1.tps st.next_tp).type = FE_ATSC ∧
      (st1.tps st.next_tp).modulation = VSB_8 ∧
      (st1.tps st.next_tp).scan_done = 0 ∧
      (st1.tps st.next_tp).services = [] := by
  refine ⟨_, rfl, rfl, ?_, ?_, ?_, ?_⟩
  all_goals
    rw [write_tp_tps]
    unfold alloc_transponder
    simp [transponder_zero]

theorem seed_channels_fields : ∀ (n : Nat) (chan : Int) (st : tp_store) (i : Nat), i < n →
    ((seed_channels n chan st).tps (st.next_tp + i)).type = FE_ATSC ∧
    ((seed_channels n chan st).tps (st.next_tp + i)).modulation = VSB_8 ∧
    ((seed_channels n chan st).tps (st.next_tp + i)).scan_done = 0 ∧
    ((seed_channels n chan st).tps (st.next_tp + i)).services = [] := by
  intro n
  induction n with
  | zero =>
    intro chan st i hi
    omega
  | succ n ih =>
    intro chan st i hi
    obtain ⟨st1, e0, e1, e2, e3, e4, e5⟩ := seed_channels_succ_fields n chan st
    rw [e0]
    cases i with
    | zero =>
      have hk := (seed_channels_spec n (chan + 1) st1).2.2.1 st.next_tp (by omega)
      rw [Nat.add_zero, hk]
      exact ⟨e2, e3, e4, e5⟩
    | succ j =>
      have := ih (chan + 1) st1 j (by omega)
      have e : st.next_tp + (j + 1) = st1.next_tp + j := by omega
      rw [e]
      exact this

theorem atsc_chan_to_mhz_apart (i j : Int) (hi : 2 ≤ i) (hij : i < j) (hj : j ≤ 51) :
    atsc_chan_to_mhz i + 6 ≤ atsc_chan_to_mhz j := by
  unfold atsc_chan_to_mhz
  split_ifs <;> omega

/-! ## Lemmas: the stream entries of a PMT section -/

theorem set_getD_self (l : List (List Nat)) (d : List Nat) :
    ∀ n, l.set n (l.getD n d) = l := by
  induction l with
  | nil =>
    intro n
    rfl
  | cons a l ih =>
    intro n
    cases n with
    | zero => rfl
    | succ n =>
      simp only [List.set_cons_succ, List.getD_cons_succ]
      rw [ih n]

theorem getD_set_self (l : List (List Nat)) (d x : List Nat) (n : Nat) (h : n < l.length) :
    (l.set n x).getD n d = x := by
  rw [List.getD_eq_getElem?_getD, List.getElem?_set_self h]
  rfl

theorem parse_descriptor_pmt (cfg : scan_config) (buf : List Nat) (off : Nat) (s : service)
    (st : tp_store) :
    parse_descriptor cfg .PMT buf off (.service s) st =
      (.service (if byte_at buf off = 0x0a then parse_iso639_language_descriptor buf off s
        else s), st) := by
  by_cases h : byte_at buf off = 0x0a
  · rw [if_pos h]
    unfold parse_descriptor
    simp only []
    rw [if_pos h]
    rfl
  · rw [if_neg h]
    apply parse_descriptor_out_of_context
    unfold descriptor_context
    rw [if_neg h]
    split_ifs <;> simp

theorem parse_descriptors_loop_pmt (cfg : scan_config) (buf : List Nat) :
    ∀ (fuel off : Nat) (len : Int) (s : service) (st : tp_store),
      0 ≤ s.audio_num → s.audio_num.toNat < s.audio_lang.length → len.toNat ≤ fuel →
      parse_descriptors_loop cfg .PMT buf fuel off len (.service s) st =
        some (.service { s with
          audio_lang := s.audio_lang.set s.audio_num.toNat
            (iso639_walk buf fuel off len
              (s.audio_lang.getD s.audio_num.toNat (List.replicate 4 0))) }, st) := by
  intro fuel
  induction fuel with
  | zero =>
    intro off len s st _ _ hf
    unfold parse_descriptors_loop iso639_walk
    have hl : ¬ len > 0 := by omega
    rw [if_neg hl, if_neg hl, set_getD_self]
  | succ fuel ih =>
    intro off len s st h0 hn hf
    unfold parse_descriptors_loop iso639_walk
    by_cases hl : len > 0
    · rw [if_pos hl, if_pos hl]
      simp only []
      by_cases hd : (byte_at buf (off + 1) + 2) % 256 = 0
      · rw [if_pos hd, if_pos hd, set_getD_self]
      · rw [if_neg hd, if_neg hd, parse_descriptor_pmt]
        simp only []
        generalize (byte_at buf (off + 1) + 2) % 256 = d at hd
        have hfu : (len - (d : Int)).toNat ≤ fuel := by omega
        by_cases hc : byte_at buf off = 0x0a ∧ byte_at buf (off + 1) ≥ 4
        · rw [if_pos hc, if_pos hc.1]
          have e : parse_iso639_language_descriptor buf off s =
              { s with
                audio_lang := s.audio_lang.set s.audio_num.toNat
                  [byte_at buf (off + 2), byte_at buf (off + 3), byte_at buf (off + 4),
                   (s.audio_lang.getD s.audio_num.toNat (List.replicate 4 0)).getD 3 0] } := by
            unfold parse_iso639_language_descriptor
            simp only []
            rw [if_pos ⟨hc.2, h0⟩]
          have hi := ih (off + d) (len - (d : Int))
            { s with
              audio_lang := s.audio_lang.set s.audio_num.toNat
                [byte_at buf (off + 2), byte_at buf (off + 3), byte_at buf (off + 4),
                 (s.audio_lang.getD s.audio_num.toNat (List.replicate 4 0)).getD 3 0] } st h0
            (by simpa using hn) hfu
          rw [e, hi]
          simp only [getD_set_self _ _ _ _ hn, List.set_set]
        · rw [if_neg hc]
          have e : (if byte_at buf off = 0x0a then parse_iso639_language_descriptor buf off s
              else s) = s := by
            by_cases ht : byte_at buf off = 0x0a
            · rw [if_pos ht]
              unfold parse_iso639_language_descriptor
              simp only []
              rw [if_neg (fun h => hc ⟨ht, h.1⟩)]
            · rw [if_neg ht]
          rw [e, ih (off + d) (len - (d : Int)) s st h0 hn hfu]
    · rw [if_neg hl, if_neg hl, set_getD_self]

theorem iso639_walk_last (buf : List Nat) (cur : List Nat) :
    ∀ (fuel off : Nat) (len : Int) (acc : Option Nat),
      iso639_walk buf fuel off len
          (match acc with
           | some p => [byte_at buf (p + 2), byte_at buf (p + 3), byte_at buf (p + 4),
               cur.getD 3 0]
           | none => cur) =
        match iso639_last buf fuel off len acc with
        | some p => [byte_at buf (p + 2), byte_at buf (p + 3), byte_at buf (p + 4), cur.getD 3 0]
        | none => cur := by
  intro fuel
  induction fuel with
  | zero =>
    intro off len acc
    unfold iso639_walk iso639_last
    split_ifs <;> rfl
  | succ fuel ih =>
    intro off len acc
    unfold iso639_walk iso639_last
    by_cases hl : len > 0
    · rw [if_pos hl, if_pos hl]
      simp only []
      by_cases hd : (byte_at buf (off + 1) + 2) % 256 = 0
      · rw [if_pos hd, if_pos hd]
      · rw [if_neg hd, if_neg hd]
        by_cases hc : byte_at buf off = 0x0a ∧ byte_at buf (off + 1) ≥ 4
        · rw [if_pos hc, if_pos hc, ← ih _ _ (some off)]
          cases acc <;> rfl
        · rw [if_neg hc, if_neg hc, ← ih _ _ acc]
    · rw [if_neg hl, if_neg hl]

theorem parse_pmt_stream_cases (cfg : scan_config) (buf : List Nat) (off : Nat) (s : service)
    (st : tp_store) :
    ∃ r, parse_pmt_stream cfg buf off s st = some (r, st) ∧
      r.pcr_pid = s.pcr_pid ∧ r.service_id = s.service_id ∧
      r.video_pid = (if pmt_is_video buf off ∧ s.video_pid = 0 then pmt_elementary_pid buf off
        else s.video_pid) ∧
      (¬ (pmt_is_audio buf off ∧ s.audio_num < 32) →
        r.audio_num = s.audio_num ∧ r.audio_pid = s.audio_pid ∧
        r.audio_lang = s.audio_lang) ∧
      (pmt_is_audio buf off → ¬ s.audio_num < 32 → r = s) ∧
      (pmt_is_audio buf off → s.audio_num < 32 → 0 ≤ s.audio_num →
        s.audio_num.toNat < s.audio_lang.length →
        r.audio_num = s.audio_num + 1 ∧
        r.audio_pid = s.audio_pid.set s.audio_num.toNat (pmt_elementary_pid buf off) ∧
        r.audio_lang = s.audio_lang.set s.audio_num.toNat
          (iso639_walk buf (pmt_ES_info_len buf off) (off + 5) (pmt_ES_info_len buf off)
            (s.audio_lang.getD s.audio_num.toNat (List.replicate 4 0)))) := by
  unfold parse_pmt_stream pmt_is_video pmt_is_audio pmt_elementary_pid pmt_ES_info_len
  simp only []
  by_cases hv : byte_at buf off = 0x01 ∨ byte_at buf off = 0x02 ∨ byte_at buf off = 0x1b
  · have hna : ¬ (byte_at buf off = 0x03 ∨ byte_at buf off = 0x81 ∨ byte_at buf off = 0x0f ∨
        byte_at buf off = 0x11 ∨ byte_at buf off = 0x04) := by omega
    rw [if_pos hv]
    by_cases h0 : s.video_pid = 0
    · rw [if_pos h0, if_pos ⟨hv, h0⟩]
      exact ⟨_, rfl, rfl, rfl, rfl, fun _ => ⟨rfl, rfl, rfl⟩, fun h => absurd h hna,
        fun h => absurd h hna⟩
    · rw [if_neg h0, if_neg (fun h => h0 h.2)]
      exact ⟨_, rfl, rfl, rfl, rfl, fun _ => ⟨rfl, rfl, rfl⟩, fun h => absurd h hna,
        fun h => absurd h hna⟩
  have hvn : ¬ ((byte_at buf off = 0x01 ∨ byte_at buf off = 0x02 ∨ byte_at buf off = 0x1b) ∧
      s.video_pid = 0) := fun h => hv h.1
  rw [if_neg hv, if_neg hvn]
  by_cases ha : byte_at buf off = 0x03 ∨ byte_at buf off = 0x81 ∨ byte_at buf off = 0x0f ∨
      byte_at buf off = 0x11 ∨ byte_at buf off = 0x04
  · rw [if_pos ha]
    by_cases hn : s.audio_num < (AUDIO_CHAN_MAX : Int)
    · rw [if_pos hn]
      have hn32 : s.audio_num < 32 := hn
      have key : ∀ s1 : service, service_core s1 =
            service_core { s with audio_pid := s1.audio_pid } →
          s1.audio_lang = s.audio_lang →
          (0 ≤ s.audio_num → s1.audio_pid =
            s.audio_pid.set s.audio_num.toNat
              (((byte_at buf (off + 1) &&& 0x1f) <<< 8) ||| byte_at buf (off + 2))) →
          ∃ r, (match parse_descriptors cfg .PMT buf (off + 5)
              (((byte_at buf (off + 3) &&& 0x0f) <<< 8 ||| byte_at buf (off + 4) : Nat) : Int)
              (.service s1) st with
            | none => none
            | some (d, st1) =>
              some ({ desc_service_or d s1 with
                audio_num := (desc_service_or d s1).audio_num + 1 }, st1)) = some (r, st) ∧
            r.pcr_pid = s.pcr_pid ∧ r.service_id = s.service_id ∧
            r.video_pid = s.video_pid ∧
            (0 ≤ s.audio_num → s.audio_num.toNat < s.audio_lang.length →
              r.audio_num = s.audio_num + 1 ∧
              r.audio_pid = s.audio_pid.set s.audio_num.toNat
                (((byte_at buf (off + 1) &&& 0x1f) <<< 8) ||| byte_at buf (off + 2)) ∧
              r.audio_lang = s.audio_lang.set s.audio_num.toNat
                (iso639_walk buf (((byte_at buf (off + 3) &&& 0x0f) <<< 8) ||| byte_at buf (off + 4))
                  (off + 5) ((((byte_at buf (off + 3) &&& 0x0f) <<< 8) ||| byte_at buf (off + 4) :
                    Nat) : Int)
                  (s.audio_lang.getD s.audio_num.toNat (List.replicate 4 0)))) := by
        intro s1 hc hlang hpid
        have hcf := service_core_fields _ _ hc
        obtain ⟨s2, h2, c2⟩ := parse_descriptors_service cfg .PMT buf (off + 5)
          (((byte_at buf (off + 3) &&& 0x0f) <<< 8 ||| byte_at buf (off + 4) : Nat) : Int)
          s1 st (by decide)
        have c2f := service_core_fields _ _ c2
        rw [h2]
        refine ⟨_, rfl, c2f.2.2.2.1.trans hcf.2.2.2.1, c2f.2.1.trans hcf.2.1,
          c2f.2.2.2.2.1.trans hcf.2.2.2.2.1, ?_⟩
        intro hz hlen
        have hz1 : 0 ≤ s1.audio_num := by
          rw [hcf.2.2.2.2.2.2.1]
          exact hz
        have hlen1 : s1.audio_num.toNat < s1.audio_lang.length := by
          rw [hcf.2.2.2.2.2.2.1, hlang]
          exact hlen
        have h3 := parse_descriptors_loop_pmt cfg buf _ (off + 5)
          (((byte_at buf (off + 3) &&& 0x0f) <<< 8 ||| byte_at buf (off + 4) : Nat) : Int)
          s1 st hz1 hlen1 (Nat.le_refl _)
        unfold parse_descriptors at h2
        rw [h3] at h2
        rw [Int.toNat_ofNat] at h2
        have e2 := (desc_data.service.inj (Prod.mk.inj (Option.some.inj h2)).1).symm
        simp only [desc_service_or]
        rw [e2]
        simp only []
        rw [hcf.2.2.2.2.2.2.1, hlang, hpid hz]
        exact ⟨rfl, rfl, rfl⟩
      by_cases hz : 0 ≤ s.audio_num
      · rw [if_pos hz]
        obtain ⟨r, hr, f1, f2, f3, f4⟩ := key
          { s with audio_pid := (s.audio_pid.set s.audio_num.toNat
              (((byte_at buf (off + 1) &&& 0x1f) <<< 8) ||| byte_at buf (off + 2))) }
          rfl rfl (fun _ => rfl)
        exact ⟨r, hr, f1, f2, f3, fun h => absurd ⟨ha, hn32⟩ h, fun _ h => absurd hn32 h,
          fun _ _ hz1 hl1 => f4 hz1 hl1⟩
      · rw [if_neg hz]
        obtain ⟨r, hr, f1, f2, f3, _⟩ := key s rfl rfl (fun h => absurd h hz)
        exact ⟨r, hr, f1, f2, f3, fun h => absurd ⟨ha, hn32⟩ h, fun _ h => absurd hn32 h,
          fun _ _ hz1 _ => absurd hz1 hz⟩
    · rw [if_neg hn]
      have hn32 : ¬ s.audio_num < 32 := hn
      exact ⟨s, rfl, rfl, rfl, rfl, fun _ => ⟨rfl, rfl, rfl⟩, fun _ _ => rfl,
        fun _ h => absurd h hn32⟩
  rw [if_neg ha]
  by_cases h6 : byte_at buf off = 0x06
  · rw [if_pos h6]
    cases h56 : find_descriptor 0x56 buf (off + 5)
        (((byte_at buf (off + 3) &&& 0x0f) <<< 8 ||| byte_at buf (off + 4) : Nat) : Int) with
    | none => exact absurd h56 (find_descriptor_ne_none _ _ _ _)
    | some x =>
      cases x with
      | some y =>
        exact ⟨_, rfl, rfl, rfl, rfl, fun _ => ⟨rfl, rfl, rfl⟩, fun h => absurd h ha,
          fun h => absurd h ha⟩
      | none =>
        simp only []
        cases h59 : find_descriptor 0x59 buf (off + 5)
            (((byte_at buf (off + 3) &&& 0x0f) <<< 8 ||| byte_at buf (off + 4) : Nat) : Int) with
        | none => exact absurd h59 (find_descriptor_ne_none _ _ _ _)
        | some x =>
          cases x with
          | some y =>
            exact ⟨_, rfl, rfl, rfl, rfl, fun _ => ⟨rfl, rfl, rfl⟩, fun h => absurd h ha,
              fun h => absurd h ha⟩
          | none =>
            simp only []
            cases h6a : find_descriptor 0x6a buf (off + 5)
                (((byte_at buf (off + 3) &&& 0x0f) <<< 8 ||| byte_at buf (off + 4) : Nat) :
                  Int) with
            | none => exact absurd h6a (find_descriptor_ne_none _ _ _ _)
            | some x =>
              cases x with
              | some y =>
                exact ⟨_, rfl, rfl, rfl, rfl, fun _ => ⟨rfl, rfl, rfl⟩, fun h => absurd h ha,
                  fun h => absurd h ha⟩
              | none =>
                exact ⟨_, rfl, rfl, rfl, rfl, fun _ => ⟨rfl, rfl, rfl⟩, fun h => absurd h ha,
                  fun h => absurd h ha⟩
  rw [if_neg h6]
  exact ⟨_, rfl, rfl, rfl, rfl, fun _ => ⟨rfl, rfl, rfl⟩, fun h => absurd h ha,
    fun h => absurd h ha⟩

theorem getD_set_eq {α : Type} (l : List α) (d x : α) (n : Nat) (h : n < l.length) :
    (l.set n x).getD n d = x := by
  rw [List.getD_eq_getElem?_getD, List.getElem?_set_self h]
  rfl

theorem getD_set_ne {α : Type} (l : List α) (d x : α) (n k : Nat) (h : n ≠ k) :
    (l.set n x).getD k d = l.getD k d := by
  rw [List.getD_eq_getElem?_getD, List.getD_eq_getElem?_getD, List.getElem?_set_ne h]

theorem find_service_in_lt (l : List service) (sid : Int) :
    ∀ i, find_service_in l sid = some i → i < l.length := by
  induction l with
  | nil =>
    intro i h
    cases h
  | cons a l ih =>
    intro i h
    unfold find_service_in at h
    by_cases ha : a.service_id = sid
    · rw [if_pos ha] at h
      cases h
      exact Nat.succ_pos _
    · rw [if_neg ha] at h
      cases hf : find_service_in l sid with
      | none =>
        rw [hf] at h
        cases h
      | some j =>
        rw [hf] at h
        cases h
        exact Nat.succ_lt_succ (ih j hf)

theorem pmt_write_cases (cfg : scan_config) (buf : List Nat) (st : tp_store) (off : Nat)
    (s : service) :
    parse_pmt_stream cfg buf off s st = some (pmt_write cfg buf st off s, st) ∧
    (pmt_write cfg buf st off s).pcr_pid = s.pcr_pid ∧
    (pmt_write cfg buf st off s).service_id = s.service_id ∧
    (pmt_write cfg buf st off s).video_pid =
      (if pmt_is_video buf off ∧ s.video_pid = 0 then pmt_elementary_pid buf off
        else s.video_pid) ∧
    (¬ (pmt_is_audio buf off ∧ s.audio_num < 32) →
      (pmt_write cfg buf st off s).audio_num = s.audio_num ∧
      (pmt_write cfg buf st off s).audio_pid = s.audio_pid ∧
      (pmt_write cfg buf st off s).audio_lang = s.audio_lang) ∧
    (pmt_is_audio buf off → ¬ s.audio_num < 32 → pmt_write cfg buf st off s = s) ∧
    (pmt_is_audio buf off → s.audio_num < 32 → 0 ≤ s.audio_num →
      s.audio_num.toNat < s.audio_lang.length →
      (pmt_write cfg buf st off s).audio_num = s.audio_num + 1 ∧
      (pmt_write cfg buf st off s).audio_pid =
        s.audio_pid.set s.audio_num.toNat (pmt_elementary_pid buf off) ∧
      (pmt_write cfg buf st off s).audio_lang = s.audio_lang.set s.audio_num.toNat
        (pmt_entry_lang buf off (s.audio_lang.getD s.audio_num.toNat (List.replicate 4 0)))) := by
  obtain ⟨r, hr, h1, h2, h3, h4, h5, h6⟩ := parse_pmt_stream_cases cfg buf off s st
  have e : pmt_write cfg buf st off s = r := by
    unfold pmt_write
    rw [hr]
  rw [e]
  refine ⟨hr, h1, h2, h3, h4, h5, ?_⟩
  intro a b c d
  obtain ⟨g1, g2, g3⟩ := h6 a b c d
  refine ⟨g1, g2, ?_⟩
  rw [g3]
  exact congrArg _ (iso639_walk_last buf _ _ _ _ none)

theorem parse_pmt_loop_fold (cfg : scan_config) (buf : List Nat) :
    ∀ (fuel off : Nat) (len : Int) (s : service) (st : tp_store), len.toNat ≤ fuel →
      parse_pmt_loop cfg buf fuel off len s st =
        some ((pmt_entry_offsets buf fuel off len).foldl
          (fun s o => pmt_write cfg buf st o s) s, st) := by
  intro fuel
  induction fuel with
  | zero =>
    intro off len s st hf
    unfold parse_pmt_loop pmt_entry_offsets
    have hl : ¬ len ≥ 5 := by omega
    rw [if_neg hl]
    rfl
  | succ fuel ih =>
    intro off len s st hf
    unfold parse_pmt_loop pmt_entry_offsets
    by_cases hl : len ≥ 5
    · rw [if_pos hl, if_pos hl]
      simp only []
      rw [(pmt_write_cases cfg buf st off s).1]
      simp only [List.foldl_cons]
      have hfu : (len - ((((byte_at buf (off + 3) &&& 0x0f) <<< 8) ||| byte_at buf (off + 4) : Nat)
          + 5 : Int)).toNat ≤ fuel := by omega
      rw [ih _ _ _ _ hfu]
      rfl
    · rw [if_neg hl, if_neg hl]
      rfl

theorem pmt_fold_core (cfg : scan_config) (buf : List Nat) (st : tp_store) :
    ∀ (offs : List Nat) (s : service),
      (offs.foldl (fun s o => pmt_write cfg buf st o s) s).pcr_pid = s.pcr_pid ∧
      (offs.foldl (fun s o => pmt_write cfg buf st o s) s).service_id = s.service_id ∧
      (offs.foldl (fun s o => pmt_write cfg buf st o s) s).video_pid =
        (if s.video_pid ≠ 0 then s.video_pid else pmt_first_video buf offs) := by
  intro offs
  induction offs with
  | nil =>
    intro s
    refine ⟨rfl, rfl, ?_⟩
    by_cases h : s.video_pid ≠ 0
    · rw [if_pos h]
      rfl
    · rw [if_neg h]
      have h0 : s.video_pid = 0 := by omega
      rw [List.foldl_nil, h0]
      rfl
  | cons o rest ih =>
    intro s
    obtain ⟨_, c1, c2, c3, _⟩ := pmt_write_cases cfg buf st o s
    obtain ⟨i1, i2, i3⟩ := ih (pmt_write cfg buf st o s)
    rw [List.foldl_cons]
    refine ⟨i1.trans c1, i2.trans c2, ?_⟩
    rw [i3]
    unfold pmt_first_video
    rw [List.find?_cons]
    by_cases h : s.video_pid ≠ 0
    · have hn : ¬ (pmt_is_video buf o ∧ s.video_pid = 0) := fun x => h x.2
      rw [if_neg hn] at c3
      rw [c3, if_pos h, if_pos h]
    · have h0 : s.video_pid = 0 := by omega
      rw [if_neg h]
      by_cases hv : pmt_is_video buf o
      · rw [if_pos ⟨hv, h0⟩] at c3
        rw [c3]
        by_cases hp : pmt_elementary_pid buf o ≠ 0
        · rw [if_pos hp]
          have hd : decide (pmt_is_video buf o ∧ pmt_elementary_pid buf o ≠ 0) = true :=
            decide_eq_true ⟨hv, hp⟩
          rw [hd]
        · rw [if_neg hp]
          have hd : decide (pmt_is_video buf o ∧ pmt_elementary_pid buf o ≠ 0) = false :=
            decide_eq_false (fun x => hp x.2)
          rw [hd]
      · have hn : ¬ (pmt_is_video buf o ∧ s.video_pid = 0) := fun x => hv x.1
        rw [if_neg hn] at c3
        rw [c3, if_neg h]
        have hd : decide (pmt_is_video buf o ∧ pmt_elementary_pid buf o ≠ 0) = false :=
          decide_eq_false (fun x => hv x.1)
        rw [hd]

theorem pmt_fold_audio (cfg : scan_config) (buf : List Nat) (st : tp_store) :
    ∀ (offs : List Nat) (s : service) (a : Nat), s.audio_num = (a : Int) →
      s.audio_pid.length = 32 → s.audio_lang.length = 32 →
      (offs.foldl (fun s o => pmt_write cfg buf st o s) s).audio_num =
        ((if a < 32 then min 32 (a + (offs.filter (fun o => decide (pmt_is_audio buf o))).length)
          else a : Nat) : Int) ∧
      (offs.foldl (fun s o => pmt_write cfg buf st o s) s).audio_pid.length = 32 ∧
      (offs.foldl (fun s o => pmt_write cfg buf st o s) s).audio_lang.length = 32 ∧
      (∀ j, j < (offs.filter (fun o => decide (pmt_is_audio buf o))).length → a + j < 32 →
        (offs.foldl (fun s o => pmt_write cfg buf st o s) s).audio_pid.getD (a + j) 0 =
          pmt_elementary_pid buf
            ((offs.filter (fun o => decide (pmt_is_audio buf o))).getD j 0) ∧
        (offs.foldl (fun s o => pmt_write cfg buf st o s) s).audio_lang.getD (a + j)
            (List.replicate 4 0) =
          pmt_entry_lang buf ((offs.filter (fun o => decide (pmt_is_audio buf o))).getD j 0)
            (s.audio_lang.getD (a + j) (List.replicate 4 0))) ∧
      (∀ k, k < a ∨
          min 32 (a + (offs.filter (fun o => decide (pmt_is_audio buf o))).length) ≤ k →
        (offs.foldl (fun s o => pmt_write cfg buf st o s) s).audio_pid.getD k 0 =
          s.audio_pid.getD k 0 ∧
        (offs.foldl (fun s o => pmt_write cfg buf st o s) s).audio_lang.getD k
            (List.replicate 4 0) =
          s.audio_lang.getD k (List.replicate 4 0)) := by
  intro offs
  induction offs with
  | nil =>
    intro s a ha hp hl
    simp only [List.foldl_nil, List.filter_nil, List.length_nil, Nat.add_zero]
    refine ⟨?_, hp, hl, ?_, ?_⟩
    · rw [ha]
      split_ifs with h
      · rw [Nat.min_eq_right (Nat.le_of_lt h)]
      · rfl
    · intro j hj
      exact absurd hj (Nat.not_lt_zero _)
    · intro k _
      simp
  | cons o rest ih =>
    intro s a ha hp hl
    obtain ⟨_, _, _, _, c4, c5, c6⟩ := pmt_write_cases cfg buf st o s
    rw [List.foldl_cons]
    by_cases hau : pmt_is_audio buf o
    · have ef : (o :: rest).filter (fun o => decide (pmt_is_audio buf o)) =
          o :: rest.filter (fun o => decide (pmt_is_audio buf o)) := by
        simp [List.filter_cons, hau]
      rw [ef]
      by_cases hn : s.audio_num < 32
      · have ha32 : a < 32 := by omega
        have hz : 0 ≤ s.audio_num := by omega
        have hlen : s.audio_num.toNat < s.audio_lang.length := by omega
        obtain ⟨d1, d2, d3⟩ := c6 hau hn hz hlen
        have hto : s.audio_num.toNat = a := by omega
        rw [hto] at d2 d3
        have ha1 : (pmt_write cfg buf st o s).audio_num = ((a + 1 : Nat) : Int) := by
          rw [d1, ha]
          rfl
        have hp1 : (pmt_write cfg buf st o s).audio_pid.length = 32 := by
          rw [d2, List.length_set]
          exact hp
        have hl1 : (pmt_write cfg buf st o s).audio_lang.length = 32 := by
          rw [d3, List.length_set]
          exact hl
        obtain ⟨i1, i2, i3, i4, i5⟩ := ih (pmt_write cfg buf st o s) (a + 1) ha1 hp1 hl1
        refine ⟨?_, i2, i3, ?_, ?_⟩
        · rw [i1, if_pos ha32, List.length_cons]
          congr 1
          split_ifs with h
          · omega
          · omega
        · intro j hj hj32
          cases j with
          | zero =>
            obtain ⟨k1, k2⟩ := i5 a (Or.inl (Nat.lt_succ_self a))
            rw [Nat.add_zero, k1, k2, d2, d3, List.getD_cons_zero,
              getD_set_eq _ _ _ _ (by omega), getD_set_eq _ _ _ _ (by omega)]
            exact ⟨rfl, rfl⟩
          | succ j =>
            rw [List.length_cons] at hj
            obtain ⟨k1, k2⟩ := i4 j (by omega) (by omega)
            have e : a + (j + 1) = a + 1 + j := by omega
            rw [e, k1, k2, List.getD_cons_succ, d3, getD_set_ne _ _ _ _ _ (by omega)]
            exact ⟨rfl, rfl⟩
        · intro k hk
          rw [List.length_cons] at hk
          have hka : a ≠ k := by omega
          obtain ⟨k1, k2⟩ := i5 k (by omega)
          rw [k1, k2, d2, d3, getD_set_ne _ _ _ _ _ hka, getD_set_ne _ _ _ _ _ hka]
          exact ⟨rfl, rfl⟩
      · have ha32 : ¬ a < 32 := by omega
        rw [c5 hau hn]
        obtain ⟨i1, i2, i3, i4, i5⟩ := ih s a ha hp hl
        refine ⟨?_, i2, i3, ?_, ?_⟩
        · rw [i1, if_neg ha32, if_neg ha32]
        · intro j _ hj32
          omega
        · intro k _
          exact i5 k (by omega)
    · have ef : (o :: rest).filter (fun o => decide (pmt_is_audio buf o)) =
          rest.filter (fun o => decide (pmt_is_audio buf o)) := by
        simp [List.filter_cons, hau]
      rw [ef]
      obtain ⟨d1, d2, d3⟩ := c4 (fun h => hau h.1)
      have r := ih (pmt_write cfg buf st o s) a (d1.trans ha) (d2 ▸ hp) (d3 ▸ hl)
      rw [d2, d3] at r
      exact r

theorem find_service_in_ids (sid : Int) :
    ∀ (l1 l2 : List service),
      l1.map (fun s => s.service_id) = l2.map (fun s => s.service_id) →
      find_service_in l1 sid = find_service_in l2 sid := by
  intro l1
  induction l1 with
  | nil =>
    intro l2 h
    cases l2 with
    | nil => rfl
    | cons b l2 => cases h
  | cons a l1 ih =>
    intro l2 h
    cases l2 with
    | nil => cases h
    | cons b l2 =>
      rw [List.map_cons, List.map_cons] at h
      have h1 : a.service_id = b.service_id := (List.cons.inj h).1
      have h2 := ih l2 (List.cons.inj h).2
      unfold find_service_in
      rw [h1, h2]

theorem iso639_last_eq_spec (buf : List Nat) :
    ∀ (fuel off : Nat) (len : Int) (acc : Option Nat), len.toNat ≤ fuel →
      (∀ o ∈ descriptor_offsets_spec buf fuel off len, byte_at buf (o + 1) ≤ 253) →
      iso639_last buf fuel off len acc =
        match iso639_last_spec buf fuel off len with
        | some p => some p
        | none => acc := by
  intro fuel
  induction fuel with
  | zero =>
    intro off len acc hf _
    unfold iso639_last iso639_last_spec descriptor_offsets_spec
    have hl : ¬ len > 0 := by omega
    rw [if_neg hl]
    rfl
  | succ fuel ih =>
    intro off len acc hf hb
    unfold iso639_last iso639_last_spec descriptor_offsets_spec
    unfold descriptor_offsets_spec at hb
    by_cases hl : len > 0
    · rw [if_pos hl, if_pos hl]
      rw [if_pos hl] at hb
      have hL : byte_at buf (off + 1) ≤ 253 := hb off (List.mem_cons_self _ _)
      have hd : (byte_at buf (off + 1) + 2) % 256 = 2 + byte_at buf (off + 1) := by omega
      have hd0 : ¬ 2 + byte_at buf (off + 1) = 0 := by omega
      simp only []
      rw [hd, if_neg hd0]
      have hfu : (len - ((2 + byte_at buf (off + 1) : Nat) : Int)).toNat ≤ fuel := by omega
      rw [ih _ _ _ hfu (fun o ho => hb o (List.mem_cons_of_mem _ ho))]
      unfold iso639_last_spec
      rw [List.filter_cons]
      by_cases hP : byte_at buf off = 0x0a ∧ byte_at buf (off + 1) ≥ 4
      · rw [if_pos hP, if_pos (decide_eq_true hP), List.getLast?_cons]
        cases ((descriptor_offsets_spec buf fuel (off + (2 + byte_at buf (off + 1)))
          (len - ((2 + byte_at buf (off + 1) : Nat) : Int))).filter
            (fun o => decide (byte_at buf o = 0x0a ∧ byte_at buf (o + 1) ≥ 4))).getLast? <;> rfl
      · rw [if_neg hP, if_neg (by simpa using hP)]
    · rw [if_neg hl, if_neg hl]
      rfl

theorem pmt_entry_lang_spec (buf : List Nat) (o : Nat) (cur : List Nat)
    (h : ∀ p ∈ descriptor_offsets_spec buf (pmt_ES_info_len buf o) (o + 5)
      (pmt_ES_info_len buf o), byte_at buf (p + 1) ≤ 253) :
    pmt_entry_lang buf o cur =
      match iso639_last_spec buf (pmt_ES_info_len buf o) (o + 5) (pmt_ES_info_len buf o) with
      | some p => [byte_at buf (p + 2), byte_at buf (p + 3), byte_at buf (p + 4), cur.getD 3 0]
      | none => cur := by
  unfold pmt_entry_lang
  rw [iso639_last_eq_spec buf _ _ _ none (by simp) h]
  cases iso639_last_spec buf (pmt_ES_info_len buf o) (o + 5) (pmt_ES_info_len buf o) <;> rfl

theorem parse_pmt_fold (cfg : scan_config) (buf : List Nat) (section_length service_id : Int)
    (st : tp_store) (i : Nat)
    (hf : find_service (st.tps st.current_tp) service_id = some i) :
    parse_pmt cfg buf section_length service_id st =
      some (write_tp st st.current_tp (fun tp => set_service tp i
        (if ((pmt_offsets buf section_length).foldl (fun s o => pmt_write cfg buf st o s)
            { service_at (st.tps st.current_tp) i with
              pcr_pid := ((byte_at buf 0 &&& 0x1f) <<< 8) ||| byte_at buf 1 }).audio_num >
            AUDIO_CHAN_MAX then
          { (pmt_offsets buf section_length).foldl (fun s o => pmt_write cfg buf st o s)
              { service_at (st.tps st.current_tp) i with
                pcr_pid := ((byte_at buf 0 &&& 0x1f) <<< 8) ||| byte_at buf 1 } with
            audio_num := AUDIO_CHAN_MAX }
        else
          (pmt_offsets buf section_length).foldl (fun s o => pmt_write cfg buf st o s)
            { service_at (st.tps st.current_tp) i with
              pcr_pid := ((byte_at buf 0 &&& 0x1f) <<< 8) ||| byte_at buf 1 }))) := by
  unfold parse_pmt
  rw [hf]
  simp only []
  rw [parse_pmt_loop_fold cfg buf _ _ _ _ _ (Nat.le_refl _)]
  rfl

theorem service_at_write_set (st : tp_store) (i : Nat) (r : service)
    (hi : i < (st.tps st.current_tp).services.length) :
    (write_tp st st.current_tp (fun tp => set_service tp i r)).current_tp = st.current_tp ∧
    service_at ((write_tp st st.current_tp (fun tp => set_service tp i r)).tps
      (write_tp st st.current_tp (fun tp => set_service tp i r)).current_tp) i = r ∧
    (∀ k, k ≠ i →
      service_at ((write_tp st st.current_tp (fun tp => set_service tp i r)).tps
        (write_tp st st.current_tp (fun tp => set_service tp i r)).current_tp) k =
      service_at (st.tps st.current_tp) k) ∧
    ((write_tp st st.current_tp (fun tp => set_service tp i r)).tps
      (write_tp st st.current_tp (fun tp => set_service tp i r)).current_tp).services =
      (st.tps st.current_tp).services.set i r := by
  rw [write_tp_current_tp, write_tp_tps, if_pos rfl]
  refine ⟨rfl, ?_, ?_, rfl⟩
  · unfold service_at set_service
    exact getD_set_eq _ _ _ _ hi
  · intro k hk
    unfold service_at set_service
    exact getD_set_ne _ _ _ _ _ (Ne.symm hk)

theorem pmt_clamp_fields (F : service) :
    (if F.audio_num > AUDIO_CHAN_MAX then { F with audio_num := AUDIO_CHAN_MAX }
      else F).pcr_pid = F.pcr_pid ∧
    (if F.audio_num > AUDIO_CHAN_MAX then { F with audio_num := AUDIO_CHAN_MAX }
      else F).service_id = F.service_id ∧
    (if F.audio_num > AUDIO_CHAN_MAX then { F with audio_num := AUDIO_CHAN_MAX }
      else F).video_pid = F.video_pid ∧
    (if F.audio_num > AUDIO_CHAN_MAX then { F with audio_num := AUDIO_CHAN_MAX }
      else F).audio_pid = F.audio_pid ∧
    (if F.audio_num > AUDIO_CHAN_MAX then { F with audio_num := AUDIO_CHAN_MAX }
      else F).audio_lang = F.audio_lang ∧
    (if F.audio_num > AUDIO_CHAN_MAX then { F with audio_num := AUDIO_CHAN_MAX }
      else F).audio_num = min 32 F.audio_num := by
  by_cases h : F.audio_num > (AUDIO_CHAN_MAX : Int)
  · rw [if_pos h]
    have h1 : F.audio_num > 32 := h
    refine ⟨rfl, rfl, rfl, rfl, rfl, ?_⟩
    show ((32 : Nat) : Int) = _
    omega
  · rw [if_neg h]
    have h1 : ¬ F.audio_num > 32 := h
    refine ⟨rfl, rfl, rfl, rfl, rfl, ?_⟩
    omega

theorem pmt_entry_lang_254 (buf : List Nat) (o : Nat) (cur : List Nat)
    (h : byte_at buf (o + 6) = 254) : pmt_entry_lang buf o cur = cur := by
  unfold pmt_entry_lang
  have hd : (byte_at buf (o + 5 + 1) + 2) % 256 = 0 := by
    rw [show o + 5 + 1 = o + 6 by omega, h]
  cases pmt_ES_info_len buf o with
  | zero =>
    unfold iso639_last
    rw [if_neg (by decide)]
  | succ n =>
    unfold iso639_last
    rw [if_pos (by omega)]
    simp only []
    rw [if_pos hd]

theorem scan_tp_atsc_filters_ok (long_timeout no_ATSC_PSIP : Bool) (ATSC_type : Nat)
    (f : section_buf) (h : f ∈ scan_tp_atsc_filters long_timeout no_ATSC_PSIP ATSC_type) :
    scan_filter_ok f := by
  have hk : ∀ tid : Int, tid ∈ scan_table_ids → ∀ pid : Int,
      scan_filter_ok (setup_filter long_timeout pid tid (-1) true false 5) :=
    fun tid ht pid => ⟨ht, rfl⟩
  unfold scan_tp_atsc_filters at h
  cases no_ATSC_PSIP
  · rw [if_neg (by decide)] at h
    simp only [List.mem_append, List.mem_singleton] at h
    rcases h with (h | h) | h
    · split_ifs at h
      · rw [List.mem_singleton.mp h]
        exact hk _ (by decide) _
      · cases h
    · split_ifs at h
      · rw [List.mem_singleton.mp h]
        exact hk _ (by decide) _
      · cases h
    · rw [h]
      exact hk _ (by decide) _
  · rw [if_pos rfl] at h
    rw [List.mem_singleton.mp h]
    exact hk _ (by decide) _

theorem pat_entries_filters_ok (long_timeout : Bool) (buf : List Nat) (m : Nat) :
    ∀ (off : Nat) (st : pat_state),
      (∀ f ∈ st.filters, f.table_id = 0x02 ∧ f.segmented = false) →
      ∀ f ∈ (pat_entries long_timeout buf m off st).filters,
        f.table_id = 0x02 ∧ f.segmented = false := by
  induction m with
  | zero =>
    intro off st h
    exact h
  | succ m ih =>
    intro off st h
    unfold pat_entries
    apply ih
    intro f hf
    rw [parse_pat_entry_filters] at hf
    split_ifs at hf
    · exact h f hf
    · rcases List.mem_append.mp hf with h1 | h1
      · exact h f h1
      · rw [List.mem_singleton.mp h1]
        exact ⟨rfl, rfl⟩
    · exact h f hf

theorem parse_pmt_store (cfg : scan_config) (buf : List Nat) (section_length service_id : Int)
    (st st1 : tp_store) (h : parse_pmt cfg buf section_length service_id st = some st1) :
    store_lists st1 = store_lists st ∧ ∀ t, t ≠ st.current_tp → st1.tps t = st.tps t := by
  cases hf : find_service (st.tps st.current_tp) service_id with
  | none =>
    unfold parse_pmt at h
    rw [hf] at h
    cases h
    exact ⟨rfl, fun _ _ => rfl⟩
  | some i =>
    rw [parse_pmt_fold cfg buf section_length service_id st i hf] at h
    cases h
    refine ⟨rfl, ?_⟩
    intro t ht
    rw [write_tp_tps, if_neg ht]

theorem section_decode_scan (cfg : scan_config) (fe : fe_readings) (w wd : scan_world)
    (tid : Nat) (buf : List Nat) (len ext : Int) (ht : (tid : Int) ∈ scan_table_ids)
    (h : section_decode cfg fe w tid buf len ext = some wd) :
    store_lists wd.store = store_lists w.store ∧
    (∀ t, t ≠ w.store.current_tp → wd.store.tps t = w.store.tps t) ∧
    (∀ f ∈ wd.submitted, f ∈ w.submitted ∨ (f.table_id = 0x02 ∧ f.segmented = false)) := by
  have ht1 : tid = 0x00 ∨ tid = 0x02 ∨ tid = 0xc8 ∨ tid = 0xc9 := by
    unfold scan_table_ids at ht
    simp only [List.mem_cons, List.mem_singleton, List.not_mem_nil, or_false] at ht
    omega
  by_cases h0 : tid = 0x00
  · subst h0
    rw [section_decode_pat] at h
    cases h
    refine ⟨rfl, ?_, ?_⟩
    · intro t ht2
      simp only []
      rw [write_tp_tps, if_neg ht2]
    · intro f hf
      simp only [] at hf
      rcases List.mem_append.mp hf with h1 | h1
      · exact Or.inl h1
      · exact Or.inr (pat_entries_filters_ok cfg.long_timeout buf _ 0 _
          (fun g hg => absurd hg (List.not_mem_nil g)) f h1)
  · unfold section_decode at h
    rw [if_neg h0] at h
    by_cases h2 : tid = 0x02
    · rw [if_pos h2] at h
      cases hp : parse_pmt cfg buf len ext w.store with
      | none =>
        rw [hp] at h
        cases h
      | some st1 =>
        rw [hp] at h
        cases h
        obtain ⟨e1, e2⟩ := parse_pmt_store cfg buf len ext w.store st1 hp
        exact ⟨e1, e2, fun f hf => Or.inl hf⟩
    · rw [if_neg h2, if_neg (by omega), if_neg (by omega), if_pos (by omega)] at h
      cases hp : parse_psip_vct cfg.rd
          { save_channel_info := cfg.save_channel_info, rf_chan := w.store.rf_chan, fe := fe }
          buf len tid ext (w.store.tps w.store.current_tp) w.pchan_info with
      | none =>
        rw [hp] at h
        cases h
      | some vs =>
        rw [hp] at h
        cases h
        refine ⟨rfl, ?_, fun f hf => Or.inl hf⟩
        intro t ht2
        simp only []
        rw [write_tp_tps, if_neg ht2]

theorem parse_section_scan (cfg : scan_config) (fe : fe_readings) (w : scan_world) (a : Nat)
    (buf : List Nat) (hok : scan_filter_ok (w.pool.bufs a)) :
    ∃ w1 rc, parse_section cfg fe w a buf = some (w1, rc) ∧
      w1.next_buf = w.next_buf ∧
      (∀ b, (w1.pool.bufs b).table_id = (w.pool.bufs b).table_id ∧
        (w1.pool.bufs b).segmented = (w.pool.bufs b).segmented) ∧
      store_lists w1.store = store_lists w.store ∧
      (∀ t, t ≠ w.store.current_tp → w1.store.tps t = w.store.tps t) ∧
      (∀ f ∈ w1.submitted, f ∈ w.submitted ∨ (f.table_id = 0x02 ∧ f.segmented = false)) ∧
      (rc ≠ -1 → (sec_table_id buf : Int) ∈ scan_table_ids) ∧
      ((sec_table_id buf : Int) ∉ scan_table_ids → w1 = w ∧ rc = -1) := by
  by_cases h1 : (w.pool.bufs a).table_id = sec_table_id buf
  · have hin : (sec_table_id buf : Int) ∈ scan_table_ids := h1 ▸ hok.1
    have hroute := seg_route_plain w a (sec_table_id buf) (sec_table_id_ext buf) (sec_version buf)
      (by rw [hok.2]; simp)
    by_cases h3 : sec_length buf < 9
    · refine ⟨_, _, parse_section_short cfg fe w w a a buf h1 hroute h3, rfl, ?_, rfl,
        fun _ _ => rfl, fun f hf => Or.inl hf, fun _ => hin, fun hn => absurd hin hn⟩
      intro b
      rw [set_buf_bufs]
      by_cases hb : b = a
      · subst hb
        rw [Function.update_same]
        have e := section_reset_fields (w.pool.bufs b) (sec_table_id_ext buf) (sec_version buf)
        exact ⟨e.2.2.2.2.1, e.2.2.1⟩
      · rw [Function.update_noteq hb]
        exact ⟨rfl, rfl⟩
    · obtain ⟨w3, wd, hr, hb, hn, _, _, hdec, hs, _, _, hsub⟩ :=
        parse_section_spec cfg fe w w a a buf h1 hroute (by omega)
      have hwd : store_lists wd.store = store_lists w.store ∧
          (∀ t, t ≠ w.store.current_tp → wd.store.tps t = w.store.tps t) ∧
          (∀ f ∈ wd.submitted, f ∈ w.submitted ∨ (f.table_id = 0x02 ∧ f.segmented = false)) := by
        split_ifs at hdec
        · obtain ⟨wm, m1, _, _, m4, hd⟩ := hdec
          have r := section_decode_scan cfg fe wm wd _ _ _ _ hin hd
          rw [m1, m4] at r
          exact r
        · rw [hdec]
          exact ⟨rfl, fun _ _ => rfl, fun f hf => Or.inl hf⟩
      refine ⟨w3, _, hr, hn, ?_, ?_, ?_, ?_, fun _ => hin, fun hn => absurd hin hn⟩
      · intro b
        rw [hb]
        by_cases hba : b = a
        · subst hba
          rw [Function.update_same]
          have e := section_handled_fields (w.pool.bufs b) buf
          exact ⟨e.2.2.2.2.1, e.2.2.1⟩
        · rw [Function.update_noteq hba]
          exact ⟨rfl, rfl⟩
      · rw [hs]
        exact hwd.1
      · rw [hs]
        exact hwd.2.1
      · rw [hsub]
        exact hwd.2.2
  · refine ⟨w, -1, parse_section_wrong_table cfg fe w a buf h1, rfl, fun _ => ⟨rfl, rfl⟩, rfl,
      fun _ _ => rfl, fun f hf => Or.inl hf, fun h => absurd rfl h, fun _ => ⟨rfl, rfl⟩⟩

theorem scan_reachable_inv (cfg : scan_config) (w : scan_world) (h : scan_reachable cfg w) :
    (∀ a, a < w.next_buf → scan_filter_ok (w.pool.bufs a)) ∧
    (∀ f ∈ w.submitted, f.table_id = 0x02 ∧ f.segmented = false) := by
  have hplace : ∀ (w : scan_world) (f : section_buf) (fd t : Int),
      ((∀ a, a < w.next_buf → scan_filter_ok (w.pool.bufs a)) ∧
        (∀ f ∈ w.submitted, f.table_id = 0x02 ∧ f.segmented = false)) →
      scan_filter_ok f →
      (∀ a, a < (place_filter w f fd t).next_buf →
        scan_filter_ok ((place_filter w f fd t).pool.bufs a)) ∧
      (∀ g ∈ (place_filter w f fd t).submitted, g.table_id = 0x02 ∧ g.segmented = false) := by
    intro w f fd t hw hf
    refine ⟨?_, hw.2⟩
    intro a ha
    have ha1 : a < w.next_buf + 1 := ha
    show scan_filter_ok (Function.update w.pool.bufs w.next_buf _ a)
    by_cases e : a = w.next_buf
    · rw [e, Function.update_same]
      exact hf
    · rw [Function.update_noteq e]
      exact hw.1 a (by omega)
  induction h with
  | start w h0 hs =>
    refine ⟨fun a ha => ?_, fun f hf => ?_⟩
    · rw [h0] at ha
      exact absurd ha (Nat.not_lt_zero a)
    · rw [hs] at hf
      exact absurd hf (List.not_mem_nil f)
  | seed w f fd t np ty _ hf ih =>
    exact hplace w f fd t ih (scan_tp_atsc_filters_ok _ _ _ f hf)
  | submit w f fd t _ hf ih =>
    exact hplace w f fd t ih ⟨by rw [(ih.2 f hf).1]; decide, (ih.2 f hf).2⟩
  | parse w w1 fe a buf rc _ ha hp ih =>
    obtain ⟨w2, rc2, hp2, hn, hb, _, _, hsub, _⟩ :=
      parse_section_scan cfg fe w a buf (ih.1 a ha)
    rw [hp] at hp2
    have e : w1 = w2 := (Prod.mk.inj (Option.some.inj hp2)).1
    rw [e]
    refine ⟨fun b hb1 => ?_, fun f hf => ?_⟩
    · rw [hn] at hb1
      have := ih.1 b hb1
      exact ⟨(hb b).1 ▸ this.1, (hb b).2.trans this.2⟩
    · rcases hsub f hf with h1 | h1
      · exact ih.2 f h1
      · exact h1
  | tune w st _ ih => exact ih
  | touch w a fd t rt _ ih =>
    refine ⟨fun b hb => ?_, ih.2⟩
    show scan_filter_ok (Function.update w.pool.bufs a _ b)
    by_cases e : b = a
    · rw [e, Function.update_same]
      exact ih.1 a (e ▸ hb)
    · rw [Function.update_noteq e]
      exact ih.1 b hb

theorem update_poll_fds_frame (p q : filter_pool) (h : update_poll_fds p = .ok q) :
    q.bufs = p.bufs ∧ q.running_filters = p.running_filters ∧
    q.waiting_filters = p.waiting_filters ∧ q.n_running = p.n_running := by
  unfold update_poll_fds at h
  split at h
  · cases h
  · split_ifs at h
    cases h
    exact ⟨rfl, rfl, rfl, rfl⟩

theorem start_filter_frame (p q : filter_pool) (s : Nat) (rep : demux_reply) (rc : Int)
    (h : start_filter p s rep = .ok (q, rc)) :
    (∀ t, t ≠ s → q.bufs t = p.bufs t) ∧
    (∀ t, t ∈ q.running_filters → t = s ∨ t ∈ p.running_filters) ∧
    (∀ t, t ∈ q.waiting_filters → t ∈ p.waiting_filters) := by
  unfold start_filter at h
  have hopen : ∀ t, t ≠ s → (start_filter_open p s rep).bufs t = p.bufs t := by
    intro t ht
    simp only [start_filter_open, Function.update_noteq ht]
  split_ifs at h
  · cases h
    exact ⟨fun _ _ => rfl, fun _ ht => Or.inr ht, fun _ ht => ht⟩
  · cases h
    exact ⟨hopen, fun _ ht => Or.inr ht, fun _ ht => ht⟩
  · cases h
    exact ⟨hopen, fun _ ht => Or.inr ht, fun _ ht => ht⟩
  · split at h
    · cases h
    · rename_i p3 hu
      cases h
      obtain ⟨e1, e2, e3, _⟩ := update_poll_fds_frame _ _ hu
      rw [e1, e2, e3]
      refine ⟨?_, ?_, ?_⟩
      · intro t ht
        simp only [start_filter_link, start_filter_open, Function.update_noteq ht]
      · intro t ht
        simp only [start_filter_link, start_filter_open] at ht
        rcases List.mem_cons.mp ht with e | e
        · exact Or.inl e
        · exact Or.inr (List.mem_of_mem_erase e)
      · intro t ht
        simp only [start_filter_link, start_filter_open] at ht
        exact List.mem_of_mem_erase ht

theorem start_waiting_filters_frame (s : Nat) (fuel : Nat) :
    ∀ (p q : filter_pool) (replies : Nat → demux_reply),
      start_waiting_filters fuel p replies = .ok q →
      s ∉ p.waiting_filters → s ∉ p.running_filters →
      q.bufs s = p.bufs s ∧ s ∉ q.running_filters ∧ s ∉ q.waiting_filters := by
  induction fuel with
  | zero =>
    intro p q replies h hw hr
    unfold start_waiting_filters at h
    split at h
    · cases h
      exact ⟨rfl, hr, hw⟩
    · cases h
  | succ fuel ih =>
    intro p q replies h hw hr
    unfold start_waiting_filters at h
    split at h
    · cases h
      exact ⟨rfl, hr, hw⟩
    · rename_i w ws hwl
      simp only [] at h
      have hws : s ≠ w := by
        intro e
        apply hw
        rw [hwl, e]
        exact List.mem_cons_self _ _
      cases hst : start_filter p w (replies 0) with
      | error e =>
        rw [hst] at h
        cases h
      | ok r =>
        obtain ⟨p1, rc⟩ := r
        rw [hst] at h
        simp only [] at h
        obtain ⟨f1, f2, f3⟩ := start_filter_frame p p1 w (replies 0) rc hst
        have hr1 : s ∉ p1.running_filters := by
          intro hm
          rcases f2 s hm with e | e
          · exact hws e
          · exact hr e
        have hw1 : s ∉ p1.waiting_filters := fun hm => hw (f3 s hm)
        split_ifs at h
        · cases h
          exact ⟨f1 s hws, hr1, hw1⟩
        · obtain ⟨g1, g2, g3⟩ := ih p1 q _ h hw1 hr1
          exact ⟨g1.trans (f1 s hws), g2, g3⟩

theorem remove_filter_retires (p : filter_pool) (s : Nat) (now : Int)
    (replies : Nat → demux_reply) (h : pool_inv p) (hs : s ∈ p.running_filters) :
    ∃ q, remove_filter p s now replies = .ok q ∧ pool_inv q ∧
      s ∉ q.running_filters ∧ s ∉ q.waiting_filters ∧
      (∀ k, q.poll_section_bufs.getD k none ≠ some s) ∧
      q.bufs s =
        { p.bufs s with
          fd := -1
          running_time := (p.bufs s).running_time + (now - (p.bufs s).start_time) } := by
  obtain ⟨q1, hq1, hinv1, hr1, hw1⟩ := stop_filter_inv p s now h hs
  have hb1 : q1.bufs s = { p.bufs s with
      fd := -1
      running_time := (p.bufs s).running_time + (now - (p.bufs s).start_time) } := by
    unfold stop_filter at hq1
    obtain ⟨e1, _⟩ := update_poll_fds_frame _ _ hq1
    rw [e1]
    simp only [stop_filter_unlink, Function.update_same]
  have hsr : s ∉ q1.running_filters := by
    rw [hr1]
    exact fun hm => ((List.Nodup.mem_erase_iff h.nodup_running).mp hm).1 rfl
  have hsw : s ∉ q1.waiting_filters := by
    rw [hw1]
    exact h.disjoint s hs
  obtain ⟨q, hq, hinv⟩ := start_waiting_filters_inv _ q1 replies hinv1 (Nat.le_refl _)
  obtain ⟨g1, g2, g3⟩ := start_waiting_filters_frame s _ q1 q replies hq hsw hsr
  unfold remove_filter
  rw [hq1]
  refine ⟨q, hq, hinv, g2, g3, ?_, g1.trans hb1⟩
  intro k hk
  rw [hinv.slots] at hk
  exact g2 (slot_mem_running _ _ s k hk)

theorem report_write_bounds (st : vct_state) (idx : Int) (f : channel_info → channel_info)
    (h : 0 ≤ idx ∧ idx < 50) : (report_write st idx f).out_of_bounds = st.out_of_bounds := by
  unfold report_write
  simp only []
  rw [if_pos h]

theorem report_vc_bounds (env : vct_env) (i : Nat) (ch : tvct_channel) (s : service)
    (st : vct_state) (h2 : 2 ≤ env.rf_chan) (h51 : env.rf_chan ≤ 51) :
    (report_vc env i ch s st).out_of_bounds =
      (st.out_of_bounds || !decide (i < 16 ∧ strcpy_fits (s.service_name.getD []))) := by
  unfold report_vc
  simp only []
  rw [report_write_bounds _ _ _ (by omega)]
  by_cases h : i < 16 ∧ strcpy_fits (s.service_name.getD [])
  · rw [if_pos h, decide_eq_true h]
    simp
  · rw [if_neg h, decide_eq_false h]
    simp

theorem parse_psip_vct_ingest_bounds (rd : psip_readers) (env : vct_env) (buf : List Nat)
    (nc i : Nat) (ch : tvct_channel) (st : vct_state) (pass : vct_pass)
    (h2 : 2 ≤ env.rf_chan) (h51 : env.rf_chan ≤ 51)
    (h : parse_psip_vct_ingest rd env buf nc i ch st = some pass) :
    match pass with
    | .ret st1 => st1.out_of_bounds = st.out_of_bounds
    | .next st1 =>
      st1.out_of_bounds =
        (st.out_of_bounds ||
          ((if env.save_channel_info = true then [(i, vct_report_name rd buf ch st)]
            else []).any (fun r => !decide (r.1 < 16 ∧ strcpy_fits r.2)))) := by
  unfold parse_psip_vct_ingest at h
  simp only [] at h
  have hname : ∀ s1, parse_psip_descriptors rd (vct_short_name ch
      (service_at (find_or_alloc_service st.tp (vct_program_number ch st.pseudo_id).1).1
        (find_or_alloc_service st.tp (vct_program_number ch st.pseudo_id).1).2)) buf (st.b + 32)
      ch.descriptors_length.val = some s1 →
      (vct_channel_num_running ch s1).service_name.getD [] = vct_report_name rd buf ch st := by
    intro s1 hs1
    unfold vct_report_name vct_service_write
    simp only []
    rw [hs1]
    rfl
  split at h
  · cases h
  · rename_i s1 hs1
    have hn := hname s1 hs1
    split_ifs at h with hs h0
    · split at h
      · cases h
        rfl
      · cases h
        simp only []
        rw [report_vc_bounds _ _ _ _ _ h2 h51, hn]
        unfold report_header
        rw [report_write_bounds _ _ _ (by omega)]
        simp [hs]
    · cases h
      simp only []
      rw [report_vc_bounds _ _ _ _ _ h2 h51, hn]
      simp [hs]
    · cases h
      simp [hs]

theorem parse_psip_vct_loop_bounds (rd : psip_readers) (env : vct_env) (buf : List Nat)
    (nc : Nat) (h2 : 2 ≤ env.rf_chan) (h51 : env.rf_chan ≤ 51) :
    ∀ (n i : Nat) (st st1 : vct_state),
      parse_psip_vct_loop rd env buf nc n i st = some st1 →
      st1.out_of_bounds =
        (st.out_of_bounds ||
          (vct_report_calls rd env buf nc n i st).any
            (fun r => !decide (r.1 < 16 ∧ strcpy_fits r.2))) ∧
      ∀ r ∈ vct_report_calls rd env buf nc n i st, i ≤ r.1 ∧ r.1 < i + n := by
  intro n
  induction n with
  | zero =>
    intro i st st1 h
    unfold parse_psip_vct_loop at h
    cases h
    unfold vct_report_calls
    exact ⟨by simp, fun r hr => absurd hr (List.not_mem_nil r)⟩
  | succ n ih =>
    intro i st st1 h
    unfold parse_psip_vct_loop at h
    unfold vct_report_calls
    cases hp : parse_psip_vct_channel rd env buf nc i st with
    | none =>
      rw [hp] at h
      cases h
    | some pass =>
      rw [hp] at h
      have hch : match pass with
          | .ret st2 => st2.out_of_bounds = st.out_of_bounds
          | .next st2 =>
            st2.out_of_bounds =
              (st.out_of_bounds ||
                ((if ((rd.read_tvct_channel buf st.b).service_type.val = 0x01 ∨
                      (rd.read_tvct_channel buf st.b).service_type.val = 0x02 ∨
                      (rd.read_tvct_channel buf st.b).service_type.val = 0x03) ∧
                    env.save_channel_info = true then
                  [(i, vct_report_name rd buf (rd.read_tvct_channel buf st.b) st)]
                 else []).any (fun r => !decide (r.1 < 16 ∧ strcpy_fits r.2)))) := by
        unfold parse_psip_vct_channel at hp
        simp only [] at hp
        by_cases t1 : (rd.read_tvct_channel buf st.b).service_type.val = 0x01
        · rw [if_pos t1] at hp
          have r := parse_psip_vct_ingest_bounds rd env buf nc i _ st pass h2 h51 hp
          cases pass with
          | ret st2 => exact r
          | next st2 =>
            simp only [] at r ⊢
            rw [r]
            by_cases hs : env.save_channel_info = true
            · rw [if_pos hs, if_pos ⟨Or.inl t1, hs⟩]
            · rw [if_neg hs, if_neg (fun x => hs x.2)]
        · rw [if_neg t1] at hp
          by_cases t2 : (rd.read_tvct_channel buf st.b).service_type.val = 0x02 ∨
              (rd.read_tvct_channel buf st.b).service_type.val = 0x03
          · rw [if_pos t2] at hp
            have r := parse_psip_vct_ingest_bounds rd env buf nc i _ st pass h2 h51 hp
            cases pass with
            | ret st2 => exact r
            | next st2 =>
              simp only [] at r ⊢
              rw [r]
              by_cases hs : env.save_channel_info = true
              · rw [if_pos hs, if_pos ⟨Or.inr t2, hs⟩]
              · rw [if_neg hs, if_neg (fun x => hs x.2)]
          · rw [if_neg t2] at hp
            cases hp
            simp only []
            rw [if_neg (fun x => x.1.elim t1 t2)]
            simp
      cases pass with
      | ret st2 =>
        simp only [] at h hch ⊢
        cases h
        exact ⟨by rw [hch]; simp, fun r hr => absurd hr (List.not_mem_nil r)⟩
      | next st2 =>
        simp only [] at h hch ⊢
        obtain ⟨e1, e2⟩ := ih (i + 1) st2 st1 h
        refine ⟨?_, ?_⟩
        · rw [e1, hch, List.any_append, Bool.or_assoc]
        · intro r hr
          rcases List.mem_append.mp hr with hr1 | hr1
          · split_ifs at hr1
            · rw [List.mem_singleton.mp hr1]
              exact ⟨Nat.le_refl _, by omega⟩
            · exact absurd hr1 (List.not_mem_nil r)
          · have := e2 r hr1
            omega

theorem vct_channels_16_reports :
    ∀ r ∈ vct_reports atsc_readers vct_env_chan2 (vct_channels 16)
      (world_pat_filter.store.tps world_pat_filter.store.current_tp) pchan_info_zero,
      r.1 < 16 ∧ strcpy_fits r.2 := by
  decide!

theorem vct_channels_17_overrun :
    (parse_psip_vct atsc_readers vct_env_chan2 (vct_channels 17) 555 0xc8 1
        (world_pat_filter.store.tps world_pat_filter.store.current_tp) pchan_info_zero).map
      (fun vs => (vs.out_of_bounds, vs.ingested.length)) = some (true, 17) := by
  decide!

theorem vct_channels_17_last_call :
    (vct_reports atsc_readers vct_env_chan2 (vct_channels 17)
        (world_pat_filter.store.tps world_pat_filter.store.current_tp)
        pchan_info_zero).getLast? = some (16, [0x41, 0x42, 0x43, 0, 0, 0, 0]) := by
  decide!

theorem vct_long_name_overrun :
    (parse_psip_vct atsc_readers vct_env_chan2 vct_long_name 91 0xc8 1
        (world_pat_filter.store.tps world_pat_filter.store.current_tp) pchan_info_zero).map
      (fun vs => vs.out_of_bounds) = some true := by
  decide!

theorem vct_long_name_reports :
    vct_reports atsc_readers vct_env_chan2 vct_long_name
        (world_pat_filter.store.tps world_pat_filter.store.current_tp) pchan_info_zero =
      [(0, List.replicate 40 0x41 ++ [0])] := by
  decide!

theorem vct_two_channels_overrun :
    (parse_psip_vct atsc_readers vct_env_chan2 vct_two_channels 66 0xc8 1
        (world_pat_filter.store.tps world_pat_filter.store.current_tp) pchan_info_zero).map
      (fun vs => vs.out_of_bounds) = some true := by
  decide!

theorem vct_two_channels_reports :
    vct_reports atsc_readers vct_env_chan2 vct_two_channels
        (world_pat_filter.store.tps world_pat_filter.store.current_tp) pchan_info_zero =
      [(0, [0x41, 0x42, 0x43, 0x44, 0x45, 0x46, 0x47]),
       (1, [0x41, 0x42, 0x43, 0x44, 0x45, 0x46, 0x47])] := by
  decide!

theorem parse_psip_vct_ingest_status_fails (rd : psip_readers) (env : vct_env)
    (buf : List Nat) (nc : Nat) (ch : tvct_channel) (st : vct_state)
    (h1 : env.save_channel_info = true) (h2 : env.fe.status = none) :
    parse_psip_vct_ingest rd env buf nc 0 ch st =
      (parse_psip_descriptors rd
        (vct_short_name ch
          (service_at (find_or_alloc_service st.tp (vct_program_number ch st.pseudo_id).1).1
            (find_or_alloc_service st.tp (vct_program_number ch st.pseudo_id).1).2))
        buf (st.b + 32) ch.descriptors_length.val).map
        (fun s1 => vct_pass.ret
          { st with
            tp := set_service
              (find_or_alloc_service st.tp (vct_program_number ch st.pseudo_id).1).1
              (find_or_alloc_service st.tp (vct_program_number ch st.pseudo_id).1).2
              (vct_channel_num_running ch s1)
            pseudo_id := (vct_program_number ch st.pseudo_id).2
            ingested := st.ingested ++ [(ch, (vct_program_number ch st.pseudo_id).1)] }) := by
  unfold parse_psip_vct_ingest
  simp only [h1, h2, if_true]
  cases parse_psip_descriptors rd
      (vct_short_name ch
        (service_at (find_or_alloc_service st.tp (vct_program_number ch st.pseudo_id).1).1
          (find_or_alloc_service st.tp (vct_program_number ch st.pseudo_id).1).2))
      buf (st.b + 32) ch.descriptors_length.val <;> rfl

theorem parse_psip_vct_loop_status_fails (rd : psip_readers) (env env1 : vct_env)
    (buf : List Nat) (nc nc1 n : Nat) (st : vct_state) (p1 : List channel_info)
    (h1 : env.save_channel_info = true) (h2 : env.fe.status = none)
    (h3 : env1.save_channel_info = true) (h4 : env1.fe.status = none)
    (ht : (rd.read_tvct_channel buf st.b).service_type.val = 0x01 ∨
      (rd.read_tvct_channel buf st.b).service_type.val = 0x02 ∨
      (rd.read_tvct_channel buf st.b).service_type.val = 0x03) :
    (parse_psip_vct_loop rd env buf nc (n + 1) 0 st).map vct_core =
      (parse_psip_vct_loop rd env1 buf nc1 (n + 1) 0 { st with pchan_info := p1 }).map
        vct_core := by
  have hch : ∀ (e : vct_env) (m : Nat) (s0 : vct_state), s0.b = st.b →
      parse_psip_vct_channel rd e buf m 0 s0 =
        parse_psip_vct_ingest rd e buf m 0 (rd.read_tvct_channel buf s0.b) s0 := by
    intro e m s0 hb
    unfold parse_psip_vct_channel
    simp only []
    rw [hb]
    by_cases t1 : (rd.read_tvct_channel buf st.b).service_type.val = 0x01
    · rw [if_pos t1]
    · rw [if_neg t1, if_pos (ht.resolve_left t1)]
  unfold parse_psip_vct_loop
  rw [hch env nc st rfl, hch env1 nc1 { st with pchan_info := p1 } rfl,
    parse_psip_vct_ingest_status_fails rd env buf nc _ st h1 h2,
    parse_psip_vct_ingest_status_fails rd env1 buf nc1 _ { st with pchan_info := p1 } h3 h4]
  simp only []
  cases parse_psip_descriptors rd
      (vct_short_name (rd.read_tvct_channel buf st.b)
        (service_at
          (find_or_alloc_service st.tp
            (vct_program_number (rd.read_tvct_channel buf st.b) st.pseudo_id).1).1
          (find_or_alloc_service st.tp
            (vct_program_number (rd.read_tvct_channel buf st.b) st.pseudo_id).1).2))
      buf (st.b + 32) (rd.read_tvct_channel buf st.b).descriptors_length.val <;> rfl

theorem parse_psip_vct_status_fails (rd : psip_readers) (env env1 : vct_env) (buf : List Nat)
    (section_length table_id tsid : Int) (tp : transponder) (pchan_info p1 : List channel_info)
    (h1 : env.save_channel_info = true) (h2 : env.fe.status = none)
    (h3 : env1.save_channel_info = true) (h4 : env1.fe.status = none)
    (hn : byte_at buf 1 ≠ 0)
    (ht : (rd.read_tvct_channel buf 2).service_type.val = 0x01 ∨
      (rd.read_tvct_channel buf 2).service_type.val = 0x02 ∨
      (rd.read_tvct_channel buf 2).service_type.val = 0x03) :
    (parse_psip_vct rd env buf section_length table_id tsid tp pchan_info).map vct_core =
      (parse_psip_vct rd env1 buf section_length table_id tsid tp p1).map vct_core := by
  unfold parse_psip_vct
  simp only []
  obtain ⟨n, hn1⟩ := Nat.exists_eq_succ_of_ne_zero hn
  have key := parse_psip_vct_loop_status_fails rd env env1 buf (byte_at buf 1) (byte_at buf 1) n
    { tp := tp, b := 2, pseudo_id := 0xffff, pchan_info := pchan_info, out_of_bounds := false,
      ingested := [] } p1 h1 h2 h3 h4 ht
  rw [← Nat.succ_eq_add_one, ← hn1] at key
  exact key

/-! ## Channel plan: theorems -/

/-- C1: for every ATSC channel n in 2..51, converting the channel to MHz with
`atsc_chan_to_mhz` and back with `atsc_mhz_to_chan` yields n again. -/
theorem atsc_chan_roundtrip (n : Int) (h2 : 2 ≤ n) (h51 : n ≤ 51) :
    atsc_mhz_to_chan (atsc_chan_to_mhz n) = n := by
  interval_cases n <;> decide

/-- Witness of C1 at channel 14. -/
theorem atsc_chan_roundtrip_witness :
    (2 : Int) ≤ 14 ∧ (14 : Int) ≤ 51 ∧ atsc_mhz_to_chan (atsc_chan_to_mhz 14) = 14 :=
  ⟨by decide, by decide, atsc_chan_roundtrip 14 (by decide) (by decide)⟩

/-- C2: `atsc_chan_to_mhz` agrees with the channel-plan table on every integer:
57+(n-2)*6 on 2..4, 79+(n-5)*6 on 5..6, 177+(n-7)*6 on 7..13, 473+(n-14)*6 on
14..51, and -1 for every n outside 2..51. -/
theorem atsc_chan_to_mhz_table (n : Int) :
    atsc_chan_to_mhz n = channel_plan_table n ∧
    (2 ≤ n ∧ n ≤ 4 → atsc_chan_to_mhz n = 57 + (n - 2) * 6) ∧
    (5 ≤ n ∧ n ≤ 6 → atsc_chan_to_mhz n = 79 + (n - 5) * 6) ∧
    (7 ≤ n ∧ n ≤ 13 → atsc_chan_to_mhz n = 177 + (n - 7) * 6) ∧
    (14 ≤ n ∧ n ≤ 51 → atsc_chan_to_mhz n = 473 + (n - 14) * 6) ∧
    (n < 2 ∨ 51 < n → atsc_chan_to_mhz n = -1) := by
  refine ⟨?_, ?_, ?_, ?_, ?_, ?_⟩
  · unfold atsc_chan_to_mhz channel_plan_table
    split_ifs <;> rfl
  all_goals
    intro h
    unfold atsc_chan_to_mhz
    split_ifs <;> omega

/-- Witness of C2 at channel 7 (in range) and channel 52 (out of range). -/
theorem atsc_chan_to_mhz_table_witness :
    atsc_chan_to_mhz 7 = 177 + (7 - 7) * 6 ∧ atsc_chan_to_mhz 52 = -1 :=
  ⟨(atsc_chan_to_mhz_table 7).2.2.2.1 (by decide),
   (atsc_chan_to_mhz_table 52).2.2.2.2.2 (by decide)⟩

/-! ## BCD: theorems -/

/-- C3: for every n below 10^8, `bcd32_to_cpu` applied to the four bytes (most
significant first) of the 8-digit BCD encoding of n returns n; and for every
four bytes whose eight nibbles are all in 0..9, decoding yields the decimal
number with those digits and re-encoding that number gives back the bytes. -/
theorem bcd32_roundtrip :
    (∀ n : Nat, n < 100000000 →
      bcd32_to_cpu (cpu_to_bcd32 n).1 (cpu_to_bcd32 n).2.1
        (cpu_to_bcd32 n).2.2.1 (cpu_to_bcd32 n).2.2.2 = n) ∧
    (∀ b0 b1 b2 b3 : Nat,
      bcd_digits_ok b0 → bcd_digits_ok b1 → bcd_digits_ok b2 → bcd_digits_ok b3 →
      bcd32_to_cpu b0 b1 b2 b3 =
        (b0 / 16) * 10000000 + (b0 % 16) * 1000000 + (b1 / 16) * 100000 +
        (b1 % 16) * 10000 + (b2 / 16) * 1000 + (b2 % 16) * 100 +
        (b3 / 16) * 10 + (b3 % 16) ∧
      cpu_to_bcd32 (bcd32_to_cpu b0 b1 b2 b3) = (b0, b1, b2, b3)) := by
  constructor
  · intro n hn
    simp only [cpu_to_bcd32]
    rw [bcd32_to_cpu_bcd_bytes _ _ _ _ _ _ _ _ (Nat.mod_lt _ (by decide))
      (Nat.mod_lt _ (by decide)) (Nat.mod_lt _ (by decide)) (Nat.mod_lt _ (by decide))
      (Nat.mod_lt _ (by decide)) (Nat.mod_lt _ (by decide)) (Nat.mod_lt _ (by decide))
      (Nat.mod_lt _ (by decide))]
    exact (sum_of_decimal_digits n hn).symm
  · intro b0 b1 b2 b3 h0 h1 h2 h3
    have k0 := bcd_byte_of_nibbles b0
    have k1 := bcd_byte_of_nibbles b1
    have k2 := bcd_byte_of_nibbles b2
    have k3 := bcd_byte_of_nibbles b3
    have hd := bcd32_to_cpu_bcd_bytes (b0 / 16) (b0 % 16) (b1 / 16) (b1 % 16) (b2 / 16)
      (b2 % 16) (b3 / 16) (b3 % 16) h0.2.1 h0.2.2 h1.2.1 h1.2.2 h2.2.1 h2.2.2 h3.2.1 h3.2.2
    rw [k0, k1, k2, k3] at hd
    refine ⟨hd, ?_⟩
    obtain ⟨e7, e6, e5, e4, e3, e2, e1, e0⟩ :=
      decimal_digits_of_sum (b0 / 16) (b0 % 16) (b1 / 16) (b1 % 16) (b2 / 16)
        (b2 % 16) (b3 / 16) (b3 % 16) h0.2.1 h0.2.2 h1.2.1 h1.2.2 h2.2.1 h2.2.2 h3.2.1
        h3.2.2 _ hd
    simp only [cpu_to_bcd32]
    rw [e7, e6, e5, e4, e3, e2, e1, e0, k0, k1, k2, k3]

/-- Witness of C3: the number 12345678 and its BCD bytes 0x12 0x34 0x56 0x78. -/
theorem bcd32_roundtrip_witness :
    bcd32_to_cpu 0x12 0x34 0x56 0x78 = 12345678 ∧
    cpu_to_bcd32 12345678 = (0x12, 0x34, 0x56, 0x78) ∧
    cpu_to_bcd32 (bcd32_to_cpu 0x12 0x34 0x56 0x78) = (0x12, 0x34, 0x56, 0x78) :=
  ⟨by decide, by decide,
   (bcd32_roundtrip.2 0x12 0x34 0x56 0x78 (by decide) (by decide) (by decide)
      (by decide)).2⟩

/-! ## Filter pool: theorem -/

/-- C4: in every state reachable from the empty pool through `add_filter`,
`start_filter`, `stop_filter` and `remove_filter`, whatever the demux device
answers, `n_running` is at most 27, equals the number of filters on the running
list, and that equals the number of occupied poll slots; so the check of
`read_filters` passes, the filter `read_filters` takes from a poll slot is a
running one, and no call of `update_poll_fds` (alone or inside the four
functions) ends in `fatal` or runs out of fuel. -/
theorem filter_pool_invariant (p : filter_pool) (h : pool_reachable p) :
    p.n_running ≤ 27 ∧
    p.n_running = p.running_filters.length ∧
    occupied_slots p = p.running_filters.length ∧
    read_filters_check p = .ok () ∧
    (∀ i s, p.poll_section_bufs.getD i none = some s → s ∈ p.running_filters) ∧
    (∃ q, update_poll_fds p = .ok q) ∧
    (∀ s rep, s ∉ p.running_filters → ∃ q rc, start_filter p s rep = .ok (q, rc)) ∧
    (∀ s rep, s ∉ p.running_filters → s ∉ p.waiting_filters →
      ∃ q, add_filter p s rep = .ok q) ∧
    (∀ s now, s ∈ p.running_filters → ∃ q, stop_filter p s now = .ok q) ∧
    (∀ s now replies, s ∈ p.running_filters →
      ∃ q, remove_filter p s now replies = .ok q) := by
  have hinv := pool_reachable_inv p h
  refine ⟨?_, hinv.count, ?_, read_filters_check_ok p hinv, ?_, ?_, ?_, ?_, ?_, ?_⟩
  · have := hinv.count
    have := hinv.bound
    unfold MAX_RUNNING at this
    omega
  · unfold occupied_slots
    rw [hinv.slots]
    exact occupied_slots_of _ _
  · intro i s hs
    rw [hinv.slots] at hs
    exact slot_mem_running _ _ s i hs
  · obtain ⟨fds, hq⟩ := update_poll_fds_ok p hinv.bound hinv.fds hinv.count
    exact ⟨_, hq⟩
  · intro s rep hs
    obtain ⟨q, rc, hq, _⟩ := start_filter_inv p s rep hinv hs
    exact ⟨q, rc, hq⟩
  · intro s rep hs hw
    obtain ⟨q, hq, _⟩ := add_filter_inv p s rep hinv hs hw
    exact ⟨q, hq⟩
  · intro s now hs
    obtain ⟨q, hq, _⟩ := stop_filter_inv p s now hinv hs
    exact ⟨q, hq⟩
  · intro s now replies hs
    obtain ⟨q, hq, _⟩ := remove_filter_inv p s now replies hinv hs
    exact ⟨q, hq⟩

theorem witness_pool_reachable : pool_reachable witness_pool :=
  pool_reachable.add (pool_empty witness_bufs) witness_pool 7 ⟨3, 0, 100⟩
    (pool_reachable.empty witness_bufs) (by decide) (by decide) rfl

/-- Witness of C4: one filter added to the empty pool is running, counted once,
and holds one poll slot. -/
theorem filter_pool_invariant_witness :
    witness_pool.running_filters = [7] ∧ witness_pool.n_running = 1 ∧
    occupied_slots witness_pool = 1 ∧ read_filters_check witness_pool = .ok () :=
  ⟨rfl, (filter_pool_invariant witness_pool witness_pool_reachable).2.1,
   (filter_pool_invariant witness_pool witness_pool_reachable).2.2.1,
   (filter_pool_invariant witness_pool witness_pool_reachable).2.2.2.1⟩

/-! ## PAT: theorems -/

/-- C5, counterexample: on a PAT payload of 8 bytes whose two entries both carry
program number 1, with PIDs 0x10 and 0x20, `parse_pat` leaves one service with
id 1 and `pmt_pid` 0x20, so no service with id 1 has the PID 0x10 that the first
entry declares. -/
theorem parse_pat_repeated_program_number :
    ∃ st, parse_pat false pat_repeated_program 8 0 transponder_zero = some st ∧
      pat_service_id pat_repeated_program 0 = 1 ∧
      pat_pmt_pid pat_repeated_program 0 = 0x10 ∧
      st.tp.services.map (fun s => (s.service_id, s.pmt_pid)) = [(1, 0x20)] ∧
      ¬ ∃ s ∈ st.tp.services, s.service_id = 1 ∧ s.pmt_pid = 0x10 :=
  ⟨_, rfl, by decide, by decide, by decide, by decide⟩

/-- C5, amended: for every PAT payload whose length is a multiple of 4 bytes,
`parse_pat` returns, and afterwards every entry with a non-zero program_number
has a service with that service_id in the current transponder; that service's
`pmt_pid` equals the 13-bit PID declared by the entry whenever no later entry of
the payload carries the same program_number (the last entry of a program number
decides). -/
theorem parse_pat_sets_pmt_pid (long_timeout : Bool) (buf : List Nat) (tsid : Int)
    (tp : transponder) (h4 : 4 ∣ buf.length) :
    ∃ st, parse_pat long_timeout buf buf.length tsid tp = some st ∧
      ∀ k, 4 * k < buf.length → pat_service_id buf (4 * k) ≠ 0 →
        (∃ s, lookup_service st.tp (pat_service_id buf (4 * k)) = some s ∧
          s ∈ st.tp.services ∧ s.service_id = pat_service_id buf (4 * k)) ∧
        ((∀ j, k < j → 4 * j < buf.length →
            pat_service_id buf (4 * j) ≠ pat_service_id buf (4 * k)) →
          ∃ s, lookup_service st.tp (pat_service_id buf (4 * k)) = some s ∧
            s ∈ st.tp.services ∧ s.service_id = pat_service_id buf (4 * k) ∧
            s.pmt_pid = pat_pmt_pid buf (4 * k)) := by
  obtain ⟨m, hm⟩ := h4
  refine ⟨pat_entries long_timeout buf m 0 { tp := tp, filters := [] }, ?_, ?_⟩
  · unfold parse_pat
    simp only [Int.toNat_ofNat]
    have e : ((buf.length : Nat) : Int) = 4 * (m : Int) := by omega
    rw [e]
    exact parse_pat_loop_eq long_timeout buf m _ 0 _ (by omega)
  · intro k hk hne
    have hkm : k < m := by omega
    have hne0 : pat_service_id buf (0 + 4 * k) ≠ 0 := by rwa [Nat.zero_add]
    obtain ⟨h1, h2⟩ := pat_entries_spec long_timeout buf m 0 { tp := tp, filters := [] } k
      hkm hne0
    simp only [Nat.zero_add] at h1 h2
    constructor
    · obtain ⟨s, hs⟩ := Option.isSome_iff_exists.mp h1
      exact ⟨s, hs, (lookup_in_mem _ _ _ hs).1, (lookup_in_mem _ _ _ hs).2⟩
    · intro hlast
      obtain ⟨s, hs, hpid⟩ := h2 (fun j hkj hjm => hlast j hkj (by omega))
      exact ⟨s, hs, (lookup_in_mem _ _ _ hs).1, (lookup_in_mem _ _ _ hs).2, hpid⟩

/-- Witness of C5: the PAT payload with the single entry (program 1, PID 0x100). -/
theorem parse_pat_sets_pmt_pid_witness :
    ∃ st, parse_pat false [0x00, 0x01, 0xe1, 0x00] 4 0 transponder_zero = some st ∧
      ∃ s, lookup_service st.tp 1 = some s ∧ s.pmt_pid = 0x100 := by
  obtain ⟨st, hst, h⟩ :=
    parse_pat_sets_pmt_pid false [0x00, 0x01, 0xe1, 0x00] 0 transponder_zero (by decide)
  refine ⟨st, hst, ?_⟩
  obtain ⟨s, hs, _, _, hpid⟩ :=
    (h 0 (by decide) (by decide)).2 (fun j hj hlt => by
      simp only [List.length_cons, List.length_nil] at hlt; omega)
  exact ⟨s, hs, hpid⟩

/-! ## VCT: theorems -/

/-- C6, the code at the failing input: in a section whose first record has
service_type 0x04 and whose second record has service_type 0x02 and
program_number 4, `parse_psip_vct` creates no service at all, whatever the
globals and the frontend: `continue` skips the advance of the record pointer,
so the second pass reads the first record again. -/
theorem parse_psip_vct_skipped_record_hides_next :
    (read_tvct_channel vct_data_then_tv 2).service_type = 0x04 ∧
    (read_tvct_channel vct_data_then_tv 34).service_type = 0x02 ∧
    (read_tvct_channel vct_data_then_tv 34).program_number = 4 ∧
    ∀ env : vct_env,
      (parse_psip_vct atsc_readers env vct_data_then_tv 66 0xc8 1 transponder_zero
        pchan_info_zero).map (fun st => (st.tp.services, st.b)) = some ([], 2) :=
  ⟨by decide, by decide, by decide, fun _ => rfl⟩

/-- C7, the code at the failing input: a section with one record of
service_type 0x01 (analog) and program_number 5 leaves a service with id 5, with
its channel number and running state set, whatever the globals and the frontend:
the `break` of `case 0x01` leaves the `switch`, not the loop body. -/
theorem parse_psip_vct_analog_is_ingested :
    (read_tvct_channel vct_analog 2).service_type = 0x01 ∧
    (read_tvct_channel vct_analog 2).program_number = 5 ∧
    ∀ (save : Bool) (rf_chan : Int) (fe : fe_readings),
      (parse_psip_vct atsc_readers ⟨save, rf_chan, fe⟩ vct_analog 34 0xc8 1 transponder_zero
        pchan_info_zero).map
          (fun st => st.tp.services.map (fun s => (s.service_id, s.channel_num, s.running))) =
        some [(5, 7169, RM_RUNNING)] := by
  refine ⟨by decide, by decide, ?_⟩
  intro save rf_chan fe
  obtain ⟨status, signal, snr, ber, unc⟩ := fe
  cases save <;> cases status <;> rfl

/-- C8, counterexample: the first (k = 0) ingested record with program_number 0
is stored under service_id 0xFFFE, and no service has the id 0xFFFF. -/
theorem parse_psip_vct_first_pseudo_id :
    (read_tvct_channel vct_program_zero 2).program_number = 0 ∧
    (read_tvct_channel vct_program_zero 2).service_type = 0x02 ∧
    (parse_psip_vct atsc_readers vct_env_locked vct_program_zero 34 0xc8 1 transponder_zero
      pchan_info_zero).map (fun st => st.tp.services.map (fun s => s.service_id)) =
        some [0xFFFE] ∧
    (parse_psip_vct atsc_readers vct_env_locked vct_program_zero 34 0xc8 1 transponder_zero
      pchan_info_zero).map (fun st => lookup_service st.tp 0xFFFF) = some none :=
  ⟨by decide, by decide, rfl, rfl⟩

/-- C8, amended: `parse_psip_vct` returns on every section, and the k-th
(k = 0, 1, ...) of the records it ingests with program_number 0 is stored under
service_id 0xFFFE - k: `pseudo_id` starts at 0xFFFF and is decremented before
each use; an ingested record with a non-zero program_number is stored under
that number. -/
theorem parse_psip_vct_pseudo_ids (rd : psip_readers) (env : vct_env) (buf : List Nat)
    (section_length table_id tsid : Int) (tp : transponder) (pchan_info : List channel_info) :
    ∃ st, parse_psip_vct rd env buf section_length table_id tsid tp pchan_info = some st ∧
      (∀ (k : Nat) (e : tvct_channel × Int), (zero_program st.ingested)[k]? = some e →
        e.2 = 0xFFFE - (k : Int) ∧
        ∃ s, lookup_service st.tp (0xFFFE - (k : Int)) = some s ∧
          s.service_id = 0xFFFE - (k : Int)) ∧
      (∀ e ∈ st.ingested, e.1.program_number.val ≠ 0 →
        e.2 = (e.1.program_number.val : Int)) := by
  obtain ⟨st, hst, hinv⟩ :=
    parse_psip_vct_inv rd env buf section_length table_id tsid tp pchan_info
  refine ⟨st, hst, ?_, hinv.own_key⟩
  intro k e hk
  have hkey := hinv.keys k e hk
  have hmem : e ∈ st.ingested :=
    (List.mem_filter.mp (List.getElem?_mem hk)).1
  obtain ⟨s, hs⟩ := hinv.stored e hmem
  rw [hkey] at hs
  exact ⟨hkey, s, hs, (lookup_in_mem _ _ _ hs).2⟩

/-- Witness of C8 (amended): the record with program_number 0 of the section
`vct_program_zero` is stored under 0xFFFE. -/
theorem parse_psip_vct_pseudo_ids_witness :
    ∃ st, parse_psip_vct atsc_readers vct_env_locked vct_program_zero 34 0xc8 1
        transponder_zero pchan_info_zero = some st ∧
      st.ingested.map (fun e => e.2) = [0xFFFE] ∧
      ∃ s, lookup_service st.tp 0xFFFE = some s ∧ s.service_id = 0xFFFE := by
  obtain ⟨st, hst, h, _⟩ := parse_psip_vct_pseudo_ids atsc_readers vct_env_locked
    vct_program_zero 34 0xc8 1 transponder_zero pchan_info_zero
  have hst2 : parse_psip_vct atsc_readers vct_env_locked vct_program_zero 34 0xc8 1
      transponder_zero pchan_info_zero = some
        ((parse_psip_vct atsc_readers vct_env_locked vct_program_zero 34 0xc8 1
          transponder_zero pchan_info_zero).getD
            ⟨transponder_zero, 0, 0, [], false, []⟩) := rfl
  have hing : (((parse_psip_vct atsc_readers vct_env_locked vct_program_zero 34 0xc8 1
      transponder_zero pchan_info_zero).getD
        ⟨transponder_zero, 0, 0, [], false, []⟩).ingested.map (fun e => e.2)) = [0xFFFE] := rfl
  rw [hst2] at hst
  cases hst
  refine ⟨_, hst2, hing, ?_⟩
  have hk : (zero_program ((parse_psip_vct atsc_readers vct_env_locked vct_program_zero 34 0xc8
      1 transponder_zero pchan_info_zero).getD
        ⟨transponder_zero, 0, 0, [], false, []⟩).ingested)[0]? =
      some (read_tvct_channel vct_program_zero 2, 0xFFFE) := rfl
  exact (h 0 _ hk).2

/-- C9, counterexample: the section `vct_same_program` has the records (major
7, minor 1) and (major 7, minor 2), both with program_number 3.  Both are
ingested, under the same service: after the section the transponder has the one
service 3 with channel_num (7 << 10) | 2 = 7170, so the service of the record
(7, 1) does not have channel_num (7 << 10) | 1 = 7169. -/
theorem parse_psip_vct_channel_num_overwritten :
    ((read_tvct_channel vct_same_program 2).major_channel_number = 7 ∧
     (read_tvct_channel vct_same_program 2).minor_channel_number = 1 ∧
     (read_tvct_channel vct_same_program 2).program_number = 3 ∧
     (read_tvct_channel vct_same_program 34).major_channel_number = 7 ∧
     (read_tvct_channel vct_same_program 34).minor_channel_number = 2 ∧
     (read_tvct_channel vct_same_program 34).program_number = 3) ∧
    (parse_psip_vct atsc_readers vct_env_locked vct_same_program 66 0xc8 1 transponder_zero
      pchan_info_zero).map
        (fun st =>
          (st.ingested.map
            (fun e => (e.1.major_channel_number.val, e.1.minor_channel_number.val, e.2)),
           st.tp.services.map (fun s => (s.service_id, s.channel_num)))) =
      some ([(7, 1, (3 : Int)), (7, 2, (3 : Int))], [((3 : Int), (7170 : Int))]) ∧
    (((7 <<< 10) ||| 1 : Nat) : Int) = 7169 :=
  ⟨by decide, by decide, by decide⟩

/-- C9, amended: for every channel record that `parse_psip_vct` ingests, the
service it is stored under has, after the pass, channel_num = (major << 10) |
minor; minor is in 0..1023, so major is channel_num >> 10 and minor is
channel_num & 0x3FF.  At the end of the section this holds of every ingested
record after which no record with the same program number is ingested (records
with the same program number share one service, and the later record
overwrites its channel_num). -/
theorem parse_psip_vct_channel_num (rd : psip_readers) (env : vct_env) (buf : List Nat) :
    (∀ (nc i : Nat) (ch : tvct_channel) (st : vct_state),
      ∃ pass, parse_psip_vct_ingest rd env buf nc i ch st = some pass ∧
        ∃ s, lookup_service pass.state.tp (vct_program_number ch st.pseudo_id).1 = some s ∧
          s.channel_num =
            (((ch.major_channel_number.val <<< 10) ||| ch.minor_channel_number.val : Nat) : Int) ∧
          ch.minor_channel_number.val ≤ 1023 ∧
          s.channel_num.toNat >>> 10 = ch.major_channel_number.val ∧
          s.channel_num.toNat &&& 0x3FF = ch.minor_channel_number.val) ∧
    (∀ (section_length table_id tsid : Int) (tp : transponder)
        (pchan_info : List channel_info),
      ∃ st, parse_psip_vct rd env buf section_length table_id tsid tp pchan_info = some st ∧
        ∀ (l1 : List (tvct_channel × Int)) (e : tvct_channel × Int)
          (l2 : List (tvct_channel × Int)), st.ingested = l1 ++ e :: l2 →
          (∀ e1 ∈ l2, e1.2 ≠ e.2) →
          ∃ s, lookup_service st.tp e.2 = some s ∧
            s.channel_num =
              (((e.1.major_channel_number.val <<< 10) ||| e.1.minor_channel_number.val : Nat)
                : Int) ∧
            s.channel_num.toNat >>> 10 = e.1.major_channel_number.val ∧
            s.channel_num.toNat &&& 0x3FF = e.1.minor_channel_number.val) := by
  constructor
  · intro nc i ch st
    obtain ⟨pass, hp, s, hs, hc, _⟩ := parse_psip_vct_ingest_lookup rd env buf nc i ch st
    have hbits := channel_num_bits ch.major_channel_number.val ch.minor_channel_number.val
      ch.minor_channel_number.isLt
    refine ⟨pass, hp, s, hs, hc, Nat.le_of_lt_succ ch.minor_channel_number.isLt, ?_, ?_⟩
    · rw [hc, vct_channel_num, Int.toNat_ofNat]
      exact hbits.1
    · rw [hc, vct_channel_num, Int.toNat_ofNat]
      exact hbits.2
  · intro section_length table_id tsid tp pchan_info
    obtain ⟨st, hst, hinv⟩ :=
      parse_psip_vct_inv rd env buf section_length table_id tsid tp pchan_info
    refine ⟨st, hst, ?_⟩
    intro l1 e l2 hdec hl2
    obtain ⟨s, hs, hc, _⟩ := hinv.last l1 e l2 hdec hl2
    have hbits := channel_num_bits e.1.major_channel_number.val e.1.minor_channel_number.val
      e.1.minor_channel_number.isLt
    refine ⟨s, hs, hc, ?_, ?_⟩
    · rw [hc, vct_channel_num, Int.toNat_ofNat]
      exact hbits.1
    · rw [hc, vct_channel_num, Int.toNat_ofNat]
      exact hbits.2

/-- Witness of C9: in the section `vct_two_channels` the service of program 4
has channel_num (7 << 10) | 2 = 7170 after the section. -/
theorem parse_psip_vct_channel_num_witness :
    ∃ st, parse_psip_vct atsc_readers vct_env_locked vct_two_channels 66 0xc8 1
        transponder_zero pchan_info_zero = some st ∧
      ∃ s, lookup_service st.tp 4 = some s ∧ s.channel_num = 7170 ∧
        s.channel_num.toNat >>> 10 = 7 ∧ s.channel_num.toNat &&& 0x3FF = 2 := by
  obtain ⟨st, hst, h⟩ := (parse_psip_vct_channel_num atsc_readers vct_env_locked
    vct_two_channels).2 66 0xc8 1 transponder_zero pchan_info_zero
  have hst2 : parse_psip_vct atsc_readers vct_env_locked vct_two_channels 66 0xc8 1
      transponder_zero pchan_info_zero = some
        ((parse_psip_vct atsc_readers vct_env_locked vct_two_channels 66 0xc8 1
          transponder_zero pchan_info_zero).getD
            ⟨transponder_zero, 0, 0, [], false, []⟩) := rfl
  rw [hst2] at hst
  cases hst
  refine ⟨_, hst2, ?_⟩
  exact h [(read_tvct_channel vct_two_channels 2, 3)] (read_tvct_channel vct_two_channels 34, 4)
    [] rfl (fun e1 he1 => absurd he1 (List.not_mem_nil _))

/-- C10, counterexample: the channel report is on and `FE_READ_STATUS` fails.
Of the section `vct_two_channels` the record (7, 1) is ingested, then
`parse_psip_vct` returns (scan.c 1515-1518): the transponder has the one
service 3, and no service 4. -/
theorem parse_psip_vct_hidden_service_status_fails :
    (parse_psip_vct atsc_readers vct_env_status_fails vct_two_channels 66 0xc8 1
      transponder_zero pchan_info_zero).map
        (fun st => st.tp.services.map (fun s => (s.service_id, s.channel_num, s.running))) =
      some [((3 : Int), (7169 : Int), RM_RUNNING)] := by
  decide

/-- C10, amended: a VCT section with the two channel records (major 7, minor 1,
service_type 0x02, hidden 0, program_number 3) and (major 7, minor 2,
service_type 0x02, hidden 1, program_number 4) is processed on an empty
transponder.  When the frontend status can be read at the first record (or the
channel report is off) this yields exactly two services, with ids 3 and 4, with
channel_num (7 << 10) | 1 and (7 << 10) | 2, the first running, the second
not_running.  When the channel report is on and `FE_READ_STATUS` fails, the
function returns after the first record and the section yields exactly the
service 3, with channel_num (7 << 10) | 1, running.  In general an ingested
record sets `running` of its service to not_running when its hidden flag is
set and to running otherwise. -/
theorem parse_psip_vct_hidden_service :
    ((read_tvct_channel vct_two_channels 2).major_channel_number = 7 ∧
     (read_tvct_channel vct_two_channels 2).minor_channel_number = 1 ∧
     (read_tvct_channel vct_two_channels 2).service_type = 0x02 ∧
     (read_tvct_channel vct_two_channels 2).hidden = 0 ∧
     (read_tvct_channel vct_two_channels 2).program_number = 3 ∧
     (read_tvct_channel vct_two_channels 34).major_channel_number = 7 ∧
     (read_tvct_channel vct_two_channels 34).minor_channel_number = 2 ∧
     (read_tvct_channel vct_two_channels 34).service_type = 0x02 ∧
     (read_tvct_channel vct_two_channels 34).hidden = 1 ∧
     (read_tvct_channel vct_two_channels 34).program_number = 4) ∧
    (∀ (env : vct_env) (pchan_info : List channel_info), report_ok env →
      (parse_psip_vct atsc_readers env vct_two_channels 66 0xc8 1 transponder_zero
        pchan_info).map
          (fun st => st.tp.services.map (fun s => (s.service_id, s.channel_num, s.running))) =
        some [((3 : Int), (((7 <<< 10) ||| 1 : Nat) : Int), RM_RUNNING),
              ((4 : Int), (((7 <<< 10) ||| 2 : Nat) : Int), RM_NOT_RUNNING)]) ∧
    (∀ (rd : psip_readers) (env : vct_env) (buf : List Nat) (nc i : Nat) (ch : tvct_channel)
        (st : vct_state),
      ∃ pass, parse_psip_vct_ingest rd env buf nc i ch st = some pass ∧
        ∃ s, lookup_service pass.state.tp (vct_program_number ch st.pseudo_id).1 = some s ∧
          s.running = (if ch.hidden.val ≠ 0 then RM_NOT_RUNNING else RM_RUNNING)) ∧
    (∀ (env : vct_env) (pchan_info : List channel_info), ¬ report_ok env →
      (parse_psip_vct atsc_readers env vct_two_channels 66 0xc8 1 transponder_zero
        pchan_info).map
          (fun st => st.tp.services.map (fun s => (s.service_id, s.channel_num, s.running))) =
        some [((3 : Int), (((7 <<< 10) ||| 1 : Nat) : Int), RM_RUNNING)]) := by
  refine ⟨by decide, ?_, ?_, ?_⟩
  · intro env pchan_info hok
    have e : ∀ x : Option vct_state,
        x.map (fun st =>
          st.tp.services.map (fun s => (s.service_id, s.channel_num, s.running))) =
        (x.map vct_core).map (fun c =>
          c.1.services.map (fun s => (s.service_id, s.channel_num, s.running))) := by
      intro x
      cases x <;> rfl
    rw [e, parse_psip_vct_core atsc_readers env vct_env_no_report vct_two_channels 66 0xc8 1
      transponder_zero pchan_info pchan_info_zero hok (Or.inl rfl)]
    rfl
  · intro rd env buf nc i ch st
    obtain ⟨pass, hp, s, hs, _, hr⟩ := parse_psip_vct_ingest_lookup rd env buf nc i ch st
    exact ⟨pass, hp, s, hs, hr⟩
  · intro env pchan_info hno
    unfold report_ok at hno
    simp only [not_or, Bool.not_eq_false, Bool.not_eq_true, Option.not_isSome,
      Option.isNone_iff_eq_none] at hno
    have e : ∀ x : Option vct_state,
        x.map (fun st =>
          st.tp.services.map (fun s => (s.service_id, s.channel_num, s.running))) =
        (x.map vct_core).map (fun c =>
          c.1.services.map (fun s => (s.service_id, s.channel_num, s.running))) := by
      intro x
      cases x <;> rfl
    rw [e, parse_psip_vct_status_fails atsc_readers env vct_env_status_fails vct_two_channels 66
      0xc8 1 transponder_zero pchan_info pchan_info_zero hno.1 hno.2 rfl rfl (by decide)
      (by decide)]
    rfl

/-- Witness of C10: the section of two channels with the frontend locked. -/
theorem parse_psip_vct_hidden_service_witness :
    report_ok vct_env_locked ∧
    (parse_psip_vct atsc_readers vct_env_locked vct_two_channels 66 0xc8 1 transponder_zero
      pchan_info_zero).map
        (fun st => st.tp.services.map (fun s => (s.service_id, s.channel_num, s.running))) =
      some [((3 : Int), (7169 : Int), RM_RUNNING), ((4 : Int), (7170 : Int), RM_NOT_RUNNING)] :=
  ⟨Or.inr rfl,
   parse_psip_vct_hidden_service.2.1 vct_env_locked pchan_info_zero (Or.inr rfl)⟩

/-- When the channel report is on and `FE_READ_STATUS` fails at the first
channel, `parse_psip_vct` returns after that channel (scan.c 1515-1518): of the
section `vct_two_channels` only the first service is created. -/
theorem parse_psip_vct_status_failure_returns (rf_chan : Int) (signal : Int) (snr : Nat)
    (ber unc : Int) :
    (parse_psip_vct atsc_readers ⟨true, rf_chan, ⟨none, signal, snr, ber, unc⟩⟩
      vct_two_channels 66 0xc8 1 transponder_zero pchan_info_zero).map
        (fun st => st.tp.services.map (fun s => s.service_id)) = some [3] :=
  rfl

/-! ## The transponder store: theorems -/

/-- C13, counterexample: 57,000,000 Hz and 58,000,000 Hz (channels of the
seeding differ by more) differ by 1 MHz, less than 2 MHz, and
`is_same_transponder` returns 0 for them. -/
theorem is_same_transponder_one_mhz_apart :
    (58000000 : Nat) - 57000000 < 2000000 ∧ is_same_transponder 57000000 58000000 = 0 ∧
    is_same_transponder 58000000 57000000 = 0 :=
  ⟨by decide, by decide, by decide⟩

/-- C13, amended: for all frequencies f1 and f2, in Hz as the channel-plan
seeding stores them, `is_same_transponder` returns 1 exactly when f1 and f2
differ by less than 2000 (2 kHz for frequencies in Hz), and 0 otherwise. -/
theorem is_same_transponder_tolerance (f1 f2 : Nat) :
    (is_same_transponder f1 f2 = 1 ↔ f1 - f2 < 2000 ∧ f2 - f1 < 2000) ∧
    (is_same_transponder f1 f2 = 0 ↔ ¬ (f1 - f2 < 2000 ∧ f2 - f1 < 2000)) ∧
    (is_same_transponder f1 f2 = 1 ∨ is_same_transponder f1 f2 = 0) := by
  have h := is_same_transponder_iff f1 f2
  refine ⟨h.1, ?_, ?_⟩
  · rw [h.2.1]
    omega
  · by_cases hc : f1 - f2 < 2000 ∧ f2 - f1 < 2000
    · exact Or.inl (h.1.mpr hc)
    · exact Or.inr (h.2.1.mpr (by omega))

/-- Witness of C13: two frequencies 1500 Hz apart are the same transponder, two
frequencies 2000 Hz apart are not. -/
theorem is_same_transponder_tolerance_witness :
    is_same_transponder 57000000 57001500 = 1 ∧ is_same_transponder 57000000 57002000 = 0 :=
  ⟨(is_same_transponder_tolerance 57000000 57001500).1.mpr (by decide),
   (is_same_transponder_tolerance 57000000 57002000).2.1.mpr (by decide)⟩

/-- C14, counterexample: with a transponder of frequency 501,000 on the scanned
list and one of exactly 500,000 on the pending list, `find_transponder(500000)`
returns the first one, whose frequency is not 500,000; and when
`current_tp_only` is set, `find_transponder(900000000)` returns that transponder
too, far outside the tolerance. -/
theorem find_transponder_not_exact_first :
    (store_two_near.tps 1).frequency = 500000 ∧
    find_transponder false store_two_near 500000 = some 0 ∧
    (store_two_near.tps 0).frequency ≠ 500000 ∧
    find_transponder true store_two_near 900000000 = some 0 ∧
    is_same_transponder (store_two_near.tps 0).frequency 900000000 = 0 :=
  ⟨by decide, by decide, by decide, by decide, by decide⟩

/-- C14, amended: with `current_tp_only` unset, `find_transponder(f)` returns
the first transponder, in the order scanned list then pending list, whose
frequency `is_same_transponder` treats as the same as f (equal to f or less than
2000 away), and nothing exactly when there is none; it never returns a
transponder outside that tolerance.  With `current_tp_only` set and a
non-empty scanned list it returns the first scanned transponder, whatever its
frequency. -/
theorem find_transponder_first_match (st : tp_store) (f : Nat) :
    (∀ a, find_transponder false st f = some a →
      (st.tps a).frequency - f < 2000 ∧ f - (st.tps a).frequency < 2000 ∧
      ∃ l1 l2, st.scanned_transponders ++ st.new_transponders = l1 ++ a :: l2 ∧
        ∀ b ∈ l1, is_same_transponder (st.tps b).frequency f = 0) ∧
    (find_transponder false st f = none ↔
      ∀ a ∈ st.scanned_transponders ++ st.new_transponders,
        is_same_transponder (st.tps a).frequency f = 0) ∧
    ((∃ a ∈ st.scanned_transponders ++ st.new_transponders, (st.tps a).frequency = f) →
      ∃ a, find_transponder false st f = some a) ∧
    (∀ a rest, st.scanned_transponders = a :: rest → find_transponder true st f = some a) := by
  refine ⟨?_, ?_, ?_, ?_⟩
  · intro a ha
    rw [find_transponder_eq] at ha
    have hp := List.find?_some ha
    simp only [ne_eq, decide_eq_true_eq] at hp
    have hsame := (is_same_transponder_iff (st.tps a).frequency f).2.2.mp hp
    refine ⟨hsame.1, hsame.2, ?_⟩
    obtain ⟨l1, l2, hl, hb⟩ := List.find?_eq_some.mp ha |>.2
    refine ⟨l1, l2, hl, ?_⟩
    intro b hbm
    have := hb b hbm
    simpa using this
  · rw [find_transponder_eq, List.find?_eq_none]
    constructor
    · intro h a ha
      have := h a ha
      simpa using this
    · intro h a ha
      simp [h a ha]
  · rintro ⟨a, ha, hf⟩
    cases hfind : find_transponder false st f with
    | some b => exact ⟨b, rfl⟩
    | none =>
      rw [find_transponder_eq, List.find?_eq_none] at hfind
      have := hfind a ha
      have hsame : is_same_transponder (st.tps a).frequency f ≠ 0 :=
        (is_same_transponder_iff (st.tps a).frequency f).2.2.mpr (by omega)
      simp [hsame] at this
  · intro a rest hs
    unfold find_transponder
    rw [hs]
    rfl

/-- Witness of C14: in the store `store_two_near`, frequency 500,000 is found at
the first transponder, frequency 900,000,000 is not found. -/
theorem find_transponder_first_match_witness :
    find_transponder false store_two_near 900000000 = none ∧
    find_transponder true store_two_near 900000000 = some 0 :=
  ⟨(find_transponder_first_match store_two_near 900000000).2.1.mpr (by decide),
   (find_transponder_first_match store_two_near 900000000).2.2.2 0 [] rfl⟩

/-- C11, counterexample: a NIT announces 506 MHz, the transponder is allocated
and tuned to (it is on the scanned list with `scan_done = 1`), and the NIT is
read again: the reconciliation finds the transponder on the scanned list and
`copy_transponder` stores the `scan_done = 0` of the zeroed scratch transponder
into it, while it stays on the scanned list. -/
theorem nit_reconcile_clears_scan_done :
    store_nit_one_tuned.scanned_transponders = [0] ∧
    store_nit_one_tuned.new_transponders = [] ∧
    (store_nit_one_tuned.tps 0).scan_done = 1 ∧
    (nit_scratch 506000000).scan_done = 0 ∧
    (nit_reconcile false store_nit_one_tuned (nit_scratch 506000000)).scanned_transponders
      = [0] ∧
    ((nit_reconcile false store_nit_one_tuned (nit_scratch 506000000)).tps 0).scan_done = 0 :=
  ⟨by decide, by decide, by decide, by decide, by decide, by decide⟩

/-- C11, amended: the invariant `store_inv` (every transponder on the scanned
list has `scan_done = 1`, every transponder on the pending list has
`scan_done = 0`, the lists are duplicate-free, disjoint and hold allocated
transponders whose `n_other_f` is not negative) holds for the empty store and is
preserved by `alloc_transponder`, by `tune_to_transponder` on a listed
transponder, by the alternate-frequency retry of `tune_to_next_transponder` and
by `tune_to_next_transponder` and `tune_initial` themselves, which return; NIT
reconciliation with a scratch transponder of `scan_done = 0` preserves it when it
allocates or finds a pending transponder, and when it finds a scanned transponder
it leaves every other transponder as the invariant wants it and that one on the
scanned list with `scan_done = 0`. -/
theorem scan_done_invariant_preserved :
    (∀ tps fe, store_inv (store_empty tps fe)) ∧
    (∀ st f, store_inv st → store_inv (alloc_transponder st f).1) ∧
    (∀ st t rep, store_inv st → t ∈ st.scanned_transponders ++ st.new_transponders →
      store_inv (tune_to_transponder st t rep).1) ∧
    (∀ c st t replies, store_inv st → t ∈ st.new_transponders →
      ∃ st1 b, tune_retry_loop c (tune_retry_fuel (st.tps t)) tune_label.retry st t replies =
        some (st1, b) ∧ store_inv st1) ∧
    (∀ c replies st, store_inv st →
      ∃ st1 rc, tune_to_next_transponder c replies st = some (st1, rc) ∧ store_inv st1) ∧
    (∀ c replies st, store_inv st →
      ∃ st1 rc, tune_initial c replies st = some (st1, rc) ∧ store_inv st1) ∧
    (∀ c st tn, store_inv st → tn.scan_done = 0 → 0 ≤ tn.n_other_f →
      (∀ t ∈ st.scanned_transponders, find_transponder c st tn.frequency ≠ some t) →
      store_inv (nit_reconcile c st tn)) ∧
    (∀ c st tn t, store_inv st → tn.scan_done = 0 → 0 ≤ tn.n_other_f →
      tn.type = st.fe_info_type → find_transponder c st tn.frequency = some t →
      t ∈ st.scanned_transponders →
      store_wf (nit_reconcile c st tn) ∧ other_f_inv (nit_reconcile c st tn) ∧
      (nit_reconcile c st tn).scanned_transponders = st.scanned_transponders ∧
      (nit_reconcile c st tn).new_transponders = st.new_transponders ∧
      (∀ a ∈ st.new_transponders, ((nit_reconcile c st tn).tps a).scan_done = 0) ∧
      (∀ a ∈ st.scanned_transponders, a ≠ t →
        ((nit_reconcile c st tn).tps a).scan_done = 1) ∧
      ((nit_reconcile c st tn).tps t).scan_done = 0) := by
  refine ⟨store_inv_empty, store_inv_alloc, ?_, ?_, ?_, ?_, ?_, ?_⟩
  · intro st t rep hi ht
    exact store_inv_tune st t rep ht hi
  · intro c st t replies hi ht
    obtain ⟨st1, b, h1, h2, _⟩ := tune_retry_loop_inv c (tune_retry_fuel (st.tps t))
      tune_label.retry st t replies hi (fun _ => List.mem_append_right _ ht)
      (fun h => by cases h) (by unfold tune_retry_fuel; simp)
    exact ⟨st1, b, h1, h2⟩
  · intro c replies st hi
    exact tune_to_next_transponder_inv c replies st hi
  · intro c replies st hi
    exact tune_to_next_transponder_inv c replies _ (store_inv_seed 50 2 st hi)
  · intro c st tn hi hsd hno hns
    cases hf : find_transponder c st tn.frequency with
    | none => exact store_inv_nit_alloc c st tn hsd hno hi hf
    | some t =>
      have hm := find_transponder_mem c st tn.frequency t hf
      rcases List.mem_append.mp hm with h | h
      · exact absurd hf (hns t h)
      · exact store_inv_nit_pending c st tn t hsd hno hi hf h
  · intro c st tn t hi hsd hno hty hf ht
    exact nit_scanned_found c st tn t hsd hno hi hty hf ht

/-- Witness of C11: the invariant holds after `tune_initial` on the empty store
with a frontend that never locks, and after the NIT reconciliation that
allocates the transponder of `store_nit_one`. -/
theorem scan_done_invariant_preserved_witness :
    (∃ st1 rc, tune_initial false (fun _ _ => reply_no_lock)
        (store_empty (fun _ => transponder_zero) FE_ATSC) = some (st1, rc) ∧ store_inv st1) ∧
    store_inv store_nit_one :=
  ⟨scan_done_invariant_preserved.2.2.2.2.2.1 false (fun _ _ => reply_no_lock) _
     (scan_done_invariant_preserved.1 _ _),
   scan_done_invariant_preserved.2.2.2.2.2.2.1 false _ (nit_scratch 506000000)
     (scan_done_invariant_preserved.1 _ _) rfl (by decide)
     (fun t ht => absurd ht (List.not_mem_nil _))⟩

/-- C12, counterexample: two NITs announce 506,000,000 Hz and 506,003,000 Hz,
which `is_same_transponder` tells apart, so two transponders are pending; a
third NIT announces 506,001,500 Hz, `find_transponder` returns the first
transponder and `copy_transponder` moves it to 506,001,500 Hz, which
`is_same_transponder` treats as the same as the 506,003,000 Hz of the second. -/
theorem nit_reconcile_makes_near_duplicates :
    freq_inv store_nit_two ∧
    store_nit_two.new_transponders = [0, 1] ∧
    (nit_reconcile false store_nit_two (nit_scratch 506001500)).new_transponders = [0, 1] ∧
    ((nit_reconcile false store_nit_two (nit_scratch 506001500)).tps 0).wrong_frequency = 0 ∧
    ((nit_reconcile false store_nit_two (nit_scratch 506001500)).tps 1).wrong_frequency = 0 ∧
    is_same_transponder
      ((nit_reconcile false store_nit_two (nit_scratch 506001500)).tps 0).frequency
      ((nit_reconcile false store_nit_two (nit_scratch 506001500)).tps 1).frequency = 1 ∧
    ¬ freq_inv (nit_reconcile false store_nit_two (nit_scratch 506001500)) := by
  refine ⟨?_, by decide, by decide, by decide, by decide, by decide, ?_⟩
  · unfold freq_inv
    decide
  · unfold freq_inv
    decide

/-- C12, amended: no two distinct transponders of the scanned and pending
lists, `wrong_frequency` stubs apart, have frequencies that
`is_same_transponder` treats as the same (`freq_inv`) after the channel-plan
seeding of the empty store; a NIT reconciliation step preserves this when it
allocates a transponder, and when it finds one provided the NIT frequency is not
the same, for `is_same_transponder`, as the frequency of any other transponder
that is not a stub. -/
theorem freq_invariant_seed_and_nit :
    (∀ tps fe, freq_inv (seed_channels 50 2 (store_empty tps fe))) ∧
    (∀ c st tn, store_wf st → freq_inv st → find_transponder c st tn.frequency = none →
      freq_inv (nit_reconcile c st tn)) ∧
    (∀ c st tn t, store_wf st → freq_inv st → find_transponder c st tn.frequency = some t →
      (∀ b ∈ st.scanned_transponders ++ st.new_transponders, b ≠ t →
        (st.tps b).wrong_frequency = 0 →
        is_same_transponder (st.tps b).frequency tn.frequency = 0) →
      freq_inv (nit_reconcile c st tn)) := by
  refine ⟨freq_inv_seed, ?_, ?_⟩
  · intro c st tn hwf hi hf
    refine freq_inv_nit c st tn hwf hi ?_
    intro b hb _ _
    exact find_transponder_none c st tn.frequency hf b hb
  · intro c st tn t hwf hi hf hp
    refine freq_inv_nit c st tn hwf hi ?_
    intro b hb hne wb
    refine hp b hb ?_ wb
    intro e
    exact hne (by rw [hf, e])

/-- Witness of C12: the second NIT of `store_nit_two` allocates, the NIT of
506,000,500 Hz finds the first transponder and is far from the second. -/
theorem freq_invariant_seed_and_nit_witness :
    freq_inv store_nit_two ∧
    freq_inv (nit_reconcile false store_nit_two (nit_scratch 506000500)) :=
  ⟨freq_invariant_seed_and_nit.2.1 false store_nit_one (nit_scratch 506003000)
     (by unfold store_wf; decide) (by unfold freq_inv; decide) (by decide),
   freq_invariant_seed_and_nit.2.2 false store_nit_two (nit_scratch 506000500) 0
     (by unfold store_wf; decide) (by unfold freq_inv; decide) (by decide)
     (by decide)⟩

/-! ## Section reassembly: theorems -/

/-- C18, counterexample: the PAT filter receives section 0 (program 1) and
section 1 (program 2) of a version-3 PAT with last_section_number 2, then
section 0 (program 3) of a version-4 PAT.  Afterwards the filter has stored
version 4 and only bit 0 of the bitmap is set, and the services of the
transponder are the programs 1, 2 and 3: the two services declared only by the
version-3 sections are still in the store. -/
theorem parse_section_new_version_keeps_old_services :
    (deliver_sections scan_config_default world_pat_filter 0
        [(fe_locked, pat_section 3 0 2 1), (fe_locked, pat_section 3 1 2 2),
         (fe_locked, pat_section 4 0 0 3)]).map
      (fun r =>
        (r.2, (r.1.pool.bufs 0).section_version_number, (r.1.pool.bufs 0).section_done,
         (r.1.store.tps r.1.store.current_tp).services.map (fun sv => sv.service_id))) =
      some ([0, 0, 1], 4, 1 :: List.replicate 31 0, [1, 2, 3]) := by
  decide

/-- C18, amended: when a non-segmented PAT filter that has stored one version
receives a section of another version (table_id 0, section_length >= 9), the
bitmap is reset (afterwards exactly the bit of that section is set and the new
version is stored), every service the section declares is in the store, and
every service that was in the store before is still there: the service set is
the union of the old one and the version-4 content. -/
theorem parse_section_pat_new_version (cfg : scan_config) (fe : fe_readings) (w : scan_world)
    (s : Nat) (buf : List Nat) (hseg : (w.pool.bufs s).segmented = false)
    (htid : (w.pool.bufs s).table_id = 0) (hsec : sec_table_id buf = 0)
    (hlen : 9 ≤ sec_length buf)
    (hver : (w.pool.bufs s).section_version_number ≠ sec_version buf) :
    ∃ w2 rc, parse_section cfg fe w s buf = some (w2, rc) ∧
      (w2.pool.bufs s).section_version_number = sec_version buf ∧
      (∀ i, i < 256 →
        get_bit (w2.pool.bufs s).section_done i = if i = sec_number buf then 1 else 0) ∧
      w2.store.current_tp = w.store.current_tp ∧
      (∀ sid, (lookup_service (w.store.tps w.store.current_tp) sid).isSome = true →
        (lookup_service (w2.store.tps w2.store.current_tp) sid).isSome = true) ∧
      (∀ k : Nat, (4 * k : Int) < sec_length buf - 9 →
        pat_service_id (buf.drop 8) (4 * k) ≠ 0 →
        (lookup_service (w2.store.tps w2.store.current_tp)
          (pat_service_id (buf.drop 8) (4 * k))).isSome = true) := by
  have htid1 : (w.pool.bufs s).table_id = sec_table_id buf := by rw [htid, hsec]; rfl
  have hroute := seg_route_plain w s (sec_table_id buf) (sec_table_id_ext buf) (sec_version buf)
    (by rw [hseg]; simp)
  obtain ⟨w3, wd, hr, hb, _, _, _, hdec, hst, _⟩ :=
    parse_section_spec cfg fe w w s s buf htid1 hroute hlen
  have hfld := section_handled_fields (w.pool.bufs s) buf
  obtain ⟨_, k2, _, _⟩ := section_handled_spec (w.pool.bufs s) buf []
    (Or.inl ⟨Or.inl hver, rfl⟩) (List.not_mem_nil _)
  have hbt : w3.pool.bufs s = section_handled (w.pool.bufs s) buf := by
    rw [hb, Function.update_same]
  have hzero : get_bit (section_reset (w.pool.bufs s) (sec_table_id_ext buf)
      (sec_version buf)).section_done (sec_number buf) = 0 := by
    unfold section_reset
    rw [if_pos (Or.inl hver)]
    exact get_bit_zero _
  rw [if_pos hzero] at hdec
  obtain ⟨wm, hm1, _, _, _, hd⟩ := hdec
  rw [hsec, section_decode_pat] at hd
  have hwd : wd.store = write_tp w.store w.store.current_tp (fun _ =>
      (pat_entries cfg.long_timeout (buf.drop 8) (((sec_length buf - 9).toNat + 3) / 4) 0
        { tp := w.store.tps w.store.current_tp, filters := [] }).tp) := by
    have := Option.some.inj hd
    rw [← this, hm1]
  have hcur : w3.store.current_tp = w.store.current_tp := by rw [hst, hwd]; rfl
  have htp : w3.store.tps w3.store.current_tp =
      (pat_entries cfg.long_timeout (buf.drop 8) (((sec_length buf - 9).toNat + 3) / 4) 0
        { tp := w.store.tps w.store.current_tp, filters := [] }).tp := by
    rw [hcur, hst, hwd, write_tp_tps, if_pos rfl]
  refine ⟨w3, _, hr, by rw [hbt]; exact hfld.1, ?_, hcur, ?_, ?_⟩
  · intro i hi
    rw [hbt]
    have := k2 i hi
    rw [List.mem_singleton] at this
    by_cases hin : i = sec_number buf
    · rw [if_pos hin]
      rcases get_bit_le_one (section_handled (w.pool.bufs s) buf).section_done i with h | h
      · exact absurd h (this.mpr hin)
      · exact h
    · rw [if_neg hin]
      by_contra hc
      exact hin (this.mp hc)
  · intro sid h
    rw [htp]
    exact pat_entries_isSome cfg.long_timeout (buf.drop 8) sid _ 0 _ h
  · intro k hk hne
    rw [htp]
    have := (pat_entries_spec cfg.long_timeout (buf.drop 8)
      (((sec_length buf - 9).toNat + 3) / 4) 0
      { tp := w.store.tps w.store.current_tp, filters := [] } k (by omega)
      (by rw [Nat.zero_add]; exact hne)).1
    rw [Nat.zero_add] at this
    exact this

/-- Witness of C18: the PAT filter of `world_pat_v3` receives section 0 of a
version-4 PAT. -/
theorem parse_section_pat_new_version_witness :
    ∃ w2 rc, parse_section scan_config_default fe_locked world_pat_v3 0 (pat_section 4 0 0 3) =
        some (w2, rc) ∧
      (w2.pool.bufs 0).section_version_number = sec_version (pat_section 4 0 0 3) ∧
      (∀ i, i < 256 → get_bit (w2.pool.bufs 0).section_done i =
        if i = sec_number (pat_section 4 0 0 3) then 1 else 0) ∧
      w2.store.current_tp = world_pat_v3.store.current_tp ∧
      (∀ sid,
        (lookup_service (world_pat_v3.store.tps world_pat_v3.store.current_tp) sid).isSome
          = true →
        (lookup_service (w2.store.tps w2.store.current_tp) sid).isSome = true) ∧
      (∀ k : Nat, (4 * k : Int) < sec_length (pat_section 4 0 0 3) - 9 →
        pat_service_id ((pat_section 4 0 0 3).drop 8) (4 * k) ≠ 0 →
        (lookup_service (w2.store.tps w2.store.current_tp)
          (pat_service_id ((pat_section 4 0 0 3).drop 8) (4 * k))).isSome = true) :=
  parse_section_pat_new_version scan_config_default fe_locked world_pat_v3 0
    (pat_section 4 0 0 3) (by decide) (by decide) (by decide) (by decide) (by decide)

/-- C19: for a segmented filter with a well-formed chain of siblings
(`chain_ok`, which `setup_filter` establishes and `parse_section` preserves) and
every section, `parse_section` returns, and returns 0 or -1, never 1; so does
`read_sections`, whatever `read` returned; and so does every call in any
sequence of sections delivered to the filter. -/
theorem segmented_never_complete (cfg : scan_config) (fe : fe_readings) (w : scan_world)
    (s : Nat) (l : List Nat) (buf : List Nat) (h : chain_ok w s l) :
    (∃ w1 rc, parse_section cfg fe w s buf = some (w1, rc) ∧ (rc = 0 ∨ rc = -1)) ∧
    (∀ count, ∃ w1 rc, read_sections cfg fe w s count buf = some (w1, rc) ∧
      (rc = 0 ∨ rc = -1)) ∧
    (∀ secs, ∃ w1 rcs, deliver_sections cfg w s secs = some (w1, rcs) ∧
      ∀ rc ∈ rcs, rc = 0 ∨ rc = -1) := by
  obtain ⟨w3, rc, l1, hr, hrc, _⟩ := parse_section_chain cfg fe w s l buf h
  refine ⟨⟨w3, rc, hr, hrc⟩, ?_, ?_⟩
  · intro count
    have hseg : (w.pool.bufs s).segmented = true := h.2.2.2 s (List.mem_cons_self _ _)
    unfold read_sections
    rw [if_neg (by rw [hseg]; simp)]
    by_cases h1 : count < 0
    · rw [if_pos h1]
      exact ⟨w, -1, rfl, Or.inr rfl⟩
    · rw [if_neg h1]
      by_cases h2 : count < 4
      · rw [if_pos h2]
        exact ⟨w, -1, rfl, Or.inr rfl⟩
      · rw [if_neg h2]
        simp only []
        split_ifs
        · exact ⟨w, -1, rfl, Or.inr rfl⟩
        · rw [hr]
          refine ⟨w3, _, rfl, Or.inl ?_⟩
          rcases hrc with e | e <;> rw [e] <;> rfl
  · intro secs
    obtain ⟨w1, rcs, _, hd, hrcs, _⟩ := deliver_sections_chain cfg s secs w l h
    exact ⟨w1, rcs, hd, hrcs⟩

/-- Witness of C19: the segmented filter of `world_segmented` and a section of
its table with another `table_id_ext`. -/
theorem segmented_never_complete_witness :
    ∃ w1 rc, parse_section scan_config_default fe_locked world_segmented 0
        (nit_other_section 2) = some (w1, rc) ∧ (rc = 0 ∨ rc = -1) :=
  (segmented_never_complete scan_config_default fe_locked world_segmented 0 []
    (nit_other_section 2)
    ⟨by unfold seg_chain; decide, by decide, by decide, by decide⟩).1

/-- C20: for a segmented filter with a well-formed chain of siblings,
`parse_section` leaves the chain as it is when the section's table_id_ext is
known (the head has -1 and takes every section, or the head or a sibling has
that table_id_ext), and otherwise the chain is the old one or the old one with
one new sibling at its end, which is the case when the section has the filter's
table_id; and after any sequence of sections that all have the same
table_id_ext the chain is at most one sibling longer, and not longer at all
when that table_id_ext was known before. -/
theorem segmented_chain_growth (cfg : scan_config) (fe : fe_readings) (w : scan_world)
    (s : Nat) (l : List Nat) (buf : List Nat) (h : chain_ok w s l) :
    (∃ w1 rc l1, parse_section cfg fe w s buf = some (w1, rc) ∧ chain_ok w1 s l1 ∧
      (ext_known w s l (sec_table_id_ext buf) → l1 = l) ∧
      (l1 = l ∨ (l1 = l ++ [w.next_buf] ∧ ¬ ext_known w s l (sec_table_id_ext buf))) ∧
      ((w.pool.bufs s).table_id = sec_table_id buf →
        ¬ ext_known w s l (sec_table_id_ext buf) → l1 = l ++ [w.next_buf])) ∧
    (∀ secs e, (∀ x ∈ secs, sec_table_id_ext x.2 = e) →
      ∃ w1 rcs l1, deliver_sections cfg w s secs = some (w1, rcs) ∧ chain_ok w1 s l1 ∧
        (ext_known w s l e → l1 = l) ∧ l1.length ≤ l.length + 1) := by
  refine ⟨?_, ?_⟩
  · obtain ⟨w3, rc, l1, hr, _, hok, _, hk1, hgrow, _, hk4⟩ :=
      parse_section_chain cfg fe w s l buf h
    exact ⟨w3, rc, l1, hr, hok, hk1, hgrow, hk4⟩
  · intro secs e hext
    obtain ⟨w1, rcs, l1, hd, hok, hk, hgrow⟩ := deliver_sections_same_ext cfg s e secs w l h hext
    refine ⟨w1, rcs, l1, hd, hok, hk, ?_⟩
    rcases hgrow with e1 | e1
    · rw [e1]; omega
    · rw [e1]; simp

/-- Witness of C20: three sections with `table_id_ext` 2 for the segmented
filter of `world_segmented`, whose own `table_id_ext` is 1, leave a chain of at
most one sibling. -/
theorem segmented_chain_growth_witness :
    ∃ w1 rcs l1, deliver_sections scan_config_default world_segmented 0
        [(fe_locked, nit_other_section 2), (fe_locked, nit_other_section 2),
         (fe_locked, nit_other_section 2)] = some (w1, rcs) ∧
      chain_ok w1 0 l1 ∧ (ext_known world_segmented 0 [] 2 → l1 = []) ∧
      l1.length ≤ ([] : List Nat).length + 1 :=
  (segmented_chain_growth scan_config_default fe_locked world_segmented 0 []
    (nit_other_section 2)
    ⟨by unfold seg_chain; decide, by decide, by decide, by decide⟩).2
    [(fe_locked, nit_other_section 2), (fe_locked, nit_other_section 2),
     (fe_locked, nit_other_section 2)] 2 (by decide)

/-! ## Sections that are refused or dropped: theorems -/

/-- C21: when the first byte of the section differs from the filter's
`table_id`, `parse_section` returns -1 and the world it returns is the world it
was given: the filter's bitmap, version, `table_id_ext`, `sectionfilter_done`
and sibling chain, every other filter, and the transponder and service store
are unchanged. -/
theorem parse_section_table_id_mismatch (cfg : scan_config) (fe : fe_readings)
    (w : scan_world) (s : Nat) (buf : List Nat)
    (h : (w.pool.bufs s).table_id ≠ sec_table_id buf) :
    parse_section cfg fe w s buf = some (w, -1) :=
  parse_section_wrong_table cfg fe w s buf h

/-- Witness of C21: the PAT filter of `world_pat_filter` is handed a section of
table 0x41. -/
theorem parse_section_table_id_mismatch_witness :
    parse_section scan_config_default fe_locked world_pat_filter 0 (nit_other_section 2) =
      some (world_pat_filter, -1) :=
  parse_section_table_id_mismatch scan_config_default fe_locked world_pat_filter 0
    (nit_other_section 2) (by decide)

/-- C22, counterexample: the PAT filter of `world_pat_v3` has stored version 3
and the bits of sections 0 and 1; a section of its table with `section_length`
5 and version 4 is answered with 0, and afterwards the filter has stored
version 4 and its bitmap is empty. -/
theorem parse_section_short_section_resets :
    sec_length pat_section_short = 5 ∧
    (world_pat_v3.pool.bufs 0).section_version_number = 3 ∧
    (world_pat_v3.pool.bufs 0).section_done = 3 :: List.replicate 31 0 ∧
    (parse_section scan_config_default fe_locked world_pat_v3 0 pat_section_short).map
      (fun r => (r.2, (r.1.pool.bufs 0).section_version_number,
        (r.1.pool.bufs 0).section_done)) =
      some (0, 4, List.replicate 32 0) := by
  decide

/-- C22, amended: when a section with the filter's table_id has
section_length < 9, `parse_section` returns 0 and runs no table decoder (the
transponder store, the channel report and the list of submitted filters are
unchanged); the filter that handles the section is left unchanged when the
section has its stored version and `table_id_ext`, and otherwise it is reset
before the section is dropped: the section's version and `table_id_ext` are
stored, the bitmap is cleared and `sectionfilter_done` is 0. -/
theorem parse_section_short_section (cfg : scan_config) (fe : fe_readings)
    (w w1 : scan_world) (s t : Nat) (buf : List Nat)
    (htid : (w.pool.bufs s).table_id = sec_table_id buf)
    (hroute : seg_route w s (sec_table_id buf) (sec_table_id_ext buf) (sec_version buf) =
      some (w1, t))
    (hlen : sec_length buf < 9) :
    ∃ w2, parse_section cfg fe w s buf = some (w2, 0) ∧
      w2.store = w.store ∧ w2.pchan_info = w.pchan_info ∧ w2.submitted = w.submitted ∧
      w2.out_of_bounds = w.out_of_bounds ∧
      (∀ a, a ≠ t → w2.pool.bufs a = w1.pool.bufs a) ∧
      ((w1.pool.bufs t).section_version_number = sec_version buf →
        (w1.pool.bufs t).table_id_ext = sec_table_id_ext buf →
        w2.pool.bufs t = w1.pool.bufs t) ∧
      ((w1.pool.bufs t).section_version_number ≠ sec_version buf ∨
          (w1.pool.bufs t).table_id_ext ≠ sec_table_id_ext buf →
        w2.pool.bufs t =
          { w1.pool.bufs t with
            table_id_ext := sec_table_id_ext buf
            section_version_number := sec_version buf
            sectionfilter_done := 0
            section_done := List.replicate 32 0 }) := by
  have hr := parse_section_short cfg fe w w1 s t buf htid hroute hlen
  obtain ⟨f1, f2, f3, f4, _, _⟩ := seg_route_frame w w1 s t _ _ _ hroute
  refine ⟨_, hr, f1, f2, f4, f3, ?_, ?_, ?_⟩
  · intro a ha
    rw [set_buf_bufs, Function.update_noteq ha]
  · intro h1 h2
    rw [set_buf_bufs, Function.update_same, section_reset_same _ _ _ h1 h2]
  · intro h
    rw [set_buf_bufs, Function.update_same, section_reset_changed _ _ _ h]

/-- Witness of C22: the PAT filter of `world_pat_v3` and the short section of
version 4. -/
theorem parse_section_short_section_witness :
    ∃ w2, parse_section scan_config_default fe_locked world_pat_v3 0 pat_section_short =
        some (w2, 0) ∧ w2.store = world_pat_v3.store :=
  (parse_section_short_section scan_config_default fe_locked world_pat_v3 world_pat_v3 0 0
    pat_section_short (by decide) rfl (by decide)).imp
    (fun _ h => ⟨h.1, h.2.1⟩)

/-! ## Descriptor loops: theorems -/

/-- C23, counterexample: in the loop `desc_empty_then_eng` the first record has
length byte 0 and the loop goes on to the language descriptor behind it, which
`parse_descriptors` dispatches in PMT context (the service gets the language
"eng") and `find_descriptor` matches at offset 2; a record with length byte 0
is itself matched by `find_descriptor`, with `*desc_len` = 2. -/
theorem descriptor_length_zero_continues :
    byte_at desc_empty_then_eng 1 = 0 ∧
    (parse_descriptors scan_config_default .PMT desc_empty_then_eng 0 8
        (.service service_zero) world_pat_filter.store).map (fun r => r.1) =
      some (.service { service_zero with
        audio_lang := [0x65, 0x6e, 0x67, 0] :: List.replicate 31 (List.replicate 4 0) }) ∧
    find_descriptor 0x0a desc_empty_then_eng 0 8 = some (some (2, 6)) ∧
    find_descriptor 0x05 desc_empty_then_eng 0 8 = some (some (0, 2)) := by
  decide

/-- C23, amended: at a record inside the loop (`descriptors_loop_len > 0`) a
length byte of 0 aborts nothing.  The record is an ordinary record of 2 bytes:
`parse_descriptors` dispatches it by its tag and continues 2 bytes further on;
`find_descriptor` matches it when it has the tag searched for, with
`*desc_len` = 2, and otherwise continues 2 bytes further on. -/
theorem descriptor_length_zero_record (cfg : scan_config) (t : table_type) (tag : Nat)
    (buf : List Nat) (off : Nat) (len : Int) (data : desc_data) (st : tp_store)
    (hlen : 0 < len) (h0 : byte_at buf (off + 1) = 0) :
    parse_descriptors cfg t buf off len data st =
      parse_descriptors cfg t buf (off + 2) (len - 2)
        (parse_descriptor cfg t buf off data st).1
        (parse_descriptor cfg t buf off data st).2 ∧
    find_descriptor tag buf off len =
      (if tag = byte_at buf off then some (some (off, 2))
       else find_descriptor tag buf (off + 2) (len - 2)) := by
  have hd : (byte_at buf (off + 1) + 2) % 256 = 2 := by rw [h0]
  have hd0 : (byte_at buf (off + 1) + 2) % 256 ≠ 0 := by rw [hd]; decide
  have h1 := parse_descriptors_step cfg t buf off len data st hlen hd0
  have h2 := find_descriptor_step tag buf off len hlen hd0
  rw [hd] at h1 h2
  exact ⟨h1, h2⟩

/-- Witness of C23: the loop `desc_empty_then_eng` starts with a record of tag
0x05 and length byte 0; the search for tag 0x0a goes on at offset 2 with 6 bytes
left, where it finds the language descriptor. -/
theorem descriptor_length_zero_record_witness :
    byte_at desc_empty_then_eng 1 = 0 ∧
    find_descriptor 0x0a desc_empty_then_eng 0 8 =
      find_descriptor 0x0a desc_empty_then_eng 2 6 ∧
    find_descriptor 0x0a desc_empty_then_eng 2 6 = some (some (2, 6)) := by
  have h := (descriptor_length_zero_record scan_config_default .PMT 0x0a desc_empty_then_eng
    0 8 (.service service_zero) world_pat_filter.store (by decide) (by decide)).2
  rw [if_neg (by decide)] at h
  exact ⟨by decide, h, by decide⟩

/-- C24: one pass of the loop of `parse_descriptors` at a record with length
byte L inside the loop.  For L ≤ 253 the record is dispatched and the loop
continues at the next record, 2 + L bytes further on; for L = 254 the loop
is aborted and the record is not dispatched; for L = 255 the record is
dispatched and the loop continues 1 byte further on, inside the record.  A
record whose tag is not in the dispatch table changes nothing. -/
theorem parse_descriptors_pass (cfg : scan_config) (t : table_type) (buf : List Nat)
    (off : Nat) (len : Int) (data : desc_data) (st : tp_store) (hlen : 0 < len) :
    (byte_at buf (off + 1) ≤ 253 →
      parse_descriptors cfg t buf off len data st =
        parse_descriptors cfg t buf (off + (2 + byte_at buf (off + 1)))
          (len - ((2 + byte_at buf (off + 1) : Nat) : Int))
          (parse_descriptor cfg t buf off data st).1
          (parse_descriptor cfg t buf off data st).2) ∧
    (byte_at buf (off + 1) = 254 →
      parse_descriptors cfg t buf off len data st = some (data, st)) ∧
    (byte_at buf (off + 1) = 255 →
      parse_descriptors cfg t buf off len data st =
        parse_descriptors cfg t buf (off + 1) (len - 1)
          (parse_descriptor cfg t buf off data st).1
          (parse_descriptor cfg t buf off data st).2) ∧
    (byte_at buf off ∉ [0x0a, 0x40, 0x43, 0x44, 0x48, 0x53, 0x5a, 0x62, 0x83] →
      parse_descriptor cfg t buf off data st = (data, st)) := by
  refine ⟨?_, ?_, ?_, ?_⟩
  · intro h
    have hd : (byte_at buf (off + 1) + 2) % 256 = 2 + byte_at buf (off + 1) := by omega
    have hd0 : (byte_at buf (off + 1) + 2) % 256 ≠ 0 := by omega
    have h1 := parse_descriptors_step cfg t buf off len data st hlen hd0
    rw [hd] at h1
    exact h1
  · intro h
    exact parse_descriptors_stop cfg t buf off len data st hlen (by rw [h])
  · intro h
    have hd : (byte_at buf (off + 1) + 2) % 256 = 1 := by rw [h]
    have hd0 : (byte_at buf (off + 1) + 2) % 256 ≠ 0 := by omega
    have h1 := parse_descriptors_step cfg t buf off len data st hlen hd0
    rw [hd] at h1
    exact h1
  · intro h
    simp only [List.mem_cons, List.mem_singleton, List.not_mem_nil, or_false, not_or] at h
    obtain ⟨h1, h2, h3, h4, h5, h6, h7, h8, h9⟩ := h
    unfold parse_descriptor
    simp only []
    rw [if_neg h1, if_neg h2, if_neg h3, if_neg h4, if_neg h5, if_neg h6, if_neg h7, if_neg h8,
      if_neg h9]

/-- Witness of C24: the loop `desc_255_payload` is one record of 257 bytes with
an unknown tag; `parse_descriptors` goes on 1 byte behind its start, and reads
its payload as records: the service gets the language "xyz". -/
theorem parse_descriptors_pass_witness :
    parse_descriptors scan_config_default .PMT desc_255_payload 0 257
        (.service service_zero) world_pat_filter.store =
      parse_descriptors scan_config_default .PMT desc_255_payload 1 256
        (.service service_zero) world_pat_filter.store ∧
    (parse_descriptors scan_config_default .PMT desc_255_payload 0 257
        (.service service_zero) world_pat_filter.store).map (fun r => r.1) =
      some (.service { service_zero with
        audio_lang := [0x78, 0x79, 0x7a, 0] :: List.replicate 31 (List.replicate 4 0) }) := by
  have h := (parse_descriptors_pass scan_config_default .PMT desc_255_payload 0 257
    (.service service_zero) world_pat_filter.store (by decide)).2.2.1 (by decide)
  have e : parse_descriptor scan_config_default .PMT desc_255_payload 0
      (.service service_zero) world_pat_filter.store =
      (.service service_zero, world_pat_filter.store) := rfl
  rw [e] at h
  norm_num at h
  exact ⟨h, by decide⟩

/-! ## Services and their transponder: theorems -/

/-- C29: a transponder without services has the invariant that every service
carries its transponder's `transport_stream_id`; `alloc_service` gives the new
service the transponder's `transport_stream_id` and keeps the invariant; and
copy_transponder(d, s) on a `d` with the invariant leaves
d.transport_stream_id = s.transport_stream_id and every service of `d` with
transport_stream_id = s.transport_stream_id, so `d` has the invariant again. -/
theorem service_tsid_invariant (d s : transponder) (sid : Int) (h : tsid_inv d) :
    tsid_inv transponder_zero ∧
    (service_at (alloc_service d sid).1 (alloc_service d sid).2).transport_stream_id =
      d.transport_stream_id ∧
    (alloc_service d sid).1.transport_stream_id = d.transport_stream_id ∧
    tsid_inv (alloc_service d sid).1 ∧
    (copy_transponder d s).transport_stream_id = s.transport_stream_id ∧
    (∀ sv ∈ (copy_transponder d s).services,
      sv.transport_stream_id = s.transport_stream_id) ∧
    (copy_transponder d s).services.map (fun sv => sv.service_id) =
      d.services.map (fun sv => sv.service_id) ∧
    tsid_inv (copy_transponder d s) := by
  have hcopy : ∀ sv ∈ (copy_transponder d s).services,
      sv.transport_stream_id = s.transport_stream_id := by
    intro sv hsv
    unfold copy_transponder at hsv
    simp only [] at hsv
    by_cases hne : d.transport_stream_id ≠ s.transport_stream_id
    · rw [if_pos hne] at hsv
      obtain ⟨sv0, _, rfl⟩ := List.mem_map.mp hsv
      rfl
    · rw [if_neg hne] at hsv
      rw [h sv hsv]
      exact not_not.mp hne
  refine ⟨?_, ?_, rfl, ?_, rfl, hcopy, ?_, hcopy⟩
  · intro sv hsv
    cases hsv
  · unfold service_at alloc_service
    simp
  · intro sv hsv
    unfold alloc_service at hsv
    simp only [List.mem_append, List.mem_singleton] at hsv
    rcases hsv with hsv | rfl
    · exact h sv hsv
    · rfl
  · unfold copy_transponder
    simp only []
    by_cases hne : d.transport_stream_id ≠ s.transport_stream_id
    · rw [if_pos hne, List.map_map]
      rfl
    · rw [if_neg hne]

/-- Witness of C29: `d` has one service and `transport_stream_id` 0, `s` has
`transport_stream_id` 7. -/
theorem service_tsid_invariant_witness :
    (copy_transponder (alloc_service transponder_zero 1).1
      { transponder_zero with transport_stream_id := 7 }).services.map
        (fun sv => (sv.service_id, sv.transport_stream_id)) = [(1, 7)] ∧
    tsid_inv (copy_transponder (alloc_service transponder_zero 1).1
      { transponder_zero with transport_stream_id := 7 }) :=
  ⟨by decide,
    (service_tsid_invariant (alloc_service transponder_zero 1).1
      { transponder_zero with transport_stream_id := 7 } 1
      (by intro sv hsv; simp [alloc_service, transponder_zero] at hsv; rw [hsv]; rfl)).2.2.2.2.2.2.2⟩

/-! ## The PMT filters of a transponder: theorems -/

/-- C30, counterexample: two PAT sections for a transponder without services,
the first with program 1 on PID 0x100, the second with program 1 on PID 0x101.
Afterwards service 1 has `pmt_pid` 0x101, and the one filter submitted for it
is on PID 0x100. -/
theorem parse_pat_filter_keeps_first_pid :
    (parse_pat_sections false [(pat_payload_one 0x100, 4, 1), (pat_payload_one 0x101, 4, 1)]
        { tp := transponder_zero, filters := [] }).map
      (fun ps => (ps.tp.services.map (fun s => (s.service_id, s.pmt_pid)),
        ps.filters.map (fun f => (f.pid, f.table_id, f.table_id_ext, f.run_once)))) =
      some ([(1, 0x101)], [(0x100, 0x02, 1, true)]) := by
  decide

/-- C30, amended: for every sequence of PAT sections processed for a
transponder whose services have distinct ids, no PMT filter and `pmt_pid` 0,
`parse_pat` returns, and of the filters it has submitted each is a filter of
`setup_filter` for table_id 0x02 with `run_once`, on a PID other than 0 and
with the `table_id_ext` of a service of the transponder; their `table_id_ext`
are pairwise distinct (at most one filter per service), so no two share
(PID, table_id, table_id_ext); and every service with a non-zero `pmt_pid` has
a filter with table_id_ext = service_id.  The PID of a filter is the `pmt_pid`
of the entry that made `parse_pat` submit it, which is the service's `pmt_pid`
right after that entry; a later entry that changes `pmt_pid` submits nothing. -/
theorem parse_pat_sections_filters (long_timeout : Bool)
    (secs : List (List Nat × Int × Int)) (tp : transponder)
    (hu : services_unique tp) (h0 : ∀ s ∈ tp.services, s.priv = false ∧ s.pmt_pid = 0) :
    (∃ ps, parse_pat_sections long_timeout secs { tp := tp, filters := [] } = some ps ∧
      services_unique ps.tp ∧
      (∀ f ∈ ps.filters, f.pid ≠ 0 ∧ f.table_id = 0x02 ∧ f.run_once = true ∧
        f = setup_filter long_timeout f.pid 0x02 f.table_id_ext true false 5 ∧
        ∃ s ∈ ps.tp.services, s.service_id = f.table_id_ext) ∧
      (ps.filters.map (fun f => f.table_id_ext)).Nodup ∧
      (ps.filters.map (fun f => (f.pid, f.table_id, f.table_id_ext))).Nodup ∧
      (∀ s ∈ ps.tp.services, s.pmt_pid ≠ 0 →
        ∃ f ∈ ps.filters, f.table_id_ext = s.service_id)) ∧
    (∀ buf off st,
      (parse_pat_entry long_timeout buf off st).filters = st.filters ∨
      ((parse_pat_entry long_timeout buf off st).filters =
          st.filters ++ [setup_filter long_timeout (pat_pmt_pid buf off) 0x02
            (pat_service_id buf off) true false 5] ∧
        (lookup_service (parse_pat_entry long_timeout buf off st).tp
          (pat_service_id buf off)).map (fun s => s.pmt_pid) =
          some (pat_pmt_pid buf off))) := by
  constructor
  · have hinv : pat_filters_inv long_timeout { tp := tp, filters := [] } := by
      refine ⟨hu, List.nodup_nil, ?_, ?_, ?_, ?_, ?_⟩
      · intro f hf
        cases hf
      · intro f hf
        cases hf
      · intro s hs hp
        rw [(h0 s hs).1] at hp
        cases hp
      · rintro s _ ⟨f, hf, _⟩
        cases hf
      · intro s hs hp
        exact absurd (h0 s hs).2 hp
    obtain ⟨ps, hps, h1, h2, h3, h4, h5, _, h7⟩ :=
      parse_pat_sections_inv long_timeout secs _ hinv
    refine ⟨ps, hps, h1, ?_, h2, ?_, ?_⟩
    · intro f hf
      obtain ⟨ha, hb⟩ := h3 f hf
      exact ⟨ha, by rw [hb]; rfl, by rw [hb]; rfl, hb, h4 f hf⟩
    · have e : ps.filters.map (fun f => f.table_id_ext) =
          (ps.filters.map (fun f => (f.pid, f.table_id, f.table_id_ext))).map
            (fun x => x.2.2) := by
        rw [List.map_map]
        rfl
      rw [e] at h2
      exact List.Nodup.of_map _ h2
    · intro s hs hp
      exact h5 s hs (h7 s hs hp)
  · intro buf off st
    rw [parse_pat_entry_filters, parse_pat_entry_lookup]
    by_cases hz : pat_service_id buf off = 0
    · left
      rw [if_pos hz]
    · rw [if_neg hz]
      by_cases hc : (!((lookup_in st.tp.services (pat_service_id buf off)).getD
            { service_zero with
              service_id := pat_service_id buf off
              transport_stream_id := st.tp.transport_stream_id }).priv &&
          pat_pmt_pid buf off != 0) = true
      · right
        rw [if_pos hc, if_pos ⟨hz, rfl⟩]
        exact ⟨rfl, rfl⟩
      · left
        rw [if_neg hc]

/-- Witness of C30: the two PAT sections of the counterexample, for a
transponder without services. -/
theorem parse_pat_sections_filters_witness :
    ∃ ps, parse_pat_sections false [(pat_payload_one 0x100, 4, 1), (pat_payload_one 0x101, 4, 1)]
        { tp := transponder_zero, filters := [] } = some ps ∧
      (ps.filters.map (fun f => f.table_id_ext)).Nodup :=
  (parse_pat_sections_filters false [(pat_payload_one 0x100, 4, 1), (pat_payload_one 0x101, 4, 1)]
    transponder_zero List.nodup_nil (fun _ hs => nomatch hs)).1.imp
    (fun _ h => ⟨h.1, h.2.2.2.1⟩)

/-! ## SDT: theorems -/

/-- C28: in every store reachable from a current transponder without services
by `parse_pat`, `parse_sdt`, `parse_pmt` and `parse_psip_vct`, in any order
and on any inputs, the services of the current transponder have pairwise
distinct `service_id`, and `find_service` returns the position of the service
with the given id when there is one (the only one) and NULL exactly when no
service has the id. -/
theorem services_unique_reachable (cfg : scan_config) (st : tp_store)
    (h : services_reachable cfg st) :
    services_unique (st.tps st.current_tp) ∧
    ∀ sid : Int,
      (∀ i, find_service (st.tps st.current_tp) sid = some i ↔
        ∃ s, (st.tps st.current_tp).services[i]? = some s ∧ s.service_id = sid) ∧
      (find_service (st.tps st.current_tp) sid = none ↔
        ∀ s ∈ (st.tps st.current_tp).services, s.service_id ≠ sid) ∧
      (∀ s, lookup_service (st.tps st.current_tp) sid = some s ↔
        s ∈ (st.tps st.current_tp).services ∧ s.service_id = sid) := by
  have hu : services_unique (st.tps st.current_tp) := by
    induction h with
    | init st h0 =>
      unfold services_unique
      rw [h0]
      exact List.nodup_nil
    | pat st ps buf len tsid _ hp ih =>
      rw [write_tp_current_tp, write_tp_tps, if_pos rfl]
      rw [parse_pat_entries] at hp
      cases hp
      exact pat_entries_unique _ _ _ _ _ ih
    | pmt st st1 buf len sid _ hp ih =>
      obtain ⟨_, e⟩ := parse_pmt_frame cfg buf len sid st st1 hp
      unfold services_unique
      rw [e]
      exact ih
    | sdt st st1 buf len tsid _ hp ih =>
      rw [parse_sdt_entries] at hp
      exact sdt_entries_unique cfg buf _ st st1 hp ih
    | vct st vs env buf len tid tsid pchan _ hp ih =>
      rw [write_tp_current_tp, write_tp_tps, if_pos rfl]
      exact parse_psip_vct_unique _ _ _ _ _ _ _ _ vs ih hp
  refine ⟨hu, fun sid => ⟨?_, ?_, ?_⟩⟩
  · exact find_service_in_iff _ sid hu
  · exact find_service_in_none_iff _ sid
  · intro s
    exact lookup_in_iff _ sid s hu

/-- Witness of C28: the store after a PAT section with program 1, from a
current transponder without services. -/
theorem services_unique_reachable_witness :
    services_unique
      ((write_tp world_pat_filter.store world_pat_filter.store.current_tp (fun _ =>
        (pat_entries scan_config_default.long_timeout (pat_payload_one 0x100) 1 0
          { tp := world_pat_filter.store.tps world_pat_filter.store.current_tp
            filters := [] }).tp)).tps world_pat_filter.store.current_tp) :=
  (services_unique_reachable scan_config_default _
    (services_reachable.pat world_pat_filter.store _ (pat_payload_one 0x100) 4 1
      (services_reachable.init _ rfl)
      (parse_pat_entries scan_config_default.long_timeout (pat_payload_one 0x100) 4 1
        (world_pat_filter.store.tps world_pat_filter.store.current_tp)))).1

/-! ## PAT, then PMT: theorems -/

/-- C25: the PAT section that declares the single program 1 on PID 0x100 is
read by the PAT filter of a transponder without services, then the PMT section
`pmt_section_eng` for service 1 (video stream_type 0x02 on PID 0x200, audio
stream_type 0x03 on PID 0x201 with the ISO-639 language "eng") is read by the
PMT filter that `parse_pat` submitted, which is on PID 0x100 for table 0x02
and `table_id_ext` 1.  Both calls of `parse_section` return 1, and the
transponder has exactly one service: service_id 1, pmt_pid 0x100, video_pid
0x200, audio_num 1, audio_pid[0] = 0x201, audio_lang[0] = "eng". -/
theorem pat_then_pmt_one_service :
    (pat_then_pmt scan_config_default fe_locked world_pat_filter 0 (pat_section 0 0 0 1)
        pmt_section_eng).map
      (fun r => (r.1, r.2.2.1, r.2.1.pid, r.2.1.table_id, r.2.1.table_id_ext, r.2.1.run_once)) =
      some (1, 1, 0x100, 0x02, 1, true) ∧
    (pat_then_pmt scan_config_default fe_locked world_pat_filter 0 (pat_section 0 0 0 1)
        pmt_section_eng).map
      (fun r => (r.2.2.2.store.tps r.2.2.2.store.current_tp).services.map
        (fun s => (s.service_id, s.pmt_pid, s.video_pid, s.audio_num))) =
      some [(1, 0x100, 0x200, 1)] ∧
    (pat_then_pmt scan_config_default fe_locked world_pat_filter 0 (pat_section 0 0 0 1)
        pmt_section_eng).map
      (fun r => (r.2.2.2.store.tps r.2.2.2.store.current_tp).services.map
        (fun s => (s.audio_pid.take 1, s.audio_lang.take 1))) =
      some [([0x201], [[0x65, 0x6e, 0x67, 0]])] :=
  ⟨by decide!, by decide!, by decide!⟩

/-! ## Descriptor contexts, repeated sections, termination: theorems -/

/-- C36: a record whose tag the `switch` of `parse_descriptors` lists for
another table context than the one of the call (or does not list at all)
changes nothing.  For whole descriptor loops: in the SDT and NIT contexts the
audio languages of the service are unchanged; in the PMT and NIT contexts the
service type, provider name, service name and CA ids are unchanged; in the PMT
and SDT contexts the transponder and the store are unchanged.  The loops
return. -/
theorem descriptor_dispatch_scoped (cfg : scan_config) (t : table_type) (buf : List Nat)
    (off : Nat) (len : Int) (data : desc_data) (st : tp_store) (s : service)
    (tp : transponder) (h : descriptor_context (byte_at buf off) ≠ some t) :
    parse_descriptor cfg t buf off data st = (data, st) ∧
    (t = .SDT ∨ t = .NIT →
      ∃ s1 st1, parse_descriptors cfg t buf off len (.service s) st = some (.service s1, st1) ∧
        s1.audio_lang = s.audio_lang) ∧
    (t = .PMT ∨ t = .NIT →
      ∃ s1 st1, parse_descriptors cfg t buf off len (.service s) st = some (.service s1, st1) ∧
        s1.type = s.type ∧ s1.provider_name = s.provider_name ∧
        s1.service_name = s.service_name ∧ s1.ca_id = s.ca_id) ∧
    (t = .PMT ∨ t = .SDT →
      parse_descriptors cfg t buf off len (.transponder tp) st = some (.transponder tp, st)) := by
  refine ⟨parse_descriptor_out_of_context cfg t buf off data st h, ?_, ?_, ?_⟩
  · intro ht
    have hne : t ≠ .PMT := by
      rcases ht with e | e <;> rw [e] <;> decide
    obtain ⟨r, hr⟩ := parse_descriptors_total cfg t buf off len (.service s) st
    have hk := parse_descriptors_loop_keeps cfg t buf
      (fun r => ∃ s1, r.1 = .service s1 ∧ s1.audio_lang = s.audio_lang)
      (by
        rintro o d st0 ⟨s0, e0, a0⟩
        simp only [] at e0
        rw [e0]
        obtain ⟨s1, e1, f1, _⟩ := parse_descriptor_service_frame cfg t buf o s0 st0
        exact ⟨s1, e1, (f1 hne).trans a0⟩)
      _ _ _ _ _ r ⟨s, rfl, rfl⟩ hr
    obtain ⟨s1, e1, a1⟩ := hk
    refine ⟨s1, r.2, ?_, a1⟩
    rw [hr, ← e1]
  · intro ht
    have hne : t ≠ .SDT := by
      rcases ht with e | e <;> rw [e] <;> decide
    obtain ⟨r, hr⟩ := parse_descriptors_total cfg t buf off len (.service s) st
    have hk := parse_descriptors_loop_keeps cfg t buf
      (fun r => ∃ s1, r.1 = .service s1 ∧ s1.type = s.type ∧
        s1.provider_name = s.provider_name ∧ s1.service_name = s.service_name ∧
        s1.ca_id = s.ca_id)
      (by
        rintro o d st0 ⟨s0, e0, a0, b0, c0, d0⟩
        simp only [] at e0
        rw [e0]
        obtain ⟨s1, e1, _, f1⟩ := parse_descriptor_service_frame cfg t buf o s0 st0
        obtain ⟨a1, b1, c1, d1⟩ := f1 hne
        exact ⟨s1, e1, a1.trans a0, b1.trans b0, c1.trans c0, d1.trans d0⟩)
      _ _ _ _ _ r ⟨s, rfl, rfl, rfl, rfl, rfl⟩ hr
    obtain ⟨s1, e1, a1⟩ := hk
    refine ⟨s1, r.2, ?_, a1⟩
    rw [hr, ← e1]
  · intro ht
    have hne : t ≠ .NIT := by
      rcases ht with e | e <;> rw [e] <;> decide
    obtain ⟨r, hr⟩ := parse_descriptors_total cfg t buf off len (.transponder tp) st
    have hk := parse_descriptors_loop_keeps cfg t buf
      (fun r => r = (.transponder tp, st))
      (by
        intro o d st0 e0
        cases e0
        exact parse_descriptor_transponder_frame cfg t buf o tp st hne)
      _ _ _ _ _ r rfl hr
    rw [hr, hk]

/-- Witness of C36: the language descriptor at offset 2 of
`desc_empty_then_eng`, in the SDT context. -/
theorem descriptor_dispatch_scoped_witness :
    parse_descriptor scan_config_default .SDT desc_empty_then_eng 2 (.service service_zero)
      world_pat_filter.store = (.service service_zero, world_pat_filter.store) :=
  (descriptor_dispatch_scoped scan_config_default .SDT desc_empty_then_eng 2 6
    (.service service_zero) world_pat_filter.store service_zero transponder_zero
    (by decide)).1

/-- C37, counterexample: the PAT filter of `world_pat_complete` is not
segmented and is complete, with stored version 3, `table_id_ext` 1 and the bit
of section 0 set; a section of its table with version 3, `table_id_ext` 1,
section_number 0 and `section_length` 5 is answered with 0, not 1. -/
theorem parse_section_repeated_short :
    (world_pat_complete.pool.bufs 0).segmented = false ∧
    (world_pat_complete.pool.bufs 0).sectionfilter_done = 1 ∧
    (world_pat_complete.pool.bufs 0).table_id = sec_table_id pat_section_short_v3 ∧
    (world_pat_complete.pool.bufs 0).section_version_number = sec_version pat_section_short_v3 ∧
    (world_pat_complete.pool.bufs 0).table_id_ext = sec_table_id_ext pat_section_short_v3 ∧
    get_bit (world_pat_complete.pool.bufs 0).section_done (sec_number pat_section_short_v3) = 1 ∧
    (parse_section scan_config_default fe_locked world_pat_complete 0 pat_section_short_v3).map
      (fun r => r.2) = some 0 := by
  decide

/-- C37, amended: when `parse_section` receives a section with the filter's
table_id, the stored version and `table_id_ext`, and a section_number whose bit
is already set, it invokes no table decoder (store, channel report and
submitted filters are unchanged) and leaves every filter, so the bitmap and
`sectionfilter_done`, unchanged.  It returns 0 when section_length < 9, and
otherwise 1 exactly when the filter is not segmented and `sectionfilter_done`
is set. -/
theorem parse_section_repeated (cfg : scan_config) (fe : fe_readings) (w : scan_world)
    (s : Nat) (buf : List Nat)
    (htid : (w.pool.bufs s).table_id = sec_table_id buf)
    (hver : (w.pool.bufs s).section_version_number = sec_version buf)
    (hext : (w.pool.bufs s).table_id_ext = sec_table_id_ext buf)
    (hbit : get_bit (w.pool.bufs s).section_done (sec_number buf) ≠ 0) :
    ∃ w2, parse_section cfg fe w s buf =
        some (w2,
          if sec_length buf < 9 then 0
          else if (w.pool.bufs s).segmented = true then 0
          else if (w.pool.bufs s).sectionfilter_done ≠ 0 then 1 else 0) ∧
      w2.pool.bufs = w.pool.bufs ∧ w2.next_buf = w.next_buf ∧ w2.store = w.store ∧
      w2.pchan_info = w.pchan_info ∧ w2.out_of_bounds = w.out_of_bounds ∧
      w2.submitted = w.submitted := by
  have hroute := seg_route_plain w s (sec_table_id buf) (sec_table_id_ext buf) (sec_version buf)
    (fun h => h.2.2 hext)
  have hreset := section_reset_same (w.pool.bufs s) _ _ hver hext
  by_cases hlen : sec_length buf < 9
  · rw [if_pos hlen]
    refine ⟨_, parse_section_short cfg fe w w s s buf htid hroute hlen, ?_, rfl, rfl, rfl, rfl,
      rfl⟩
    rw [set_buf_bufs, hreset, Function.update_eq_self]
  · rw [if_neg hlen]
    obtain ⟨w3, wd, h1, h2, h3, _, _, h6, h7, h8, h9, h10⟩ :=
      parse_section_spec cfg fe w w s s buf htid hroute (by omega)
    have hh : section_handled (w.pool.bufs s) buf = w.pool.bufs s := by
      unfold section_handled
      simp only []
      rw [hreset, if_neg hbit]
    rw [hreset, if_neg hbit] at h6
    rw [hh] at h1 h2
    rw [h6] at h7 h8 h9 h10
    refine ⟨w3, ?_, ?_, h3, h7, h8, h9, h10⟩
    · rw [h1]
      rfl
    · rw [h2, Function.update_eq_self]

/-- Witness of C37: the complete PAT filter of `world_pat_complete` receives
section 0 of version 3 once more and answers 1. -/
theorem parse_section_repeated_witness :
    ∃ w2, parse_section scan_config_default fe_locked world_pat_complete 0
        (pat_section 3 0 0 1) = some (w2, 1) ∧
      w2.store = world_pat_complete.store :=
  (parse_section_repeated scan_config_default fe_locked world_pat_complete 0
    (pat_section 3 0 0 1) (by decide) (by decide) (by decide) (by decide)).imp
    (fun _ h => ⟨h.1, h.2.2.2.1⟩)

/-- C32: the filters `scan_tp_atsc` seeds.  A filter is seeded exactly when it
is the PAT filter (PID 0x0000, table_id 0x00), or PSIP is not disabled, bit 0
of the ATSC-type mask is set and it is the terrestrial VCT filter (PID 0x1FFB,
table_id 0xC8), or PSIP is not disabled, bit 1 of the mask is set and it is
the cable VCT filter (PID 0x1FFB, table_id 0xC9); no filter is seeded twice;
every seeded filter is run_once, not segmented, with `table_id_ext` -1 and
timeout 5 (25 in long-timeout mode). -/
theorem scan_tp_atsc_filters_spec (long_timeout no_ATSC_PSIP : Bool) (ATSC_type : Nat) :
    (∀ f, f ∈ scan_tp_atsc_filters long_timeout no_ATSC_PSIP ATSC_type ↔
      f = setup_filter long_timeout 0x00 0x00 (-1) true false 5 ∨
      (no_ATSC_PSIP = false ∧ ATSC_type.testBit 0 = true ∧
        f = setup_filter long_timeout 0x1ffb 0xc8 (-1) true false 5) ∨
      (no_ATSC_PSIP = false ∧ ATSC_type.testBit 1 = true ∧
        f = setup_filter long_timeout 0x1ffb 0xc9 (-1) true false 5)) ∧
    (scan_tp_atsc_filters long_timeout no_ATSC_PSIP ATSC_type).Nodup ∧
    (∀ f ∈ scan_tp_atsc_filters long_timeout no_ATSC_PSIP ATSC_type,
      f.run_once = true ∧ f.segmented = false ∧ f.table_id_ext = -1 ∧
      f.timeout = (if long_timeout then 25 else 5) ∧
      ((f.pid = 0x0000 ∧ f.table_id = 0x00) ∨ (f.pid = 0x1ffb ∧ f.table_id = 0xc8) ∨
        (f.pid = 0x1ffb ∧ f.table_id = 0xc9))) := by
  have hmem : ∀ f, f ∈ scan_tp_atsc_filters long_timeout no_ATSC_PSIP ATSC_type ↔
      f = setup_filter long_timeout 0x00 0x00 (-1) true false 5 ∨
      (no_ATSC_PSIP = false ∧ ATSC_type.testBit 0 = true ∧
        f = setup_filter long_timeout 0x1ffb 0xc8 (-1) true false 5) ∨
      (no_ATSC_PSIP = false ∧ ATSC_type.testBit 1 = true ∧
        f = setup_filter long_timeout 0x1ffb 0xc9 (-1) true false 5) := by
    intro f
    have hb0 := and_one_ne_zero_iff ATSC_type
    have hb1 := and_two_ne_zero_iff ATSC_type
    unfold scan_tp_atsc_filters
    cases no_ATSC_PSIP
    · rw [if_neg (by decide)]
      by_cases h0 : ATSC_type &&& 0x1 ≠ 0
      · have t0 := hb0.mp h0
        by_cases h1 : ATSC_type &&& 0x2 ≠ 0
        · have t1 := hb1.mp h1
          rw [if_pos h0, if_pos h1]
          simp only [List.mem_append, List.mem_singleton, t0, t1, true_and]
          tauto
        · have t1 : ¬ ATSC_type.testBit 1 = true := fun h => h1 (hb1.mpr h)
          rw [if_pos h0, if_neg h1]
          simp only [List.mem_append, List.mem_singleton, List.not_mem_nil, t0, t1, true_and,
            false_and, and_false, or_false]
          tauto
      · have t0 : ¬ ATSC_type.testBit 0 = true := fun h => h0 (hb0.mpr h)
        by_cases h1 : ATSC_type &&& 0x2 ≠ 0
        · have t1 := hb1.mp h1
          rw [if_neg h0, if_pos h1]
          simp only [List.mem_append, List.mem_singleton, List.not_mem_nil, t0, t1, true_and,
            false_and, and_false, false_or]
          tauto
        · have t1 : ¬ ATSC_type.testBit 1 = true := fun h => h1 (hb1.mpr h)
          rw [if_neg h0, if_neg h1]
          simp only [List.mem_append, List.mem_singleton, List.not_mem_nil, t0, t1, true_and,
            false_and, and_false, false_or, or_false]
          constructor
          · exact fun h => Or.inl h
          · rintro (h | ⟨h, _⟩ | ⟨h, _⟩)
            · exact h
            · cases h
            · cases h
    · rw [if_pos rfl]
      simp
  have e1 : setup_filter long_timeout 0x1ffb 0xc8 (-1) true false 5 ≠
      setup_filter long_timeout 0x00 0x00 (-1) true false 5 := by
    intro e
    have := congrArg section_buf.table_id e
    simp [setup_filter] at this
  have e2 : setup_filter long_timeout 0x1ffb 0xc9 (-1) true false 5 ≠
      setup_filter long_timeout 0x00 0x00 (-1) true false 5 := by
    intro e
    have := congrArg section_buf.table_id e
    simp [setup_filter] at this
  have e3 : setup_filter long_timeout 0x1ffb 0xc8 (-1) true false 5 ≠
      setup_filter long_timeout 0x1ffb 0xc9 (-1) true false 5 := by
    intro e
    have := congrArg section_buf.table_id e
    simp [setup_filter] at this
  refine ⟨hmem, ?_, ?_⟩
  · unfold scan_tp_atsc_filters
    split_ifs <;> simp [e1, e2, e3]
  · intro f hf
    have ht : ∀ p t : Int, (setup_filter long_timeout p t (-1) true false 5).timeout =
        (if long_timeout then 25 else 5) := by
      intro p t
      unfold setup_filter
      cases long_timeout <;> rfl
    rcases (hmem f).mp hf with e | ⟨_, _, e⟩ | ⟨_, _, e⟩
    · rw [e]
      exact ⟨rfl, rfl, rfl, ht _ _, Or.inl ⟨rfl, rfl⟩⟩
    · rw [e]
      exact ⟨rfl, rfl, rfl, ht _ _, Or.inr (Or.inl ⟨rfl, rfl⟩)⟩
    · rw [e]
      exact ⟨rfl, rfl, rfl, ht _ _, Or.inr (Or.inr ⟨rfl, rfl⟩)⟩

/-- C33: the seeding loop of `tune_initial` leaves the scanned list alone and
appends to the pending list exactly 50 transponders (the 50 addresses the
allocator hands out next, in order); the i-th of them (i = 0..49) is for RF
channel 2 + i: its frequency is atsc_chan_to_mhz(2 + i) * 1,000,000, which is
below 2^31, its type is ATSC, its modulation VSB-8, its `scan_done` 0 and it
has no services; the frequency of a later one is at least 6,000,000 above the
frequency of an earlier one. -/
theorem seed_channels_fifty (st : tp_store) (i j : Nat) (hi : i < j) (hj : j < 50) :
    (seed_channels 50 2 st).scanned_transponders = st.scanned_transponders ∧
    (seed_channels 50 2 st).new_transponders =
      st.new_transponders ++ List.range' st.next_tp 50 ∧
    (List.range' st.next_tp 50).length = 50 ∧
    (((seed_channels 50 2 st).tps (st.next_tp + i)).frequency : Int) =
      atsc_chan_to_mhz (2 + i) * 1000000 ∧
    (((seed_channels 50 2 st).tps (st.next_tp + j)).frequency : Int) =
      atsc_chan_to_mhz (2 + j) * 1000000 ∧
    ((seed_channels 50 2 st).tps (st.next_tp + j)).frequency < 2 ^ 31 ∧
    ((seed_channels 50 2 st).tps (st.next_tp + i)).frequency < 2 ^ 31 ∧
    ((seed_channels 50 2 st).tps (st.next_tp + i)).type = FE_ATSC ∧
    ((seed_channels 50 2 st).tps (st.next_tp + i)).modulation = VSB_8 ∧
    ((seed_channels 50 2 st).tps (st.next_tp + i)).scan_done = 0 ∧
    ((seed_channels 50 2 st).tps (st.next_tp + j)).type = FE_ATSC ∧
    ((seed_channels 50 2 st).tps (st.next_tp + j)).modulation = VSB_8 ∧
    ((seed_channels 50 2 st).tps (st.next_tp + j)).scan_done = 0 ∧
    ((seed_channels 50 2 st).tps (st.next_tp + i)).frequency + 6000000 ≤
      ((seed_channels 50 2 st).tps (st.next_tp + j)).frequency := by
  obtain ⟨h1, h2, _, h4⟩ := seed_channels_spec 50 2 st
  have fi := (h4 i (by omega)).1
  have fj := (h4 j hj).1
  have ei := seed_frequency_eq (2 + (i : Int)) (by omega) (by omega)
  have ej := seed_frequency_eq (2 + (j : Int)) (by omega) (by omega)
  have hap := atsc_chan_to_mhz_apart (2 + (i : Int)) (2 + (j : Int)) (by omega) (by omega)
    (by omega)
  have hbi : atsc_chan_to_mhz (2 + (i : Int)) ≤ 695 := by
    unfold atsc_chan_to_mhz
    split_ifs <;> omega
  have hbj : atsc_chan_to_mhz (2 + (j : Int)) ≤ 695 := by
    unfold atsc_chan_to_mhz
    split_ifs <;> omega
  obtain ⟨ti, mi, si, _⟩ := seed_channels_fields 50 2 st i (by omega)
  obtain ⟨tj, mj, sj, _⟩ := seed_channels_fields 50 2 st j hj
  rw [fi, fj]
  refine ⟨h1, h2, List.length_range' _ _ _, ei, ej, ?_, ?_, ti, mi, si, tj, mj, sj, ?_⟩
  · omega
  · omega
  · omega

/-- Witness of C33: the channels 2 and 51 (i = 0, j = 49), seeded into the
empty store. -/
theorem seed_channels_fifty_witness :
    (((seed_channels 50 2 world_pat_filter.store).tps 0).frequency : Int) = 57000000 ∧
    (((seed_channels 50 2 world_pat_filter.store).tps 49).frequency : Int) = 695000000 := by
  have h := seed_channels_fifty world_pat_filter.store 0 49 (by decide) (by decide)
  exact ⟨h.2.2.2.1, h.2.2.2.2.1⟩

/-! ## PMT: PCR, video and audio, theorems -/

/-- C35: for every PMT payload and a service that `find_service` finds,
`parse_pmt` returns, the service's `pcr_pid` is the 13-bit field
`((buf[0] & 0x1f) << 8) | buf[1]`, and its `video_pid` is unchanged when it
was not 0 before the call, and otherwise is the PID of the first stream entry
with stream_type 0x01, 0x02 or 0x1b whose PID is not 0, or 0 when there is no
such entry.  The service keeps its position and id, and no other service is
written. -/
theorem parse_pmt_pcr_video (cfg : scan_config) (buf : List Nat)
    (section_length service_id : Int) (st : tp_store) (i : Nat)
    (hf : find_service (st.tps st.current_tp) service_id = some i) :
    ∃ st1, parse_pmt cfg buf section_length service_id st = some st1 ∧
      st1.current_tp = st.current_tp ∧
      find_service (st1.tps st1.current_tp) service_id = some i ∧
      (service_at (st1.tps st1.current_tp) i).pcr_pid =
        ((byte_at buf 0 &&& 0x1f) <<< 8) ||| byte_at buf 1 ∧
      (service_at (st1.tps st1.current_tp) i).video_pid =
        (if (service_at (st.tps st.current_tp) i).video_pid ≠ 0 then
          (service_at (st.tps st.current_tp) i).video_pid
         else pmt_first_video buf (pmt_offsets buf section_length)) ∧
      (∀ k, k ≠ i →
        service_at (st1.tps st1.current_tp) k = service_at (st.tps st.current_tp) k) := by
  have hi : i < (st.tps st.current_tp).services.length := find_service_in_lt _ _ _ hf
  obtain ⟨c1, c2, c3⟩ := pmt_fold_core cfg buf st (pmt_offsets buf section_length)
    { service_at (st.tps st.current_tp) i with
      pcr_pid := ((byte_at buf 0 &&& 0x1f) <<< 8) ||| byte_at buf 1 }
  refine ⟨_, parse_pmt_fold cfg buf section_length service_id st i hf, ?_⟩
  obtain ⟨w1, w2, w3, w4⟩ := service_at_write_set st i
    (if ((pmt_offsets buf section_length).foldl (fun s o => pmt_write cfg buf st o s)
        { service_at (st.tps st.current_tp) i with
          pcr_pid := ((byte_at buf 0 &&& 0x1f) <<< 8) ||| byte_at buf 1 }).audio_num >
        AUDIO_CHAN_MAX then
      { (pmt_offsets buf section_length).foldl (fun s o => pmt_write cfg buf st o s)
          { service_at (st.tps st.current_tp) i with
            pcr_pid := ((byte_at buf 0 &&& 0x1f) <<< 8) ||| byte_at buf 1 } with
        audio_num := AUDIO_CHAN_MAX }
    else
      (pmt_offsets buf section_length).foldl (fun s o => pmt_write cfg buf st o s)
        { service_at (st.tps st.current_tp) i with
          pcr_pid := ((byte_at buf 0 &&& 0x1f) <<< 8) ||| byte_at buf 1 }) hi
  obtain ⟨f1, f2, f3, _⟩ := pmt_clamp_fields
    ((pmt_offsets buf section_length).foldl (fun s o => pmt_write cfg buf st o s)
      { service_at (st.tps st.current_tp) i with
        pcr_pid := ((byte_at buf 0 &&& 0x1f) <<< 8) ||| byte_at buf 1 })
  refine ⟨w1, ?_, ?_, ?_, w3⟩
  · unfold find_service
    rw [w4, ← hf]
    unfold find_service
    apply find_service_in_ids
    apply ids_set
    exact f2.trans c2
  · rw [w2]
    exact f1.trans c1
  · rw [w2]
    exact f3.trans c3

/-- Witness of C35: the payload of `pmt_section_eng` for the service 1 of
`store_service_one`, whose `video_pid` is 0 before the call: `pcr_pid` and
`video_pid` become 0x200. -/
theorem parse_pmt_pcr_video_witness :
    ∃ st1, parse_pmt scan_config_default pmt_payload_eng 18 1 store_service_one = some st1 ∧
      (service_at (st1.tps st1.current_tp) 0).pcr_pid = 0x200 ∧
      (service_at (st1.tps st1.current_tp) 0).video_pid = 0x200 := by
  obtain ⟨st1, h1, _, _, h4, h5, _⟩ :=
    parse_pmt_pcr_video scan_config_default pmt_payload_eng 18 1 store_service_one 0 (by decide)
  refine ⟨st1, h1, ?_, ?_⟩
  · rw [h4]
    decide
  · rw [h5]
    decide

/-- C34: for every PMT payload and a service that `find_service` finds, with
`audio_num` = a before the call and arrays of 32 entries, `parse_pmt` returns
and `audio_num` is min(32, a + m), where m is the number of the audio entries
(stream_type 0x03, 0x81, 0x0f, 0x11, 0x04).  For j < min(32 - a, m) the PID of
the j-th audio entry is in `audio_pid[a + j]`, and `audio_lang[a + j]` has
the first three bytes of the last ISO-639 record with a length byte of at least
4 that the loop of `parse_descriptors` dispatches for the entry (and is
unchanged when there is none).  The other entries of `audio_pid` and
`audio_lang` are unchanged, so the audio entries beyond the 32nd change
nothing.  The records that the loop dispatches are the descriptors of the
entry, as their length bytes chain them, when no length byte is above 253; a
length byte of 254 ends the loop, so an ISO-639 descriptor behind such a record
is not stored. -/
theorem parse_pmt_audio (cfg : scan_config) (buf : List Nat)
    (section_length service_id : Int) (st : tp_store) (i a : Nat)
    (hf : find_service (st.tps st.current_tp) service_id = some i)
    (ha : (service_at (st.tps st.current_tp) i).audio_num = (a : Int))
    (hp : (service_at (st.tps st.current_tp) i).audio_pid.length = 32)
    (hl : (service_at (st.tps st.current_tp) i).audio_lang.length = 32) :
    ∃ st1, parse_pmt cfg buf section_length service_id st = some st1 ∧
      (service_at (st1.tps st1.current_tp) i).audio_num =
        ((min 32 (a + (pmt_audio_offsets buf section_length).length) : Nat) : Int) ∧
      (∀ j, j < (pmt_audio_offsets buf section_length).length → a + j < 32 →
        (service_at (st1.tps st1.current_tp) i).audio_pid.getD (a + j) 0 =
          pmt_elementary_pid buf ((pmt_audio_offsets buf section_length).getD j 0) ∧
        (service_at (st1.tps st1.current_tp) i).audio_lang.getD (a + j) (List.replicate 4 0) =
          pmt_entry_lang buf ((pmt_audio_offsets buf section_length).getD j 0)
            ((service_at (st.tps st.current_tp) i).audio_lang.getD (a + j)
              (List.replicate 4 0))) ∧
      (∀ k, k < a ∨ min 32 (a + (pmt_audio_offsets buf section_length).length) ≤ k →
        (service_at (st1.tps st1.current_tp) i).audio_pid.getD k 0 =
          (service_at (st.tps st.current_tp) i).audio_pid.getD k 0 ∧
        (service_at (st1.tps st1.current_tp) i).audio_lang.getD k (List.replicate 4 0) =
          (service_at (st.tps st.current_tp) i).audio_lang.getD k (List.replicate 4 0)) ∧
      (∀ o cur, (∀ p ∈ descriptor_offsets_spec buf (pmt_ES_info_len buf o) (o + 5)
          (pmt_ES_info_len buf o), byte_at buf (p + 1) ≤ 253) →
        pmt_entry_lang buf o cur =
          match iso639_last_spec buf (pmt_ES_info_len buf o) (o + 5)
            (pmt_ES_info_len buf o) with
          | some p =>
            [byte_at buf (p + 2), byte_at buf (p + 3), byte_at buf (p + 4), cur.getD 3 0]
          | none => cur) ∧
      (∀ o cur, byte_at buf (o + 6) = 254 → pmt_entry_lang buf o cur = cur) := by
  have hi : i < (st.tps st.current_tp).services.length := find_service_in_lt _ _ _ hf
  obtain ⟨c1, _, _, c4, c5⟩ := pmt_fold_audio cfg buf st (pmt_offsets buf section_length)
    { service_at (st.tps st.current_tp) i with
      pcr_pid := ((byte_at buf 0 &&& 0x1f) <<< 8) ||| byte_at buf 1 } a ha hp hl
  refine ⟨_, parse_pmt_fold cfg buf section_length service_id st i hf, ?_⟩
  obtain ⟨_, w2, _, _⟩ := service_at_write_set st i
    (if ((pmt_offsets buf section_length).foldl (fun s o => pmt_write cfg buf st o s)
        { service_at (st.tps st.current_tp) i with
          pcr_pid := ((byte_at buf 0 &&& 0x1f) <<< 8) ||| byte_at buf 1 }).audio_num >
        AUDIO_CHAN_MAX then
      { (pmt_offsets buf section_length).foldl (fun s o => pmt_write cfg buf st o s)
          { service_at (st.tps st.current_tp) i with
            pcr_pid := ((byte_at buf 0 &&& 0x1f) <<< 8) ||| byte_at buf 1 } with
        audio_num := AUDIO_CHAN_MAX }
    else
      (pmt_offsets buf section_length).foldl (fun s o => pmt_write cfg buf st o s)
        { service_at (st.tps st.current_tp) i with
          pcr_pid := ((byte_at buf 0 &&& 0x1f) <<< 8) ||| byte_at buf 1 }) hi
  obtain ⟨_, _, _, f4, f5, f6⟩ := pmt_clamp_fields
    ((pmt_offsets buf section_length).foldl (fun s o => pmt_write cfg buf st o s)
      { service_at (st.tps st.current_tp) i with
        pcr_pid := ((byte_at buf 0 &&& 0x1f) <<< 8) ||| byte_at buf 1 })
  rw [w2, f4, f5, f6]
  refine ⟨?_, c4, c5, ?_, ?_⟩
  · unfold pmt_audio_offsets
    rw [c1]
    split_ifs <;> omega
  · intro o cur h
    exact pmt_entry_lang_spec buf o cur h
  · intro o cur h
    exact pmt_entry_lang_254 buf o cur h

/-- Witness of C34, and its failing input: the payload `pmt_payload_254` has
one audio entry (PID 0x201) whose descriptors are a record with length byte 254
and the ISO-639 descriptor "eng" at offset 265.  The service 1 of
`store_service_one` gets `audio_num` 1 and `audio_pid[0]` = 0x201, and
`audio_lang[0]` stays zero, although the descriptors of the entry, chained by
their length bytes, have the ISO-639 descriptor. -/
theorem parse_pmt_audio_witness :
    (∃ st1, parse_pmt scan_config_default pmt_payload_254 269 1 store_service_one = some st1 ∧
      (service_at (st1.tps st1.current_tp) 0).audio_num = 1 ∧
      (service_at (st1.tps st1.current_tp) 0).audio_pid.getD 0 0 = 0x201 ∧
      (service_at (st1.tps st1.current_tp) 0).audio_lang.getD 0 (List.replicate 4 0) =
        [0, 0, 0, 0]) ∧
    iso639_last_spec pmt_payload_254 262 9 262 = some 265 ∧
    (byte_at pmt_payload_254 267, byte_at pmt_payload_254 268, byte_at pmt_payload_254 269) =
      (0x65, 0x6e, 0x67) := by
  obtain ⟨st1, h1, h2, h3, _, _, h6⟩ :=
    parse_pmt_audio scan_config_default pmt_payload_254 269 1 store_service_one 0 0
      (by decide) (by decide) (by decide) (by decide)
  have eA : pmt_audio_offsets pmt_payload_254 269 = [4] := by decide
  rw [eA] at h2 h3
  obtain ⟨k1, k2⟩ := h3 0 (by decide) (by decide)
  refine ⟨⟨st1, h1, h2, ?_, ?_⟩, by decide, by decide⟩
  · rw [k1]
    decide
  · rw [k2, h6 _ _ (by decide)]
    decide

/-! ## The filters of a scan: theorems -/

/-- C40: in every world of a scan, every allocated filter and every filter
handed to `add_filter` has a `table_id` among 0x00, 0x02, 0xc8, 0xc9 and is not
segmented.  So a section of a NIT (0x40, 0x41) or SDT (0x42, 0x46) that any
filter receives is rejected by `parse_section` with -1 and nothing is written;
a section that is not rejected has one of the four table ids, for which the
`switch` of `parse_section` calls `parse_pat`, `parse_pmt` or `parse_psip_vct`
and never `parse_nit` or `parse_sdt`.  No call of `parse_section` allocates a
filter (a segmented sibling) or a transponder, or moves a transponder between
the lists, or writes another transponder than the current one. -/
theorem scan_filters_no_nit_sdt (cfg : scan_config) (w : scan_world)
    (h : scan_reachable cfg w) :
    (∀ a, a < w.next_buf →
      (w.pool.bufs a).table_id ∈ scan_table_ids ∧ (w.pool.bufs a).segmented = false) ∧
    (∀ f ∈ w.submitted, f.table_id = 0x02 ∧ f.segmented = false) ∧
    (∀ fe a buf, a < w.next_buf →
      ∃ w1 rc, parse_section cfg fe w a buf = some (w1, rc) ∧
        (sec_table_id buf ∈ [0x40, 0x41, 0x42, 0x46] → w1 = w ∧ rc = -1) ∧
        (rc ≠ -1 → sec_table_id buf ∈ [0x00, 0x02, 0xc8, 0xc9]) ∧
        w1.next_buf = w.next_buf ∧
        store_lists w1.store = store_lists w.store ∧
        (∀ t, t ≠ w.store.current_tp → w1.store.tps t = w.store.tps t)) ∧
    (∀ fe w0 tid buf len ext, tid ∈ [0x00, 0x02, 0xc8, 0xc9] →
      section_decode cfg fe w0 tid buf len ext =
        if tid = 0x00 then
          (parse_pat cfg.long_timeout buf len ext (w0.store.tps w0.store.current_tp)).map
            (fun ps =>
              { w0 with
                store := write_tp w0.store w0.store.current_tp (fun _ => ps.tp)
                submitted := w0.submitted ++ ps.filters })
        else if tid = 0x02 then
          (parse_pmt cfg buf len ext w0.store).map (fun st => { w0 with store := st })
        else
          (parse_psip_vct cfg.rd
            { save_channel_info := cfg.save_channel_info, rf_chan := w0.store.rf_chan, fe := fe }
            buf len tid ext (w0.store.tps w0.store.current_tp) w0.pchan_info).map (fun vs =>
              { w0 with
                store := write_tp w0.store w0.store.current_tp (fun _ => vs.tp)
                pchan_info := vs.pchan_info
                out_of_bounds := w0.out_of_bounds || vs.out_of_bounds })) := by
  obtain ⟨i1, i2⟩ := scan_reachable_inv cfg w h
  refine ⟨i1, i2, ?_, ?_⟩
  · intro fe a buf ha
    obtain ⟨w1, rc, hp, hn, _, hl, ht, _, hrc, hrej⟩ :=
      parse_section_scan cfg fe w a buf (i1 a ha)
    refine ⟨w1, rc, hp, ?_, ?_, hn, hl, ht⟩
    · intro hm
      apply hrej
      unfold scan_table_ids
      simp only [List.mem_cons, List.mem_singleton, List.not_mem_nil, or_false] at hm ⊢
      omega
    · intro hne
      have := hrc hne
      unfold scan_table_ids at this
      simp only [List.mem_cons, List.mem_singleton, List.not_mem_nil, or_false] at this ⊢
      omega
  · intro fe w0 tid buf len ext ht
    simp only [List.mem_cons, List.mem_singleton, List.not_mem_nil, or_false] at ht
    unfold section_decode
    by_cases h0 : tid = 0x00
    · rw [if_pos h0, if_pos h0]
    · rw [if_neg h0, if_neg h0]
      by_cases h2 : tid = 0x02
      · rw [if_pos h2, if_pos h2]
      · rw [if_neg h2, if_neg h2, if_neg (by omega), if_neg (by omega), if_pos (by omega)]

/-- Witness of C40: the world in which `scan_tp_atsc` has set up the
terrestrial VCT filter and the PAT filter is a world of a scan; a NIT section
that the PAT filter receives is rejected and the world is unchanged. -/
theorem scan_filters_no_nit_sdt_witness :
    scan_reachable scan_config_default world_scan_seeded ∧
    parse_section scan_config_default fe_locked world_scan_seeded 1 nit_section_empty =
      some (world_scan_seeded, -1) := by
  have hr : scan_reachable scan_config_default world_scan_seeded :=
    .seed _ _ _ _ false 1 (.seed _ _ _ _ false 1 (.start _ rfl rfl) (by decide)) (by decide)
  obtain ⟨w1, rc, hp, h40, _⟩ :=
    (scan_filters_no_nit_sdt scan_config_default world_scan_seeded hr).2.2.1 fe_locked 1
      nit_section_empty (by decide)
  obtain ⟨e1, e2⟩ := h40 (by decide)
  rw [e1, e2] at hp
  exact ⟨hr, hp⟩

/-! ## `read_filters`: theorems -/

/-- C31: one pass of the loop of `read_filters` for a slot whose filter `s` has
no readable data, in a pool the program reaches.  When `s` is `run_once` and
the time is later than `start_time + timeout`, the pass retires `s`: it is on
neither list and in no poll slot afterwards, its `fd` is -1, and its other
members but `running_time`, `sectionfilter_done` among them, are as before.
Otherwise (the deadline has not passed, or `s` is not `run_once`) the pass
changes nothing.  The passes of one call do not reach every filter that was in
a poll slot at the start of the call: a retirement moves the filters behind it
one slot down and lowers `n_running`. -/
theorem read_filters_pass_timeout
    (read_sections : filter_pool → List Bool → Nat →
      Except scan_fatal (filter_pool × List Bool × Int))
    (p : filter_pool) (revents : List Bool) (i : Nat) (ck : pass_clock) (s : Nat)
    (h : pool_reachable p) (hs : p.poll_section_bufs.getD i none = some s)
    (hr : revents.getD i false = false) :
    s ∈ p.running_filters ∧
    (((p.bufs s).run_once = true ∧ ck.now > (p.bufs s).start_time + (p.bufs s).timeout) →
      ∃ q, read_filters_pass read_sections p revents i ck =
          .ok (q, reset_revents q.n_running.toNat revents) ∧
        s ∉ q.running_filters ∧ s ∉ q.waiting_filters ∧
        (∀ k, q.poll_section_bufs.getD k none ≠ some s) ∧
        (q.bufs s).sectionfilter_done = (p.bufs s).sectionfilter_done ∧
        q.bufs s =
          { p.bufs s with
            fd := -1
            running_time :=
              (p.bufs s).running_time + (ck.stop_now - (p.bufs s).start_time) }) ∧
    (¬ ((p.bufs s).run_once = true ∧
        ck.now > (p.bufs s).start_time + (p.bufs s).timeout) →
      read_filters_pass read_sections p revents i ck = .ok (p, revents)) := by
  have hinv := pool_reachable_inv p h
  have hmem : s ∈ p.running_filters := by
    have hs1 := hs
    rw [hinv.slots] at hs1
    exact slot_mem_running _ _ s i hs1
  refine ⟨hmem, ?_, ?_⟩
  · rintro ⟨ho, ht⟩
    obtain ⟨q, hq, _, g2, g3, g4, g5⟩ :=
      remove_filter_retires p s ck.stop_now ck.replies hinv hmem
    refine ⟨q, ?_, g2, g3, g4, by rw [g5], g5⟩
    unfold read_filters_pass
    rw [hs]
    simp only [hr, Bool.false_eq_true, if_false, Bool.false_and, false_or]
    rw [if_pos ht, if_pos ho, hq]
  · intro hn
    unfold read_filters_pass
    rw [hs]
    simp only [hr, Bool.false_eq_true, if_false, Bool.false_and, false_or]
    by_cases ht : ck.now > (p.bufs s).start_time + (p.bufs s).timeout
    · have ho : ¬ (p.bufs s).run_once = true := fun ho => hn ⟨ho, ht⟩
      rw [if_pos ht, if_neg ho]
    · rw [if_neg ht]

/-- Witness of C31, and its failing input: in the pool with the running
filters 8 and 7, both started at time 100 with a timeout of 5, the pass for slot
0 at time 200 retires the filter 8.  The call of `read_filters` at time 200,
`poll` reporting no slot readable, ends after that pass: the filter 7, whose
deadline has passed as well, is still running; the next call retires it. -/
theorem read_filters_pass_timeout_witness :
    pool_two_filters.running_filters = [8, 7] ∧
    (∃ q, read_filters_pass read_sections_idle pool_two_filters (List.replicate 27 false) 0
          (clock_at 200) = .ok (q, reset_revents q.n_running.toNat (List.replicate 27 false)) ∧
        8 ∉ q.running_filters ∧
        (q.bufs 8).sectionfilter_done = (pool_two_filters.bufs 8).sectionfilter_done) ∧
    running_of (read_filters read_sections_idle pool_two_filters (List.replicate 27 false)
      (fun _ => clock_at 200)) = some [7] ∧
    (match read_filters read_sections_idle pool_two_filters (List.replicate 27 false)
        (fun _ => clock_at 200) with
      | .ok q => running_of (read_filters read_sections_idle q (List.replicate 27 false)
          (fun _ => clock_at 201))
      | .error _ => none) = some [] := by
  have hreach : pool_reachable pool_two_filters :=
    .add witness_pool _ 8 ⟨4, 0, 100⟩ witness_pool_reachable (by decide) (by decide) rfl
  obtain ⟨_, h1, _⟩ := read_filters_pass_timeout read_sections_idle pool_two_filters
    (List.replicate 27 false) 0 (clock_at 200) 8 hreach (by decide) (by decide)
  obtain ⟨q, hq, g1, _, _, g4, _⟩ := h1 ⟨by decide, by decide⟩
  exact ⟨by decide, ⟨q, hq, g1, g4⟩, by decide, by decide⟩

/-! ## The channel report: bounds, theorems -/

/-- C39: while the tuned RF channel is in 2..51 the index `rf_chan - 2` of the
report is in 0..49 and `parse_psip_vct` returns.  Every write to the report
is in bounds exactly when every call of `strcpy` into the report (scan.c 1550)
has an index `i` of `vc` below 16 and a source `service_name` that holds a NUL
and fits, with its NUL, the 20 bytes of `vchan_name`.  The index `i` of a call
is the loop counter, which is below the channel count of the section, a
byte: nothing keeps it below 16, and nothing bounds the name. -/
theorem parse_psip_vct_report_bounds (rd : psip_readers) (env : vct_env) (buf : List Nat)
    (section_length table_id tsid : Int) (tp : transponder) (pchan_info : List channel_info)
    (h2 : 2 ≤ env.rf_chan) (h51 : env.rf_chan ≤ 51) :
    (0 ≤ env.rf_chan - 2 ∧ env.rf_chan - 2 < 50) ∧
    (∃ vs, parse_psip_vct rd env buf section_length table_id tsid tp pchan_info = some vs ∧
      (vs.out_of_bounds = false ↔
        ∀ r ∈ vct_reports rd env buf tp pchan_info, r.1 < 16 ∧ strcpy_fits r.2)) ∧
    (∀ r ∈ vct_reports rd env buf tp pchan_info, r.1 < byte_at buf 1) := by
  refine ⟨⟨by omega, by omega⟩, ?_, ?_⟩
  · cases h : parse_psip_vct rd env buf section_length table_id tsid tp pchan_info with
    | none => exact absurd h (parse_psip_vct_ne_none _ _ _ _ _ _ _ _)
    | some vs =>
      refine ⟨vs, rfl, ?_⟩
      unfold parse_psip_vct at h
      simp only [] at h
      obtain ⟨e, _⟩ := parse_psip_vct_loop_bounds rd env buf _ h2 h51 _ _ _ _ h
      unfold vct_reports
      rw [e, Bool.false_or]
      constructor
      · intro hf r hr
        by_contra hc
        have : ((vct_report_calls rd env buf (byte_at buf 1) (byte_at buf 1) 0
            { tp := tp, b := 2, pseudo_id := 0xffff, pchan_info := pchan_info,
              out_of_bounds := false, ingested := [] }).any
            (fun r => !decide (r.1 < 16 ∧ strcpy_fits r.2))) = true :=
          List.any_eq_true.mpr ⟨r, hr, by simp [hc]⟩
        rw [hf] at this
        cases this
      · intro hall
        apply Bool.eq_false_iff.mpr
        intro hany
        obtain ⟨r, hr, hb⟩ := List.any_eq_true.mp hany
        have := hall r hr
        simp [this] at hb
  · intro r hr
    unfold vct_reports at hr
    cases h : parse_psip_vct rd env buf section_length table_id tsid tp pchan_info with
    | none => exact absurd h (parse_psip_vct_ne_none _ _ _ _ _ _ _ _)
    | some vs =>
      unfold parse_psip_vct at h
      simp only [] at h
      obtain ⟨_, e⟩ := parse_psip_vct_loop_bounds rd env buf _ h2 h51 _ _ _ _ h
      have := e r hr
      omega

/-- Witness of C39, and its failing inputs, on RF channel 2 with the frontend
answering.  A section with 16 records named "ABC" is reported in bounds.  A
section with 17 such records has all 17 ingested and the call for the last one
writes `vc[16]`.  The section `vct_long_name` has one record whose
extended-channel-name descriptor sets a name of 40 bytes: the `strcpy` writes
41 bytes into `vchan_name[20]`.  The section `vct_two_channels` has records
with the short name "ABCDEFG": the 7 bytes are stored without a NUL and the
`strcpy` reads past them. -/
theorem parse_psip_vct_report_bounds_witness :
    (∃ vs, parse_psip_vct atsc_readers vct_env_chan2 (vct_channels 16) 523 0xc8 1
        (world_pat_filter.store.tps world_pat_filter.store.current_tp) pchan_info_zero =
          some vs ∧ vs.out_of_bounds = false) ∧
    (parse_psip_vct atsc_readers vct_env_chan2 (vct_channels 17) 555 0xc8 1
        (world_pat_filter.store.tps world_pat_filter.store.current_tp) pchan_info_zero).map
      (fun vs => (vs.out_of_bounds, vs.ingested.length)) = some (true, 17) ∧
    (vct_reports atsc_readers vct_env_chan2 (vct_channels 17)
        (world_pat_filter.store.tps world_pat_filter.store.current_tp)
        pchan_info_zero).getLast? = some (16, [0x41, 0x42, 0x43, 0, 0, 0, 0]) ∧
    (parse_psip_vct atsc_readers vct_env_chan2 vct_long_name 91 0xc8 1
        (world_pat_filter.store.tps world_pat_filter.store.current_tp) pchan_info_zero).map
      (fun vs => vs.out_of_bounds) = some true ∧
    vct_reports atsc_readers vct_env_chan2 vct_long_name
        (world_pat_filter.store.tps world_pat_filter.store.current_tp) pchan_info_zero =
      [(0, List.replicate 40 0x41 ++ [0])] ∧
    (parse_psip_vct atsc_readers vct_env_chan2 vct_two_channels 66 0xc8 1
        (world_pat_filter.store.tps world_pat_filter.store.current_tp) pchan_info_zero).map
      (fun vs => vs.out_of_bounds) = some true ∧
    vct_reports atsc_readers vct_env_chan2 vct_two_channels
        (world_pat_filter.store.tps world_pat_filter.store.current_tp) pchan_info_zero =
      [(0, [0x41, 0x42, 0x43, 0x44, 0x45, 0x46, 0x47]),
       (1, [0x41, 0x42, 0x43, 0x44, 0x45, 0x46, 0x47])] := by
  obtain ⟨_, ⟨vs, h1, h2⟩, _⟩ :=
    parse_psip_vct_report_bounds atsc_readers vct_env_chan2 (vct_channels 16) 523 0xc8 1
      (world_pat_filter.store.tps world_pat_filter.store.current_tp) pchan_info_zero
      (by decide) (by decide)
  exact ⟨⟨vs, h1, h2.mpr vct_channels_16_reports⟩, vct_channels_17_overrun,
    vct_channels_17_last_call, vct_long_name_overrun, vct_long_name_reports,
    vct_two_channels_overrun, vct_two_channels_reports⟩

end Scan
